import Mathlib

/-!
# Currency conversion service: convert service, rates service, reports, CSV import, validation
and notification sink

Shallow embedding of `src/services/convert.service.js`, `src/services/rates.service.js`,
`src/services/report.service.js` (the method `find`), `src/services/csv-import.service.js`
(the methods `processRow`, `importFromCSV` and `saveRates`), `src/utils/external-apis.js`
(the methods `getRate`, `isCryptoCurrency`, `mapCurrencyToCoinGeckoId` and
`mapCoinGeckoIdToCurrency`), `src/validations/conversion.validations.js`,
`src/validations/rate.validations.js`, `src/models/conversion.model.js`,
`src/models/rate.model.js` and `src/utils/rabbitmq.js`.

Modelling conventions.

* A finite JavaScript number is represented by an exact rational value (`ℚ`): a number given
  by a decimal (an amount, a rate) stands for the double nearest to that decimal. The product
  `amount * rate` of `ConvertService.create`, on which the rounding to two decimals depends, is
  rounded to the nearest double as IEEE-754 arithmetic does (`toDouble`, `mulDouble`; a product
  past the largest double is outside the model). The bridged rate of `getRate` and the sums and
  averages of the aggregations are taken exactly. Where a number is read from text
  (`parseFloat`), the values `NaN` and `Infinity` are represented as well (`JsNumber`).
* A thrown `Error` is represented by its message, `Except String α`.
* The document store, the message broker, the live-subscriber room and the record of provider
  queries are explicit fields of `World`; what the outside collaborators answer during one call
  is given by `Env`.
* A query of a collection is answered from the stored list, in stored order; a write can be
  refused (`Env.storeWriteError`). An `_id` is a well-formed ObjectId, represented by a number;
  an `id` handed to the rates service from outside is an `IdValue`, which can also be a value
  that cannot be cast to an ObjectId.
* An aggregation pipeline is run stage by stage on the stored list; where the store leaves an
  order open (the groups of `$group`, the elements of `$addToSet`), one order is fixed and the
  statements do not depend on it.
-/

namespace CurrencyApi

/-- Equality of results is decidable, so that a call can be evaluated and compared. -/
instance instDecidableEqExcept {ε α : Type} [DecidableEq ε] [DecidableEq α] :
    DecidableEq (Except ε α)
  | .ok a, .ok b =>
    if h : a = b then isTrue (by rw [h]) else isFalse (fun h2 => h (by cases h2; rfl))
  | .error a, .error b =>
    if h : a = b then isTrue (by rw [h]) else isFalse (fun h2 => h (by cases h2; rfl))
  | .ok _, .error _ => isFalse (fun h => by cases h)
  | .error _, .ok _ => isFalse (fun h => by cases h)

/-! ## Numbers and strings of the host language -/

/-- Math.round: the nearest integer, a tie going towards plus infinity. -/
def mathRound (x : ℚ) : ℚ := ((⌊x + 1 / 2⌋ : ℤ) : ℚ)

/-- The number read back by `parseFloat(x.toFixed(2))`. `toFixed(2)` takes the integer `n` for
which `n / 100 - x` is closest to zero, the larger one on a tie, after stripping the sign of a
negative `x`. -/
def toFixed2 (x : ℚ) : ℚ :=
  if x < 0 then -(((⌊(-x) * 100 + 1 / 2⌋ : ℤ) : ℚ) / 100)
  else ((⌊x * 100 + 1 / 2⌋ : ℤ) : ℚ) / 100

/-- Number.MAX_SAFE_INTEGER, `2 ^ 53 - 1`. -/
def MAX_SAFE_INTEGER : ℚ := 9007199254740991

/-- The position of the leading binary digit of `n`, by repeated halving; `fuel` bounds the
number of halvings. -/
def log2Aux : ℕ → ℕ → ℕ
  | 0, _ => 0
  | fuel + 1, n => if n < 2 then 0 else log2Aux fuel (n / 2) + 1

/-- The position of the leading binary digit of `n`: `2 ^ log2 n ≤ n < 2 ^ (log2 n + 1)` for
a positive `n`. -/
def log2 (n : ℕ) : ℕ := log2Aux n n

/-- The power of two with an integer exponent. -/
def pow2 (e : ℤ) : ℚ :=
  if 0 ≤ e then ((2 ^ e.toNat : ℕ) : ℚ) else 1 / ((2 ^ (-e).toNat : ℕ) : ℚ)

/-- The binary exponent of a number other than zero: the `e` with
`2 ^ e ≤ |x| < 2 ^ (e + 1)`. -/
def binade (x : ℚ) : ℤ :=
  if pow2 ((log2 x.num.natAbs : ℤ) - (log2 x.den : ℤ)) ≤ |x| then
    (log2 x.num.natAbs : ℤ) - (log2 x.den : ℤ)
  else (log2 x.num.natAbs : ℤ) - (log2 x.den : ℤ) - 1

/-- The nearest integer, a tie going to the even one. -/
def roundHalfEven (x : ℚ) : ℤ :=
  if x - ⌊x⌋ < 1 / 2 then ⌊x⌋
  else if 1 / 2 < x - ⌊x⌋ then ⌊x⌋ + 1
  else if ⌊x⌋ % 2 = 0 then ⌊x⌋ else ⌊x⌋ + 1

/-- The spacing of the doubles around a number other than zero: 52 binary digits below its
leading one, and `2 ^ (-1074)` throughout the subnormal range. -/
def ulp (x : ℚ) : ℚ := pow2 (max (binade x) (-1022) - 52)

/-- The Number value for a real number: the nearest double (a significand of 53 binary digits,
exponents from `-1022`, subnormal numbers below), a tie going to the even significand. A
magnitude from `2 ^ 1024 - 2 ^ 970` on, which the host rounds to `Infinity`, is outside the
model. -/
def toDouble (x : ℚ) : ℚ :=
  if x = 0 then 0 else (roundHalfEven (x / ulp x) : ℚ) * ulp x

/-- The product `a * b` of two Numbers written as decimals: each operand is the double nearest
to its decimal, and the exact product is rounded to the nearest double. -/
def mulDouble (a b : ℚ) : ℚ := toDouble (toDouble a * toDouble b)

/-- The upper case of one character: that of an ASCII letter, and that of the characters
outside ASCII whose upper case is made of ASCII letters (sharp s, dotless i, long s and the
ligatures from `ff` to `st`). Any other character is left as it is; where its upper case is
another one, that one lies outside ASCII as well. -/
def upperCaseOf (c : Char) : List Char :=
  if c.toNat = 223 then ['S', 'S']
  else if c.toNat = 305 then ['I']
  else if c.toNat = 383 then ['S']
  else if c.toNat = 64256 then ['F', 'F']
  else if c.toNat = 64257 then ['F', 'I']
  else if c.toNat = 64258 then ['F', 'L']
  else if c.toNat = 64259 then ['F', 'F', 'I']
  else if c.toNat = 64260 then ['F', 'F', 'L']
  else if c.toNat = 64261 then ['S', 'T']
  else if c.toNat = 64262 then ['S', 'T']
  else [c.toUpper]

/-- String.prototype.toUpperCase: exact on every string whose upper case is made of ASCII
characters, and outside ASCII wherever the upper case of the string is. -/
def toUpperCase (s : String) : String := String.mk (s.data.flatMap upperCaseOf)

/-- The white space and line terminator characters of the language, which `trim`, `parseFloat`
and the class `\\s` of a regular expression skip. -/
def isWhiteSpace (c : Char) : Bool :=
  [9, 10, 11, 12, 13, 32, 160, 5760, 8232, 8233, 8239, 8287, 12288, 65279].contains c.toNat ||
    (8192 ≤ c.toNat && c.toNat ≤ 8202)

/-- String.prototype.trim, as used by the `trim: true` schema option. -/
def trim (s : String) : String :=
  String.mk ((s.data.dropWhile isWhiteSpace).reverse.dropWhile isWhiteSpace).reverse

/-- Truthiness of a string operand of `||`: the empty string is falsy. -/
def orStr (a : Option String) (b : String) : String :=
  match a with
  | some s => if s = "" then b else s
  | none => b

/-- Truthiness of a number operand of `||`: zero is falsy. -/
def orNum (a : Option ℚ) (b : ℚ) : ℚ :=
  match a with
  | some x => if x = 0 then b else x
  | none => b

/-! ## Request validation (`conversion.validations.js`) -/

/-- The regular expression `/^[A-Z]{3}$/`. -/
def matchesCurrencyPattern (s : String) : Bool :=
  s.data.length == 3 && s.data.all (fun c => decide ('A' ≤ c ∧ c ≤ 'Z'))

/-- The schema `Joi.string().pattern(/^[A-Z]{3}$/).required()` with its two custom messages,
applied to the key `label`. The result is the message of the first error detail. An empty
string is refused by the string type itself, with the library's own message. -/
def currencyCodeSchema (label : String) : Option String → Except String String
  | none => .error "Currency code is required"
  | some s =>
    if s = "" then .error ("\"" ++ label ++ "\" is not allowed to be empty")
    else if matchesCurrencyPattern s then .ok s
    else .error "Currency code must be 3 uppercase letters (e.g., USD, EUR, BTC)"

/-- Whether the decimal expansion of `v` has at most two places. -/
def atMostTwoDecimals (v : ℚ) : Bool := (v * 100).den == 1

/-- The schema `Joi.number().positive().precision(2).required()` with its custom messages,
applied to the key `label`. With conversion enabled (the default of `validate`) the number type
first replaces the value by `Math.round(value * 100) / 100`, refuses a value outside the safe
integer range, and only then runs the rules `positive` and `precision` on the replaced value. -/
def amountSchema (label : String) : Option ℚ → Except String ℚ
  | none => .error "Amount is required"
  | some value =>
    let result := mathRound (value * 100) / 100
    if value > MAX_SAFE_INTEGER ∨ value < -MAX_SAFE_INTEGER then
      .error ("\"" ++ label ++ "\" must be a safe number")
    else if ¬ (result > 0) then .error "Amount must be positive"
    else if atMostTwoDecimals result = false then .error "Amount can have up to 2 decimal places"
    else .ok result

/-- Body of a conversion request; an absent key is `none`. -/
structure ConvertData where
  from_ : Option String
  to_ : Option String
  amount : Option ℚ
deriving DecidableEq

/-- The validated value returned by `convertSchema.validate`. -/
structure ConvertValue where
  from_ : String
  to_ : String
  amount : ℚ
deriving DecidableEq

/-- The object schema `convertSchema`: keys are checked in the order `from`, `to`, `amount`
and validation stops at the first error. -/
def convertSchema.validate (data : ConvertData) : Except String ConvertValue :=
  match currencyCodeSchema "from" data.from_ with
  | .error e => .error e
  | .ok f =>
    match currencyCodeSchema "to" data.to_ with
    | .error e => .error e
    | .ok t =>
      match amountSchema "amount" data.amount with
      | .error e => .error e
      | .ok a => .ok { from_ := f, to_ := t, amount := a }

/-! ## The Conversion model (`conversion.model.js`) -/

/-- A document of the Conversion collection. -/
structure Conversion where
  _id : Nat
  fromCurrency : String
  toCurrency : String
  originalAmount : ℚ
  convertedAmount : ℚ
  rate : ℚ
  rateSource : String
  conversionDate : Nat
  userIp : String
  userAgent : String
deriving DecidableEq

/-- Values accepted by the `enum` of `rateSource`. -/
def rateSourceEnum : List String := ["coingecko", "openexchangerates", "manual", "external", "demo"]

/-- The constructor `new Conversion(...)`: string setters (`uppercase`, `trim`) and the default
of `conversionDate` are applied. -/
def Conversion.new (oid now : Nat) (fromCurrency toCurrency : String)
    (originalAmount convertedAmount rate : ℚ) (rateSource userIp userAgent : String) : Conversion :=
  { _id := oid
    fromCurrency := trim (toUpperCase fromCurrency)
    toCurrency := trim (toUpperCase toCurrency)
    originalAmount := originalAmount
    convertedAmount := convertedAmount
    rate := rate
    rateSource := rateSource
    conversionDate := now
    userIp := trim userIp
    userAgent := trim userAgent }

/-- Schema validation run by `save`: required paths, `min: 0` and the `enum`. -/
def Conversion.valid (c : Conversion) : Bool :=
  decide (c.fromCurrency ≠ "") && decide (c.toCurrency ≠ "") &&
  decide (0 ≤ c.originalAmount) && decide (0 ≤ c.convertedAmount) && decide (0 ≤ c.rate) &&
  decide (c.rateSource ∈ rateSourceEnum)

/-! ## The Rate model (`rate.model.js`) -/

/-- A document of the Rate collection. An `_id` stands for a well-formed ObjectId. -/
structure Rate where
  _id : Nat
  fromCurrency : String
  toCurrency : String
  rate : ℚ
  source : String
  lastUpdated : Nat
  isActive : Bool
deriving DecidableEq

/-- Values accepted by the `enum` of `source`. -/
def rateModelSourceEnum : List String := ["coingecko", "openexchangerates", "manual"]

/-- The constructor `new Rate(...)`: string setters (`uppercase`, `trim`) and the defaults of
`lastUpdated` and `isActive` are applied. -/
def Rate.new (oid now : Nat) (fromCurrency toCurrency : String) (rate : ℚ) (source : String) :
    Rate :=
  { _id := oid
    fromCurrency := trim (toUpperCase fromCurrency)
    toCurrency := trim (toUpperCase toCurrency)
    rate := rate
    source := source
    lastUpdated := now
    isActive := true }

/-- Schema validation run by `save`: required paths, `min: 0` and the `enum`. -/
def Rate.valid (r : Rate) : Bool :=
  decide (r.fromCurrency ≠ "") && decide (r.toCurrency ≠ "") && decide (0 ≤ r.rate) &&
  decide (r.source ∈ rateModelSourceEnum)

/-- Two documents fall under the same key of the unique index
`{fromCurrency: 1, toCurrency: 1}`. -/
def Rate.samePair (a b : Rate) : Bool :=
  decide (a.fromCurrency = b.fromCurrency) && decide (a.toCurrency = b.toCurrency)

/-- The query `{fromCurrency, toCurrency}` of `findOne`. -/
def Rate.hasPair (fromCurrency toCurrency : String) (r : Rate) : Bool :=
  decide (r.fromCurrency = fromCurrency) && decide (r.toCurrency = toCurrency)

/-! ## Collaborators and state -/

/-- Data part of a queue message. -/
inductive QueuePayload
  | conversion (id : Nat) (fromCurrency toCurrency : String)
      (originalAmount convertedAmount rate : ℚ) (rateSource : String) (conversionDate : Nat)
  | rateUpdate (action fromCurrency toCurrency : String) (rate : ℚ) (source : String)
deriving DecidableEq

/-- A message of the durable queue, `{type, timestamp, data}`. -/
structure QueueMessage where
  type : String
  timestamp : Nat
  data : QueuePayload
deriving DecidableEq

/-- Identity carried by a live event: the document id, or the placeholder `'demo'`. -/
inductive EventId
  | oid (n : Nat)
  | demo
deriving DecidableEq

/-- The `'conversion'` event broadcast to the room `'conversions'`. -/
structure WsEvent where
  id : EventId
  fromCurrency : String
  toCurrency : String
  originalAmount : ℚ
  convertedAmount : ℚ
  rate : ℚ
  rateSource : String
  timestamp : Nat
  userIp : String
deriving DecidableEq

/-- What `externalAPIs.getRate` does on one call: it throws, or it returns a number or a
value that is not a number (`null`, `undefined`). -/
inductive ProviderOutcome
  | threw
  | returned (v : Option ℚ)
deriving DecidableEq

/-- What `channel.sendToQueue` does on one call. -/
inductive SendOutcome
  | accepted
  | refused
  | threw
deriving DecidableEq

/-- Answers of the outside collaborators during one call: what `externalAPIs.getRate` does
(and the message of its exception), whether the store refuses a write, how the broker behaves,
the clock, and the two bulk snapshots `getAllCryptoRates()` and `getAllFiatRates()` return, as
lists of entries `(key, value)` in the order of the keys of the object. -/
structure Env where
  getRate : String → String → ProviderOutcome
  storeWriteError : Option String
  brokerConnects : Bool
  sendToQueue : SendOutcome
  now : Nat
  getRateError : String := "provider unavailable"
  allCryptoRates : List (String × ℚ) := []
  allFiatRates : List (String × ℚ) := []

/-- State shared by the services. -/
structure World where
  readyState : Nat
  conversions : List Conversion
  nextId : Nat
  channel : Bool
  queue : List QueueMessage
  room : List WsEvent
  providerCalls : List (String × String)
  rates : List Rate := []
deriving DecidableEq

/-- The method `save` of a Conversion document: schema validation, then the write. -/
def Conversion.save (env : Env) (w : World) (c : Conversion) : Except String World :=
  if c.valid = false then .error "Conversion validation failed"
  else
    match env.storeWriteError with
    | some e => .error e
    | none => .ok { w with conversions := w.conversions ++ [c] }

/-! ## The queue client (`rabbitmq.js`) -/

/-- The method `connect`: on success the channel is set; a failure is caught and logged. -/
def RabbitMQ.connect (env : Env) (w : World) : Bool × World :=
  if env.brokerConnects then (true, { w with channel := true }) else (false, w)

/-- The method `sendMessage`: connects lazily, hands the message to the channel, and turns
every failure (no channel, a refusal, an exception) into the answer `false`. -/
def RabbitMQ.sendMessage (env : Env) (w : World) (message : QueueMessage) : Bool × World :=
  let w1 := if w.channel = false then (RabbitMQ.connect env w).2 else w
  if w1.channel = false then (false, w1)
  else
    match env.sendToQueue with
    | .accepted => (true, { w1 with queue := w1.queue ++ [message] })
    | .refused => (false, w1)
    | .threw => (false, w1)

/-- The method `sendConversionLog`. -/
def RabbitMQ.sendConversionLog (env : Env) (w : World) (conversionData : QueuePayload) :
    Bool × World :=
  RabbitMQ.sendMessage env w { type := "conversion", timestamp := env.now, data := conversionData }

/-- The method `sendRateUpdateLog`. -/
def RabbitMQ.sendRateUpdateLog (env : Env) (w : World) (rateData : QueuePayload) :
    Bool × World :=
  RabbitMQ.sendMessage env w { type := "rate_update", timestamp := env.now, data := rateData }

/-! ## The convert service (`convert.service.js`) -/

/-- The second argument of a service method, as far as `create` reads it. -/
structure Params where
  headers : Option (List (String × String))
deriving DecidableEq

/-- The application object handed to the service; `io` tells whether it carries a socket
server. -/
structure App where
  io : Bool
deriving DecidableEq

/-- The service instance: `app` is unset until the application assigns it. -/
structure ConvertService where
  app : Option App
deriving DecidableEq

/-- A rate and where it comes from, `{rate, source}`. -/
structure RateInfo where
  rate : ℚ
  source : String
deriving DecidableEq

/-- The object returned by `create`. -/
structure ConversionResult where
  fromCurrency : String
  toCurrency : String
  originalAmount : ℚ
  convertedAmount : ℚ
  rate : ℚ
  rateSource : String
  conversionDate : Nat
deriving DecidableEq

/-- The wrapper of the outer `catch` of `create`. -/
def performingError (message : String) : String := "Error performing conversion: " ++ message

/-- Message of the TypeError raised by reading `headers` of an absent `params`. -/
def headersTypeError : String := "Cannot read properties of undefined (reading \x27headers\x27)"

/-- The expression `params.headers?.[name]`. -/
def Params.header (p : Params) (name : String) : Option String :=
  match p.headers with
  | none => none
  | some hs => hs.lookup name

/-- The rate chosen by `create`: the demo rate, replaced by the provider's answer when that
answer is truthy; an exception of the provider is swallowed. -/
def ConvertService.chooseRate (env : Env) (from_ to_ : String) : Option RateInfo :=
  let rate : Option RateInfo := some { rate := 0.85, source := "demo" }
  match env.getRate from_ to_ with
  | .returned (some externalRate) =>
    if externalRate ≠ 0 then some { rate := externalRate, source := "external" } else rate
  | .returned none => rate
  | .threw => rate

/-- The live event built by `create` and sent to the room `'conversions'`. -/
def ConvertService.wsEvent (env : Env) (conversion : Option Conversion) (value : ConvertValue)
    (rate : RateInfo) (originalAmount convertedAmount : ℚ) : WsEvent :=
  { id := match conversion with
      | some c => EventId.oid c._id
      | none => EventId.demo
    fromCurrency := orStr (conversion.map (·.fromCurrency)) (toUpperCase value.from_)
    toCurrency := orStr (conversion.map (·.toCurrency)) (toUpperCase value.to_)
    originalAmount := orNum (conversion.map (·.originalAmount)) originalAmount
    convertedAmount := orNum (conversion.map (·.convertedAmount)) convertedAmount
    rate := orNum (conversion.map (·.rate)) rate.rate
    rateSource := orStr (conversion.map (·.rateSource)) rate.source
    timestamp := match conversion with
      | some c => c.conversionDate
      | none => env.now
    userIp := orStr (conversion.map (·.userIp)) "unknown" }

/-- The part of `create` after the persistence block: the queue message when a document was
saved, the live event when the application carries a socket server, and the returned object. -/
def ConvertService.notifyAndReturn (self : ConvertService) (env : Env) (w : World)
    (conversion : Option Conversion) (value : ConvertValue) (rate : RateInfo)
    (originalAmount convertedAmount : ℚ) : Except String ConversionResult × World :=
  let w1 :=
    match conversion with
    | some c =>
      (RabbitMQ.sendConversionLog env w
        (QueuePayload.conversion c._id c.fromCurrency c.toCurrency c.originalAmount
          c.convertedAmount c.rate c.rateSource c.conversionDate)).2
    | none => w
  let live : Bool :=
    match self.app with
    | some app => app.io
    | none => false
  let w2 :=
    if live then
      { w1 with room := w1.room ++
          [ConvertService.wsEvent env conversion value rate originalAmount convertedAmount] }
    else w1
  (.ok
    { fromCurrency := orStr (conversion.map (·.fromCurrency)) (toUpperCase value.from_)
      toCurrency := orStr (conversion.map (·.toCurrency)) (toUpperCase value.to_)
      originalAmount := orNum (conversion.map (·.originalAmount)) originalAmount
      convertedAmount := orNum (conversion.map (·.convertedAmount)) convertedAmount
      rate := orNum (conversion.map (·.rate)) rate.rate
      rateSource := orStr (conversion.map (·.rateSource)) rate.source
      conversionDate := match conversion with
        | some c => c.conversionDate
        | none => env.now },
   w2)

/-- The method `create`. Every error raised inside is rethrown with the prefix
`Error performing conversion: `; state changes made before the error stay. -/
def ConvertService.create (self : ConvertService) (env : Env) (w : World) (data : ConvertData)
    (params : Option Params) : Except String ConversionResult × World :=
  match convertSchema.validate data with
  | .error message => (.error (performingError ("Validation error: " ++ message)), w)
  | .ok value =>
    let w1 := { w with providerCalls := w.providerCalls ++ [(value.from_, value.to_)] }
    match ConvertService.chooseRate env value.from_ value.to_ with
    | none =>
      (.error (performingError
        ("Rate not available for " ++ value.from_ ++ " to " ++ value.to_)), w1)
    | some rate =>
      let convertedAmount := toFixed2 (mulDouble value.amount rate.rate)
      let originalAmount := value.amount
      if w1.readyState = 1 then
        match params with
        | none => (.error (performingError headersTypeError), w1)
        | some p =>
          let conversion := Conversion.new w1.nextId env.now (toUpperCase value.from_)
            (toUpperCase value.to_) originalAmount convertedAmount rate.rate rate.source
            (orStr (p.header "x-forwarded-for") (orStr (p.header "x-real-ip") "unknown"))
            (orStr (p.header "user-agent") "unknown")
          let w2 := { w1 with nextId := w1.nextId + 1 }
          match Conversion.save env w2 conversion with
          | .error message => (.error (performingError message), w2)
          | .ok w3 =>
            ConvertService.notifyAndReturn self env w3 (some conversion) value rate
              originalAmount convertedAmount
      else
        ConvertService.notifyAndReturn self env w1 none value rate originalAmount convertedAmount

/-- The method `patch`: it throws without reading its arguments or the store. -/
def ConvertService.patch {α : Type} (_self : ConvertService) (w : World) (_id : String)
    (_data : α) (_params : Option Params) : Except String Conversion × World :=
  (.error "PATCH method not allowed for conversions", w)

/-! ## The Rate collection as seen through the model -/

/-- Message of the duplicate-key error raised by the unique index. -/
def duplicateKeyError : String := "E11000 duplicate key error collection: rates"

/-- The method `save` of a newly constructed Rate document: schema validation, the write, and
the unique index on the pair. -/
def Rate.insert (env : Env) (w : World) (r : Rate) : Except String World :=
  if r.valid = false then .error "Rate validation failed"
  else
    match env.storeWriteError with
    | some e => .error e
    | none =>
      if w.rates.any (fun x => x.samePair r) then .error duplicateKeyError
      else .ok { w with rates := w.rates ++ [r] }

/-- The method `save` of a Rate document that was loaded from the store and then modified:
the stored document with the same `_id` is replaced. -/
def Rate.update (env : Env) (w : World) (r : Rate) : Except String World :=
  if r.valid = false then .error "Rate validation failed"
  else
    match env.storeWriteError with
    | some e => .error e
    | none =>
      if w.rates.any (fun x => decide (x._id ≠ r._id) && x.samePair r) then
        .error duplicateKeyError
      else .ok { w with rates := w.rates.map (fun x => if x._id = r._id then r else x) }

/-- The query `Rate.findById(id)`, for an id that casts to the ObjectId `id`. -/
def Rate.findById (w : World) (id : Nat) : Option Rate :=
  w.rates.find? (fun x => decide (x._id = id))

/-! ## Rate validation (`rate.validations.js`) -/

/-- The modifier `.optional()`: an absent key is accepted as it is. -/
def optionalKey {α β : Type} (schema : Option α → Except String β) :
    Option α → Except String (Option β)
  | none => .ok none
  | some v =>
    match schema (some v) with
    | .error e => .error e
    | .ok b => .ok (some b)

/-- The schema `Joi.number().positive().required()` with its custom messages. The number type
refuses a value outside the safe integer range before the rule `positive` runs. -/
def rateSchema (label : String) : Option ℚ → Except String ℚ
  | none => .error "Rate is required"
  | some value =>
    if value > MAX_SAFE_INTEGER ∨ value < -MAX_SAFE_INTEGER then
      .error ("\"" ++ label ++ "\" must be a safe number")
    else if ¬ (value > 0) then .error "Rate must be positive"
    else .ok value

/-- The schema `Joi.string().valid('coingecko', 'openexchangerates', 'manual').required()`
with its custom messages. -/
def sourceSchema : Option String → Except String String
  | none => .error "Source is required"
  | some s =>
    if s ∈ rateModelSourceEnum then .ok s
    else .error "Source must be one of: coingecko, openexchangerates, manual"

/-- The schema `Joi.number().integer().min(lo).max(hi).optional()` of `limit`, and of `skip`
when `hi` is absent; the rules run in the order `integer`, `min`, `max`. -/
def integerRangeSchema (label : String) (lo : ℤ) (hi : Option ℤ) :
    Option ℚ → Except String (Option ℚ)
  | none => .ok none
  | some value =>
    if value > MAX_SAFE_INTEGER ∨ value < -MAX_SAFE_INTEGER then
      .error ("\"" ++ label ++ "\" must be a safe number")
    else if value.den ≠ 1 then .error ("\"" ++ label ++ "\" must be an integer")
    else if value < lo then
      .error ("\"" ++ label ++ "\" must be greater than or equal to " ++ toString lo)
    else
      match hi with
      | some h =>
        if value > h then
          .error ("\"" ++ label ++ "\" must be less than or equal to " ++ toString h)
        else .ok (some value)
      | none => .ok (some value)

/-- Body of a rate creation; an absent key is `none`. -/
structure CreateRateData where
  fromCurrency : Option String
  toCurrency : Option String
  rate : Option ℚ
  source : Option String
deriving DecidableEq

/-- The validated value returned by `createRateSchema.validate`. -/
structure CreateRateValue where
  fromCurrency : String
  toCurrency : String
  rate : ℚ
  source : String
deriving DecidableEq

/-- The object schema `createRateSchema`. -/
def createRateSchema.validate (data : CreateRateData) : Except String CreateRateValue :=
  match currencyCodeSchema "fromCurrency" data.fromCurrency with
  | .error e => .error e
  | .ok f =>
    match currencyCodeSchema "toCurrency" data.toCurrency with
    | .error e => .error e
    | .ok t =>
      match rateSchema "rate" data.rate with
      | .error e => .error e
      | .ok r =>
        match sourceSchema data.source with
        | .error e => .error e
        | .ok s => .ok { fromCurrency := f, toCurrency := t, rate := r, source := s }

/-- Body of a rate patch; every key is optional. -/
structure UpdateRateData where
  rate : Option ℚ
  source : Option String
  isActive : Option Bool
deriving DecidableEq

/-- The object schema `updateRateSchema`; the validated value has the shape of the input. -/
def updateRateSchema.validate (data : UpdateRateData) : Except String UpdateRateData :=
  match optionalKey (rateSchema "rate") data.rate with
  | .error e => .error e
  | .ok r =>
    match optionalKey sourceSchema data.source with
    | .error e => .error e
    | .ok s => .ok { rate := r, source := s, isActive := data.isActive }

/-- Query of `GET /rates`; every key is optional. -/
structure RatesQuery where
  fromCurrency : Option String
  toCurrency : Option String
  source : Option String
  limit : Option ℚ
  skip : Option ℚ
deriving DecidableEq

/-- The object schema `getRatesSchema`; the validated value has the shape of the input. -/
def getRatesSchema.validate (query : RatesQuery) : Except String RatesQuery :=
  match optionalKey (currencyCodeSchema "fromCurrency") query.fromCurrency with
  | .error e => .error e
  | .ok f =>
    match optionalKey (currencyCodeSchema "toCurrency") query.toCurrency with
    | .error e => .error e
    | .ok t =>
      match optionalKey sourceSchema query.source with
      | .error e => .error e
      | .ok s =>
        match integerRangeSchema "limit" 1 (some 100) query.limit with
        | .error e => .error e
        | .ok l =>
          match integerRangeSchema "skip" 0 none query.skip with
          | .error e => .error e
          | .ok k => .ok { fromCurrency := f, toCurrency := t, source := s, limit := l, skip := k }

/-- Query of `GET /convert`; a date is given by the instant it denotes. -/
structure ConversionsQuery where
  fromCurrency : Option String
  toCurrency : Option String
  startDate : Option Nat
  endDate : Option Nat
  limit : Option ℚ
  skip : Option ℚ
deriving DecidableEq

/-- The schema `Joi.date().iso().min(Joi.ref('startDate')).optional()` of `endDate`: the
reference must resolve to a date, and the value must not precede it. -/
def endDateSchema (startDate : Option Nat) : Option Nat → Except String (Option Nat)
  | none => .ok none
  | some e =>
    match startDate with
    | none =>
      .error "\"endDate\" date references \"ref:startDate\" which must have a valid date format"
    | some s =>
      if e < s then .error "\"endDate\" must be greater than or equal to \"ref:startDate\""
      else .ok (some e)

/-- The object schema `getConversionsSchema`; the validated value has the shape of the input. -/
def getConversionsSchema.validate (query : ConversionsQuery) : Except String ConversionsQuery :=
  match optionalKey (currencyCodeSchema "fromCurrency") query.fromCurrency with
  | .error e => .error e
  | .ok f =>
    match optionalKey (currencyCodeSchema "toCurrency") query.toCurrency with
    | .error e => .error e
    | .ok t =>
      match endDateSchema query.startDate query.endDate with
      | .error e => .error e
      | .ok d =>
        match integerRangeSchema "limit" 1 (some 100) query.limit with
        | .error e => .error e
        | .ok l =>
          match integerRangeSchema "skip" 0 none query.skip with
          | .error e => .error e
          | .ok k =>
            .ok { fromCurrency := f, toCurrency := t, startDate := query.startDate, endDate := d,
                  limit := l, skip := k }

/-! ## Query helpers -/

/-- The first significant decimal digit of a positive number. -/
def leadingDigit (x : ℚ) : ℤ := ⌊x / (10 : ℚ) ^ Int.log 10 x⌋

/-- The function `parseInt` applied to a number. The number is first written out, and the
integer numeral at the start of the text is read. Zero and a number with
`1e-6 ≤ |x| < 1e21` are written in positional notation, so the result is the integer part. Any
other number is written in exponent notation (`1e-7`, `1.5e+21`), so the result is its first
significant digit, with its sign. -/
def parseInt (x : ℚ) : ℤ :=
  if x = 0 ∨ (1 / 1000000 ≤ |x| ∧ |x| < 1000000000000000000000) then
    (if 0 ≤ x then ⌊x⌋ else ⌈x⌉)
  else if 0 < x then leadingDigit x
  else -leadingDigit (-x)

/-- The cursor modifiers `.limit(n).skip(k)`: the first `k` documents are skipped, then at most
`n` are returned; a limit of zero means no limit. -/
def limitSkip {α : Type} (n k : ℤ) (docs : List α) : List α :=
  if n = 0 then docs.drop k.toNat else (docs.drop k.toNat).take n.natAbs

/-- The value of a destructured key with a default, `{ key = d }`. -/
def withDefault (o : Option ℚ) (d : ℚ) : ℚ :=
  match o with
  | some v => v
  | none => d

/-! ## The external providers (`external-apis.js`) -/

/-- The list `cryptoCurrencies` of `isCryptoCurrency`. -/
def cryptoCurrencies : List String :=
  ["BTC", "ETH", "USDT", "BNB", "ADA", "XRP", "SOL", "DOT", "DOGE", "AVAX"]

/-- The method `isCryptoCurrency`. -/
def ExternalAPIs.isCryptoCurrency (currency : String) : Bool :=
  decide (toUpperCase currency ∈ cryptoCurrencies)

/-- The two single-rate lookups `getCryptoRates` and `getFiatRates`: each answers a number or
`null` (`none`); a failed request is answered `null`. -/
structure Providers where
  getCryptoRates : String → String → Option ℚ
  getFiatRates : String → String → Option ℚ

/-- The expression `usdRate && targetRate ? usdRate * targetRate : null`. -/
def bridgeRate (usdRate targetRate : Option ℚ) : Option ℚ :=
  match usdRate, targetRate with
  | some u, some v => if u ≠ 0 ∧ v ≠ 0 then some (u * v) else none
  | _, _ => none

/-- The method `getRate`. -/
def ExternalAPIs.getRate (p : Providers) (fromCurrency toCurrency : String) : Option ℚ :=
  let fromIsCrypto := ExternalAPIs.isCryptoCurrency fromCurrency
  let toIsCrypto := ExternalAPIs.isCryptoCurrency toCurrency
  if fromIsCrypto && toIsCrypto then p.getCryptoRates fromCurrency toCurrency
  else if !fromIsCrypto && !toIsCrypto then p.getFiatRates fromCurrency toCurrency
  else if fromIsCrypto then
    let usdRate := p.getCryptoRates fromCurrency "USD"
    let targetRate := p.getFiatRates "USD" toCurrency
    bridgeRate usdRate targetRate
  else
    let usdRate := p.getFiatRates fromCurrency "USD"
    let targetRate := p.getCryptoRates "USD" toCurrency
    bridgeRate usdRate targetRate

/-! ## The rates service (`rates.service.js`) -/

/-- The page returned by `RatesService.find`. -/
structure RatesPage where
  data : List Rate
  total : Nat
  limit : ℤ
  skip : ℤ
  message : Option String
deriving DecidableEq

/-- The query object built by `RatesService.find`: `isActive: true` and one equality per given
filter key. -/
def RatesService.matchesQuery (fromCurrency toCurrency source : Option String) (r : Rate) :
    Bool :=
  r.isActive &&
  (match fromCurrency with
    | some f => if f = "" then true else decide (r.fromCurrency = toUpperCase f)
    | none => true) &&
  (match toCurrency with
    | some t => if t = "" then true else decide (r.toCurrency = toUpperCase t)
    | none => true) &&
  (match source with
    | some s => if s = "" then true else decide (r.source = s)
    | none => true)

/-- The sort `{ lastUpdated: -1 }`; documents with equal dates keep their stored order. -/
def sortByLastUpdatedDesc (docs : List Rate) : List Rate :=
  docs.insertionSort (fun a b => b.lastUpdated ≤ a.lastUpdated)

/-- The method `find`. -/
def RatesService.find (w : World) (query : RatesQuery) : Except String RatesPage :=
  match getRatesSchema.validate query with
  | .error message => .error ("Error fetching rates: " ++ ("Validation error: " ++ message))
  | .ok value =>
    let limit := withDefault value.limit 50
    let skip := withDefault value.skip 0
    if w.readyState ≠ 1 then
      .ok { data := [], total := 0, limit := parseInt limit, skip := parseInt skip,
            message := some "MongoDB not connected - using demo data" }
    else
      let rates := limitSkip (parseInt limit) (parseInt skip)
        (sortByLastUpdatedDesc
          (w.rates.filter (RatesService.matchesQuery value.fromCurrency value.toCurrency
            value.source)))
      .ok { data := rates, total := rates.length, limit := parseInt limit, skip := parseInt skip,
            message := none }

/-- The method `get`, for an id that casts to the ObjectId `id` (`RatesService.getById` takes
any id). -/
def RatesService.get (w : World) (id : Nat) : Except String Rate :=
  match Rate.findById w id with
  | none => .error ("Error fetching rate: " ++ "Rate not found")
  | some rate => .ok rate

/-- The data of a rate-change notification. -/
def rateUpdatePayload (action : String) (r : Rate) : QueuePayload :=
  QueuePayload.rateUpdate action r.fromCurrency r.toCurrency r.rate r.source

/-- The method `create`: an upsert on the pair, followed by a rate-change notification. -/
def RatesService.create (env : Env) (w : World) (data : CreateRateData) :
    Except String Rate × World :=
  match createRateSchema.validate data with
  | .error message => (.error ("Error creating rate: " ++ ("Validation error: " ++ message)), w)
  | .ok value =>
    match w.rates.find?
        (Rate.hasPair (toUpperCase value.fromCurrency) (toUpperCase value.toCurrency)) with
    | some found =>
      let existingRate :=
        { found with rate := value.rate, source := value.source, lastUpdated := env.now }
      match Rate.update env w existingRate with
      | .error message => (.error ("Error creating rate: " ++ message), w)
      | .ok w1 =>
        (.ok existingRate,
          (RabbitMQ.sendRateUpdateLog env w1 (rateUpdatePayload "update" existingRate)).2)
    | none =>
      let newRate := Rate.new w.nextId env.now (toUpperCase value.fromCurrency)
        (toUpperCase value.toCurrency) value.rate value.source
      let w0 := { w with nextId := w.nextId + 1 }
      match Rate.insert env w0 newRate with
      | .error message => (.error ("Error creating rate: " ++ message), w0)
      | .ok w1 =>
        (.ok newRate, (RabbitMQ.sendRateUpdateLog env w1 (rateUpdatePayload "create" newRate)).2)

/-- The three conditional assignments of `patch`: a key of the validated body that is not
`undefined` overwrites the field of the loaded document. -/
def RatesService.assignFields (value : UpdateRateData) (found : Rate) : Rate :=
  let r1 := match value.rate with
    | some v => { found with rate := v }
    | none => found
  let r2 := match value.source with
    | some s => { r1 with source := s }
    | none => r1
  match value.isActive with
  | some b => { r2 with isActive := b }
  | none => r2

/-- The method `patch`, for an id that casts to the ObjectId `id` (`RatesService.patchById`
takes any id). -/
def RatesService.patch (env : Env) (w : World) (id : Nat) (data : UpdateRateData) :
    Except String Rate × World :=
  match updateRateSchema.validate data with
  | .error message => (.error ("Error updating rate: " ++ ("Validation error: " ++ message)), w)
  | .ok value =>
    match Rate.findById w id with
    | none => (.error ("Error updating rate: " ++ "Rate not found"), w)
    | some found =>
      let rate := { RatesService.assignFields value found with lastUpdated := env.now }
      match Rate.update env w rate with
      | .error message => (.error ("Error updating rate: " ++ message), w)
      | .ok w1 =>
        (.ok rate, (RabbitMQ.sendRateUpdateLog env w1 (rateUpdatePayload "update" rate)).2)

/-- The method `remove`, a soft delete, for an id that casts to the ObjectId `id`
(`RatesService.removeById` takes any id). -/
def RatesService.remove (env : Env) (w : World) (id : Nat) : Except String String × World :=
  match Rate.findById w id with
  | none => (.error ("Error removing rate: " ++ "Rate not found"), w)
  | some found =>
    let rate := { found with isActive := false }
    match Rate.update env w rate with
    | .error message => (.error ("Error removing rate: " ++ message), w)
    | .ok w1 =>
      (.ok "Rate deactivated successfully",
        (RabbitMQ.sendRateUpdateLog env w1 (rateUpdatePayload "delete" rate)).2)

/-- An `id` as a caller hands it to `get`, `patch` or `remove`: a value that Mongoose casts to
an ObjectId (an ObjectId or its 24 hexadecimal digits, represented by a number), or a value that
it cannot cast, such as the path segment `abc` of a request. -/
inductive IdValue where
  | objectId (n : Nat)
  | uncastable (text : String)
  deriving DecidableEq

/-- Message of the CastError with which `Rate.findById` rejects when given a string that is not
an ObjectId. -/
def castIdError (text : String) : String :=
  "Cast to ObjectId failed for value \"" ++ text ++
    "\" (type string) at path \"_id\" for model \"Rate\""

/-- The method `get` on any id value: `Rate.findById` casts the id first; for a value that
cannot be cast the query rejects, and the rejection is rethrown with the prefix of the method. -/
def RatesService.getById (w : World) (id : IdValue) : Except String Rate :=
  match id with
  | .objectId n => RatesService.get w n
  | .uncastable text => .error ("Error fetching rate: " ++ castIdError text)

/-- The method `patch` on any id value: the body is validated first, then `findById` casts the
id; a rejection is rethrown with the prefix of the method and nothing is written. -/
def RatesService.patchById (env : Env) (w : World) (id : IdValue) (data : UpdateRateData) :
    Except String Rate × World :=
  match id with
  | .objectId n => RatesService.patch env w n data
  | .uncastable text =>
    match updateRateSchema.validate data with
    | .error message =>
      (.error ("Error updating rate: " ++ ("Validation error: " ++ message)), w)
    | .ok _ => (.error ("Error updating rate: " ++ castIdError text), w)

/-- The method `remove` on any id value: a rejection of `findById` is rethrown with the prefix
of the method and nothing is written. -/
def RatesService.removeById (env : Env) (w : World) (id : IdValue) :
    Except String String × World :=
  match id with
  | .objectId n => RatesService.remove env w n
  | .uncastable text => (.error ("Error removing rate: " ++ castIdError text), w)

/-- The expression `pair.split('_')`. -/
def splitUnderscore (pair : String) : List String :=
  (pair.data.splitOn '_').map String.mk

/-- One of the two loops of `updateRatesFromExternalAPIs`: `create` is called for every entry
of the snapshot in turn; an exception of `create` ends the loop. -/
def RatesService.createAll (env : Env) (source : String) :
    World → List (String × ℚ) → Except String Unit × World
  | w, [] => (.ok (), w)
  | w, (pair, rate) :: rest =>
    let parts := splitUnderscore pair
    match RatesService.create env w
        { fromCurrency := parts[0]?, toCurrency := parts[1]?, rate := some rate,
          source := some source } with
    | (.error message, w1) => (.error message, w1)
    | (.ok _, w1) => RatesService.createAll env source w1 rest

/-- The method `updateRatesFromExternalAPIs`. -/
def RatesService.updateRatesFromExternalAPIs (env : Env) (w : World) :
    Except String String × World :=
  match RatesService.createAll env "coingecko" w env.allCryptoRates with
  | (.error message, w1) => (.error ("Error updating rates: " ++ message), w1)
  | (.ok _, w1) =>
    match RatesService.createAll env "openexchangerates" w1 env.allFiatRates with
    | (.error message, w2) => (.error ("Error updating rates: " ++ message), w2)
    | (.ok _, w2) => (.ok "Rates updated successfully", w2)

/-- Truthiness of the value returned by the provider: a number other than zero. -/
def truthyRate : Option ℚ → Bool
  | some v => decide (v ≠ 0)
  | none => false

/-- The method `getRateForPair`. -/
def RatesService.getRateForPair (env : Env) (w : World) (fromCurrency toCurrency : String) :
    Except String Rate × World :=
  match w.rates.find? (fun r =>
      Rate.hasPair (toUpperCase fromCurrency) (toUpperCase toCurrency) r && r.isActive) with
  | some rate => (.ok rate, w)
  | none =>
    let w1 := { w with providerCalls := w.providerCalls ++ [(fromCurrency, toCurrency)] }
    match env.getRate fromCurrency toCurrency with
    | .threw => (.error ("Error getting rate: " ++ env.getRateError), w1)
    | .returned externalRate =>
      if truthyRate externalRate then
        match RatesService.create env w1
            { fromCurrency := some fromCurrency, toCurrency := some toCurrency,
              rate := externalRate,
              source := some (if ExternalAPIs.isCryptoCurrency fromCurrency then "coingecko"
                else "openexchangerates") } with
        | (.error message, w2) => (.error ("Error getting rate: " ++ message), w2)
        | (.ok rate, w2) => (.ok rate, w2)
      else
        (.error ("Error getting rate: " ++
          ("Rate not available for " ++ fromCurrency ++ " to " ++ toCurrency)), w1)

/-! ## The CSV import service (`csv-import.service.js`) -/

/-- A row accepted by `processRow`, as handed to `saveRates`. -/
structure RateData where
  fromCurrency : String
  toCurrency : String
  rate : ℚ
  source : String
deriving DecidableEq

/-- The method `saveRates`: every entry is upserted on its pair; an entry whose save fails is
logged and skipped. -/
def CSVImportService.saveRates (env : Env) : World → List RateData → List Rate × World
  | w, [] => ([], w)
  | w, rateData :: rest =>
    match w.rates.find? (Rate.hasPair rateData.fromCurrency rateData.toCurrency) with
    | some found =>
      let existingRate :=
        { found with rate := rateData.rate, source := rateData.source, lastUpdated := env.now }
      match Rate.update env w existingRate with
      | .error _ => CSVImportService.saveRates env w rest
      | .ok w1 =>
        let (saved, w2) := CSVImportService.saveRates env w1 rest
        (existingRate :: saved, w2)
    | none =>
      let newRate := Rate.new w.nextId env.now rateData.fromCurrency rateData.toCurrency
        rateData.rate rateData.source
      let w0 := { w with nextId := w.nextId + 1 }
      match Rate.insert env w0 newRate with
      | .error _ => CSVImportService.saveRates env w0 rest
      | .ok w1 =>
        let (saved, w2) := CSVImportService.saveRates env w1 rest
        (newRate :: saved, w2)

/-! ## The history of conversions (`ConvertService.find`) -/

/-- The page returned by `ConvertService.find`. -/
structure ConversionsPage where
  data : List Conversion
  total : Nat
  limit : ℤ
  skip : ℤ
deriving DecidableEq

/-- The query object built by `ConvertService.find`: one equality per given code and the
bounds `$gte` and `$lte` on `conversionDate`. -/
def ConvertService.matchesQuery (fromCurrency toCurrency : Option String)
    (startDate endDate : Option Nat) (c : Conversion) : Bool :=
  (match fromCurrency with
    | some f => if f = "" then true else decide (c.fromCurrency = toUpperCase f)
    | none => true) &&
  (match toCurrency with
    | some t => if t = "" then true else decide (c.toCurrency = toUpperCase t)
    | none => true) &&
  (match startDate with
    | some s => decide (s ≤ c.conversionDate)
    | none => true) &&
  (match endDate with
    | some e => decide (c.conversionDate ≤ e)
    | none => true)

/-- The sort `{ conversionDate: -1 }`; documents with equal dates keep their stored order. -/
def sortByConversionDateDesc (docs : List Conversion) : List Conversion :=
  docs.insertionSort (fun a b => b.conversionDate ≤ a.conversionDate)

/-- The method `find` of the convert service. -/
def ConvertService.find (w : World) (query : ConversionsQuery) :
    Except String ConversionsPage :=
  match getConversionsSchema.validate query with
  | .error message =>
    .error ("Error fetching conversions: " ++ ("Validation error: " ++ message))
  | .ok value =>
    let limit := withDefault value.limit 50
    let skip := withDefault value.skip 0
    let conversions := limitSkip (parseInt limit) (parseInt skip)
      (sortByConversionDateDesc
        (w.conversions.filter (ConvertService.matchesQuery value.fromCurrency value.toCurrency
          value.startDate value.endDate)))
    .ok { data := conversions, total := conversions.length, limit := parseInt limit,
          skip := parseInt skip }

/-! ## Aggregations over the Conversion collection (`convert.service.js`) -/

/-- The statistics object returned by `getConversionStats` and carried by the daily report. A
key the object does not carry is `none`; the key `_id` of a group is left out. -/
structure Statistics where
  totalConversions : Nat
  totalOriginalAmount : ℚ
  totalConvertedAmount : ℚ
  averageRate : ℚ
  minRate : Option ℚ
  maxRate : Option ℚ
  uniqueCurrencyPairs : Option (List (String × String))
deriving DecidableEq

/-- The group key `{fromCurrency: '$fromCurrency', toCurrency: '$toCurrency'}` of a document. -/
def Conversion.pairId (c : Conversion) : String × String := (c.fromCurrency, c.toCurrency)

/-- The stage `$group` with `_id: null` of `getConversionStats`: no document leaves the stage
when none reaches it; otherwise one document accumulates all of them (`$sum: 1`, `$sum`,
`$avg`, `$min`, `$max`). -/
def ConvertService.statsGroup : List Conversion → List Statistics
  | [] => []
  | c :: rest =>
    [{ totalConversions := (c :: rest).length
       totalOriginalAmount := ((c :: rest).map (·.originalAmount)).sum
       totalConvertedAmount := ((c :: rest).map (·.convertedAmount)).sum
       averageRate := ((c :: rest).map (·.rate)).sum / ((c :: rest).length : ℚ)
       minRate := some (rest.foldl (fun m d => min m d.rate) c.rate)
       maxRate := some (rest.foldl (fun m d => max m d.rate) c.rate)
       uniqueCurrencyPairs := none }]

/-- The method `getConversionStats`. The stage `$match` is built from the query as in `find`;
the keys `limit` and `skip` of the query are not read. -/
def ConvertService.getConversionStats (w : World) (query : ConversionsQuery) :
    Except String Statistics :=
  let stats := ConvertService.statsGroup
    (w.conversions.filter (ConvertService.matchesQuery query.fromCurrency query.toCurrency
      query.startDate query.endDate))
  match stats[0]? with
  | some s => .ok s
  | none =>
    .ok { totalConversions := 0, totalOriginalAmount := 0, totalConvertedAmount := 0,
          averageRate := 0, minRate := some 0, maxRate := some 0, uniqueCurrencyPairs := none }

/-- A document leaving the stage `$group` of `getPopularPairs`. -/
structure PairGroup where
  _id : String × String
  count : Nat
  totalAmount : ℚ
deriving DecidableEq

/-- An entry of the list returned by `getPopularPairs`. -/
structure PopularPair where
  fromCurrency : String
  toCurrency : String
  conversionCount : Nat
  totalAmount : ℚ
deriving DecidableEq

/-- The stage `$group` on the pair: one document per distinct pair, counting the documents of
the pair and adding their `originalAmount`. The store does not fix the order in which the
groups leave the stage; here they follow the last document of each pair. -/
def pairGroups (docs : List Conversion) : List PairGroup :=
  (docs.map Conversion.pairId).dedup.map (fun p =>
    { _id := p
      count := (docs.filter (fun c => decide (c.pairId = p))).length
      totalAmount := ((docs.filter (fun c => decide (c.pairId = p))).map (·.originalAmount)).sum })

/-- The stage `$sort: { count: -1 }`; groups with equal counts keep their order. -/
def sortByCountDesc (groups : List PairGroup) : List PairGroup :=
  groups.insertionSort (fun a b => b.count ≤ a.count)

/-- The stage `$limit: n`: the store refuses a limit that is not positive. -/
def limitStage {α : Type} (n : ℤ) (docs : List α) : Except String (List α) :=
  if n ≤ 0 then .error "the limit must be positive" else .ok (docs.take n.toNat)

/-- The projection applied to every group by `getPopularPairs`. -/
def PairGroup.toPopularPair (pair : PairGroup) : PopularPair :=
  { fromCurrency := pair._id.1, toCurrency := pair._id.2, conversionCount := pair.count,
    totalAmount := pair.totalAmount }

/-- The method `getPopularPairs`; `limit` is the key of the query, absent or a number. -/
def ConvertService.getPopularPairs (w : World) (limit : Option ℚ) :
    Except String (List PopularPair) :=
  match limitStage (parseInt (withDefault limit 10)) (sortByCountDesc (pairGroups w.conversions))
    with
  | .error message => .error ("Error getting popular pairs: " ++ message)
  | .ok popularPairs => .ok (popularPairs.map PairGroup.toPopularPair)

/-! ## The daily report (`report.service.js`) -/

/-- The number a list of decimal digits writes. -/
def digitsValue (ds : List Char) : ℕ := ds.foldl (fun n c => 10 * n + (c.toNat - 48)) 0

/-- The number of days from 1 January 1970 to a day of the proleptic Gregorian calendar, the
month being one of 1 to 12; a day past the end of the month counts on into the next one. -/
def daysFromCivil (year month day : ℤ) : ℤ :=
  let y := if month ≤ 2 then year - 1 else year
  let era := y / 400
  let yoe := y - era * 400
  let mp := (month + 9) % 12
  let doy := (153 * mp + 2) / 5 + day - 1
  let doe := yoe * 365 + yoe / 4 - yoe / 100 + doy
  era * 146097 + doe - 719468

/-- The day a string of the form `YYYY-MM-DD` denotes when an ISO time of day and `Z` are
appended to it and the whole is handed to `new Date(...)`, as a number of days from 1 January
1970; `none` is an invalid date. The month must be one of 01 to 12 and the day one of 01 to
31. A string of another form is taken to give an invalid date. -/
def parseDay (date : String) : Option ℤ :=
  match date.data with
  | [y1, y2, y3, y4, s1, m1, m2, s2, d1, d2] =>
    if s1 = '-' ∧ s2 = '-' ∧ [y1, y2, y3, y4, m1, m2, d1, d2].all Char.isDigit = true then
      let month := digitsValue [m1, m2]
      let day := digitsValue [d1, d2]
      if 1 ≤ month ∧ month ≤ 12 ∧ 1 ≤ day ∧ day ≤ 31 then
        some (daysFromCivil (digitsValue [y1, y2, y3, y4]) month day)
      else none
    else none
  | _ => none

/-- Milliseconds in a day. -/
def msPerDay : ℤ := 86400000

/-- Message of the RangeError that `toISOString()` throws on an invalid Date. -/
def invalidTimeError : String := "Invalid time value"

/-- The condition `{ conversionDate: { $gte: startDate, $lte: endDate } }`. -/
def betweenDates (startDate endDate : ℤ) (c : Conversion) : Bool :=
  decide (startDate ≤ (c.conversionDate : ℤ)) && decide ((c.conversionDate : ℤ) ≤ endDate)

/-- The stage `$group` with `_id: null` of the daily report: count, the two sums, the average
rate and the set of pairs (`$addToSet`, in no fixed order). -/
def ReportService.statsGroup : List Conversion → List Statistics
  | [] => []
  | c :: rest =>
    [{ totalConversions := (c :: rest).length
       totalOriginalAmount := ((c :: rest).map (·.originalAmount)).sum
       totalConvertedAmount := ((c :: rest).map (·.convertedAmount)).sum
       averageRate := ((c :: rest).map (·.rate)).sum / ((c :: rest).length : ℚ)
       minRate := none
       maxRate := none
       uniqueCurrencyPairs := some ((c :: rest).map Conversion.pairId).dedup }]

/-- The object returned by `ReportService.find`. -/
structure DailyReport where
  date : String
  conversions : Nat
  statistics : Statistics
  popularPairs : List PopularPair
deriving DecidableEq

/-- The method `find` of the report service, for a query carrying the key `date`. A text that
is no date gives two invalid Dates, and `startDate.toISOString()` in the line logged before the
reads throws; the error is rethrown with the prefix of the method. The three reads go to the
stored list, so the branch for an unreachable store is not entered. -/
def ReportService.find (w : World) (date : String) : Except String DailyReport :=
  match parseDay date with
  | none => .error ("Error generating report: " ++ invalidTimeError)
  | some day =>
    let startDate := day * msPerDay
    let endDate := day * msPerDay + 86399999
    let conversions := sortByConversionDateDesc
      (w.conversions.filter (betweenDates startDate endDate))
    let stats := ReportService.statsGroup (w.conversions.filter (betweenDates startDate endDate))
    match limitStage 5
        (sortByCountDesc (pairGroups (w.conversions.filter (betweenDates startDate endDate))))
      with
    | .error message => .error ("Error generating report: " ++ message)
    | .ok popularPairs =>
      .ok { date := date
            conversions := conversions.length
            statistics :=
              match stats[0]? with
              | some s => s
              | none =>
                { totalConversions := 0, totalOriginalAmount := 0, totalConvertedAmount := 0,
                  averageRate := 0, minRate := none, maxRate := none,
                  uniqueCurrencyPairs := some [] }
            popularPairs := popularPairs.map PairGroup.toPopularPair }

/-! ## Numbers read from text -/

/-- A value of the type number as `parseFloat` can return it. -/
inductive JsNumber
  | NaN
  | Infinity
  | negInfinity
  | finite (value : ℚ)
deriving DecidableEq

/-- The lower case of one character: that of an ASCII letter, and that of the Kelvin sign, the
one character outside ASCII whose lower case is an ASCII letter. Any other character is left as
it is; where its lower case is another one, that one lies outside ASCII as well. -/
def lowerCaseOf (c : Char) : Char := if c.toNat = 8490 then 'k' else c.toLower

/-- String.prototype.toLowerCase: exact on every string whose lower case is made of ASCII
characters, and outside ASCII wherever the lower case of the string is. -/
def toLowerCase (s : String) : String := String.mk (s.data.map lowerCaseOf)

/-- The value `v * 10 ^ e`. -/
def scaleByPowerOfTen (v : ℚ) (e : ℤ) : ℚ :=
  if 0 ≤ e then v * ((10 ^ e.toNat : ℕ) : ℚ) else v / ((10 ^ (-e).toNat : ℕ) : ℚ)

/-- A sign at the head of the characters: whether it is `-`, and what follows it. -/
def readSign (cs : List Char) : Bool × List Char :=
  match cs with
  | c :: rest => if c = '-' then (true, rest) else if c = '+' then (false, rest) else (false, cs)
  | [] => (false, cs)

/-- An exponent part at the head of the characters (`e` or `E`, an optional sign, at least one
digit): its value and what follows it; without such a part, zero and the characters as they
are. -/
def readExponent (cs : List Char) : ℤ × List Char :=
  match cs with
  | c :: rest =>
    if c = 'e' ∨ c = 'E' then
      if ((readSign rest).2.span Char.isDigit).1 = [] then (0, cs)
      else
        ((if (readSign rest).1 then -(digitsValue ((readSign rest).2.span Char.isDigit).1 : ℤ)
          else (digitsValue ((readSign rest).2.span Char.isDigit).1 : ℤ)),
         ((readSign rest).2.span Char.isDigit).2)
    else (0, cs)
  | [] => (0, cs)

/-- The longest unsigned decimal numeral at the head of the characters (digits, an optional
point followed by digits, digits being required on one side of the point at least, then an
optional exponent part): its value and what follows it; `none` when no numeral starts there. -/
def readDecimal (cs : List Char) : Option (ℚ × List Char) :=
  let whole := (cs.span Char.isDigit).1
  let afterWhole := (cs.span Char.isDigit).2
  let fraction := match afterWhole with
    | c :: rest => if c = '.' then (rest.span Char.isDigit).1 else []
    | [] => []
  let afterFraction := match afterWhole with
    | c :: rest => if c = '.' then (rest.span Char.isDigit).2 else afterWhole
    | [] => afterWhole
  if whole = [] ∧ fraction = [] then none
  else
    some (scaleByPowerOfTen
        ((digitsValue whole : ℚ) + (digitsValue fraction : ℚ) / ((10 ^ fraction.length : ℕ) : ℚ))
        (readExponent afterFraction).1,
      (readExponent afterFraction).2)

/-- The Number value of the real number `v` that a numeral writes. From `2 ^ 1024 - 2 ^ 970` on
the nearest double is `Infinity`; up to `2 ^ (-1075)` it is zero; in between it is a finite
double other than zero, represented by `v` itself (the numeral is taken to be one that writes a
double). -/
def numberOfDecimal (v : ℚ) : JsNumber :=
  if pow2 1024 - pow2 970 ≤ v then JsNumber.Infinity
  else if v ≤ -(pow2 1024 - pow2 970) then JsNumber.negInfinity
  else if |v| ≤ pow2 (-1075) then JsNumber.finite 0
  else JsNumber.finite v

/-- The function `parseFloat` applied to a string: leading white space is skipped and the
longest numeral at the head is read, whatever follows it; a numeral too large for a double
reads as `Infinity`, one too small as zero. -/
def parseFloat (s : String) : JsNumber :=
  let signed := readSign (s.data.dropWhile isWhiteSpace)
  if "Infinity".data.isPrefixOf signed.2 then
    if signed.1 then JsNumber.negInfinity else JsNumber.Infinity
  else
    match readDecimal signed.2 with
    | none => JsNumber.NaN
    | some (v, _) => numberOfDecimal (if signed.1 then -v else v)

/-- The numeral that a string is in its entirety, for the number type of the validation
library: a string that is, white space at both ends apart, a signed decimal numeral gives the
number the numeral writes; any other string is no number (`none`). -/
def numberOfString (s : String) : Option ℚ :=
  let signed := readSign (s.data.dropWhile isWhiteSpace)
  match readDecimal signed.2 with
  | none => none
  | some (v, rest) =>
    if rest.all isWhiteSpace then some (if signed.1 then -v else v) else none

/-- What a body can hold under the key `rate`: a number, or a string. -/
inductive RateInput
  | number (n : JsNumber)
  | text (s : String)
deriving DecidableEq

/-- The schema `rateSchema` applied to a value that is a number or a string: a string is
converted first, a value that is no number or is infinite is refused by the number type, and
a finite number goes through the rules of `rateSchema`. A string is converted when it is a
numeral in its entirety; a numeral whose value a double cannot hold (it reads as `Infinity` or
as zero without being zero) is refused as unsafe. The library refuses as unsafe also a numeral
with more digits than a double keeps; that refusal is not decided here, so a string accepted
here is one the library accepts unless it has such digits. -/
def rateInputSchema (label : String) : Option RateInput → Except String ℚ
  | none => .error "Rate is required"
  | some (.text s) =>
    match numberOfString s with
    | some v =>
      if numberOfDecimal v = JsNumber.finite v then rateSchema label (some v)
      else .error ("\"" ++ label ++ "\" must be a safe number")
    | none => .error "Rate must be a number"
  | some (.number .NaN) => .error "Rate must be a number"
  | some (.number .Infinity) => .error ("\"" ++ label ++ "\" cannot be infinity")
  | some (.number .negInfinity) => .error ("\"" ++ label ++ "\" cannot be infinity")
  | some (.number (.finite v)) => rateSchema label (some v)

/-- The object schema `createRateSchema` applied to a body whose key `rate` holds a number or
a string. -/
def createRateSchema.validateInput (fromCurrency toCurrency : Option String)
    (rate : Option RateInput) (source : Option String) : Except String CreateRateValue :=
  match currencyCodeSchema "fromCurrency" fromCurrency with
  | .error e => .error e
  | .ok f =>
    match currencyCodeSchema "toCurrency" toCurrency with
    | .error e => .error e
    | .ok t =>
      match rateInputSchema "rate" rate with
      | .error e => .error e
      | .ok r =>
        match sourceSchema source with
        | .error e => .error e
        | .ok s => .ok { fromCurrency := f, toCurrency := t, rate := r, source := s }

/-! ## The CSV import (`csv-import.service.js`): rows -/

/-- A row as the CSV reader hands it over: the cells under the four headers, each a string;
a cell the line does not have is `none`. -/
structure Row where
  fromCurrency : Option String
  toCurrency : Option String
  rate : Option String
  source : Option String
deriving DecidableEq

/-- The record `processRow` returns for a row it accepts. -/
structure ProcessedRow where
  fromCurrency : String
  toCurrency : String
  rate : JsNumber
  source : String
deriving DecidableEq

/-- The list `validSources` of `processRow`. -/
def validSources : List String := ["coingecko", "openexchangerates", "manual"]

/-- The text a cell contributes to a template string. -/
def cellText : Option String → String
  | some s => s
  | none => "undefined"

/-- The test `isNaN(rateValue) || rateValue <= 0`. -/
def invalidRateValue : JsNumber → Bool
  | .NaN => true
  | .Infinity => false
  | .negInfinity => true
  | .finite v => decide (v ≤ 0)

/-- The expression `source ? source.toLowerCase() : 'manual'`. -/
def sourceValueOf : Option String → String
  | some source => if source = "" then "manual" else toLowerCase source
  | none => "manual"

/-- The method `processRow`. -/
def CSVImportService.processRow (row : Row) (rowNumber : Nat) : Except String ProcessedRow :=
  match row.fromCurrency, row.toCurrency, row.rate with
  | some fromCurrency, some toCurrency, some rate =>
    if fromCurrency = "" ∨ toCurrency = "" ∨ rate = "" then
      .error ("Fila " ++ toString rowNumber ++
        ": Campos requeridos faltantes (fromCurrency, toCurrency, rate)")
    else if matchesCurrencyPattern (toUpperCase fromCurrency) = false then
      .error ("Fila " ++ toString rowNumber ++ ": Código de moneda origen inválido: " ++
        fromCurrency)
    else if matchesCurrencyPattern (toUpperCase toCurrency) = false then
      .error ("Fila " ++ toString rowNumber ++ ": Código de moneda destino inválido: " ++
        toCurrency)
    else if invalidRateValue (parseFloat rate) then
      .error ("Fila " ++ toString rowNumber ++ ": Tasa inválida: " ++ rate)
    else if sourceValueOf row.source ∈ validSources then
      .ok { fromCurrency := toUpperCase fromCurrency, toCurrency := toUpperCase toCurrency,
            rate := parseFloat rate, source := sourceValueOf row.source }
    else
      .error ("Fila " ++ toString rowNumber ++ ": Fuente inválida: " ++ cellText row.source ++
        ". Debe ser: coingecko, openexchangerates, manual")
  | _, _, _ =>
    .error ("Fila " ++ toString rowNumber ++
      ": Campos requeridos faltantes (fromCurrency, toCurrency, rate)")

/-! ## The CSV import (`csv-import.service.js`): a file -/

/-- An entry of the list `errors` of an import. -/
structure RowError where
  row : Nat
  error : String
  data : Row
deriving DecidableEq

/-- The object `summary` of an import. -/
structure ImportSummary where
  total : Nat
  processed : Nat
  saved : Nat
  errors : Nat
deriving DecidableEq

/-- The object an import resolves with. -/
structure ImportResult where
  success : Bool
  totalRows : Nat
  processedRows : Nat
  savedRates : Nat
  errors : List RowError
  summary : ImportSummary
deriving DecidableEq

/-- The three variables `results`, `errors` and `rowNumber` of an import. -/
structure ImportState where
  results : List ProcessedRow
  errors : List RowError
  rowNumber : Nat
deriving DecidableEq

/-- The handler of the event `data`: the row is numbered, then either kept or recorded with
the message of the error `processRow` threw. -/
def CSVImportService.onData (state : ImportState) (row : Row) : ImportState :=
  match CSVImportService.processRow row (state.rowNumber + 1) with
  | .ok processedRow =>
    { results := state.results ++ [processedRow], errors := state.errors,
      rowNumber := state.rowNumber + 1 }
  | .error message =>
    { results := state.results,
      errors := state.errors ++ [{ row := state.rowNumber + 1, error := message, data := row }],
      rowNumber := state.rowNumber + 1 }

/-- The entry `saveRates` receives for an accepted row. The Rate collection of this
development holds finite rates: a row whose rate is `Infinity` has no entry. -/
def ProcessedRow.toRateData (p : ProcessedRow) : Option RateData :=
  match p.rate with
  | .finite v =>
    some { fromCurrency := p.fromCurrency, toCurrency := p.toCurrency, rate := v,
           source := p.source }
  | _ => none

/-- The entries of a list of accepted rows, when each of them has one. -/
def rateEntries : List ProcessedRow → Option (List RateData)
  | [] => some []
  | p :: rest =>
    match p.toRateData, rateEntries rest with
    | some d, some ds => some (d :: ds)
    | _, _ => none

/-- The method `importFromCSV`, the file being given by the rows the CSV reader emits, in
order. Reading and deleting the file are taken to succeed. When an accepted row has the rate
`Infinity`, which the Rate collection of this development cannot hold, no answer is given
(`none`). -/
def CSVImportService.importFromCSV (env : Env) (w : World) (rows : List Row) :
    Option (ImportResult × World) :=
  let state := rows.foldl CSVImportService.onData { results := [], errors := [], rowNumber := 0 }
  match rateEntries state.results with
  | none => none
  | some entries =>
    let saved := CSVImportService.saveRates env w entries
    some ({ success := true
            totalRows := state.rowNumber
            processedRows := state.results.length
            savedRates := saved.1.length
            errors := state.errors
            summary := { total := state.rowNumber, processed := state.results.length,
                         saved := saved.1.length, errors := state.errors.length } },
          saved.2)

/-! ## The two CoinGecko mappings (`external-apis.js`) -/

/-- The object `mapping` of `mapCurrencyToCoinGeckoId`, as the list of its entries. -/
def currencyToCoinGeckoId : List (String × String) :=
  [("BTC", "bitcoin"), ("ETH", "ethereum"), ("USDT", "tether"), ("BNB", "binancecoin"),
   ("ADA", "cardano"), ("XRP", "ripple"), ("SOL", "solana"), ("DOT", "polkadot"),
   ("DOGE", "dogecoin"), ("AVAX", "avalanche-2")]

/-- The object `mapping` of `mapCoinGeckoIdToCurrency`, as the list of its entries. -/
def coinGeckoIdToCurrency : List (String × String) :=
  [("bitcoin", "BTC"), ("ethereum", "ETH"), ("tether", "USDT"), ("binancecoin", "BNB"),
   ("cardano", "ADA"), ("ripple", "XRP"), ("solana", "SOL"), ("polkadot", "DOT"),
   ("dogecoin", "DOGE"), ("avalanche-2", "AVAX")]

/-- The method `mapCurrencyToCoinGeckoId`. Only the entries of the object itself are looked
up, not the properties every object inherits. -/
def ExternalAPIs.mapCurrencyToCoinGeckoId (currency : String) : String :=
  orStr (currencyToCoinGeckoId.lookup currency) (toLowerCase currency)

/-- The method `mapCoinGeckoIdToCurrency`. Only the entries of the object itself are looked
up, not the properties every object inherits. -/
def ExternalAPIs.mapCoinGeckoIdToCurrency (coinId : String) : String :=
  orStr (coinGeckoIdToCurrency.lookup coinId) (toUpperCase coinId)

/-! ## Specification-side notions -/

/-- Rounding to two decimal places, a half going up: `n / 100` for the integer `n` with
`n ≤ 100 x + 1/2 < n + 1`. Written from the specification, to be compared with `toFixed2`. -/
def roundHalfUp2 (x : ℚ) : ℚ := ((⌊x * 100 + 1 / 2⌋ : ℤ) : ℚ) / 100

/-- A valid conversion request: two codes of exactly three letters `A`-`Z` and a positive
amount with at most two decimal places inside the safe integer range. -/
def ValidRequest (f t : String) (a : ℚ) : Prop :=
  matchesCurrencyPattern f = true ∧ matchesCurrencyPattern t = true ∧ 0 < a ∧
    atMostTwoDecimals a = true ∧ a ≤ MAX_SAFE_INTEGER

instance instDecidableValidRequest (f t : String) (a : ℚ) : Decidable (ValidRequest f t a) := by
  unfold ValidRequest
  infer_instance

/-- Whether a key of the request holds a code of exactly three letters `A`-`Z`. -/
def isCurrencyCode : Option String → Bool
  | some s => matchesCurrencyPattern s
  | none => false

/-- The request body `{from, to, amount}` with all three keys present. -/
def request (f t : String) (a : ℚ) : ConvertData :=
  { from_ := some f, to_ := some t, amount := some a }

/-- The result `create` is meant to return for the request `(f, t, a)` converted at `rate`. -/
def expectedResult (env : Env) (f t : String) (a : ℚ) (rate : RateInfo) : ConversionResult :=
  { fromCurrency := f
    toCurrency := t
    originalAmount := a
    convertedAmount := toFixed2 (mulDouble a rate.rate)
    rate := rate.rate
    rateSource := rate.source
    conversionDate := env.now }

/-- The document `create` builds for the valid request `(f, t, a)` converted at `rate`, with
the setters of the model already applied to the two codes. -/
def savedConversion (env : Env) (w : World) (f t : String) (a : ℚ) (rate : RateInfo)
    (p : Params) : Conversion :=
  { _id := w.nextId
    fromCurrency := f
    toCurrency := t
    originalAmount := a
    convertedAmount := toFixed2 (mulDouble a rate.rate)
    rate := rate.rate
    rateSource := rate.source
    conversionDate := env.now
    userIp := trim (orStr (p.header "x-forwarded-for") (orStr (p.header "x-real-ip") "unknown"))
    userAgent := trim (orStr (p.header "user-agent") "unknown") }

/-- The queue message `sendConversionLog` builds for the saved document `c`. -/
def conversionMessage (env : Env) (c : Conversion) : QueueMessage :=
  { type := "conversion"
    timestamp := env.now
    data := QueuePayload.conversion c._id c.fromCurrency c.toCurrency c.originalAmount
      c.convertedAmount c.rate c.rateSource c.conversionDate }

/-- At most one record per `(fromCurrency, toCurrency)` pair, active or not: what the unique
index of the collection maintains. -/
def UniquePairs (rates : List Rate) : Prop :=
  rates.Pairwise (fun a b => a.samePair b = false)

instance instDecidableUniquePairs (rates : List Rate) : Decidable (UniquePairs rates) := by
  unfold UniquePairs
  infer_instance

/-- A well-formed state of the Rate Store: one record per pair at most, every record with an
`_id` of its own that was handed out before, and every record passing the schema of the
model. -/
def RateStoreWF (w : World) : Prop :=
  UniquePairs w.rates ∧ (w.rates.map (·._id)).Nodup ∧ (∀ r ∈ w.rates, r._id < w.nextId) ∧
    ∀ r ∈ w.rates, r.valid = true

instance instDecidableRateStoreWF (w : World) : Decidable (RateStoreWF w) := by
  unfold RateStoreWF
  infer_instance

/-- The stored document with the `_id` of `r` is replaced by `r`. -/
def replaceById (r : Rate) (rates : List Rate) : List Rate :=
  rates.map (fun x => if x._id = r._id then r else x)

/-- A valid body of a rate creation: two codes of three letters `A`-`Z`, a positive rate inside
the safe integer range and one of the three sources. -/
def ValidRate (f t : String) (r : ℚ) (s : String) : Prop :=
  matchesCurrencyPattern f = true ∧ matchesCurrencyPattern t = true ∧ 0 < r ∧
    r ≤ MAX_SAFE_INTEGER ∧ s ∈ rateModelSourceEnum

instance instDecidableValidRate (f t : String) (r : ℚ) (s : String) :
    Decidable (ValidRate f t r s) := by
  unfold ValidRate
  infer_instance

/-- The body `{fromCurrency, toCurrency, rate, source}` with all four keys present. -/
def rateRequest (f t : String) (r : ℚ) (s : String) : CreateRateData :=
  { fromCurrency := some f, toCurrency := some t, rate := some r, source := some s }

/-- The upsert of Rate Service `create` as the specification words it, applied to the entry
`d` at the instant `now`: when a record exists for the pair, active or not, its rate, source
and `lastUpdated` are replaced; otherwise a new active record is inserted. -/
def upsertRate (now : Nat) (w : World) (d : RateData) : World :=
  match w.rates.find? (Rate.hasPair d.fromCurrency d.toCurrency) with
  | some found =>
    { w with rates :=
               replaceById { found with rate := d.rate, source := d.source, lastUpdated := now }
                 w.rates }
  | none =>
    { w with rates := w.rates ++ [{ _id := w.nextId, fromCurrency := d.fromCurrency,
                                    toCurrency := d.toCurrency, rate := d.rate,
                                    source := d.source, lastUpdated := now, isActive := true }]
             nextId := w.nextId + 1 }

/-- The record an upsert of the entry `d` leaves for its pair. -/
def upsertedRecord (now : Nat) (w : World) (d : RateData) : Rate :=
  match w.rates.find? (Rate.hasPair d.fromCurrency d.toCurrency) with
  | some found => { found with rate := d.rate, source := d.source, lastUpdated := now }
  | none =>
    { _id := w.nextId, fromCurrency := d.fromCurrency, toCurrency := d.toCurrency,
      rate := d.rate, source := d.source, lastUpdated := now, isActive := true }

/-- An entry the model of the Rate collection accepts: two codes of three letters `A`-`Z`, a
positive rate and one of the three sources. -/
def SavableEntry (d : RateData) : Prop :=
  matchesCurrencyPattern d.fromCurrency = true ∧ matchesCurrencyPattern d.toCurrency = true ∧
    0 < d.rate ∧ d.source ∈ rateModelSourceEnum

/-- Whether `processRow` accepts a row; the row number only enters the messages. -/
def Row.accepted (row : Row) : Bool :=
  match CSVImportService.processRow row 0 with
  | .ok _ => true
  | .error _ => false

/-- The entry of the list `errors` for the row `row` numbered `n`, when `processRow` rejects
it. -/
def rowError (n : Nat) (row : Row) : Option RowError :=
  match CSVImportService.processRow row n with
  | .ok _ => none
  | .error message => some { row := n, error := message, data := row }

/-- The record `processRow` builds from the row `row` numbered `n`, when it accepts it. -/
def rowResult (n : Nat) (row : Row) : Option ProcessedRow :=
  match CSVImportService.processRow row n with
  | .ok p => some p
  | .error _ => none

/-- The pair of an entry of the popular pairs. -/
def PopularPair.pairId (e : PopularPair) : String × String := (e.fromCurrency, e.toCurrency)

/-! ## Fixtures: the setting of `convert.test.js` -/

/-- The mocked collaborators of the test setup: `getRate` is a bare mock returning `undefined`,
the store and the queue accept everything. -/
def testEnv : Env :=
  { getRate := fun _ _ => ProviderOutcome.returned none
    storeWriteError := none
    brokerConnects := true
    sendToQueue := SendOutcome.accepted
    now := 1700000000000 }

/-- A connected store with an empty Conversion collection. -/
def connectedWorld : World :=
  { readyState := 1
    conversions := []
    nextId := 1
    channel := false
    queue := []
    room := []
    providerCalls := [] }

/-- A store that is not connected. -/
def offlineWorld : World := { connectedWorld with readyState := 0 }

/-- The service as wired by `app.js`: the application carries the socket server. -/
def wiredService : ConvertService := { app := some { io := true } }

/-- The service as built in the tests: the mocked application has no socket server. -/
def testService : ConvertService := { app := some { io := false } }

/-- Collaborators as in `testEnv`, except that the write of `save` is refused by the store. -/
def failingStoreEnv : Env := { testEnv with storeWriteError := some "write failed" }

/-- The `params` argument passed by the first conversion test. -/
def testParams : Params :=
  { headers := some [("user-agent", "test-agent"), ("x-forwarded-for", "127.0.0.1")] }

/-- The record left by `remove`: the same document, inactive. -/
def deactivated (x : Rate) : Rate := { x with isActive := false }

/-- The record left by `patch` with the validated body `data` at the instant `now`: the keys
present in the body replace the stored values, `lastUpdated` is renewed, everything else
stays. -/
def applyPatch (data : UpdateRateData) (now : Nat) (x : Rate) : Rate :=
  { x with rate := data.rate.getD x.rate
           source := data.source.getD x.source
           isActive := data.isActive.getD x.isActive
           lastUpdated := now }

/-- A valid body of a rate patch: a rate, when given, is positive and inside the safe integer
range, and a source, when given, is one of the three sources. -/
def ValidPatch (data : UpdateRateData) : Prop :=
  (∀ v, data.rate = some v → 0 < v ∧ v ≤ MAX_SAFE_INTEGER) ∧
    ∀ s, data.source = some s → s ∈ rateModelSourceEnum

/-- The query of `GET /rates` with the given filter keys, `limit` and `skip` being whole
numbers. -/
def ratesQuery (f t s : Option String) (limit skip : Option ℕ) : RatesQuery :=
  { fromCurrency := f, toCurrency := t, source := s,
    limit := limit.map (fun n => (n : ℚ)), skip := skip.map (fun n => (n : ℚ)) }

/-- The query of `GET /convert` with the given filter keys, `limit` and `skip` being whole
numbers. -/
def conversionsQuery (f t : Option String) (startDate endDate : Option Nat)
    (limit skip : Option ℕ) : ConversionsQuery :=
  { fromCurrency := f, toCurrency := t, startDate := startDate, endDate := endDate,
    limit := limit.map (fun n => (n : ℚ)), skip := skip.map (fun n => (n : ℚ)) }

/-- The rate created by the helper `createTestRate` of the test setup. -/
def testRate : Rate :=
  { _id := 1, fromCurrency := "USD", toCurrency := "EUR", rate := 0.85, source := "manual",
    lastUpdated := 1600000000000, isActive := true }

/-- A connected store holding the one rate of `createTestRate`. -/
def oneRateWorld : World := { connectedWorld with rates := [testRate], nextId := 2 }

/-- A connected store whose one rate was soft-deleted. -/
def softDeletedWorld : World :=
  { connectedWorld with rates := [{ testRate with isActive := false }], nextId := 2 }

/-- The three rates of the filter test, in the order of their creation. -/
def threeRatesWorld : World :=
  { connectedWorld with
    rates := [testRate,
              { testRate with _id := 2, toCurrency := "GBP", lastUpdated := 1600000000001 },
              { testRate with _id := 3, fromCurrency := "EUR", toCurrency := "USD",
                              lastUpdated := 1600000000002 }]
    nextId := 4 }

/-- A logged conversion as created by the helper `createTestConversion` of the test setup. -/
def testConversion (oid : Nat) (f t : String) (a c : ℚ) (date : Nat) : Conversion :=
  { _id := oid, fromCurrency := f, toCurrency := t, originalAmount := a, convertedAmount := c,
    rate := 0.85, rateSource := "manual", conversionDate := date, userIp := "",
    userAgent := "" }

/-- The three conversions of the history tests, dated on three consecutive days. -/
def historyWorld : World :=
  { connectedWorld with
    conversions := [testConversion 1 "USD" "EUR" 100 85 1704067200000,
                    testConversion 2 "USD" "GBP" 200 150 1704153600000,
                    testConversion 3 "EUR" "USD" 50 60 1704240000000]
    nextId := 4 }

/-- Two providers answering a few fixed pairs: the crypto provider prices `BTC` in `ETH` and
in `USD`, the fiat provider prices `USD` in `EUR` and `EUR` in `JPY`. -/
def testProviders : Providers :=
  { getCryptoRates := fun f t =>
      if f = "BTC" ∧ t = "ETH" then some 15
      else if f = "BTC" ∧ t = "USD" then some 45000
      else none
    getFiatRates := fun f t =>
      if f = "USD" ∧ t = "EUR" then some 0.85
      else if f = "EUR" ∧ t = "JPY" then some 160.5
      else none }

/-- Collaborators as in `testEnv`, except that the provider prices every pair at 0.1. -/
def pricedEnv : Env := { testEnv with getRate := fun _ _ => ProviderOutcome.returned (some 0.1) }

/-- The source `getRateForPair` records for a rate obtained from the providers. -/
def providerSource (fromCurrency : String) : String :=
  if ExternalAPIs.isCryptoCurrency fromCurrency then "coingecko" else "openexchangerates"

/-- The key `FROM_TO` under which a bulk snapshot lists the pair `(f, t)`. -/
def snapshotKey (f t : String) : String := f ++ "_" ++ t

/-- The bulk snapshot listing the given pairs with their rates, in order. -/
def snapshotOf (entries : List (String × String × ℚ)) : List (String × ℚ) :=
  entries.map (fun e => (snapshotKey e.1 e.2.1, e.2.2))

/-- The body `create` receives for the entry `(pair, rate)` of a snapshot of `source`. -/
def entryData (source : String) (entry : String × ℚ) : CreateRateData :=
  { fromCurrency := (splitUnderscore entry.1)[0]?, toCurrency := (splitUnderscore entry.1)[1]?,
    rate := some entry.2, source := some source }

/-- Collaborators as in `testEnv`, with two bulk snapshots of well-formed keys. -/
def snapshotEnv : Env :=
  { testEnv with allCryptoRates := [("BTC_USD", 45000)]
                 allFiatRates := [("USD_EUR", 0.85), ("USD_MXN", 18.5)] }

/-- Collaborators as in `snapshotEnv`, the crypto snapshot starting with the four-letter code
`USDT` that `getAllCryptoRates` produces for `tether`. -/
def tetherSnapshotEnv : Env :=
  { testEnv with allCryptoRates := [("USDT_USD", 1), ("BTC_USD", 45000)]
                 allFiatRates := [("USD_EUR", 0.85)] }

/-- A row of a CSV file with a cell under each of the four headers. -/
def csvRow (f t r s : String) : Row :=
  { fromCurrency := some f, toCurrency := some t, rate := some r, source := some s }

/-- A file of six rows: five rows of the template of `getCSVTemplate` and, in fifth place, a
row whose first code has two letters. -/
def sampleRows : List Row :=
  [csvRow "USD" "EUR" "0.85" "manual", csvRow "EUR" "USD" "1.18" "manual",
   csvRow "USD" "MXN" "18.50" "manual", csvRow "BTC" "USD" "45000" "coingecko",
   csvRow "US" "EUR" "0.9" "manual", csvRow "EUR" "JPY" "160.50" "openexchangerates"]

/-- Collaborators as in `testEnv`, except that the provider throws. -/
def throwingEnv : Env := { testEnv with getRate := fun _ _ => ProviderOutcome.threw }

/-- A log of four conversions: three on 1 January 2024 (the first at 00:00:00.000Z, the third
at 23:59:59.999Z) and one at 00:00:00.000Z of the next day. -/
def reportWorld : World :=
  { connectedWorld with
    conversions := [testConversion 1 "USD" "EUR" 100 85 1704067200000,
                    testConversion 2 "USD" "EUR" 200 170 1704100000000,
                    { testConversion 3 "EUR" "USD" 50 59 1704153599999 with rate := 1.18 },
                    { testConversion 4 "USD" "GBP" 10 7.9 1704153600000 with rate := 0.79 }]
    nextId := 5 }

/-! ## Lemmas on codes and rounding -/

theorem char_upper_range (c : Char) (h1 : 'A' ≤ c) (h2 : c ≤ 'Z') :
    upperCaseOf c = [c] ∧ isWhiteSpace c = false := by
  have h1' : 65 ≤ c.toNat := h1
  have h2' : c.toNat ≤ 90 := h2
  have hc : c = Char.ofNat c.toNat := (Char.ofNat_toNat c).symm
  generalize c.toNat = n at h1' h2' hc
  subst hc
  interval_cases n <;> decide

theorem pattern_data (s : String) (h : matchesCurrencyPattern s = true) :
    ∃ a b c : Char, s.data = [a, b, c] ∧ ('A' ≤ a ∧ a ≤ 'Z') ∧ ('A' ≤ b ∧ b ≤ 'Z') ∧ ('A' ≤ c ∧ c ≤ 'Z') := by
  unfold matchesCurrencyPattern at h
  rw [Bool.and_eq_true] at h
  obtain ⟨hl, ha⟩ := h
  match hs : s.data, hl, ha with
  | [a, b, c], _, ha =>
    simp only [List.all_cons, List.all_nil, Bool.and_true, Bool.and_eq_true, decide_eq_true_eq] at ha
    exact ⟨a, b, c, rfl, ha.1, ha.2.1, ha.2.2⟩
  | [], hl, _ => simp at hl
  | [_], hl, _ => simp at hl
  | [_, _], hl, _ => simp at hl
  | _ :: _ :: _ :: _ :: _, hl, _ => simp at hl

theorem toUpperCase_of_pattern (s : String) (h : matchesCurrencyPattern s = true) :
    toUpperCase s = s := by
  obtain ⟨a, b, c, hs, ha, hb, hc⟩ := pattern_data s h
  unfold toUpperCase
  rw [hs]
  simp only [List.flatMap_cons, List.flatMap_nil, (char_upper_range a ha.1 ha.2).1,
    (char_upper_range b hb.1 hb.2).1, (char_upper_range c hc.1 hc.2).1, List.cons_append,
    List.nil_append]
  rw [← hs]

theorem trim_of_pattern (s : String) (h : matchesCurrencyPattern s = true) :
    trim s = s := by
  obtain ⟨a, b, c, hs, ha, hb, hc⟩ := pattern_data s h
  unfold trim
  rw [hs]
  simp [List.dropWhile, (char_upper_range a ha.1 ha.2).2,
    (char_upper_range b hb.1 hb.2).2, (char_upper_range c hc.1 hc.2).2]
  rw [← hs]

theorem ne_empty_of_pattern (s : String) (h : matchesCurrencyPattern s = true) : s ≠ "" := by
  intro he
  rw [he] at h
  revert h
  decide

theorem toFixed2_of_nonneg (x : ℚ) (h : 0 ≤ x) : toFixed2 x = roundHalfUp2 x := by
  unfold toFixed2 roundHalfUp2
  rw [if_neg (not_lt.mpr h)]

theorem roundHalfUp2_nonneg (x : ℚ) (h : 0 ≤ x) : 0 ≤ roundHalfUp2 x := by
  unfold roundHalfUp2
  apply div_nonneg _ (by norm_num)
  have : (0 : ℤ) ≤ ⌊x * 100 + 1 / 2⌋ := Int.floor_nonneg.mpr (by positivity)
  exact_mod_cast this

theorem atMostTwoDecimals_iff (v : ℚ) : atMostTwoDecimals v = true ↔ ∃ n : ℤ, v = (n : ℚ) / 100 := by
  unfold atMostTwoDecimals
  rw [beq_iff_eq]
  constructor
  · intro h
    refine ⟨(v * 100).num, ?_⟩
    have := Rat.num_div_den (v * 100)
    rw [h] at this
    simp only [Nat.cast_one, div_one] at this
    rw [this]
    ring
  · rintro ⟨n, rfl⟩
    have : (n : ℚ) / 100 * 100 = (n : ℚ) := by ring
    rw [this]
    exact Rat.den_intCast n

theorem roundHalfUp2_close (x : ℚ) :
    atMostTwoDecimals (roundHalfUp2 x) = true ∧
      x - 1 / 200 < roundHalfUp2 x ∧ roundHalfUp2 x ≤ x + 1 / 200 := by
  refine ⟨(atMostTwoDecimals_iff _).mpr ⟨_, rfl⟩, ?_, ?_⟩
  · unfold roundHalfUp2
    have := Int.lt_floor_add_one (x * 100 + 1 / 2)
    rw [lt_div_iff₀ (by norm_num)]
    linarith
  · unfold roundHalfUp2
    have := Int.floor_le (x * 100 + 1 / 2)
    rw [div_le_iff₀ (by norm_num)]
    linarith

theorem roundHalfUp2_unique (x r : ℚ) (h2 : atMostTwoDecimals r = true)
    (hlo : x - 1 / 200 < r) (hhi : r ≤ x + 1 / 200) : r = roundHalfUp2 x := by
  obtain ⟨n, rfl⟩ := (atMostTwoDecimals_iff r).mp h2
  unfold roundHalfUp2
  congr 1
  norm_cast
  symm
  rw [Int.floor_eq_iff]
  rw [lt_div_iff₀ (by norm_num)] at hlo
  rw [div_le_iff₀ (by norm_num)] at hhi
  constructor <;> linarith

theorem mathRound_fix (a : ℚ) (h : atMostTwoDecimals a = true) : mathRound (a * 100) / 100 = a := by
  obtain ⟨n, rfl⟩ := (atMostTwoDecimals_iff a).mp h
  unfold mathRound
  have : (n : ℚ) / 100 * 100 + 1 / 2 = (n : ℚ) + 1 / 2 := by ring
  rw [this]
  have : ⌊(n : ℚ) + 1 / 2⌋ = n := by
    rw [Int.floor_eq_iff]
    constructor <;> linarith
  rw [this]

theorem atMostTwoDecimals_mathRound (v : ℚ) : atMostTwoDecimals (mathRound (v * 100) / 100) = true :=
  (atMostTwoDecimals_iff _).mpr ⟨_, rfl⟩

/-! ## Lemmas on the rounding to a double -/

theorem pow2_pos (e : ℤ) : 0 < pow2 e := by
  unfold pow2
  split_ifs <;> positivity

theorem ulp_pos (x : ℚ) : 0 < ulp x := pow2_pos _

theorem roundHalfEven_nonneg (x : ℚ) (h : 0 ≤ x) : 0 ≤ roundHalfEven x := by
  have h0 : 0 ≤ ⌊x⌋ := Int.floor_nonneg.mpr h
  unfold roundHalfEven
  split_ifs <;> omega

theorem toDouble_nonneg (x : ℚ) (h : 0 ≤ x) : 0 ≤ toDouble x := by
  unfold toDouble
  split_ifs
  · exact le_refl 0
  · have h1 : 0 ≤ roundHalfEven (x / ulp x) :=
      roundHalfEven_nonneg _ (div_nonneg h (ulp_pos x).le)
    have h2 : (0 : ℚ) ≤ (roundHalfEven (x / ulp x) : ℚ) := by exact_mod_cast h1
    exact mul_nonneg h2 (ulp_pos x).le

theorem mulDouble_nonneg (a b : ℚ) (ha : 0 ≤ a) (hb : 0 ≤ b) : 0 ≤ mulDouble a b :=
  toDouble_nonneg _ (mul_nonneg (toDouble_nonneg a ha) (toDouble_nonneg b hb))

theorem log2Aux_spec (fuel n : ℕ) (hn : 0 < n) (hf : n ≤ fuel) :
    2 ^ log2Aux fuel n ≤ n ∧ n < 2 ^ (log2Aux fuel n + 1) := by
  induction fuel generalizing n with
  | zero => omega
  | succ fuel ih =>
    unfold log2Aux
    by_cases h2 : n < 2
    · rw [if_pos h2]
      constructor
      · simpa using hn
      · simpa using h2
    · rw [if_neg h2]
      obtain ⟨h3, h4⟩ := ih (n / 2) (by omega) (by omega)
      constructor
      · rw [pow_succ]
        omega
      · rw [pow_succ]
        omega

/-- The position of the leading binary digit. -/
theorem log2_spec (n : ℕ) (hn : 0 < n) : 2 ^ log2 n ≤ n ∧ n < 2 ^ (log2 n + 1) :=
  log2Aux_spec n n hn (le_refl n)

theorem pow2_eq_zpow (e : ℤ) : pow2 e = (2 : ℚ) ^ e := by
  unfold pow2
  by_cases h : 0 ≤ e
  · rw [if_pos h]
    obtain ⟨k, rfl⟩ := Int.eq_ofNat_of_zero_le h
    simp
  · rw [if_neg h]
    obtain ⟨k, hk⟩ := Int.exists_eq_neg_ofNat (by omega : e ≤ 0)
    subst hk
    simp

/-- The binary exponent of a number other than zero brackets its magnitude. -/
theorem binade_spec (x : ℚ) (hx : x ≠ 0) :
    pow2 (binade x) ≤ |x| ∧ |x| < pow2 (binade x + 1) := by
  have hnum : 0 < x.num.natAbs := Int.natAbs_pos.mpr (Rat.num_ne_zero.mpr hx)
  have hden : 0 < x.den := x.den_pos
  obtain ⟨ha1, ha2⟩ := log2_spec x.num.natAbs hnum
  obtain ⟨hb1, hb2⟩ := log2_spec x.den hden
  have habs : |x| = (x.num.natAbs : ℚ) / (x.den : ℚ) := by
    conv_lhs => rw [← Rat.num_div_den x]
    rw [abs_div, Nat.abs_cast, Nat.cast_natAbs, Int.cast_abs]
  have hdq : (0 : ℚ) < (x.den : ℚ) := by exact_mod_cast hden
  have ha1q : ((2 : ℚ) ^ log2 x.num.natAbs) ≤ (x.num.natAbs : ℚ) := by exact_mod_cast ha1
  have ha2q : (x.num.natAbs : ℚ) < (2 : ℚ) ^ (log2 x.num.natAbs + 1) := by exact_mod_cast ha2
  have hb1q : ((2 : ℚ) ^ log2 x.den) ≤ (x.den : ℚ) := by exact_mod_cast hb1
  have hb2q : (x.den : ℚ) < (2 : ℚ) ^ (log2 x.den + 1) := by exact_mod_cast hb2
  have hpa : (0 : ℚ) < (2 : ℚ) ^ log2 x.num.natAbs := by positivity
  have hpb : (0 : ℚ) < (2 : ℚ) ^ log2 x.den := by positivity
  have hz : ∀ k : ℤ, (2 : ℚ) ^ ((log2 x.num.natAbs : ℤ) - (log2 x.den : ℤ) + k) =
      (2 : ℚ) ^ log2 x.num.natAbs / (2 : ℚ) ^ log2 x.den * (2 : ℚ) ^ k := by
    intro k
    rw [zpow_add₀ (by norm_num), zpow_sub₀ (by norm_num), zpow_natCast, zpow_natCast]
  have hup : |x| < (2 : ℚ) ^ ((log2 x.num.natAbs : ℤ) - (log2 x.den : ℤ) + 1) := by
    rw [hz 1, habs, div_lt_iff₀ hdq]
    have : (2 : ℚ) ^ log2 x.num.natAbs / (2 : ℚ) ^ log2 x.den * (2 : ℚ) ^ (1 : ℤ) * (x.den : ℚ) =
        (2 : ℚ) ^ (log2 x.num.natAbs + 1) * ((x.den : ℚ) / (2 : ℚ) ^ log2 x.den) := by
      rw [pow_succ]
      field_simp
    rw [this]
    have h1 : (1 : ℚ) ≤ (x.den : ℚ) / (2 : ℚ) ^ log2 x.den := by
      rw [le_div_iff₀ hpb]
      linarith
    calc (x.num.natAbs : ℚ) < (2 : ℚ) ^ (log2 x.num.natAbs + 1) := ha2q
      _ = (2 : ℚ) ^ (log2 x.num.natAbs + 1) * 1 := (mul_one _).symm
      _ ≤ _ := by
        apply mul_le_mul_of_nonneg_left h1
        positivity
  have hlow : (2 : ℚ) ^ ((log2 x.num.natAbs : ℤ) - (log2 x.den : ℤ) + (-1)) ≤ |x| := by
    rw [hz (-1), habs, le_div_iff₀ hdq]
    have : (2 : ℚ) ^ log2 x.num.natAbs / (2 : ℚ) ^ log2 x.den * (2 : ℚ) ^ (-1 : ℤ) * (x.den : ℚ) =
        (2 : ℚ) ^ log2 x.num.natAbs * ((x.den : ℚ) / (2 : ℚ) ^ (log2 x.den + 1)) := by
      rw [pow_succ]
      field_simp
    rw [this]
    have h1 : (x.den : ℚ) / (2 : ℚ) ^ (log2 x.den + 1) ≤ 1 := by
      rw [div_le_one (by positivity)]
      exact hb2q.le
    calc (2 : ℚ) ^ log2 x.num.natAbs * ((x.den : ℚ) / (2 : ℚ) ^ (log2 x.den + 1))
        ≤ (2 : ℚ) ^ log2 x.num.natAbs * 1 := by
          apply mul_le_mul_of_nonneg_left h1
          positivity
      _ = (2 : ℚ) ^ log2 x.num.natAbs := mul_one _
      _ ≤ _ := ha1q
  unfold binade
  by_cases h : pow2 ((log2 x.num.natAbs : ℤ) - (log2 x.den : ℤ)) ≤ |x|
  · rw [if_pos h]
    exact ⟨h, by rw [pow2_eq_zpow]; exact hup⟩
  · rw [if_neg h]
    constructor
    · rw [pow2_eq_zpow]
      have : (log2 x.num.natAbs : ℤ) - (log2 x.den : ℤ) - 1 =
          (log2 x.num.natAbs : ℤ) - (log2 x.den : ℤ) + (-1) := by ring
      rw [this]
      exact hlow
    · have : (log2 x.num.natAbs : ℤ) - (log2 x.den : ℤ) - 1 + 1 =
          (log2 x.num.natAbs : ℤ) - (log2 x.den : ℤ) := by ring
      rw [this]
      exact lt_of_not_le h

theorem roundHalfEven_close (x : ℚ) : |(roundHalfEven x : ℚ) - x| ≤ 1 / 2 := by
  have h1 : (⌊x⌋ : ℚ) ≤ x := Int.floor_le x
  have h2 : x < (⌊x⌋ : ℚ) + 1 := Int.lt_floor_add_one x
  unfold roundHalfEven
  rw [abs_le]
  split_ifs with ha hb hc
  · constructor <;> linarith
  · push_cast
    constructor <;> linarith
  · constructor <;> linarith
  · push_cast
    constructor <;> linarith

/-- The double for `x` is a whole multiple of the spacing around `x`, within half a spacing of
`x`, and its significand has at most 53 binary digits. -/
theorem toDouble_spec (x : ℚ) :
    (∃ m : ℤ, toDouble x = (m : ℚ) * ulp x ∧ |(m : ℚ)| ≤ 9007199254740992) ∧
    |toDouble x - x| ≤ ulp x / 2 := by
  have hu := ulp_pos x
  by_cases hx : x = 0
  · subst hx
    refine ⟨⟨0, by simp [toDouble], by norm_num⟩, ?_⟩
    simp only [toDouble, if_pos, sub_zero, abs_zero]
    positivity
  · have hclose := roundHalfEven_close (x / ulp x)
    have hd : toDouble x = (roundHalfEven (x / ulp x) : ℚ) * ulp x := by
      unfold toDouble
      rw [if_neg hx]
    constructor
    · refine ⟨roundHalfEven (x / ulp x), hd, ?_⟩
      obtain ⟨_, hb⟩ := binade_spec x hx
      have hq : |x / ulp x| < 9007199254740992 := by
        rw [abs_div, abs_of_pos hu, div_lt_iff₀ hu]
        have hle : pow2 (binade x + 1) ≤ 9007199254740992 * ulp x := by
          unfold ulp
          rw [pow2_eq_zpow, pow2_eq_zpow]
          have h53 : (9007199254740992 : ℚ) = (2 : ℚ) ^ (53 : ℤ) := by norm_num
          rw [h53, ← zpow_add₀ (by norm_num)]
          apply zpow_le_zpow_right₀ (by norm_num)
          have := le_max_left (binade x) (-1022)
          omega
        exact lt_of_lt_of_le hb hle
      have hint : |roundHalfEven (x / ulp x)| ≤ 9007199254740992 := by
        rw [abs_lt] at hq
        rw [abs_le] at hclose
        rw [abs_le]
        constructor
        · have : ((-9007199254740992 - 1 : ℤ) : ℚ) < (roundHalfEven (x / ulp x) : ℚ) := by
            push_cast
            linarith [hclose.1, hq.1]
          have := Int.cast_lt.mp this
          omega
        · have : (roundHalfEven (x / ulp x) : ℚ) < ((9007199254740992 + 1 : ℤ) : ℚ) := by
            push_cast
            linarith [hclose.2, hq.2]
          have := Int.cast_lt.mp this
          omega
      have : |((roundHalfEven (x / ulp x) : ℤ) : ℚ)| ≤ ((9007199254740992 : ℤ) : ℚ) := by
        rw [← Int.cast_abs]
        exact_mod_cast hint
      simpa using this
    · rw [hd]
      have h : (roundHalfEven (x / ulp x) : ℚ) * ulp x - x =
          ((roundHalfEven (x / ulp x) : ℚ) - x / ulp x) * ulp x := by
        field_simp
      rw [h, abs_mul, abs_of_pos hu]
      calc |(roundHalfEven (x / ulp x) : ℚ) - x / ulp x| * ulp x ≤ 1 / 2 * ulp x :=
            mul_le_mul_of_nonneg_right hclose hu.le
        _ = ulp x / 2 := by ring

/-- The host functions at some inputs outside the plain cases: the long s and a ligature in
upper case, the Kelvin sign in lower case, numerals too small and too large for a double, a
no-break space before a numeral, and the double product of 0.5 and 0.85. -/
theorem host_functions_examples :
    toUpperCase "u\u017fd" = "USD" ∧ toUpperCase "\ufb03" = "FFI" ∧
    toLowerCase "coingec\u212ao" = "coingecko" ∧
    parseFloat "1e-400" = .finite 0 ∧ parseFloat "1e999" = .Infinity ∧
    parseFloat "\u00a00.85" = .finite 0.85 ∧ parseFloat "0.85abc" = .finite 0.85 ∧
    trim "\u00a0USD\u2003" = "USD" ∧
    toDouble 0.85 = 7656119366529843 / 9007199254740992 ∧
    mulDouble 0.5 0.85 = 7656119366529843 / 18014398509481984 ∧
    mulDouble 100.75 0.85 = 6026203329514701 / 70368744177664 := by
  decide!

/-! ## Lemmas on validation and on the rate chosen -/

theorem orNum_self (x : ℚ) : orNum (some x) x = x := by
  simp only [orNum]
  split_ifs <;> rfl

theorem orStr_self (s : String) : orStr (some s) s = s := by
  simp only [orStr]
  split_ifs <;> rfl

theorem currencyCodeSchema_ok (label s : String) (h : matchesCurrencyPattern s = true) :
    currencyCodeSchema label (some s) = .ok s := by
  simp only [currencyCodeSchema]
  rw [if_neg (ne_empty_of_pattern s h), if_pos h]

theorem amountSchema_ok (label : String) (a : ℚ) (hpos : 0 < a)
    (h2 : atMostTwoDecimals a = true) (hsafe : a ≤ MAX_SAFE_INTEGER) :
    amountSchema label (some a) = .ok a := by
  have hneg : ¬ (a > MAX_SAFE_INTEGER ∨ a < -MAX_SAFE_INTEGER) := by
    have : (0 : ℚ) < MAX_SAFE_INTEGER := by unfold MAX_SAFE_INTEGER; norm_num
    rintro (h | h) <;> linarith
  simp only [amountSchema, mathRound_fix a h2]
  rw [if_neg hneg, if_neg (not_not.mpr hpos), if_neg (by simp [h2])]

theorem validate_ok (f t : String) (a : ℚ) (hv : ValidRequest f t a) :
    convertSchema.validate (request f t a) = .ok { from_ := f, to_ := t, amount := a } := by
  obtain ⟨hf, ht, hpos, h2, hsafe⟩ := hv
  unfold convertSchema.validate request
  simp only [currencyCodeSchema_ok _ f hf, currencyCodeSchema_ok _ t ht,
    amountSchema_ok _ a hpos h2 hsafe]

theorem chooseRate_cases (env : Env) (f t : String) :
    ∃ rate, ConvertService.chooseRate env f t = some rate ∧ rate.rate ≠ 0 ∧
      ((rate.source = "demo" ∧ rate.rate = 0.85) ∨
        (rate.source = "external" ∧ env.getRate f t = .returned (some rate.rate))) := by
  unfold ConvertService.chooseRate
  cases h : env.getRate f t with
  | threw => exact ⟨_, rfl, by norm_num, Or.inl ⟨rfl, rfl⟩⟩
  | returned v =>
    cases v with
    | none => exact ⟨_, rfl, by norm_num, Or.inl ⟨rfl, rfl⟩⟩
    | some x =>
      by_cases hx : x = 0
      · simp only [hx, ne_eq, not_true_eq_false, if_false]
        exact ⟨_, rfl, by norm_num, Or.inl ⟨rfl, rfl⟩⟩
      · simp only [ne_eq, hx, not_false_eq_true, if_true]
        exact ⟨_, rfl, hx, Or.inr ⟨rfl, rfl⟩⟩

theorem notifyAndReturn_fst_none (self : ConvertService) (env : Env) (w : World)
    (f t : String) (a : ℚ) (rate : RateInfo) (hf : matchesCurrencyPattern f = true)
    (ht : matchesCurrencyPattern t = true) :
    (ConvertService.notifyAndReturn self env w none { from_ := f, to_ := t, amount := a } rate a
      (toFixed2 (mulDouble a rate.rate))).1 = .ok (expectedResult env f t a rate) := by
  simp [ConvertService.notifyAndReturn, expectedResult, orStr, orNum,
    toUpperCase_of_pattern f hf, toUpperCase_of_pattern t ht]

/-! ## Lemmas on `create` -/

theorem conversion_new_eq (env : Env) (w : World) (f t : String) (a : ℚ) (rate : RateInfo)
    (p : Params) (hf : matchesCurrencyPattern f = true) (ht : matchesCurrencyPattern t = true) :
    Conversion.new w.nextId env.now (toUpperCase f) (toUpperCase t) a (toFixed2 (mulDouble a rate.rate))
      rate.rate rate.source
      (orStr (p.header "x-forwarded-for") (orStr (p.header "x-real-ip") "unknown"))
      (orStr (p.header "user-agent") "unknown") = savedConversion env w f t a rate p := by
  simp only [Conversion.new, savedConversion, toUpperCase_of_pattern f hf,
    toUpperCase_of_pattern t ht, trim_of_pattern f hf, trim_of_pattern t ht]

theorem toFixed2_nonneg (x : ℚ) (h : 0 ≤ x) : 0 ≤ toFixed2 x := by
  rw [toFixed2_of_nonneg x h]
  exact roundHalfUp2_nonneg x h

theorem savedConversion_valid (env : Env) (w : World) (f t : String) (a : ℚ) (rate : RateInfo)
    (p : Params) (hv : ValidRequest f t a) (hr : 0 ≤ rate.rate)
    (hs : rate.source = "demo" ∨ rate.source = "external") :
    (savedConversion env w f t a rate p).valid = true := by
  obtain ⟨hf, ht, hpos, _, _⟩ := hv
  have h1 := ne_empty_of_pattern f hf
  have h2 := ne_empty_of_pattern t ht
  have h3 : 0 ≤ toFixed2 (mulDouble a rate.rate) := toFixed2_nonneg _ (mulDouble_nonneg _ _ hpos.le hr)
  have h4 : rate.source ∈ rateSourceEnum := by
    rcases hs with hs | hs <;> rw [hs] <;> decide
  simp [Conversion.valid, savedConversion, h1, h2, h3, h4, hpos.le, hr]

theorem create_offline (self : ConvertService) (env : Env) (w : World) (f t : String) (a : ℚ)
    (params : Option Params) (rate : RateInfo) (hv : ValidRequest f t a)
    (hrate : ConvertService.chooseRate env f t = some rate) (hoff : w.readyState ≠ 1) :
    ConvertService.create self env w (request f t a) params =
      ConvertService.notifyAndReturn self env
        { w with providerCalls := w.providerCalls ++ [(f, t)] } none
        { from_ := f, to_ := t, amount := a } rate a (toFixed2 (mulDouble a rate.rate)) := by
  unfold ConvertService.create
  rw [validate_ok f t a hv]
  simp only [hrate, hoff, if_false]

theorem create_without_params (self : ConvertService) (env : Env) (w : World) (f t : String)
    (a : ℚ) (hv : ValidRequest f t a) (hon : w.readyState = 1) :
    ConvertService.create self env w (request f t a) none =
      (.error (performingError headersTypeError),
        { w with providerCalls := w.providerCalls ++ [(f, t)] }) := by
  obtain ⟨rate, hrate, _, _⟩ := chooseRate_cases env f t
  unfold ConvertService.create
  rw [validate_ok f t a hv]
  simp only [hrate, hon, if_true]

theorem create_connected (self : ConvertService) (env : Env) (w : World) (f t : String) (a : ℚ)
    (p : Params) (rate : RateInfo) (hv : ValidRequest f t a)
    (hrate : ConvertService.chooseRate env f t = some rate) (hon : w.readyState = 1) :
    ConvertService.create self env w (request f t a) (some p) =
      match Conversion.save env
          { w with providerCalls := w.providerCalls ++ [(f, t)], nextId := w.nextId + 1 }
          (savedConversion env w f t a rate p) with
      | .error message =>
        (.error (performingError message),
          { w with providerCalls := w.providerCalls ++ [(f, t)], nextId := w.nextId + 1 })
      | .ok w3 =>
        ConvertService.notifyAndReturn self env w3 (some (savedConversion env w f t a rate p))
          { from_ := f, to_ := t, amount := a } rate a (toFixed2 (mulDouble a rate.rate)) := by
  unfold ConvertService.create
  rw [validate_ok f t a hv]
  simp only [hrate, hon, if_true]
  rw [conversion_new_eq env w f t a rate p hv.1 hv.2.1]

theorem notifyAndReturn_fst_some (self : ConvertService) (env : Env) (w w0 : World)
    (f t : String) (a : ℚ) (rate : RateInfo) (p : Params)
    (hf : matchesCurrencyPattern f = true) (ht : matchesCurrencyPattern t = true) :
    (ConvertService.notifyAndReturn self env w (some (savedConversion env w0 f t a rate p))
      { from_ := f, to_ := t, amount := a } rate a (toFixed2 (mulDouble a rate.rate))).1 =
      .ok (expectedResult env f t a rate) := by
  simp [ConvertService.notifyAndReturn, expectedResult, savedConversion, orStr, orNum,
    ne_empty_of_pattern f hf, ne_empty_of_pattern t ht]

theorem create_fst_of_persisting (self : ConvertService) (env : Env) (w : World) (f t : String)
    (a : ℚ) (params : Option Params) (rate : RateInfo) (hv : ValidRequest f t a)
    (hrate : ConvertService.chooseRate env f t = some rate) (hr : 0 ≤ rate.rate)
    (hs : rate.source = "demo" ∨ rate.source = "external")
    (hp : w.readyState = 1 → params ≠ none ∧ env.storeWriteError = none) :
    (ConvertService.create self env w (request f t a) params).1 =
      .ok (expectedResult env f t a rate) := by
  by_cases hon : w.readyState = 1
  · obtain ⟨hpar, hstore⟩ := hp hon
    cases params with
    | none => exact absurd rfl hpar
    | some p =>
      rw [create_connected self env w f t a p rate hv hrate hon]
      simp only [Conversion.save, savedConversion_valid env w f t a rate p hv hr hs, hstore]
      exact notifyAndReturn_fst_some self env _ w f t a rate p hv.1 hv.2.1
  · rw [create_offline self env w f t a params rate hv hrate hon]
    exact notifyAndReturn_fst_none self env _ f t a rate hv.1 hv.2.1

theorem amountSchema_ok_inv (label : String) (a r : ℚ)
    (h : amountSchema label (some a) = .ok r) :
    r = mathRound (a * 100) / 100 ∧ 0 < r ∧ a ≤ MAX_SAFE_INTEGER ∧ -MAX_SAFE_INTEGER ≤ a := by
  simp only [amountSchema] at h
  split_ifs at h with h1 h2 h3
  · injection h with h
    rw [not_or, not_lt, not_lt] at h1
    exact ⟨h.symm, h ▸ h2, h1.1, h1.2⟩

theorem mathRound_le_safe (a : ℚ) (h : a ≤ MAX_SAFE_INTEGER) :
    mathRound (a * 100) / 100 ≤ MAX_SAFE_INTEGER := by
  unfold mathRound
  rw [div_le_iff₀ (by norm_num)]
  have h1 : a * 100 + 1 / 2 < ((900719925474099100 + 1 : ℤ) : ℚ) := by
    unfold MAX_SAFE_INTEGER at h
    push_cast
    linarith
  have h2 : ⌊a * 100 + 1 / 2⌋ < 900719925474099100 + 1 := Int.floor_lt.mpr h1
  have h3 : ⌊a * 100 + 1 / 2⌋ ≤ 900719925474099100 := by omega
  have h4 : ((⌊a * 100 + 1 / 2⌋ : ℤ) : ℚ) ≤ ((900719925474099100 : ℤ) : ℚ) := by exact_mod_cast h3
  unfold MAX_SAFE_INTEGER
  push_cast at h4
  linarith

theorem currencyCodeSchema_ok_inv (label : String) (o : Option String) (s : String)
    (h : currencyCodeSchema label o = .ok s) : o = some s ∧ matchesCurrencyPattern s = true := by
  cases o with
  | none => simp [currencyCodeSchema] at h
  | some x =>
    simp only [currencyCodeSchema] at h
    split_ifs at h with h1 h2
    injection h with h
    subst h
    exact ⟨rfl, h2⟩

theorem validate_ok_inv (data : ConvertData) (v : ConvertValue)
    (h : convertSchema.validate data = .ok v) :
    ValidRequest v.from_ v.to_ v.amount ∧
      convertSchema.validate (request v.from_ v.to_ v.amount) = .ok v := by
  unfold convertSchema.validate at h
  cases hf : currencyCodeSchema "from" data.from_ with
  | error e => rw [hf] at h; simp at h
  | ok f =>
    cases ht : currencyCodeSchema "to" data.to_ with
    | error e => rw [hf, ht] at h; simp at h
    | ok t =>
      cases hamt : data.amount with
      | none => rw [hf, ht, hamt] at h; simp [amountSchema] at h
      | some a =>
        cases ha : amountSchema "amount" (some a) with
        | error e => rw [hf, ht, hamt, ha] at h; simp at h
        | ok r =>
          rw [hf, ht, hamt, ha] at h
          simp only [Except.ok.injEq] at h
          subst h
          obtain ⟨_, hpf⟩ := currencyCodeSchema_ok_inv _ _ _ hf
          obtain ⟨_, hpt⟩ := currencyCodeSchema_ok_inv _ _ _ ht
          obtain ⟨hr, hpos, hsafe, _⟩ := amountSchema_ok_inv _ _ _ ha
          have hv : ValidRequest f t r :=
            ⟨hpf, hpt, hpos, by rw [hr]; exact atMostTwoDecimals_mathRound a,
              by rw [hr]; exact mathRound_le_safe a hsafe⟩
          exact ⟨hv, validate_ok f t r hv⟩

theorem create_of_validate_ok (self : ConvertService) (env : Env) (w : World)
    (data : ConvertData) (params : Option Params) (v : ConvertValue)
    (h : convertSchema.validate data = .ok v) :
    ValidRequest v.from_ v.to_ v.amount ∧
      ConvertService.create self env w data params =
        ConvertService.create self env w (request v.from_ v.to_ v.amount) params := by
  obtain ⟨hv, h2⟩ := validate_ok_inv data v h
  refine ⟨hv, ?_⟩
  unfold ConvertService.create
  rw [h, h2]

theorem create_of_validate_error (self : ConvertService) (env : Env) (w : World)
    (data : ConvertData) (params : Option Params) (e : String)
    (h : convertSchema.validate data = .error e) :
    ConvertService.create self env w data params =
      (.error (performingError ("Validation error: " ++ e)), w) := by
  unfold ConvertService.create
  rw [h]

theorem currencyCodeSchema_error_of_not_code (label : String) (o : Option String)
    (h : isCurrencyCode o = false) : ∃ e, currencyCodeSchema label o = .error e := by
  cases o with
  | none => exact ⟨_, rfl⟩
  | some s =>
    simp only [isCurrencyCode] at h
    simp only [currencyCodeSchema]
    by_cases h1 : s = ""
    · rw [if_pos h1]
      exact ⟨_, rfl⟩
    · rw [if_neg h1, if_neg (by simp [h])]
      exact ⟨_, rfl⟩

theorem currencyCodeSchema_pattern_message (label s : String) (hne : s ≠ "")
    (h : matchesCurrencyPattern s = false) :
    currencyCodeSchema label (some s) =
      .error "Currency code must be 3 uppercase letters (e.g., USD, EUR, BTC)" := by
  simp only [currencyCodeSchema]
  rw [if_neg hne, if_neg (by simp [h])]

theorem currencyCodeSchema_of_code (label : String) (o : Option String)
    (h : isCurrencyCode o = true) : ∃ s, o = some s ∧ currencyCodeSchema label o = .ok s := by
  cases o with
  | none => simp [isCurrencyCode] at h
  | some s => exact ⟨s, rfl, currencyCodeSchema_ok label s h⟩

theorem mathRound_nonpos (a : ℚ) (h : a ≤ 0) : ¬ (mathRound (a * 100) / 100 > 0) := by
  unfold mathRound
  rw [gt_iff_lt, not_lt, div_le_iff₀ (by norm_num), zero_mul]
  have h1 : a * 100 + 1 / 2 < ((0 + 1 : ℤ) : ℚ) := by
    push_cast
    linarith
  have h2 : ⌊a * 100 + 1 / 2⌋ < 0 + 1 := Int.floor_lt.mpr h1
  have h3 : ⌊a * 100 + 1 / 2⌋ ≤ 0 := by omega
  exact_mod_cast h3

theorem amountSchema_error_of_nonpos (label : String) (a : ℚ) (h : a ≤ 0) :
    ∃ e, amountSchema label (some a) = .error e := by
  simp only [amountSchema]
  by_cases h1 : a > MAX_SAFE_INTEGER ∨ a < -MAX_SAFE_INTEGER
  · rw [if_pos h1]
    exact ⟨_, rfl⟩
  · rw [if_neg h1, if_pos (mathRound_nonpos a h)]
    exact ⟨_, rfl⟩

theorem amountSchema_positive_message (label : String) (a : ℚ) (h : a ≤ 0)
    (hsafe : -MAX_SAFE_INTEGER ≤ a) :
    amountSchema label (some a) = .error "Amount must be positive" := by
  have hneg : ¬ (a > MAX_SAFE_INTEGER ∨ a < -MAX_SAFE_INTEGER) := by
    have : (0 : ℚ) < MAX_SAFE_INTEGER := by unfold MAX_SAFE_INTEGER; norm_num
    rintro (h1 | h1) <;> linarith
  simp only [amountSchema]
  rw [if_neg hneg, if_pos (mathRound_nonpos a h)]

theorem validate_error_of_invalid (data : ConvertData)
    (h : isCurrencyCode data.from_ = false ∨ isCurrencyCode data.to_ = false ∨
      ∃ a, data.amount = some a ∧ a ≤ 0) :
    ∃ e, convertSchema.validate data = .error e := by
  unfold convertSchema.validate
  cases hf : currencyCodeSchema "from" data.from_ with
  | error e => exact ⟨e, rfl⟩
  | ok f =>
    cases ht : currencyCodeSchema "to" data.to_ with
    | error e => exact ⟨e, rfl⟩
    | ok t =>
      rcases h with h | h | ⟨a, ha, hle⟩
      · obtain ⟨e, he⟩ := currencyCodeSchema_error_of_not_code "from" _ h
        rw [he] at hf
        cases hf
      · obtain ⟨e, he⟩ := currencyCodeSchema_error_of_not_code "to" _ h
        rw [he] at ht
        cases ht
      · obtain ⟨e, he⟩ := amountSchema_error_of_nonpos "amount" a hle
        rw [ha, he]
        exact ⟨e, rfl⟩

theorem validate_pattern_message (data : ConvertData) (s : String) (hne : s ≠ "")
    (hpat : matchesCurrencyPattern s = false)
    (h : data.from_ = some s ∨ (isCurrencyCode data.from_ = true ∧ data.to_ = some s)) :
    convertSchema.validate data =
      .error "Currency code must be 3 uppercase letters (e.g., USD, EUR, BTC)" := by
  unfold convertSchema.validate
  rcases h with h | ⟨h1, h2⟩
  · rw [h, currencyCodeSchema_pattern_message "from" s hne hpat]
  · obtain ⟨f, _, hf⟩ := currencyCodeSchema_of_code "from" _ h1
    rw [hf, h2, currencyCodeSchema_pattern_message "to" s hne hpat]

theorem validate_positive_message (data : ConvertData) (a : ℚ)
    (hf : isCurrencyCode data.from_ = true) (ht : isCurrencyCode data.to_ = true)
    (ha : data.amount = some a) (hle : a ≤ 0) (hsafe : -MAX_SAFE_INTEGER ≤ a) :
    convertSchema.validate data = .error "Amount must be positive" := by
  unfold convertSchema.validate
  obtain ⟨f, _, hf⟩ := currencyCodeSchema_of_code "from" _ hf
  obtain ⟨t, _, ht⟩ := currencyCodeSchema_of_code "to" _ ht
  rw [hf, ht, ha, amountSchema_positive_message "amount" a hle hsafe]

/-! ## Lemmas on the effects of a call -/

theorem sendMessage_frame (env : Env) (w : World) (m : QueueMessage) :
    (RabbitMQ.sendMessage env w m).2.conversions = w.conversions ∧
    (RabbitMQ.sendMessage env w m).2.room = w.room ∧
    (RabbitMQ.sendMessage env w m).2.readyState = w.readyState ∧
    (RabbitMQ.sendMessage env w m).2.providerCalls = w.providerCalls ∧
    (RabbitMQ.sendMessage env w m).2.nextId = w.nextId := by
  cases hc : w.channel <;> cases hb : env.brokerConnects <;> cases hs : env.sendToQueue <;>
    simp [RabbitMQ.sendMessage, RabbitMQ.connect, hc, hb, hs]

theorem sendMessage_queue (env : Env) (w : World) (m : QueueMessage) :
    (RabbitMQ.sendMessage env w m).2.queue =
      if (RabbitMQ.sendMessage env w m).1 = true then w.queue ++ [m] else w.queue := by
  cases hc : w.channel <;> cases hb : env.brokerConnects <;> cases hs : env.sendToQueue <;>
    simp [RabbitMQ.sendMessage, RabbitMQ.connect, hc, hb, hs]

theorem sendMessage_fst (env : Env) (w : World) (m : QueueMessage) :
    (RabbitMQ.sendMessage env w m).1 =
      (decide (env.sendToQueue = SendOutcome.accepted) && (w.channel || env.brokerConnects)) := by
  cases hc : w.channel <;> cases hb : env.brokerConnects <;> cases hs : env.sendToQueue <;>
    simp [RabbitMQ.sendMessage, RabbitMQ.connect, hc, hb, hs]

theorem notifyAndReturn_conversions (self : ConvertService) (env : Env) (w : World)
    (conversion : Option Conversion) (value : ConvertValue) (rate : RateInfo) (oa ca : ℚ) :
    (ConvertService.notifyAndReturn self env w conversion value rate oa ca).2.conversions =
      w.conversions := by
  cases conversion <;>
    simp only [ConvertService.notifyAndReturn, RabbitMQ.sendConversionLog] <;>
    split_ifs <;> simp [(sendMessage_frame env w _).1]

theorem notifyAndReturn_queue_none (self : ConvertService) (env : Env) (w : World)
    (value : ConvertValue) (rate : RateInfo) (oa ca : ℚ) :
    (ConvertService.notifyAndReturn self env w none value rate oa ca).2.queue = w.queue := by
  simp only [ConvertService.notifyAndReturn]
  split_ifs <;> rfl

theorem notifyAndReturn_room (self : ConvertService) (env : Env) (w : World)
    (conversion : Option Conversion) (value : ConvertValue) (rate : RateInfo) (oa ca : ℚ) :
    (ConvertService.notifyAndReturn self env w conversion value rate oa ca).2.room =
      if self.app = some { io := true } then
        w.room ++ [ConvertService.wsEvent env conversion value rate oa ca]
      else w.room := by
  obtain ⟨app⟩ := self
  rcases app with _ | ⟨_ | _⟩ <;> cases conversion <;>
    simp [ConvertService.notifyAndReturn, RabbitMQ.sendConversionLog,
      (sendMessage_frame env w _).2.1]

theorem notifyAndReturn_queue_some (self : ConvertService) (env : Env) (w : World)
    (c : Conversion) (value : ConvertValue) (rate : RateInfo) (oa ca : ℚ) :
    (ConvertService.notifyAndReturn self env w (some c) value rate oa ca).2.queue =
      if (RabbitMQ.sendMessage env w (conversionMessage env c)).1 = true then
        w.queue ++ [conversionMessage env c]
      else w.queue := by
  rw [← sendMessage_queue]
  simp only [ConvertService.notifyAndReturn, RabbitMQ.sendConversionLog, conversionMessage]
  split_ifs <;> rfl

theorem notifyAndReturn_isOk (self : ConvertService) (env : Env) (w : World)
    (conversion : Option Conversion) (value : ConvertValue) (rate : RateInfo) (oa ca : ℚ) :
    ∃ r, (ConvertService.notifyAndReturn self env w conversion value rate oa ca).1 = .ok r :=
  ⟨_, rfl⟩

/-- Every call of `create` falls under one of three descriptions: it fails and leaves log,
queue and room as they were; or no document was built and the call ends in the notification
part on a state with the same log, queue and room; or a document was saved and the call ends
in the notification part on a state whose log has gained exactly that document. -/
theorem create_cases (self : ConvertService) (env : Env) (w : World) (data : ConvertData)
    (params : Option Params) :
    (∃ e w', ConvertService.create self env w data params = (.error e, w') ∧
      w'.conversions = w.conversions ∧ w'.queue = w.queue ∧ w'.room = w.room) ∨
    (∃ v rate w1, w.readyState ≠ 1 ∧
      ConvertService.create self env w data params =
        ConvertService.notifyAndReturn self env w1 none v rate v.amount
          (toFixed2 (mulDouble v.amount rate.rate)) ∧
      w1.conversions = w.conversions ∧ w1.queue = w.queue ∧ w1.room = w.room) ∨
    (∃ v rate c w3, w.readyState = 1 ∧
      ConvertService.create self env w data params =
        ConvertService.notifyAndReturn self env w3 (some c) v rate v.amount
          (toFixed2 (mulDouble v.amount rate.rate)) ∧
      w3.conversions = w.conversions ++ [c] ∧ w3.queue = w.queue ∧ w3.room = w.room) := by
  cases hval : convertSchema.validate data with
  | error e =>
    exact Or.inl ⟨_, w, create_of_validate_error self env w data params e hval, rfl, rfl, rfl⟩
  | ok v =>
    obtain ⟨hv, hc⟩ := create_of_validate_ok self env w data params v hval
    obtain ⟨rate, hrate, _, _⟩ := chooseRate_cases env v.from_ v.to_
    rw [hc]
    by_cases hon : w.readyState = 1
    · cases params with
      | none =>
        exact Or.inl ⟨_, _, create_without_params self env w _ _ _ hv hon, rfl, rfl, rfl⟩
      | some p =>
        rw [create_connected self env w _ _ _ p rate hv hrate hon]
        cases hsave : Conversion.save env
            { w with providerCalls := w.providerCalls ++ [(v.from_, v.to_)],
                     nextId := w.nextId + 1 }
            (savedConversion env w v.from_ v.to_ v.amount rate p) with
        | error e => exact Or.inl ⟨_, _, rfl, rfl, rfl, rfl⟩
        | ok w3 =>
          refine Or.inr (Or.inr ⟨v, rate, _, w3, hon, rfl, ?_⟩)
          simp only [Conversion.save] at hsave
          split_ifs at hsave
          split at hsave
          · cases hsave
          · injection hsave with hsave
            subst hsave
            exact ⟨rfl, rfl, rfl⟩
    · exact Or.inr (Or.inl ⟨v, rate, _, hon,
        create_offline self env w _ _ _ params rate hv hrate hon, rfl, rfl, rfl⟩)

/-! ## The convert service: claims C1 to C10 -/

/-- What `create` computes for a valid request (two three-letter codes, a positive amount with
at most two decimals in the safe range), a provider that never answers a negative number, and a
store that, when connected, is given the request metadata and accepts the write: the
`convertedAmount` returned is the double product of the amount and the resolved rate, rounded
half-up to two decimals. -/
theorem create_convertedAmount_double (self : ConvertService) (env : Env) (w : World)
    (f t : String) (a : ℚ) (params : Option Params) (hv : ValidRequest f t a)
    (hnn : ∀ v, env.getRate f t = .returned (some v) → 0 ≤ v)
    (hp : w.readyState = 1 → params ≠ none ∧ env.storeWriteError = none) :
    ∃ r, (ConvertService.create self env w (request f t a) params).1 = .ok r ∧
      ConvertService.chooseRate env f t = some { rate := r.rate, source := r.rateSource } ∧
      r.originalAmount = a ∧ r.convertedAmount = roundHalfUp2 (mulDouble a r.rate) := by
  obtain ⟨rate, hrate, _, hsrc⟩ := chooseRate_cases env f t
  have hr : 0 ≤ rate.rate := by
    rcases hsrc with ⟨_, h⟩ | ⟨_, h⟩
    · rw [h]; norm_num
    · exact hnn _ h
  have hs : rate.source = "demo" ∨ rate.source = "external" := by
    rcases hsrc with ⟨h, _⟩ | ⟨h, _⟩
    · exact Or.inl h
    · exact Or.inr h
  refine ⟨expectedResult env f t a rate, ?_, hrate, rfl, ?_⟩
  · exact create_fst_of_persisting self env w f t a params rate hv hrate hr hs hp
  · exact toFixed2_of_nonneg _ (mulDouble_nonneg _ _ hv.2.2.1.le hr)

/-- C1, where the code departs from the claim. At the call of the decimal-amount test, the valid
request 100.75 from `USD` to `EUR` with the `params` argument omitted and the store connected,
`create` returns no result: it fails on reading `params.headers`, where the claim and the test
expect 85.64. With the request metadata given, the valid amount 0.5 at the demo rate 0.85 gives
0.42: the double product lies just below 0.425, which rounds half-up to 0.43. -/
theorem create_convertedAmount_diverges :
    (ValidRequest "USD" "EUR" 100.75 ∧
      (ConvertService.create testService testEnv connectedWorld (request "USD" "EUR" 100.75)
        none).1 =
        .error "Error performing conversion: Cannot read properties of undefined (reading \x27headers\x27)" ∧
      roundHalfUp2 (100.75 * 0.85) = 85.64) ∧
    (ValidRequest "USD" "EUR" 0.5 ∧
      (ConvertService.create testService testEnv connectedWorld (request "USD" "EUR" 0.5)
        (some testParams)).1 =
        .ok { fromCurrency := "USD", toCurrency := "EUR", originalAmount := 0.5,
              convertedAmount := 0.42, rate := 0.85, rateSource := "demo",
              conversionDate := 1700000000000 } ∧
      mulDouble 0.5 0.85 < 0.425 ∧ roundHalfUp2 (0.5 * 0.85) = 0.43) := by
  decide!

/-- The example of the decimal-amount test: 100.75 at the rate 0.85 gives 85.64. -/
theorem create_example_decimal :
    (ConvertService.create testService testEnv connectedWorld (request "USD" "EUR" 100.75)
        (some testParams)).1 =
      .ok { fromCurrency := "USD", toCurrency := "EUR", originalAmount := 100.75,
            convertedAmount := 85.64, rate := 0.85, rateSource := "demo",
            conversionDate := 1700000000000 } := by
  decide!

/-- The example of the conversion test: 100 at the rate 0.85 gives 85. -/
theorem create_example_whole :
    (ConvertService.create testService testEnv connectedWorld (request "USD" "EUR" 100)
        (some testParams)).1 =
      .ok { fromCurrency := "USD", toCurrency := "EUR", originalAmount := 100,
            convertedAmount := 85, rate := 0.85, rateSource := "demo",
            conversionDate := 1700000000000 } := by
  decide!

/-- C2, at the request of the conversion test: the mocked rate service would yield the stored
manual rate 0.85, yet `create` never consults it and answers with the built-in demo rate. -/
theorem create_ignores_rate_service :
    ∃ r, (ConvertService.create testService testEnv connectedWorld (request "USD" "EUR" 100)
        (some testParams)).1 = .ok r ∧
      r.rate = 0.85 ∧ r.rateSource = "demo" ∧ r.rateSource ≠ "manual" :=
  ⟨{ fromCurrency := "USD", toCurrency := "EUR", originalAmount := 100, convertedAmount := 85,
      rate := 0.85, rateSource := "demo", conversionDate := 1700000000000 },
    by decide!, rfl, rfl, by decide⟩

/-- C3, at a pair no provider prices: `create` does not fail; it converts at the demo rate and
saves a record. -/
theorem create_missing_rate_succeeds :
    testEnv.getRate "USD" "XYZ" = ProviderOutcome.returned none ∧
    (ConvertService.create testService testEnv connectedWorld (request "USD" "XYZ" 100)
        (some testParams)).1 =
      .ok { fromCurrency := "USD", toCurrency := "XYZ", originalAmount := 100,
            convertedAmount := 85, rate := 0.85, rateSource := "demo",
            conversionDate := 1700000000000 } ∧
    (ConvertService.create testService testEnv connectedWorld (request "USD" "XYZ" 100)
        (some testParams)).2.conversions.length = 1 := by
  decide!

/-- C4 (amended). A request in which `from` or `to` is not a code of three letters `A`-`Z`, or
whose amount is zero or negative, makes `create` fail with a message of the form
`Error performing conversion: Validation error: ...` and leaves the whole state as it was (no
provider query, no record, no queue message, no live event). The message is the currency-code
message when the first offending code is a non-empty string, and `Amount must be positive` when
both codes are fine and the amount is non-positive and not below the safe integer range. Every
request with two such codes and a positive amount with at most two decimals that does not exceed
`Number.MAX_SAFE_INTEGER` passes validation unchanged. -/
theorem create_validation (self : ConvertService) (env : Env) (w : World) (data : ConvertData)
    (params : Option Params) :
    ((isCurrencyCode data.from_ = false ∨ isCurrencyCode data.to_ = false ∨
        ∃ a, data.amount = some a ∧ a ≤ 0) →
      ∃ e, ConvertService.create self env w data params =
        (.error (performingError ("Validation error: " ++ e)), w)) ∧
    (∀ s, s ≠ "" → matchesCurrencyPattern s = false →
      (data.from_ = some s ∨ (isCurrencyCode data.from_ = true ∧ data.to_ = some s)) →
      ConvertService.create self env w data params =
        (.error (performingError ("Validation error: " ++
          "Currency code must be 3 uppercase letters (e.g., USD, EUR, BTC)")), w)) ∧
    (∀ a, isCurrencyCode data.from_ = true → isCurrencyCode data.to_ = true →
      data.amount = some a → a ≤ 0 → -MAX_SAFE_INTEGER ≤ a →
      ConvertService.create self env w data params =
        (.error (performingError ("Validation error: " ++ "Amount must be positive")), w)) ∧
    (∀ f t a, data = request f t a → matchesCurrencyPattern f = true →
      matchesCurrencyPattern t = true → 0 < a → atMostTwoDecimals a = true →
      a ≤ MAX_SAFE_INTEGER →
      convertSchema.validate data = .ok { from_ := f, to_ := t, amount := a }) := by
  refine ⟨?_, ?_, ?_, ?_⟩
  · intro h
    obtain ⟨e, he⟩ := validate_error_of_invalid data h
    exact ⟨e, create_of_validate_error self env w data params e he⟩
  · intro s hne hpat h
    exact create_of_validate_error self env w data params _
      (validate_pattern_message data s hne hpat h)
  · intro a hf ht ha hle hsafe
    exact create_of_validate_error self env w data params _
      (validate_positive_message data a hf ht ha hle hsafe)
  · intro f t a hd hf ht hpos h2 hsafe
    rw [hd]
    exact validate_ok f t a ⟨hf, ht, hpos, h2, hsafe⟩

/-- C4, at the requests of the validation tests: the code `US`, the amounts `-100` and `0`, and
the valid request `USD`, `EUR`, `100.50`. -/
theorem create_validation_witness :
    (∃ e, ConvertService.create testService testEnv connectedWorld
        { from_ := some "US", to_ := some "EUR", amount := some 100 } none =
        (.error (performingError ("Validation error: " ++ e)), connectedWorld)) ∧
    ConvertService.create testService testEnv connectedWorld
        { from_ := some "US", to_ := some "EUR", amount := some 100 } none =
      (.error (performingError ("Validation error: " ++
        "Currency code must be 3 uppercase letters (e.g., USD, EUR, BTC)")), connectedWorld) ∧
    ConvertService.create testService testEnv connectedWorld
        { from_ := some "USD", to_ := some "EUR", amount := some (-100) } none =
      (.error (performingError ("Validation error: " ++ "Amount must be positive")),
        connectedWorld) ∧
    convertSchema.validate (request "USD" "EUR" 100.50) =
      .ok { from_ := "USD", to_ := "EUR", amount := 100.50 } :=
  ⟨(create_validation testService testEnv connectedWorld
      { from_ := some "US", to_ := some "EUR", amount := some 100 } none).1
      (Or.inl (by decide)),
   (create_validation testService testEnv connectedWorld
      { from_ := some "US", to_ := some "EUR", amount := some 100 } none).2.1 "US"
      (by decide) (by decide) (Or.inl rfl),
   (create_validation testService testEnv connectedWorld
      { from_ := some "USD", to_ := some "EUR", amount := some (-100) } none).2.2.1 (-100)
      (by decide) (by decide) rfl (by norm_num) (by unfold MAX_SAFE_INTEGER; norm_num),
   (create_validation testService testEnv connectedWorld (request "USD" "EUR" 100.50) none).2.2.2
      "USD" "EUR" 100.50 rfl (by decide) (by decide) (by norm_num) (by decide!)
      (by unfold MAX_SAFE_INTEGER; norm_num)⟩

/-- C4, refuted as stated: a request with two valid codes and the positive whole amount `10^16`
is refused by validation, and an empty code is refused with a message other than the
currency-code message. -/
theorem create_validation_counterexample :
    (matchesCurrencyPattern "USD" = true ∧ matchesCurrencyPattern "EUR" = true ∧
      (0 : ℚ) < 10000000000000000 ∧ atMostTwoDecimals 10000000000000000 = true ∧
      convertSchema.validate (request "USD" "EUR" 10000000000000000) =
        .error "\"amount\" must be a safe number") ∧
    (matchesCurrencyPattern "" = false ∧
      (ConvertService.create testService testEnv connectedWorld
        { from_ := some "", to_ := some "EUR", amount := some 100 } (some testParams)).1 =
        .error "Error performing conversion: Validation error: \"from\" is not allowed to be empty") := by
  decide!

/-- C5, at the amount 100.756: validation accepts the request after replacing the amount by
100.76, and `create` converts the replaced amount. -/
theorem create_rounds_excess_decimals :
    atMostTwoDecimals 100.756 = false ∧
    convertSchema.validate (request "USD" "EUR" 100.756) =
      .ok { from_ := "USD", to_ := "EUR", amount := 100.76 } ∧
    (ConvertService.create testService testEnv connectedWorld (request "USD" "EUR" 100.756)
        (some testParams)).1 =
      .ok { fromCurrency := "USD", toCurrency := "EUR", originalAmount := 100.76,
            convertedAmount := 85.65, rate := 0.85, rateSource := "demo",
            conversionDate := 1700000000000 } := by
  decide!

/-- The precision rule of `amountSchema` never fires: no amount is refused with its message. -/
theorem amountSchema_never_precision_error (label : String) (value : ℚ) :
    amountSchema label (some value) ≠ .error "Amount can have up to 2 decimal places" := by
  simp only [amountSchema]
  by_cases h1 : value > MAX_SAFE_INTEGER ∨ value < -MAX_SAFE_INTEGER
  · rw [if_pos h1]
    intro h
    injection h with h
    have h2 := congrArg (fun s => s.data.head?) h
    simp [String.data_append] at h2
  · rw [if_neg h1]
    by_cases h2 : ¬ (mathRound (value * 100) / 100 > 0)
    · rw [if_pos h2]
      intro h
      injection h with h
      revert h
      decide
    · rw [if_neg h2, if_neg (by simp [atMostTwoDecimals_mathRound])]
      intro h
      cases h

/-- C6, at the call of the storage test: `create` with the `params` argument omitted and the
store connected fails on reading `params.headers`, and no record is saved. -/
theorem create_without_params_fails :
    ValidRequest "USD" "EUR" 100 ∧
    ConvertService.create testService testEnv connectedWorld (request "USD" "EUR" 100) none =
      (.error "Error performing conversion: Cannot read properties of undefined (reading \x27headers\x27)",
        { connectedWorld with providerCalls := [("USD", "EUR")] }) ∧
    (ConvertService.create testService testEnv connectedWorld (request "USD" "EUR" 100)
      none).2.conversions = [] := by
  decide!

/-- C7 (amended). For a valid request with request metadata and a provider that never answers
a negative number: whatever the broker does (no connection, a refused or failing send), `create`
returns the computed result, provided that the store, when connected, accepts the write; when
the store is connected and refuses the write, the failure is rethrown to the caller with the
prefix `Error performing conversion: ` and log, queue and room stay as they were. -/
theorem create_queue_failure_not_propagated (self : ConvertService) (env : Env) (w : World)
    (f t : String) (a : ℚ) (p : Params) (hv : ValidRequest f t a)
    (hnn : ∀ v, env.getRate f t = .returned (some v) → 0 ≤ v) :
    (∃ rate, ConvertService.chooseRate env f t = some rate ∧
      ((w.readyState = 1 → env.storeWriteError = none) →
        ∀ (c : Bool) (s : SendOutcome),
          (ConvertService.create self { env with brokerConnects := c, sendToQueue := s } w
            (request f t a) (some p)).1 = .ok (expectedResult env f t a rate))) ∧
    (w.readyState = 1 → ∀ e, env.storeWriteError = some e →
      ∃ w', ConvertService.create self env w (request f t a) (some p) =
          (.error (performingError e), w') ∧
        w'.conversions = w.conversions ∧ w'.queue = w.queue ∧ w'.room = w.room) := by
  obtain ⟨rate, hrate, _, hsrc⟩ := chooseRate_cases env f t
  have hr : 0 ≤ rate.rate := by
    rcases hsrc with ⟨_, h⟩ | ⟨_, h⟩
    · rw [h]; norm_num
    · exact hnn _ h
  have hs : rate.source = "demo" ∨ rate.source = "external" := by
    rcases hsrc with ⟨h, _⟩ | ⟨h, _⟩
    · exact Or.inl h
    · exact Or.inr h
  constructor
  · refine ⟨rate, hrate, ?_⟩
    intro hstore c s
    exact create_fst_of_persisting self { env with brokerConnects := c, sendToQueue := s } w f t a
      (some p) rate hv hrate hr hs (fun hon => ⟨by simp, hstore hon⟩)
  · intro hon e he
    rw [create_connected self env w f t a p rate hv hrate hon]
    simp only [Conversion.save, savedConversion_valid env w f t a rate p hv hr hs, he]
    exact ⟨_, rfl, rfl, rfl, rfl⟩

/-- C7, at the request of the conversion test: with every broker behaviour the result is
returned, and with a store refusing the write the error reaches the caller. -/
theorem create_queue_failure_not_propagated_witness :
    (∃ rate, ConvertService.chooseRate testEnv "USD" "EUR" = some rate ∧
      ∀ (c : Bool) (s : SendOutcome),
        (ConvertService.create testService { testEnv with brokerConnects := c, sendToQueue := s }
          connectedWorld (request "USD" "EUR" 100) (some testParams)).1 =
          .ok (expectedResult testEnv "USD" "EUR" 100 rate)) ∧
    (∃ w', ConvertService.create testService failingStoreEnv connectedWorld
          (request "USD" "EUR" 100) (some testParams) =
          (.error (performingError "write failed"), w') ∧
        w'.conversions = connectedWorld.conversions ∧ w'.queue = connectedWorld.queue ∧
        w'.room = connectedWorld.room) :=
  ⟨((create_queue_failure_not_propagated testService testEnv connectedWorld "USD" "EUR" 100
        testParams (by decide!) (fun v h => by cases h)).1).imp
      (fun _ h => ⟨h.1, h.2 (fun _ => rfl)⟩),
   (create_queue_failure_not_propagated testService failingStoreEnv connectedWorld "USD" "EUR"
        100 testParams (by decide!) (fun v h => by cases h)).2 rfl "write failed" rfl⟩

/-- C7, refuted as stated: a valid request whose record the connected store refuses to write
makes `create` fail; the persistence failure is propagated. -/
theorem create_store_failure_counterexample :
    ValidRequest "USD" "EUR" 100 ∧
    (ConvertService.create testService failingStoreEnv connectedWorld (request "USD" "EUR" 100)
        (some testParams)).1 = .error "Error performing conversion: write failed" := by
  decide!

/-- C8. For a valid request made while the store is not connected, with or without request
metadata, `create` returns the full result (the uppercased codes, the request amount, the
converted amount, the rate and its source, the current date) and leaves the Conversion log
unchanged; the converted amount is the one every successful call for the same request returns,
connected or not. -/
theorem create_offline_result (self : ConvertService) (env : Env) (w : World) (f t : String)
    (a : ℚ) (params : Option Params) (hv : ValidRequest f t a) (hoff : w.readyState ≠ 1) :
    ∃ rate w', ConvertService.chooseRate env f t = some rate ∧
      ConvertService.create self env w (request f t a) params =
        (.ok { fromCurrency := toUpperCase f
               toCurrency := toUpperCase t
               originalAmount := a
               convertedAmount := toFixed2 (mulDouble a rate.rate)
               rate := rate.rate
               rateSource := rate.source
               conversionDate := env.now }, w') ∧
      w'.conversions = w.conversions ∧
      ∀ (w2 : World) (p : Option Params) (r2 : ConversionResult),
        (ConvertService.create self env w2 (request f t a) p).1 = .ok r2 →
        r2.convertedAmount = toFixed2 (mulDouble a rate.rate) := by
  obtain ⟨rate, hrate, _, _⟩ := chooseRate_cases env f t
  refine ⟨rate, (ConvertService.create self env w (request f t a) params).2, hrate,
    Prod.ext ?_ rfl, ?_, ?_⟩
  · rw [create_offline self env w f t a params rate hv hrate hoff,
      notifyAndReturn_fst_none self env _ f t a rate hv.1 hv.2.1,
      toUpperCase_of_pattern f hv.1, toUpperCase_of_pattern t hv.2.1]
    rfl
  · rw [create_offline self env w f t a params rate hv hrate hoff, notifyAndReturn_conversions]
  · intro w2 p r2 h
    by_cases hon : w2.readyState = 1
    · cases p with
      | none =>
        rw [create_without_params self env w2 f t a hv hon] at h
        cases h
      | some q =>
        rw [create_connected self env w2 f t a q rate hv hrate hon] at h
        split at h
        · cases h
        · rw [notifyAndReturn_fst_some self env _ w2 f t a rate q hv.1 hv.2.1] at h
          injection h with h
          rw [← h]
          rfl
    · rw [create_offline self env w2 f t a p rate hv hrate hon,
        notifyAndReturn_fst_none self env _ f t a rate hv.1 hv.2.1] at h
      injection h with h
      rw [← h]
      rfl

/-- C8, at the request of the decimal-amount test made while the store is not connected. -/
theorem create_offline_result_witness :
    ∃ rate w', ConvertService.chooseRate testEnv "USD" "EUR" = some rate ∧
      ConvertService.create wiredService testEnv offlineWorld (request "USD" "EUR" 100.75) none =
        (.ok { fromCurrency := toUpperCase "USD"
               toCurrency := toUpperCase "EUR"
               originalAmount := 100.75
               convertedAmount := toFixed2 (mulDouble 100.75 rate.rate)
               rate := rate.rate
               rateSource := rate.source
               conversionDate := testEnv.now }, w') ∧
      w'.conversions = offlineWorld.conversions ∧
      ∀ (w2 : World) (p : Option Params) (r2 : ConversionResult),
        (ConvertService.create wiredService testEnv w2 (request "USD" "EUR" 100.75) p).1 =
          .ok r2 →
        r2.convertedAmount = toFixed2 (mulDouble 100.75 rate.rate) :=
  create_offline_result wiredService testEnv offlineWorld "USD" "EUR" 100.75 none (by decide!)
    (by decide)

/-- C9 (amended). The queue message is published only when the Conversion record was persisted:
a call that leaves the log as it was leaves the queue as it was, and a queue that changed has
gained exactly the message of the one record the log gained. The live-subscriber event does not
depend on persistence: every call that returns a result while the application carries a socket
server adds one event to the room, carrying the placeholder id `demo` when no record was saved;
a failing call, or a service without socket server, adds none. -/
theorem create_notifications (self : ConvertService) (env : Env) (w : World)
    (data : ConvertData) (params : Option Params) :
    ((ConvertService.create self env w data params).2.conversions = w.conversions →
      (ConvertService.create self env w data params).2.queue = w.queue) ∧
    ((ConvertService.create self env w data params).2.queue = w.queue ∨
      ∃ c, (ConvertService.create self env w data params).2.conversions = w.conversions ++ [c] ∧
        (ConvertService.create self env w data params).2.queue =
          w.queue ++ [conversionMessage env c]) ∧
    (∀ r, (ConvertService.create self env w data params).1 = .ok r →
      self.app = some { io := true } →
      ∃ ev, (ConvertService.create self env w data params).2.room = w.room ++ [ev] ∧
        ((ConvertService.create self env w data params).2.conversions = w.conversions →
          ev.id = EventId.demo)) ∧
    ((self.app ≠ some { io := true } ∨
        ∃ e, (ConvertService.create self env w data params).1 = .error e) →
      (ConvertService.create self env w data params).2.room = w.room) := by
  rcases create_cases self env w data params with
    ⟨e, w', hc, h1, h2, h3⟩ | ⟨v, rate, w1, _, hc, h1, h2, h3⟩ | ⟨v, rate, c, w3, _, hc, h1, h2, h3⟩
  · rw [hc]
    refine ⟨fun _ => h2, Or.inl h2, ?_, fun _ => h3⟩
    intro r hr
    cases hr
  · rw [hc]
    have hq := notifyAndReturn_queue_none self env w1 v rate v.amount
      (toFixed2 (mulDouble v.amount rate.rate))
    have hroom := notifyAndReturn_room self env w1 none v rate v.amount
      (toFixed2 (mulDouble v.amount rate.rate))
    refine ⟨fun _ => hq.trans h2, Or.inl (hq.trans h2), ?_, ?_⟩
    · intro r _ happ
      rw [hroom, if_pos happ, h3]
      exact ⟨_, rfl, fun _ => rfl⟩
    · rintro (happ | ⟨e, he⟩)
      · rw [hroom, if_neg happ, h3]
      · cases he
  · rw [hc]
    have hconv := notifyAndReturn_conversions self env w3 (some c) v rate v.amount
      (toFixed2 (mulDouble v.amount rate.rate))
    have hq := notifyAndReturn_queue_some self env w3 c v rate v.amount
      (toFixed2 (mulDouble v.amount rate.rate))
    have hroom := notifyAndReturn_room self env w3 (some c) v rate v.amount
      (toFixed2 (mulDouble v.amount rate.rate))
    have hne : w.conversions ++ [c] ≠ w.conversions := by
      intro h
      have := congrArg List.length h
      simp at this
    refine ⟨?_, ?_, ?_, ?_⟩
    · intro h
      rw [hconv, h1] at h
      exact absurd h hne
    · by_cases hsent : (RabbitMQ.sendMessage env w3 (conversionMessage env c)).1 = true
      · right
        refine ⟨c, by rw [hconv, h1], ?_⟩
        rw [hq, if_pos hsent, h2]
      · left
        rw [hq, if_neg hsent, h2]
    · intro r _ happ
      rw [hroom, if_pos happ, h3]
      refine ⟨_, rfl, ?_⟩
      intro h
      rw [hconv, h1] at h
      exact absurd h hne
    · rintro (happ | ⟨e, he⟩)
      · rw [hroom, if_neg happ, h3]
      · cases he

/-- C9, at a valid request made while the store is not connected and at the same request made
through the wired service with the store connected. -/
theorem create_notifications_witness :
    (ConvertService.create wiredService testEnv offlineWorld (request "USD" "EUR" 100)
        none).2.queue = offlineWorld.queue ∧
    (∃ ev, (ConvertService.create wiredService testEnv offlineWorld (request "USD" "EUR" 100)
        none).2.room = offlineWorld.room ++ [ev] ∧ ev.id = EventId.demo) ∧
    (ConvertService.create testService testEnv connectedWorld (request "USD" "EUR" 100)
        (some testParams)).2.room = connectedWorld.room :=
  ⟨(create_notifications wiredService testEnv offlineWorld (request "USD" "EUR" 100) none).1
      (by decide!),
   ((create_notifications wiredService testEnv offlineWorld (request "USD" "EUR" 100)
      none).2.2.1
      { fromCurrency := "USD", toCurrency := "EUR", originalAmount := 100, convertedAmount := 85,
        rate := 0.85, rateSource := "demo", conversionDate := 1700000000000 }
      (by decide!) rfl).imp (fun _ h => ⟨h.1, h.2 (by decide!)⟩),
   (create_notifications testService testEnv connectedWorld (request "USD" "EUR" 100)
      (some testParams)).2.2.2 (Or.inl (by decide))⟩

/-- C9, refuted as stated: for a valid request made while the store is not connected no record
is saved, yet a live event is broadcast to the room. -/
theorem create_live_event_counterexample :
    ValidRequest "USD" "EUR" 100 ∧
    (ConvertService.create wiredService testEnv offlineWorld (request "USD" "EUR" 100)
        none).2.conversions = offlineWorld.conversions ∧
    (ConvertService.create wiredService testEnv offlineWorld (request "USD" "EUR" 100)
        none).2.room =
      [{ id := EventId.demo, fromCurrency := "USD", toCurrency := "EUR", originalAmount := 100,
         convertedAmount := 85, rate := 0.85, rateSource := "demo",
         timestamp := 1700000000000, userIp := "unknown" }] := by
  decide!

/-- C10. For every id, every data and every state, `patch` fails with the message
`PATCH method not allowed for conversions` and leaves the state, the Conversion log included,
as it was. -/
theorem patch_not_allowed {α : Type} (self : ConvertService) (w : World) (id : String)
    (data : α) (params : Option Params) :
    ConvertService.patch self w id data params =
      (.error "PATCH method not allowed for conversions", w) :=
  rfl

/-! ## Lemmas on the Rate collection -/

theorem sendMessage_rates (env : Env) (w : World) (m : QueueMessage) :
    (RabbitMQ.sendMessage env w m).2.rates = w.rates := by
  cases hc : w.channel <;> cases hb : env.brokerConnects <;> cases hs : env.sendToQueue <;>
    simp [RabbitMQ.sendMessage, RabbitMQ.connect, hc, hb, hs]

theorem sendRateUpdateLog_frame (env : Env) (w : World) (d : QueuePayload) :
    (RabbitMQ.sendRateUpdateLog env w d).2.rates = w.rates ∧
    (RabbitMQ.sendRateUpdateLog env w d).2.nextId = w.nextId ∧
    (RabbitMQ.sendRateUpdateLog env w d).2.conversions = w.conversions ∧
    (RabbitMQ.sendRateUpdateLog env w d).2.providerCalls = w.providerCalls ∧
    (RabbitMQ.sendRateUpdateLog env w d).2.readyState = w.readyState :=
  ⟨sendMessage_rates env w _, (sendMessage_frame env w _).2.2.2.2, (sendMessage_frame env w _).1,
    (sendMessage_frame env w _).2.2.2.1, (sendMessage_frame env w _).2.2.1⟩

theorem samePair_comm (a b : Rate) : a.samePair b = b.samePair a := by
  simp only [Rate.samePair]
  rw [Bool.eq_iff_iff]
  simp only [Bool.and_eq_true, decide_eq_true_eq]
  constructor <;> rintro ⟨h1, h2⟩ <;> exact ⟨h1.symm, h2.symm⟩

theorem uniquePairs_eq (rates : List Rate) (h : UniquePairs rates) (a b : Rate)
    (ha : a ∈ rates) (hb : b ∈ rates) (hab : a.samePair b = true) : a = b := by
  by_contra hne
  have hsym : Symmetric (fun a b : Rate => a.samePair b = false) := by
    intro x y hxy
    show y.samePair x = false
    rw [samePair_comm]
    exact hxy
  have := List.Pairwise.forall hsym h ha hb hne
  simp only [] at this
  rw [hab] at this
  cases this

theorem insert_ok_iff (env : Env) (w w' : World) (r : Rate) :
    Rate.insert env w r = .ok w' ↔
      r.valid = true ∧ env.storeWriteError = none ∧
        w.rates.any (fun x => x.samePair r) = false ∧
        w' = { w with rates := w.rates ++ [r] } := by
  unfold Rate.insert
  cases hv : r.valid <;> cases he : env.storeWriteError <;>
    cases ha : w.rates.any (fun x => x.samePair r) <;> simp [eq_comm]

theorem update_ok_iff (env : Env) (w w' : World) (r : Rate) :
    Rate.update env w r = .ok w' ↔
      r.valid = true ∧ env.storeWriteError = none ∧
        w.rates.any (fun x => decide (x._id ≠ r._id) && x.samePair r) = false ∧
        w' = { w with rates := replaceById r w.rates } := by
  unfold Rate.update replaceById
  cases hv : r.valid <;> cases he : env.storeWriteError <;>
    cases ha : w.rates.any (fun x => decide (x._id ≠ r._id) && x.samePair r) <;>
    simp [eq_comm]

theorem replaceById_ids (r : Rate) (rates : List Rate) :
    (replaceById r rates).map (·._id) = rates.map (·._id) := by
  unfold replaceById
  rw [List.map_map]
  apply List.map_congr_left
  intro x _
  simp only [Function.comp]
  split_ifs with h
  · exact h.symm
  · rfl

theorem mem_replaceById (r : Rate) (rates : List Rate) (x : Rate)
    (h : x ∈ replaceById r rates) : x = r ∨ (x ∈ rates ∧ x._id ≠ r._id) := by
  unfold replaceById at h
  rw [List.mem_map] at h
  obtain ⟨y, hy, hxy⟩ := h
  split_ifs at hxy with hid
  · exact Or.inl hxy.symm
  · exact Or.inr ⟨hxy ▸ hy, hxy ▸ hid⟩

theorem wf_frame (w w' : World) (hr : w'.rates = w.rates) (hn : w.nextId ≤ w'.nextId)
    (h : RateStoreWF w) : RateStoreWF w' := by
  obtain ⟨h1, h2, h3, h4⟩ := h
  refine ⟨by rw [hr]; exact h1, by rw [hr]; exact h2, ?_, by rw [hr]; exact h4⟩
  intro r hmem
  rw [hr] at hmem
  exact lt_of_lt_of_le (h3 r hmem) hn

theorem wf_insert (env : Env) (w w' : World) (r : Rate) (h : RateStoreWF w)
    (hid : r._id = w.nextId)
    (hins : Rate.insert env { w with nextId := w.nextId + 1 } r = .ok w') : RateStoreWF w' := by
  obtain ⟨h1, h2, h3, h4⟩ := h
  obtain ⟨hv, _, hany, hw⟩ := (insert_ok_iff env _ w' r).mp hins
  subst hw
  simp only [List.any_eq_false] at hany
  refine ⟨?_, ?_, ?_, ?_⟩
  · show UniquePairs (w.rates ++ [r])
    unfold UniquePairs
    rw [List.pairwise_append]
    refine ⟨h1, List.pairwise_singleton _ _, ?_⟩
    intro a ha b hb
    rw [List.mem_singleton] at hb
    subst hb
    simpa using hany a ha
  · show ((w.rates ++ [r]).map (·._id)).Nodup
    rw [List.map_append, List.nodup_append]
    refine ⟨h2, List.nodup_singleton _, ?_⟩
    intro a ha hb
    simp only [List.map_cons, List.map_nil, List.mem_singleton] at hb
    rw [List.mem_map] at ha
    obtain ⟨x, hx, hxa⟩ := ha
    have := h3 x hx
    omega
  · intro x hx
    show x._id < w.nextId + 1
    change x ∈ w.rates ++ [r] at hx
    rw [List.mem_append, List.mem_singleton] at hx
    rcases hx with hx | hx
    · exact Nat.lt_succ_of_lt (h3 x hx)
    · rw [hx, hid]
      exact Nat.lt_succ_self _
  · intro x hx
    change x ∈ w.rates ++ [r] at hx
    rw [List.mem_append, List.mem_singleton] at hx
    rcases hx with hx | hx
    · exact h4 x hx
    · rw [hx]
      exact hv

theorem wf_update (env : Env) (w w' : World) (r : Rate) (h : RateStoreWF w)
    (hupd : Rate.update env w r = .ok w') : RateStoreWF w' := by
  obtain ⟨h1, h2, h3, h4⟩ := h
  obtain ⟨hv, _, hany, hw⟩ := (update_ok_iff env w w' r).mp hupd
  subst hw
  simp only [List.any_eq_false, Bool.and_eq_true, decide_eq_true_eq, not_and,
    Bool.not_eq_true] at hany
  refine ⟨?_, ?_, ?_, ?_⟩
  · show UniquePairs (replaceById r w.rates)
    unfold UniquePairs replaceById
    rw [List.pairwise_map]
    have h2' : w.rates.Pairwise (fun a b => a._id ≠ b._id) := by
      have := h2
      unfold List.Nodup at this
      rwa [List.pairwise_map] at this
    refine List.Pairwise.imp_of_mem ?_ (h1.and h2')
    intro a b ha hb hab
    obtain ⟨hp, hne⟩ := hab
    by_cases hai : a._id = r._id
    · have hbi : b._id ≠ r._id := fun hbi => hne (hai.trans hbi.symm)
      rw [if_pos hai, if_neg hbi, samePair_comm]
      exact hany b hb hbi
    · by_cases hbi : b._id = r._id
      · rw [if_neg hai, if_pos hbi]
        exact hany a ha hai
      · rw [if_neg hai, if_neg hbi]
        exact hp
  · show ((replaceById r w.rates).map (·._id)).Nodup
    rw [replaceById_ids]
    exact h2
  · intro x hx
    change x ∈ replaceById r w.rates at hx
    have hmem : x._id ∈ (replaceById r w.rates).map (·._id) := List.mem_map_of_mem _ hx
    rw [replaceById_ids, List.mem_map] at hmem
    obtain ⟨y, hy, hyx⟩ := hmem
    rw [← hyx]
    exact h3 y hy
  · intro x hx
    change x ∈ replaceById r w.rates at hx
    rcases mem_replaceById r w.rates x hx with hx | ⟨hx, _⟩
    · rw [hx]
      exact hv
    · exact h4 x hx

theorem create_wf (env : Env) (w : World) (data : CreateRateData) (h : RateStoreWF w) :
    RateStoreWF (RatesService.create env w data).2 := by
  unfold RatesService.create
  cases hval : createRateSchema.validate data with
  | error e => exact h
  | ok value =>
    simp only []
    cases hfind : w.rates.find?
        (Rate.hasPair (toUpperCase value.fromCurrency) (toUpperCase value.toCurrency)) with
    | some found =>
      simp only []
      cases hupd : Rate.update env w
          { found with rate := value.rate, source := value.source, lastUpdated := env.now } with
      | error e => exact h
      | ok w1 =>
        exact wf_frame w1 _ (sendRateUpdateLog_frame env w1 _).1
          (le_of_eq (sendRateUpdateLog_frame env w1 _).2.1.symm) (wf_update env w w1 _ h hupd)
    | none =>
      simp only []
      cases hins : Rate.insert env { w with nextId := w.nextId + 1 }
          (Rate.new w.nextId env.now (toUpperCase value.fromCurrency)
            (toUpperCase value.toCurrency) value.rate value.source) with
      | error e => exact wf_frame w _ rfl (Nat.le_succ _) h
      | ok w1 =>
        exact wf_frame w1 _ (sendRateUpdateLog_frame env w1 _).1
          (le_of_eq (sendRateUpdateLog_frame env w1 _).2.1.symm)
          (wf_insert env w w1 _ h rfl hins)

theorem patch_wf (env : Env) (w : World) (id : Nat) (data : UpdateRateData)
    (h : RateStoreWF w) : RateStoreWF (RatesService.patch env w id data).2 := by
  unfold RatesService.patch
  cases hval : updateRateSchema.validate data with
  | error e => exact h
  | ok value =>
    simp only []
    cases hfind : Rate.findById w id with
    | none => exact h
    | some found =>
      simp only []
      split
      · exact h
      · next w1 hupd =>
        exact wf_frame w1 _ (sendRateUpdateLog_frame env w1 _).1
          (le_of_eq (sendRateUpdateLog_frame env w1 _).2.1.symm) (wf_update env w w1 _ h hupd)

theorem remove_wf (env : Env) (w : World) (id : Nat) (h : RateStoreWF w) :
    RateStoreWF (RatesService.remove env w id).2 := by
  unfold RatesService.remove
  cases hfind : Rate.findById w id with
  | none => exact h
  | some found =>
    simp only []
    split
    · exact h
    · next w1 hupd =>
      exact wf_frame w1 _ (sendRateUpdateLog_frame env w1 _).1
        (le_of_eq (sendRateUpdateLog_frame env w1 _).2.1.symm) (wf_update env w w1 _ h hupd)

theorem getRateForPair_snd (env : Env) (w : World) (f t : String) :
    (RatesService.getRateForPair env w f t).2 = w ∨
    (RatesService.getRateForPair env w f t).2 =
      { w with providerCalls := w.providerCalls ++ [(f, t)] } ∨
    ∃ data, (RatesService.getRateForPair env w f t).2 =
      (RatesService.create env { w with providerCalls := w.providerCalls ++ [(f, t)] } data).2 := by
  unfold RatesService.getRateForPair
  split
  · exact Or.inl rfl
  · simp only []
    split
    · exact Or.inr (Or.inl rfl)
    · next externalRate _ =>
      by_cases ht : truthyRate externalRate = true
      · rw [if_pos ht]
        refine Or.inr (Or.inr ⟨CreateRateData.mk (some f) (some t) externalRate
          (some (if ExternalAPIs.isCryptoCurrency f then "coingecko"
            else "openexchangerates")), ?_⟩)
        split
        · next hc => rw [hc]
        · next hc => rw [hc]
      · rw [if_neg ht]
        exact Or.inr (Or.inl rfl)

theorem getRateForPair_wf (env : Env) (w : World) (f t : String) (h : RateStoreWF w) :
    RateStoreWF (RatesService.getRateForPair env w f t).2 := by
  have h1 : RateStoreWF { w with providerCalls := w.providerCalls ++ [(f, t)] } :=
    wf_frame w _ rfl (le_refl _) h
  rcases getRateForPair_snd env w f t with hs | hs | ⟨data, hs⟩
  · rw [hs]; exact h
  · rw [hs]; exact h1
  · rw [hs]; exact create_wf env _ data h1

theorem createAll_wf (env : Env) (source : String) (entries : List (String × ℚ)) :
    ∀ w : World, RateStoreWF w → RateStoreWF (RatesService.createAll env source w entries).2 := by
  induction entries with
  | nil => intro w h; exact h
  | cons e rest ih =>
    intro w h
    obtain ⟨pair, rate⟩ := e
    unfold RatesService.createAll
    simp only []
    have hw := create_wf env w
      { fromCurrency := (splitUnderscore pair)[0]?, toCurrency := (splitUnderscore pair)[1]?,
        rate := some rate, source := some source } h
    split
    · next hc =>
      rw [hc] at hw
      exact hw
    · next hc =>
      rw [hc] at hw
      exact ih _ hw

theorem updateRatesFromExternalAPIs_wf (env : Env) (w : World) (h : RateStoreWF w) :
    RateStoreWF (RatesService.updateRatesFromExternalAPIs env w).2 := by
  unfold RatesService.updateRatesFromExternalAPIs
  have h1 := createAll_wf env "coingecko" env.allCryptoRates w h
  split
  · next hc => rw [hc] at h1; exact h1
  · next hc =>
    rw [hc] at h1
    have h2 := createAll_wf env "openexchangerates" env.allFiatRates _ h1
    split
    · next hc2 => rw [hc2] at h2; exact h2
    · next hc2 => rw [hc2] at h2; exact h2

theorem saveRates_wf (env : Env) (rows : List RateData) :
    ∀ w : World, RateStoreWF w → RateStoreWF (CSVImportService.saveRates env w rows).2 := by
  induction rows with
  | nil => intro w h; exact h
  | cons row rest ih =>
    intro w h
    unfold CSVImportService.saveRates
    split
    · simp only []
      split
      · exact ih w h
      · next w1 hupd => exact ih w1 (wf_update env w w1 _ h hupd)
    · simp only []
      split
      · exact ih _ (wf_frame w _ rfl (Nat.le_succ _) h)
      · next w1 hins => exact ih w1 (wf_insert env w w1 _ h rfl hins)

theorem rateSchema_ok (label : String) (r : ℚ) (hpos : 0 < r) (hsafe : r ≤ MAX_SAFE_INTEGER) :
    rateSchema label (some r) = .ok r := by
  have hneg : ¬ (r > MAX_SAFE_INTEGER ∨ r < -MAX_SAFE_INTEGER) := by
    have : (0 : ℚ) < MAX_SAFE_INTEGER := by unfold MAX_SAFE_INTEGER; norm_num
    rintro (h | h) <;> linarith
  simp only [rateSchema]
  rw [if_neg hneg, if_neg (not_not.mpr hpos)]

theorem sourceSchema_ok (s : String) (h : s ∈ rateModelSourceEnum) :
    sourceSchema (some s) = .ok s := by
  simp only [sourceSchema]
  rw [if_pos h]

theorem createRateSchema_ok (f t : String) (r : ℚ) (s : String) (hv : ValidRate f t r s) :
    createRateSchema.validate (rateRequest f t r s) =
      .ok { fromCurrency := f, toCurrency := t, rate := r, source := s } := by
  obtain ⟨hf, ht, hpos, hsafe, hs⟩ := hv
  unfold createRateSchema.validate rateRequest
  simp only [currencyCodeSchema_ok _ f hf, currencyCodeSchema_ok _ t ht,
    rateSchema_ok _ r hpos hsafe, sourceSchema_ok s hs]

theorem hasPair_samePair (f t : String) (a b : Rate) (ha : Rate.hasPair f t a = true)
    (hb : Rate.hasPair f t b = true) : a.samePair b = true := by
  simp only [Rate.hasPair, Rate.samePair, Bool.and_eq_true, decide_eq_true_eq] at *
  exact ⟨ha.1.trans hb.1.symm, ha.2.trans hb.2.symm⟩

theorem hasPair_of_samePair (f t : String) (a b : Rate) (hb : Rate.hasPair f t b = true)
    (hab : a.samePair b = true) : Rate.hasPair f t a = true := by
  simp only [Rate.hasPair, Rate.samePair, Bool.and_eq_true, decide_eq_true_eq] at *
  exact ⟨hab.1.trans hb.1, hab.2.trans hb.2⟩

/-- The record `create` leaves for a pair that the store already holds. -/
theorem create_existing (env : Env) (w : World) (f t : String) (r : ℚ) (s : String)
    (found : Rate) (hv : ValidRate f t r s) (hwf : RateStoreWF w)
    (hw : env.storeWriteError = none)
    (hfind : w.rates.find? (Rate.hasPair f t) = some found) :
    RatesService.create env w (rateRequest f t r s) =
      (.ok { found with rate := r, source := s, lastUpdated := env.now },
        (RabbitMQ.sendRateUpdateLog env
          { w with rates :=
                     replaceById { found with rate := r, source := s, lastUpdated := env.now }
                       w.rates }
          (rateUpdatePayload "update"
            { found with rate := r, source := s, lastUpdated := env.now })).2) := by
  have hfp : Rate.hasPair f t found = true := List.find?_some hfind
  have hmem : found ∈ w.rates := List.mem_of_find?_eq_some hfind
  have hfp' := hfp
  simp only [Rate.hasPair, Bool.and_eq_true, decide_eq_true_eq] at hfp'
  have hvalid : Rate.valid { found with rate := r, source := s, lastUpdated := env.now } = true := by
    simp only [Rate.valid, Bool.and_eq_true, decide_eq_true_eq]
    refine ⟨⟨⟨?_, ?_⟩, hv.2.2.1.le⟩, hv.2.2.2.2⟩
    · rw [hfp'.1]; exact ne_empty_of_pattern f hv.1
    · rw [hfp'.2]; exact ne_empty_of_pattern t hv.2.1
  have hany : w.rates.any (fun x =>
      decide (x._id ≠ ({ found with rate := r, source := s, lastUpdated := env.now } : Rate)._id)
        && x.samePair { found with rate := r, source := s, lastUpdated := env.now }) = false := by
    rw [List.any_eq_false]
    intro x hx hcon
    simp only [Bool.and_eq_true, decide_eq_true_eq] at hcon
    obtain ⟨hid, hsp⟩ := hcon
    have hsp' : x.samePair found = true := hsp
    exact hid (congrArg (·._id) (uniquePairs_eq w.rates hwf.1 x found hx hmem hsp'))
  have hupd := (update_ok_iff env w _ _).mpr ⟨hvalid, hw, hany, rfl⟩
  unfold RatesService.create
  rw [createRateSchema_ok f t r s hv]
  simp only [toUpperCase_of_pattern f hv.1, toUpperCase_of_pattern t hv.2.1, hfind, hupd]

/-- The record `create` inserts for a pair that the store does not hold. -/
theorem create_absent (env : Env) (w : World) (f t : String) (r : ℚ) (s : String)
    (hv : ValidRate f t r s) (hw : env.storeWriteError = none)
    (hfind : w.rates.find? (Rate.hasPair f t) = none) :
    RatesService.create env w (rateRequest f t r s) =
      (.ok { _id := w.nextId, fromCurrency := f, toCurrency := t, rate := r, source := s,
             lastUpdated := env.now, isActive := true },
        (RabbitMQ.sendRateUpdateLog env
          { w with nextId := w.nextId + 1,
                   rates := w.rates ++
                     [{ _id := w.nextId, fromCurrency := f, toCurrency := t, rate := r,
                        source := s, lastUpdated := env.now, isActive := true }] }
          (rateUpdatePayload "create"
            { _id := w.nextId, fromCurrency := f, toCurrency := t, rate := r, source := s,
              lastUpdated := env.now, isActive := true })).2) := by
  have hnew : Rate.new w.nextId env.now f t r s =
      { _id := w.nextId, fromCurrency := f, toCurrency := t, rate := r, source := s,
        lastUpdated := env.now, isActive := true } := by
    simp only [Rate.new, toUpperCase_of_pattern f hv.1, toUpperCase_of_pattern t hv.2.1,
      trim_of_pattern f hv.1, trim_of_pattern t hv.2.1]
  have hvalid : Rate.valid { _id := w.nextId, fromCurrency := f, toCurrency := t, rate := r,
                             source := s, lastUpdated := env.now, isActive := true } = true := by
    simp only [Rate.valid, Bool.and_eq_true, decide_eq_true_eq]
    exact ⟨⟨⟨ne_empty_of_pattern f hv.1, ne_empty_of_pattern t hv.2.1⟩, hv.2.2.1.le⟩,
      hv.2.2.2.2⟩
  have hany : w.rates.any (fun x => x.samePair { _id := w.nextId, fromCurrency := f,
                                                 toCurrency := t, rate := r, source := s,
                                                 lastUpdated := env.now, isActive := true })
      = false := by
    rw [List.any_eq_false]
    intro x hx hcon
    have := List.find?_eq_none.mp hfind x hx
    apply this
    simp only [Rate.samePair, Bool.and_eq_true, decide_eq_true_eq] at hcon
    simp only [Rate.hasPair, Bool.and_eq_true, decide_eq_true_eq]
    exact hcon
  have hins := (insert_ok_iff env { w with nextId := w.nextId + 1 } _ _).mpr
    ⟨hvalid, hw, hany, rfl⟩
  unfold RatesService.create
  rw [createRateSchema_ok f t r s hv]
  simp only [toUpperCase_of_pattern f hv.1, toUpperCase_of_pattern t hv.2.1, hfind, hnew]
  rw [hins]

theorem uniquePairs_filter (f t : String) (rates : List Rate) (h : UniquePairs rates)
    (rec : Rate) (hmem : rec ∈ rates) (hp : Rate.hasPair f t rec = true) :
    rates.filter (Rate.hasPair f t) = [rec] ∧ rates.find? (Rate.hasPair f t) = some rec := by
  induction rates with
  | nil => cases hmem
  | cons a l ih =>
    unfold UniquePairs at h
    rw [List.pairwise_cons] at h
    obtain ⟨ha, hl⟩ := h
    rcases List.mem_cons.mp hmem with heq | hin
    · subst heq
      have hnone : ∀ b ∈ l, Rate.hasPair f t b = false := by
        intro b hb
        by_contra hcon
        rw [Bool.not_eq_false] at hcon
        have := ha b hb
        rw [hasPair_samePair f t rec b hp hcon] at this
        cases this
      constructor
      · rw [List.filter_cons_of_pos hp, List.filter_eq_nil_iff.mpr]
        intro b hb
        rw [hnone b hb]
        simp
      · rw [List.find?_cons_of_pos _ hp]
    · have hna : Rate.hasPair f t a = false := by
        by_contra hcon
        rw [Bool.not_eq_false] at hcon
        have := ha rec hin
        rw [hasPair_samePair f t a rec hcon hp] at this
        cases this
      obtain ⟨h1, h2⟩ := ih hl hin
      constructor
      · rw [List.filter_cons_of_neg (by simp [hna])]
        exact h1
      · rw [List.find?_cons_of_neg _ (by simp [hna])]
        exact h2

/-- The effect of `create` on a well-formed store, for a valid body and an accepted write: the
call returns the one record of the pair, which carries the new rate and source and keeps the
activity flag of the record it replaces. -/
theorem create_upsert (env : Env) (w : World) (f t : String) (r : ℚ) (s : String)
    (hv : ValidRate f t r s) (hwf : RateStoreWF w) (hw : env.storeWriteError = none) :
    ∃ rec, (RatesService.create env w (rateRequest f t r s)).1 = .ok rec ∧
      rec.rate = r ∧ rec.source = s ∧ Rate.hasPair f t rec = true ∧
      rec.isActive = (match w.rates.find? (Rate.hasPair f t) with
        | some old => old.isActive
        | none => true) ∧
      (RatesService.create env w (rateRequest f t r s)).2.rates.filter (Rate.hasPair f t) =
        [rec] ∧
      (RatesService.create env w (rateRequest f t r s)).2.rates.find? (Rate.hasPair f t) =
        some rec := by
  have hwf' := create_wf env w (rateRequest f t r s) hwf
  cases hfind : w.rates.find? (Rate.hasPair f t) with
  | some found =>
    have hfp : Rate.hasPair f t found = true := List.find?_some hfind
    have hmem : found ∈ w.rates := List.mem_of_find?_eq_some hfind
    rw [create_existing env w f t r s found hv hwf hw hfind] at hwf' ⊢
    have hp : Rate.hasPair f t { found with rate := r, source := s, lastUpdated := env.now }
        = true := hfp
    have hin : ({ found with rate := r, source := s, lastUpdated := env.now } : Rate) ∈
        (RabbitMQ.sendRateUpdateLog env
          { w with rates :=
                     replaceById { found with rate := r, source := s, lastUpdated := env.now }
                       w.rates }
          (rateUpdatePayload "update"
            { found with rate := r, source := s, lastUpdated := env.now })).2.rates := by
      rw [(sendRateUpdateLog_frame env _ _).1]
      show _ ∈ replaceById _ w.rates
      unfold replaceById
      rw [List.mem_map]
      exact ⟨found, hmem, by simp⟩
    obtain ⟨h1, h2⟩ := uniquePairs_filter f t _ hwf'.1 _ hin hp
    exact ⟨_, rfl, rfl, rfl, hp, rfl, h1, h2⟩
  | none =>
    rw [create_absent env w f t r s hv hw hfind] at hwf' ⊢
    have hp : Rate.hasPair f t { _id := w.nextId, fromCurrency := f, toCurrency := t, rate := r,
                                 source := s, lastUpdated := env.now, isActive := true }
        = true := by
      simp [Rate.hasPair]
    have hin : ({ _id := w.nextId, fromCurrency := f, toCurrency := t, rate := r,
                  source := s, lastUpdated := env.now, isActive := true } : Rate) ∈
        (RabbitMQ.sendRateUpdateLog env
          { w with nextId := w.nextId + 1,
                   rates := w.rates ++
                     [{ _id := w.nextId, fromCurrency := f, toCurrency := t, rate := r,
                        source := s, lastUpdated := env.now, isActive := true }] }
          (rateUpdatePayload "create"
            { _id := w.nextId, fromCurrency := f, toCurrency := t, rate := r, source := s,
              lastUpdated := env.now, isActive := true })).2.rates := by
      rw [(sendRateUpdateLog_frame env _ _).1]
      simp
    obtain ⟨h1, h2⟩ := uniquePairs_filter f t _ hwf'.1 _ hin hp
    exact ⟨_, rfl, rfl, rfl, hp, rfl, h1, h2⟩

theorem uniquePairs_filter_length (f t : String) (rates : List Rate) (h : UniquePairs rates) :
    (rates.filter (Rate.hasPair f t)).length ≤ 1 := by
  cases hfind : rates.find? (Rate.hasPair f t) with
  | none =>
    have : rates.filter (Rate.hasPair f t) = [] := by
      rw [List.filter_eq_nil_iff]
      intro a ha
      exact List.find?_eq_none.mp hfind a ha
    rw [this]
    simp
  | some rec =>
    rw [(uniquePairs_filter f t rates h rec (List.mem_of_find?_eq_some hfind)
      (List.find?_some hfind)).1]
    simp

theorem active_filter_length (f t : String) (rates : List Rate) (h : UniquePairs rates) :
    (rates.filter (fun r => Rate.hasPair f t r && r.isActive)).length ≤ 1 := by
  have hsub : (rates.filter (fun r => Rate.hasPair f t r && r.isActive)).Sublist
      (rates.filter (Rate.hasPair f t)) := by
    have : rates.filter (fun r => Rate.hasPair f t r && r.isActive) =
        (rates.filter (Rate.hasPair f t)).filter (fun r => r.isActive) := by
      rw [List.filter_filter]
      congr 1
      funext r
      exact Bool.and_comm _ _
    rw [this]
    exact List.filter_sublist _
  exact le_trans hsub.length_le (uniquePairs_filter_length f t rates h)

theorem uniqueIds_eq (rates : List Rate) (h : (rates.map (·._id)).Nodup) (a b : Rate)
    (ha : a ∈ rates) (hb : b ∈ rates) (hab : a._id = b._id) : a = b :=
  List.inj_on_of_nodup_map h ha hb hab

theorem findById_some (w : World) (id : Nat) (found : Rate)
    (h : Rate.findById w id = some found) : found ∈ w.rates ∧ found._id = id := by
  unfold Rate.findById at h
  refine ⟨List.mem_of_find?_eq_some h, ?_⟩
  have := List.find?_some h
  simpa using this

theorem findById_of_mem (w : World) (h : (w.rates.map (·._id)).Nodup) (rec : Rate)
    (hmem : rec ∈ w.rates) : Rate.findById w rec._id = some rec := by
  unfold Rate.findById
  cases hf : w.rates.find? (fun x => decide (x._id = rec._id)) with
  | none =>
    have := List.find?_eq_none.mp hf rec hmem
    simp at this
  | some x =>
    have hx : x._id = rec._id := by simpa using List.find?_some hf
    rw [uniqueIds_eq w.rates h x rec (List.mem_of_find?_eq_some hf) hmem hx]

/-- The effect of saving a modified copy `r` of the stored record `found`, the pair and the
`_id` being kept: the write is accepted and every record stays in place, the records with the
`_id` of `found` being replaced by `r`. -/
theorem update_of_found (env : Env) (w : World) (found r : Rate) (hwf : RateStoreWF w)
    (hw : env.storeWriteError = none) (hmem : found ∈ w.rates) (hid : r._id = found._id)
    (hf : r.fromCurrency = found.fromCurrency) (ht : r.toCurrency = found.toCurrency)
    (hvalid : r.valid = true) :
    Rate.update env w r = .ok { w with rates := replaceById r w.rates } := by
  have hany : w.rates.any (fun x => decide (x._id ≠ r._id) && x.samePair r) = false := by
    rw [List.any_eq_false]
    intro x hx hcon
    simp only [Bool.and_eq_true, decide_eq_true_eq] at hcon
    obtain ⟨hne, hsp⟩ := hcon
    have hsp' : x.samePair found = true := by
      simp only [Rate.samePair, Bool.and_eq_true, decide_eq_true_eq] at hsp ⊢
      exact ⟨hsp.1.trans hf, hsp.2.trans ht⟩
    have := uniquePairs_eq w.rates hwf.1 x found hx hmem hsp'
    exact hne (by rw [this, hid])
  exact (update_ok_iff env w _ r).mpr ⟨hvalid, hw, hany, rfl⟩

theorem replaceById_eq_map (w : World) (hwf : RateStoreWF w) (found : Rate)
    (hmem : found ∈ w.rates) (g : Rate → Rate) (hg : ∀ x, (g x)._id = x._id) :
    replaceById (g found) w.rates = w.rates.map (fun x => if x._id = found._id then g x else x) := by
  unfold replaceById
  apply List.map_congr_left
  intro x hx
  rw [hg found]
  by_cases h : x._id = found._id
  · rw [if_pos h, if_pos h, uniqueIds_eq w.rates hwf.2.1 x found hx hmem h]
  · rw [if_neg h, if_neg h]

theorem updateRateSchema_ok (data : UpdateRateData) (hv : ValidPatch data) :
    updateRateSchema.validate data = .ok data := by
  obtain ⟨hr, hs⟩ := hv
  obtain ⟨rate, source, isActive⟩ := data
  unfold updateRateSchema.validate
  cases rate with
  | none =>
    cases source with
    | none => rfl
    | some s =>
      simp only [optionalKey, sourceSchema_ok s (hs s rfl)]
  | some v =>
    have h := hr v rfl
    cases source with
    | none => simp only [optionalKey, rateSchema_ok "rate" v h.1 h.2]
    | some s =>
      simp only [optionalKey, rateSchema_ok "rate" v h.1 h.2, sourceSchema_ok s (hs s rfl)]

theorem applyPatch_valid (data : UpdateRateData) (now : Nat) (x : Rate) (hv : ValidPatch data)
    (hx : x.valid = true) : (applyPatch data now x).valid = true := by
  obtain ⟨hr, hs⟩ := hv
  simp only [Rate.valid, Bool.and_eq_true, decide_eq_true_eq] at hx ⊢
  obtain ⟨⟨⟨h1, h2⟩, h3⟩, h4⟩ := hx
  refine ⟨⟨⟨h1, h2⟩, ?_⟩, ?_⟩
  · show 0 ≤ data.rate.getD x.rate
    cases hd : data.rate with
    | none => exact h3
    | some v => exact (hr v hd).1.le
  · show data.source.getD x.source ∈ rateModelSourceEnum
    cases hd : data.source with
    | none => exact h4
    | some s => exact hs s hd

theorem rateSchema_error_of_nonpos (label : String) (v : ℚ) (h : v ≤ 0) :
    ∃ e, rateSchema label (some v) = .error e := by
  simp only [rateSchema]
  by_cases h1 : v > MAX_SAFE_INTEGER ∨ v < -MAX_SAFE_INTEGER
  · rw [if_pos h1]
    exact ⟨_, rfl⟩
  · rw [if_neg h1, if_pos (not_lt.mpr h)]
    exact ⟨_, rfl⟩

theorem updateRateSchema_error (data : UpdateRateData)
    (h : (∃ v, data.rate = some v ∧ v ≤ 0) ∨
      ∃ s, data.source = some s ∧ s ∉ rateModelSourceEnum) :
    ∃ e, updateRateSchema.validate data = .error e := by
  unfold updateRateSchema.validate
  cases hr : optionalKey (rateSchema "rate") data.rate with
  | error e => exact ⟨e, rfl⟩
  | ok r =>
    rcases h with ⟨v, hv, hle⟩ | ⟨s, hs, hns⟩
    · obtain ⟨e, he⟩ := rateSchema_error_of_nonpos "rate" v hle
      rw [hv] at hr
      simp only [optionalKey, he] at hr
      cases hr
    · rw [hs]
      simp only [optionalKey, sourceSchema, if_neg hns]
      exact ⟨_, rfl⟩

theorem assignFields_eq (value : UpdateRateData) (now : Nat) (found : Rate) :
    ({ RatesService.assignFields value found with lastUpdated := now } : Rate) =
      applyPatch value now found := by
  obtain ⟨rate, source, isActive⟩ := value
  cases rate <;> cases source <;> cases isActive <;> rfl

theorem patch_of_found (env : Env) (w : World) (id : Nat) (data : UpdateRateData)
    (found : Rate) (hwf : RateStoreWF w) (hw : env.storeWriteError = none)
    (hv : ValidPatch data) (hfind : Rate.findById w id = some found) :
    RatesService.patch env w id data =
      (.ok (applyPatch data env.now found),
        (RabbitMQ.sendRateUpdateLog env
          { w with rates := replaceById (applyPatch data env.now found) w.rates }
          (rateUpdatePayload "update" (applyPatch data env.now found))).2) := by
  obtain ⟨hmem, _⟩ := findById_some w id found hfind
  have hvalid := applyPatch_valid data env.now found hv (hwf.2.2.2 found hmem)
  have hupd := update_of_found env w found (applyPatch data env.now found) hwf hw hmem rfl rfl
    rfl hvalid
  unfold RatesService.patch
  rw [updateRateSchema_ok data hv, hfind]
  simp only [assignFields_eq, hupd]

/-! ## Lemmas on queries -/

theorem insertionSort_desc {α : Type} (key : α → ℕ) (l : List α) :
    (l.insertionSort (fun a b => key b ≤ key a)).Pairwise (fun a b => key b ≤ key a) ∧
      (l.insertionSort (fun a b => key b ≤ key a)).Perm l := by
  haveI : IsTotal α (fun a b => key b ≤ key a) := ⟨fun a b => le_total (key b) (key a)⟩
  haveI : IsTrans α (fun a b => key b ≤ key a) := ⟨fun a b c hab hbc => le_trans hbc hab⟩
  exact ⟨List.sorted_insertionSort _ l, List.perm_insertionSort _ l⟩

theorem parseInt_natCast (n : ℕ) (h : (n : ℚ) ≤ MAX_SAFE_INTEGER) :
    parseInt (n : ℚ) = (n : ℤ) := by
  unfold MAX_SAFE_INTEGER at h
  have h0 : (0 : ℚ) ≤ (n : ℚ) := Nat.cast_nonneg n
  have hc : (n : ℚ) = 0 ∨ (1 / 1000000 ≤ |(n : ℚ)| ∧ |(n : ℚ)| < 1000000000000000000000) := by
    rcases Nat.eq_zero_or_pos n with hn | hn
    · left
      rw [hn]
      norm_num
    · right
      have h1 : (1 : ℚ) ≤ (n : ℚ) := by exact_mod_cast hn
      rw [abs_of_nonneg h0]
      constructor <;> linarith
  unfold parseInt
  rw [if_pos hc, if_pos h0]
  exact Int.floor_natCast n

/-- The number `1e-7` is written `1e-7`, of which `parseInt` reads the `1`. -/
theorem parseInt_small : parseInt (1 / 10000000) = 1 := by
  have hlog : Int.log 10 (1 / 10000000 : ℚ) = -7 := by
    have h : (1 / 10000000 : ℚ) = ((10 : ℕ) : ℚ) ^ (-7 : ℤ) := by norm_num
    rw [h]
    exact Int.log_zpow (by norm_num) (-7)
  have hc : ¬ ((1 / 10000000 : ℚ) = 0 ∨
      (1 / 1000000 ≤ |(1 / 10000000 : ℚ)| ∧
        |(1 / 10000000 : ℚ)| < 1000000000000000000000)) := by
    rw [abs_of_nonneg (by norm_num)]
    norm_num
  unfold parseInt leadingDigit
  rw [if_neg hc, if_pos (by norm_num), hlog]
  norm_num

theorem limitSkip_nat {α : Type} (n k : ℕ) (hn : 1 ≤ n) (docs : List α) :
    limitSkip (n : ℤ) (k : ℤ) docs = (docs.drop k).take n := by
  unfold limitSkip
  rw [if_neg (by omega)]
  simp

theorem integerRangeSchema_ok (label : String) (lo : ℤ) (hi : Option ℤ) (n : ℕ)
    (hlo : lo ≤ n) (hhi : ∀ h, hi = some h → (n : ℤ) ≤ h) (hsafe : (n : ℚ) ≤ MAX_SAFE_INTEGER) :
    integerRangeSchema label lo hi (some (n : ℚ)) = .ok (some (n : ℚ)) := by
  have hneg : ¬ ((n : ℚ) > MAX_SAFE_INTEGER ∨ (n : ℚ) < -MAX_SAFE_INTEGER) := by
    have : (0 : ℚ) < MAX_SAFE_INTEGER := by unfold MAX_SAFE_INTEGER; norm_num
    have : (0 : ℚ) ≤ n := Nat.cast_nonneg n
    rintro (h | h) <;> linarith
  have hlo' : ¬ ((n : ℚ) < (lo : ℚ)) := by
    rw [not_lt]
    exact_mod_cast hlo
  simp only [integerRangeSchema]
  rw [if_neg hneg, if_neg (by simp), if_neg hlo']
  cases hi with
  | none => rfl
  | some h =>
    have : ¬ ((n : ℚ) > (h : ℚ)) := by
      rw [gt_iff_lt, not_lt]
      exact_mod_cast hhi h rfl
    simp only [if_neg this]

theorem integerRangeSchema_optional (label : String) (lo : ℤ) (hi : Option ℤ) (o : Option ℕ)
    (hlo : ∀ n, o = some n → lo ≤ n) (hhi : ∀ n h, o = some n → hi = some h → (n : ℤ) ≤ h)
    (hsafe : ∀ n, o = some n → (n : ℚ) ≤ MAX_SAFE_INTEGER) :
    integerRangeSchema label lo hi (o.map (fun n => (n : ℚ))) = .ok (o.map (fun n => (n : ℚ))) := by
  cases o with
  | none => rfl
  | some n =>
    exact integerRangeSchema_ok label lo hi n (hlo n rfl) (fun h hh => hhi n h rfl hh)
      (hsafe n rfl)

theorem optionalCode_ok (label : String) (o : Option String)
    (h : ∀ x, o = some x → matchesCurrencyPattern x = true) :
    optionalKey (currencyCodeSchema label) o = .ok o := by
  cases o with
  | none => rfl
  | some x => simp only [optionalKey, currencyCodeSchema_ok label x (h x rfl)]

theorem optionalSource_ok (o : Option String) (h : ∀ x, o = some x → x ∈ rateModelSourceEnum) :
    optionalKey sourceSchema o = .ok o := by
  cases o with
  | none => rfl
  | some x => simp only [optionalKey, sourceSchema_ok x (h x rfl)]

theorem optionalCode_error (label : String) (o : Option String) (x : String) (ho : o = some x)
    (h : matchesCurrencyPattern x = false) :
    ∃ e, optionalKey (currencyCodeSchema label) o = .error e := by
  obtain ⟨e, he⟩ := currencyCodeSchema_error_of_not_code label (some x) h
  rw [ho]
  simp only [optionalKey, he]
  exact ⟨e, rfl⟩

theorem integerRangeSchema_error (label : String) (lo : ℤ) (hi : Option ℤ) (v : ℚ)
    (h : v < lo ∨ ∃ u, hi = some u ∧ v > u) :
    ∃ e, integerRangeSchema label lo hi (some v) = .error e := by
  simp only [integerRangeSchema]
  by_cases h1 : v > MAX_SAFE_INTEGER ∨ v < -MAX_SAFE_INTEGER
  · rw [if_pos h1]; exact ⟨_, rfl⟩
  · rw [if_neg h1]
    by_cases h2 : v.den ≠ 1
    · rw [if_pos h2]; exact ⟨_, rfl⟩
    · rw [if_neg h2]
      by_cases h3 : v < lo
      · rw [if_pos h3]; exact ⟨_, rfl⟩
      · rw [if_neg h3]
        rcases h with h | ⟨u, hu, hgt⟩
        · exact absurd h h3
        · rw [hu]
          simp only [if_pos hgt]
          exact ⟨_, rfl⟩

theorem getRatesSchema_ok (f t s : Option String) (limit skip : Option ℕ)
    (hf : ∀ x, f = some x → matchesCurrencyPattern x = true)
    (ht : ∀ x, t = some x → matchesCurrencyPattern x = true)
    (hs : ∀ x, s = some x → x ∈ rateModelSourceEnum)
    (hl : ∀ n, limit = some n → 1 ≤ n ∧ n ≤ 100)
    (hk : ∀ n, skip = some n → (n : ℚ) ≤ MAX_SAFE_INTEGER) :
    getRatesSchema.validate (ratesQuery f t s limit skip) = .ok (ratesQuery f t s limit skip) := by
  have h1 := integerRangeSchema_optional "limit" 1 (some 100) limit
    (fun n hn => by have := (hl n hn).1; omega)
    (fun n h hn hh => by cases hh; have := (hl n hn).2; omega)
    (fun n hn => by
      have := (hl n hn).2
      have h100 : (n : ℚ) ≤ 100 := by exact_mod_cast this
      unfold MAX_SAFE_INTEGER
      linarith)
  have h2 := integerRangeSchema_optional "skip" 0 none skip
    (fun n _ => by omega) (fun n h _ hh => by cases hh) hk
  unfold getRatesSchema.validate ratesQuery
  simp only [optionalCode_ok _ f hf, optionalCode_ok _ t ht, optionalSource_ok s hs, h1, h2]

theorem matchesQuery_spec (f t s : Option String) (r : Rate)
    (hf : ∀ x, f = some x → matchesCurrencyPattern x = true)
    (ht : ∀ x, t = some x → matchesCurrencyPattern x = true)
    (hs : ∀ x, s = some x → x ∈ rateModelSourceEnum) :
    RatesService.matchesQuery f t s r = true ↔
      r.isActive = true ∧ (∀ x, f = some x → r.fromCurrency = x) ∧
        (∀ x, t = some x → r.toCurrency = x) ∧ (∀ x, s = some x → r.source = x) := by
  have hs' : ∀ x, s = some x → x ≠ "" := by
    intro x hx he
    have := hs x hx
    rw [he] at this
    revert this
    decide
  unfold RatesService.matchesQuery
  cases f with
  | none =>
    cases t with
    | none =>
      cases s with
      | none => simp [and_assoc]
      | some z => simp [and_assoc, hs' z rfl]
    | some y =>
      cases s with
      | none => simp [and_assoc, ne_empty_of_pattern y (ht y rfl), toUpperCase_of_pattern y (ht y rfl)]
      | some z =>
        simp [and_assoc, ne_empty_of_pattern y (ht y rfl), toUpperCase_of_pattern y (ht y rfl), hs' z rfl]
  | some x =>
    cases t with
    | none =>
      cases s with
      | none => simp [and_assoc, ne_empty_of_pattern x (hf x rfl), toUpperCase_of_pattern x (hf x rfl)]
      | some z =>
        simp [and_assoc, ne_empty_of_pattern x (hf x rfl), toUpperCase_of_pattern x (hf x rfl), hs' z rfl]
    | some y =>
      cases s with
      | none =>
        simp [and_assoc, ne_empty_of_pattern x (hf x rfl), toUpperCase_of_pattern x (hf x rfl),
          ne_empty_of_pattern y (ht y rfl), toUpperCase_of_pattern y (ht y rfl)]
      | some z =>
        simp [and_assoc, ne_empty_of_pattern x (hf x rfl), toUpperCase_of_pattern x (hf x rfl),
          ne_empty_of_pattern y (ht y rfl), toUpperCase_of_pattern y (ht y rfl), hs' z rfl]

theorem getRatesSchema_error (q : RatesQuery)
    (h : (∃ v, q.limit = some v ∧ (v < 1 ∨ v > 100)) ∨ (∃ v, q.skip = some v ∧ v < 0) ∨
      (∃ x, q.fromCurrency = some x ∧ matchesCurrencyPattern x = false) ∨
      ∃ x, q.toCurrency = some x ∧ matchesCurrencyPattern x = false) :
    ∃ e, getRatesSchema.validate q = .error e := by
  unfold getRatesSchema.validate
  cases h1 : optionalKey (currencyCodeSchema "fromCurrency") q.fromCurrency with
  | error e => exact ⟨e, rfl⟩
  | ok f =>
    cases h2 : optionalKey (currencyCodeSchema "toCurrency") q.toCurrency with
    | error e => exact ⟨e, rfl⟩
    | ok t =>
      cases h3 : optionalKey sourceSchema q.source with
      | error e => exact ⟨e, rfl⟩
      | ok s =>
        cases h4 : integerRangeSchema "limit" 1 (some 100) q.limit with
        | error e => exact ⟨e, rfl⟩
        | ok l =>
          cases h5 : integerRangeSchema "skip" 0 none q.skip with
          | error e => exact ⟨e, rfl⟩
          | ok k =>
            exfalso
            rcases h with ⟨v, hv, hr⟩ | ⟨v, hv, hr⟩ | ⟨x, hx, hp⟩ | ⟨x, hx, hp⟩
            · obtain ⟨e, he⟩ := integerRangeSchema_error "limit" 1 (some 100) v
                (by
                  rcases hr with hr | hr
                  · exact Or.inl (by exact_mod_cast hr)
                  · exact Or.inr ⟨100, rfl, by exact_mod_cast hr⟩)
              rw [hv, he] at h4
              cases h4
            · obtain ⟨e, he⟩ := integerRangeSchema_error "skip" 0 none v
                (Or.inl (by exact_mod_cast hr))
              rw [hv, he] at h5
              cases h5
            · obtain ⟨e, he⟩ := optionalCode_error "fromCurrency" _ x hx hp
              rw [he] at h1
              cases h1
            · obtain ⟨e, he⟩ := optionalCode_error "toCurrency" _ x hx hp
              rw [he] at h2
              cases h2

theorem endDateSchema_ok (startDate endDate : Option Nat)
    (h : ∀ e, endDate = some e → ∃ s, startDate = some s ∧ s ≤ e) :
    endDateSchema startDate endDate = .ok endDate := by
  cases endDate with
  | none => rfl
  | some e =>
    obtain ⟨s, hs, hle⟩ := h e rfl
    rw [hs]
    simp only [endDateSchema, if_neg (not_lt.mpr hle)]

theorem getConversionsSchema_ok (f t : Option String) (startDate endDate : Option Nat)
    (limit skip : Option ℕ)
    (hf : ∀ x, f = some x → matchesCurrencyPattern x = true)
    (ht : ∀ x, t = some x → matchesCurrencyPattern x = true)
    (hd : ∀ e, endDate = some e → ∃ s, startDate = some s ∧ s ≤ e)
    (hl : ∀ n, limit = some n → 1 ≤ n ∧ n ≤ 100)
    (hk : ∀ n, skip = some n → (n : ℚ) ≤ MAX_SAFE_INTEGER) :
    getConversionsSchema.validate (conversionsQuery f t startDate endDate limit skip) =
      .ok (conversionsQuery f t startDate endDate limit skip) := by
  have h1 := integerRangeSchema_optional "limit" 1 (some 100) limit
    (fun n hn => by have := (hl n hn).1; omega)
    (fun n h hn hh => by cases hh; have := (hl n hn).2; omega)
    (fun n hn => by
      have := (hl n hn).2
      have h100 : (n : ℚ) ≤ 100 := by exact_mod_cast this
      unfold MAX_SAFE_INTEGER
      linarith)
  have h2 := integerRangeSchema_optional "skip" 0 none skip
    (fun n _ => by omega) (fun n h _ hh => by cases hh) hk
  unfold getConversionsSchema.validate conversionsQuery
  simp only [optionalCode_ok _ f hf, optionalCode_ok _ t ht,
    endDateSchema_ok startDate endDate hd, h1, h2]

theorem conversion_matchesQuery_spec (f t : Option String) (startDate endDate : Option Nat)
    (c : Conversion)
    (hf : ∀ x, f = some x → matchesCurrencyPattern x = true)
    (ht : ∀ x, t = some x → matchesCurrencyPattern x = true) :
    ConvertService.matchesQuery f t startDate endDate c = true ↔
      (∀ x, f = some x → c.fromCurrency = x) ∧ (∀ x, t = some x → c.toCurrency = x) ∧
        (∀ s, startDate = some s → s ≤ c.conversionDate) ∧
        (∀ e, endDate = some e → c.conversionDate ≤ e) := by
  unfold ConvertService.matchesQuery
  cases f with
  | none =>
    cases t with
    | none => cases startDate <;> cases endDate <;> simp [and_assoc]
    | some y =>
      cases startDate <;> cases endDate <;>
        simp [and_assoc, ne_empty_of_pattern y (ht y rfl), toUpperCase_of_pattern y (ht y rfl)]
  | some x =>
    cases t with
    | none =>
      cases startDate <;> cases endDate <;>
        simp [and_assoc, ne_empty_of_pattern x (hf x rfl), toUpperCase_of_pattern x (hf x rfl)]
    | some y =>
      cases startDate <;> cases endDate <;>
        simp [and_assoc, ne_empty_of_pattern x (hf x rfl), toUpperCase_of_pattern x (hf x rfl),
          ne_empty_of_pattern y (ht y rfl), toUpperCase_of_pattern y (ht y rfl)]

theorem providerSource_mem (f : String) : providerSource f ∈ rateModelSourceEnum := by
  unfold providerSource
  split_ifs <;> decide

theorem create_other_fields (env : Env) (w : World) (data : CreateRateData) :
    (RatesService.create env w data).2.providerCalls = w.providerCalls ∧
    (RatesService.create env w data).2.conversions = w.conversions ∧
    (RatesService.create env w data).2.readyState = w.readyState := by
  unfold RatesService.create
  cases hval : createRateSchema.validate data with
  | error e => exact ⟨rfl, rfl, rfl⟩
  | ok value =>
    simp only []
    cases hfind : w.rates.find?
        (Rate.hasPair (toUpperCase value.fromCurrency) (toUpperCase value.toCurrency)) with
    | some found =>
      simp only []
      cases hupd : Rate.update env w
          { found with rate := value.rate, source := value.source, lastUpdated := env.now } with
      | error e => exact ⟨rfl, rfl, rfl⟩
      | ok w1 =>
        obtain ⟨_, _, _, hw⟩ := (update_ok_iff env w w1 _).mp hupd
        subst hw
        exact ⟨(sendRateUpdateLog_frame env _ _).2.2.2.1, (sendRateUpdateLog_frame env _ _).2.2.1,
          (sendRateUpdateLog_frame env _ _).2.2.2.2⟩
    | none =>
      simp only []
      cases hins : Rate.insert env { w with nextId := w.nextId + 1 }
          (Rate.new w.nextId env.now (toUpperCase value.fromCurrency)
            (toUpperCase value.toCurrency) value.rate value.source) with
      | error e => exact ⟨rfl, rfl, rfl⟩
      | ok w1 =>
        obtain ⟨_, _, _, hw⟩ := (insert_ok_iff env _ w1 _).mp hins
        subst hw
        exact ⟨(sendRateUpdateLog_frame env _ _).2.2.2.1, (sendRateUpdateLog_frame env _ _).2.2.1,
          (sendRateUpdateLog_frame env _ _).2.2.2.2⟩

theorem getRateForPair_priced (env : Env) (w : World) (f t : String) (v : ℚ)
    (hnone : w.rates.find? (fun r =>
      Rate.hasPair (toUpperCase f) (toUpperCase t) r && r.isActive) = none)
    (hret : env.getRate f t = .returned (some v)) (hv0 : v ≠ 0) :
    RatesService.getRateForPair env w f t =
      match RatesService.create env { w with providerCalls := w.providerCalls ++ [(f, t)] }
          { fromCurrency := some f, toCurrency := some t, rate := some v,
            source := some (providerSource f) } with
      | (.error message, w2) => (.error ("Error getting rate: " ++ message), w2)
      | (.ok rate, w2) => (.ok rate, w2) := by
  unfold RatesService.getRateForPair
  rw [hnone]
  simp only [hret, truthyRate, ne_eq, hv0, not_false_eq_true, decide_True, if_true,
    providerSource]

/-! ## Lemmas on the bulk refresh -/

theorem upper_ne_underscore (c : Char) (_h1 : 'A' ≤ c) (h2 : c ≤ 'Z') : (c == '_') = false := by
  have h2' : c.toNat ≤ 90 := h2
  rw [beq_eq_false_iff_ne]
  intro h
  rw [h] at h2'
  revert h2'
  decide

theorem splitUnderscore_key (f t : String) (hf : matchesCurrencyPattern f = true)
    (ht : matchesCurrencyPattern t = true) : splitUnderscore (snapshotKey f t) = [f, t] := by
  obtain ⟨a, b, c, hfd, ha, hb, hc⟩ := pattern_data f hf
  obtain ⟨d, e, g, htd, hd, he, hg⟩ := pattern_data t ht
  have hf' : f = String.mk [a, b, c] := by rw [← hfd]
  have ht' : t = String.mk [d, e, g] := by rw [← htd]
  unfold splitUnderscore snapshotKey
  rw [String.data_append, String.data_append, hfd, htd]
  have hu : ("_" : String).data = ['_'] := rfl
  rw [hu]
  simp only [List.cons_append, List.nil_append, List.splitOn, List.splitOnP_cons,
    upper_ne_underscore a ha.1 ha.2, upper_ne_underscore b hb.1 hb.2,
    upper_ne_underscore c hc.1 hc.2, upper_ne_underscore d hd.1 hd.2,
    upper_ne_underscore e he.1 he.2, upper_ne_underscore g hg.1 hg.2,
    List.splitOnP_nil, beq_self_eq_true, if_true, if_false, Bool.false_eq_true,
    List.modifyHead, List.map_cons, List.map_nil]
  rw [hf', ht']

theorem entryData_key (source f t : String) (r : ℚ) (hf : matchesCurrencyPattern f = true)
    (ht : matchesCurrencyPattern t = true) :
    entryData source (snapshotKey f t, r) = rateRequest f t r source := by
  unfold entryData rateRequest
  simp only [splitUnderscore_key f t hf ht]
  rfl

theorem createAll_cons (env : Env) (source : String) (w : World) (entry : String × ℚ)
    (rest : List (String × ℚ)) :
    RatesService.createAll env source w (entry :: rest) =
      match RatesService.create env w (entryData source entry) with
      | (.error message, w1) => (.error message, w1)
      | (.ok _, w1) => RatesService.createAll env source w1 rest := by
  obtain ⟨pair, rate⟩ := entry
  rw [RatesService.createAll]
  rfl

theorem filter_map_fixed {α : Type} (p : α → Bool) (g : α → α) (l : List α)
    (h : ∀ x ∈ l, p (g x) = p x ∧ (p x = true → g x = x)) :
    (l.map g).filter p = l.filter p := by
  induction l with
  | nil => rfl
  | cons a l ih =>
    have ha := h a (List.mem_cons_self a l)
    have ih' := ih (fun x hx => h x (List.mem_cons_of_mem a hx))
    rw [List.map_cons]
    by_cases hp : p a = true
    · rw [List.filter_cons_of_pos (by rw [ha.1]; exact hp), List.filter_cons_of_pos hp, ih',
        ha.2 hp]
    · rw [List.filter_cons_of_neg (by rw [ha.1]; exact hp), List.filter_cons_of_neg hp, ih']

/-- A `create` for the pair `(f, t)` leaves the records of every other pair as they were. -/
theorem create_frame_filter (env : Env) (w : World) (f t : String) (r : ℚ) (s : String)
    (f' t' : String) (hv : ValidRate f t r s) (hwf : RateStoreWF w)
    (hw : env.storeWriteError = none) (hne : (f', t') ≠ (f, t)) :
    (RatesService.create env w (rateRequest f t r s)).2.rates.filter (Rate.hasPair f' t') =
      w.rates.filter (Rate.hasPair f' t') := by
  have hother : ∀ x : Rate, Rate.hasPair f t x = true → Rate.hasPair f' t' x = false := by
    intro x hx
    by_contra hcon
    rw [Bool.not_eq_false] at hcon
    simp only [Rate.hasPair, Bool.and_eq_true, decide_eq_true_eq] at hx hcon
    exact hne (by rw [← hx.1, ← hx.2, ← hcon.1, ← hcon.2])
  cases hfind : w.rates.find? (Rate.hasPair f t) with
  | some found =>
    have hfp : Rate.hasPair f t found = true := List.find?_some hfind
    have hmem : found ∈ w.rates := List.mem_of_find?_eq_some hfind
    rw [create_existing env w f t r s found hv hwf hw hfind, (sendRateUpdateLog_frame env _ _).1]
    show (replaceById _ w.rates).filter _ = _
    unfold replaceById
    apply filter_map_fixed
    intro x hx
    by_cases hid : x._id = found._id
    · have hxf := uniqueIds_eq w.rates hwf.2.1 x found hx hmem hid
      subst hxf
      have h1 : Rate.hasPair f' t' x = false := hother x hfp
      have h2 : Rate.hasPair f' t'
          { x with rate := r, source := s, lastUpdated := env.now } = false := hother _ hfp
      simp only [if_true]
      exact ⟨by rw [h1, h2], fun h => by rw [h1] at h; cases h⟩
    · simp only [hid, if_false]
      exact ⟨trivial, fun _ => trivial⟩
  | none =>
    rw [create_absent env w f t r s hv hw hfind, (sendRateUpdateLog_frame env _ _).1]
    show (w.rates ++ [_]).filter _ = _
    rw [List.filter_append]
    have : Rate.hasPair f' t' { _id := w.nextId, fromCurrency := f, toCurrency := t, rate := r,
                                source := s, lastUpdated := env.now, isActive := true }
        = false := hother _ (by simp [Rate.hasPair])
    rw [List.filter_cons_of_neg (by rw [this]; simp)]
    simp

/-- A snapshot of well-formed entries with distinct pairs is upserted entry by entry: the loop
ends without error, every listed pair has exactly one record, with the listed rate and the
source of the provider, and the records of all other pairs are as before. -/
theorem createAll_upserts (env : Env) (source : String) (hsrc : source ∈ rateModelSourceEnum)
    (hw : env.storeWriteError = none) (entries : List (String × String × ℚ)) :
    (∀ e ∈ entries, matchesCurrencyPattern e.1 = true ∧ matchesCurrencyPattern e.2.1 = true ∧
      0 < e.2.2 ∧ e.2.2 ≤ MAX_SAFE_INTEGER) →
    (entries.map (fun e => (e.1, e.2.1))).Nodup →
    ∀ w : World, RateStoreWF w →
      (RatesService.createAll env source w (snapshotOf entries)).1 = .ok () ∧
      (∀ e ∈ entries, ∃ rec,
        (RatesService.createAll env source w (snapshotOf entries)).2.rates.filter
          (Rate.hasPair e.1 e.2.1) = [rec] ∧ rec.rate = e.2.2 ∧ rec.source = source) ∧
      (∀ f' t', (f', t') ∉ entries.map (fun e => (e.1, e.2.1)) →
        (RatesService.createAll env source w (snapshotOf entries)).2.rates.filter
          (Rate.hasPair f' t') = w.rates.filter (Rate.hasPair f' t')) := by
  induction entries with
  | nil =>
    intro _ _ w _
    refine ⟨rfl, ?_, fun _ _ _ => rfl⟩
    intro e he
    exact absurd he (List.not_mem_nil e)
  | cons e rest ih =>
    intro hvalid hnodup w hwf
    obtain ⟨f, t, r⟩ := e
    obtain ⟨hf, ht, hpos, hsafe⟩ := hvalid (f, t, r) (List.mem_cons_self _ _)
    have hv : ValidRate f t r source := ⟨hf, ht, hpos, hsafe, hsrc⟩
    rw [List.map_cons, List.nodup_cons] at hnodup
    obtain ⟨hnotin, hnodup'⟩ := hnodup
    obtain ⟨rec1, hres, hrate, hsrc1, _, _, hfilter1, _⟩ :=
      create_upsert env w f t r source hv hwf hw
    have hwf1 := create_wf env w (rateRequest f t r source) hwf
    have hstep : RatesService.createAll env source w (snapshotOf ((f, t, r) :: rest)) =
        RatesService.createAll env source
          (RatesService.create env w (rateRequest f t r source)).2 (snapshotOf rest) := by
      show RatesService.createAll env source w ((snapshotKey f t, r) :: snapshotOf rest) = _
      rw [createAll_cons, entryData_key source f t r hf ht]
      rcases hc : RatesService.create env w (rateRequest f t r source) with ⟨res, w1⟩
      rw [hc] at hres
      simp only [] at hres
      subst hres
      rfl
    rw [hstep]
    obtain ⟨ih1, ih2, ih3⟩ := ih
      (fun e he => hvalid e (List.mem_cons_of_mem _ he)) hnodup' _ hwf1
    refine ⟨ih1, ?_, ?_⟩
    · intro e he
      rcases List.mem_cons.mp he with heq | hin
      · subst heq
        refine ⟨rec1, ?_, hrate, hsrc1⟩
        rw [ih3 f t hnotin]
        exact hfilter1
      · exact ih2 e hin
    · intro f' t' hnot
      rw [List.map_cons, List.mem_cons, not_or] at hnot
      rw [ih3 f' t' hnot.2]
      exact create_frame_filter env w f t r source f' t' hv hwf hw hnot.1

theorem createAll_append (env : Env) (source : String) (l1 l2 : List (String × ℚ)) :
    ∀ w : World, (RatesService.createAll env source w l1).1 = .ok () →
      RatesService.createAll env source w (l1 ++ l2) =
        RatesService.createAll env source (RatesService.createAll env source w l1).2 l2 := by
  induction l1 with
  | nil => intro w _; rfl
  | cons e rest ih =>
    intro w hok
    rw [List.cons_append, createAll_cons]
    rw [createAll_cons] at hok ⊢
    rcases hc : RatesService.create env w (entryData source e) with ⟨res, w1⟩
    rw [hc] at hok
    cases res with
    | error m => cases hok
    | ok r => exact ih w1 hok

theorem createAll_abort (env : Env) (source : String) (w : World)
    (pre post : List (String × ℚ)) (bad : String × ℚ) (e : String)
    (hpre : (RatesService.createAll env source w pre).1 = .ok ())
    (hbad : createRateSchema.validate (entryData source bad) = .error e) :
    RatesService.createAll env source w (pre ++ bad :: post) =
      (.error ("Error creating rate: " ++ ("Validation error: " ++ e)),
        (RatesService.createAll env source w pre).2) := by
  rw [createAll_append env source pre (bad :: post) w hpre, createAll_cons]
  have hc : RatesService.create env (RatesService.createAll env source w pre).2
      (entryData source bad) =
      (.error ("Error creating rate: " ++ ("Validation error: " ++ e)),
        (RatesService.createAll env source w pre).2) := by
    unfold RatesService.create
    rw [hbad]
  rw [hc]

theorem createAll_fst_unit (env : Env) (source : String) (w : World) (l : List (String × ℚ))
    (h : (RatesService.createAll env source w l).1 = .ok ()) :
    RatesService.createAll env source w l =
      (.ok (), (RatesService.createAll env source w l).2) :=
  Prod.ext h rfl

/-! ## The rates service, the providers and the history: claims C11 to C20 -/

/-- C11 (amended). On a well-formed Rate Store, calling `create` twice for a valid pair, with
rates `r1` then `r2` and sources `s1` then `s2` and both writes accepted, leaves exactly one
record for the pair, carrying `rate = r2` and `source = s2`. The record is active when the pair
was absent or active before; a soft-deleted record is updated and stays inactive. -/
theorem create_twice (env1 env2 : Env) (w : World) (f t : String) (r1 r2 : ℚ) (s1 s2 : String)
    (hv1 : ValidRate f t r1 s1) (hv2 : ValidRate f t r2 s2) (hwf : RateStoreWF w)
    (hw1 : env1.storeWriteError = none) (hw2 : env2.storeWriteError = none) :
    ∃ rec,
      (RatesService.create env2 (RatesService.create env1 w (rateRequest f t r1 s1)).2
        (rateRequest f t r2 s2)).1 = .ok rec ∧
      (RatesService.create env2 (RatesService.create env1 w (rateRequest f t r1 s1)).2
        (rateRequest f t r2 s2)).2.rates.filter (Rate.hasPair f t) = [rec] ∧
      rec.rate = r2 ∧ rec.source = s2 ∧
      rec.isActive = (match w.rates.find? (Rate.hasPair f t) with
        | some old => old.isActive
        | none => true) := by
  obtain ⟨rec1, _, _, _, _, hact1, _, hfind1⟩ := create_upsert env1 w f t r1 s1 hv1 hwf hw1
  have hwf1 := create_wf env1 w (rateRequest f t r1 s1) hwf
  obtain ⟨rec2, hres, hrate, hsrc, _, hact2, hfilter, _⟩ :=
    create_upsert env2 _ f t r2 s2 hv2 hwf1 hw2
  refine ⟨rec2, hres, hfilter, hrate, hsrc, ?_⟩
  rw [hact2, hfind1]
  exact hact1

/-- C11, at the pair of the tests: created twice on an empty store, and twice over the one
stored rate. -/
theorem create_twice_witness :
    (∃ rec,
      (RatesService.create testEnv (RatesService.create testEnv connectedWorld
        (rateRequest "USD" "EUR" 0.85 "manual")).2 (rateRequest "USD" "EUR" 0.9 "coingecko")).1 =
        .ok rec ∧
      (RatesService.create testEnv (RatesService.create testEnv connectedWorld
        (rateRequest "USD" "EUR" 0.85 "manual")).2
        (rateRequest "USD" "EUR" 0.9 "coingecko")).2.rates.filter (Rate.hasPair "USD" "EUR") =
        [rec] ∧
      rec.rate = 0.9 ∧ rec.source = "coingecko" ∧
      rec.isActive = (match connectedWorld.rates.find? (Rate.hasPair "USD" "EUR") with
        | some old => old.isActive
        | none => true)) :=
  create_twice testEnv testEnv connectedWorld "USD" "EUR" 0.85 0.9 "manual" "coingecko"
    (by decide!) (by decide!) (by decide!) rfl rfl

/-- C11, refuted as stated: on a store whose record for the pair was soft-deleted, two calls
of `create` leave the record inactive, so the pair has no active record. -/
theorem create_twice_counterexample :
    RateStoreWF softDeletedWorld ∧
    ValidRate "USD" "EUR" 0.9 "manual" ∧ ValidRate "USD" "EUR" 0.95 "coingecko" ∧
    (RatesService.create testEnv (RatesService.create testEnv softDeletedWorld
        (rateRequest "USD" "EUR" 0.9 "manual")).2
        (rateRequest "USD" "EUR" 0.95 "coingecko")).2.rates =
      [{ _id := 1, fromCurrency := "USD", toCurrency := "EUR", rate := 0.95,
         source := "coingecko", lastUpdated := 1700000000000, isActive := false }] ∧
    (RatesService.create testEnv (RatesService.create testEnv softDeletedWorld
        (rateRequest "USD" "EUR" 0.9 "manual")).2
        (rateRequest "USD" "EUR" 0.95 "coingecko")).2.rates.filter
      (fun x => Rate.hasPair "USD" "EUR" x && x.isActive) = [] := by
  decide!

/-- C12. On a well-formed Rate Store (at most one record per pair, every record with an `_id`
of its own, every record passing the model schema), each of `create`, `patch`, `remove`,
`updateRatesFromExternalAPIs`, `getRateForPair` and `saveRates`, with any arguments and any
behaviour of the collaborators, leaves the store well-formed; and a well-formed store holds at
most one record, hence at most one active record, per pair. -/
theorem rate_store_invariant (env : Env) (w : World) (h : RateStoreWF w) :
    (∀ data, RateStoreWF (RatesService.create env w data).2) ∧
    (∀ id data, RateStoreWF (RatesService.patch env w id data).2) ∧
    (∀ id, RateStoreWF (RatesService.remove env w id).2) ∧
    RateStoreWF (RatesService.updateRatesFromExternalAPIs env w).2 ∧
    (∀ f t, RateStoreWF (RatesService.getRateForPair env w f t).2) ∧
    (∀ rows, RateStoreWF (CSVImportService.saveRates env w rows).2) ∧
    (∀ w' : World, RateStoreWF w' → ∀ f t,
      (w'.rates.filter (Rate.hasPair f t)).length ≤ 1 ∧
      (w'.rates.filter (fun r => Rate.hasPair f t r && r.isActive)).length ≤ 1) :=
  ⟨fun data => create_wf env w data h,
   fun id data => patch_wf env w id data h,
   fun id => remove_wf env w id h,
   updateRatesFromExternalAPIs_wf env w h,
   fun f t => getRateForPair_wf env w f t h,
   fun rows => saveRates_wf env rows w h,
   fun w' h' f t =>
     ⟨uniquePairs_filter_length f t w'.rates h'.1, active_filter_length f t w'.rates h'.1⟩⟩

/-- C12, at the store holding the one test rate: after a second `create` for its pair, a soft
delete, and a CSV row for its pair, the store is well-formed each time. -/
theorem rate_store_invariant_witness :
    RateStoreWF (RatesService.create testEnv oneRateWorld
      (rateRequest "USD" "EUR" 0.9 "coingecko")).2 ∧
    RateStoreWF (RatesService.remove testEnv oneRateWorld 1).2 ∧
    RateStoreWF (CSVImportService.saveRates testEnv oneRateWorld
      [{ fromCurrency := "USD", toCurrency := "EUR", rate := 0.9, source := "manual" }]).2 ∧
    ((RatesService.create testEnv oneRateWorld
      (rateRequest "USD" "EUR" 0.9 "coingecko")).2.rates.filter
        (Rate.hasPair "USD" "EUR")).length ≤ 1 :=
  ⟨(rate_store_invariant testEnv oneRateWorld (by decide!)).1 _,
   (rate_store_invariant testEnv oneRateWorld (by decide!)).2.2.1 1,
   (rate_store_invariant testEnv oneRateWorld (by decide!)).2.2.2.2.2.1 _,
   ((rate_store_invariant testEnv oneRateWorld (by decide!)).2.2.2.2.2.2 _
     ((rate_store_invariant testEnv oneRateWorld (by decide!)).1 _) "USD" "EUR").1⟩

/-- C13. On a well-formed Rate Store with the write accepted, `remove` of the id of an existing
rate deletes nothing: every record stays in its place, the record with that id becomes
`isActive = false` with its pair, rate and source unchanged, every other record is unchanged,
the number of records is the same, and the call returns `Rate deactivated successfully`. -/
theorem remove_soft_deletes (env : Env) (w : World) (id : Nat) (found : Rate)
    (hwf : RateStoreWF w) (hw : env.storeWriteError = none)
    (hfind : Rate.findById w id = some found) :
    (RatesService.remove env w id).1 = .ok "Rate deactivated successfully" ∧
    (RatesService.remove env w id).2.rates =
      w.rates.map (fun x => if x._id = id then { x with isActive := false } else x) ∧
    (RatesService.remove env w id).2.rates.length = w.rates.length ∧
    Rate.findById (RatesService.remove env w id).2 id =
      some { _id := id, fromCurrency := found.fromCurrency, toCurrency := found.toCurrency,
             rate := found.rate, source := found.source, lastUpdated := found.lastUpdated,
             isActive := false } := by
  obtain ⟨hmem, hid⟩ := findById_some w id found hfind
  have hvalid : (deactivated found).valid = true := hwf.2.2.2 found hmem
  have hupd := update_of_found env w found (deactivated found) hwf hw hmem rfl rfl rfl hvalid
  have hres : RatesService.remove env w id =
      (.ok "Rate deactivated successfully",
        (RabbitMQ.sendRateUpdateLog env { w with rates := replaceById (deactivated found) w.rates }
          (rateUpdatePayload "delete" (deactivated found))).2) := by
    unfold RatesService.remove
    rw [hfind]
    simp only []
    have hupd' : Rate.update env w { found with isActive := false } =
        .ok { w with rates := replaceById (deactivated found) w.rates } := hupd
    rw [hupd']
    rfl
  have hrates : (RatesService.remove env w id).2.rates =
      w.rates.map (fun x => if x._id = id then { x with isActive := false } else x) := by
    rw [hres, (sendRateUpdateLog_frame env _ _).1]
    show replaceById (deactivated found) w.rates = _
    rw [replaceById_eq_map w hwf found hmem deactivated (fun _ => rfl), hid]
    rfl
  have hwf' := remove_wf env w id hwf
  refine ⟨by rw [hres], hrates, by rw [hrates, List.length_map], ?_⟩
  have hin : deactivated found ∈ (RatesService.remove env w id).2.rates := by
    rw [hrates, List.mem_map]
    exact ⟨found, hmem, by rw [if_pos hid]; rfl⟩
  have := findById_of_mem _ hwf'.2.1 _ hin
  rw [show (deactivated found)._id = id from hid] at this
  rw [this, ← hid]
  rfl

/-- C13, at the store holding the one test rate. -/
theorem remove_soft_deletes_witness :
    (RatesService.remove testEnv oneRateWorld 1).1 = .ok "Rate deactivated successfully" ∧
    (RatesService.remove testEnv oneRateWorld 1).2.rates =
      oneRateWorld.rates.map (fun x => if x._id = 1 then { x with isActive := false } else x) ∧
    (RatesService.remove testEnv oneRateWorld 1).2.rates.length = oneRateWorld.rates.length ∧
    Rate.findById (RatesService.remove testEnv oneRateWorld 1).2 1 =
      some { _id := 1, fromCurrency := testRate.fromCurrency, toCurrency := testRate.toCurrency,
             rate := testRate.rate, source := testRate.source,
             lastUpdated := testRate.lastUpdated, isActive := false } :=
  remove_soft_deletes testEnv oneRateWorld 1 testRate (by decide!) rfl (by decide!)

/-- C14. On a well-formed Rate Store with the write accepted, `patch` of an existing id with a
valid body returns the stored record with exactly the keys given in the body replaced (`rate`,
`source`, `isActive`) and `lastUpdated` renewed; keys absent from the body, the pair and the
`_id` keep their values, and every other record stays as it was, in its place. A body with a
non-positive rate or an unknown source fails with `Validation error` and changes nothing. -/
theorem patch_updates (env : Env) (w : World) (id : Nat) :
    (∀ (data : UpdateRateData) (found : Rate), RateStoreWF w → env.storeWriteError = none →
      ValidPatch data → Rate.findById w id = some found →
      (RatesService.patch env w id data).1 =
        .ok { _id := found._id
              fromCurrency := found.fromCurrency
              toCurrency := found.toCurrency
              rate := data.rate.getD found.rate
              source := data.source.getD found.source
              lastUpdated := env.now
              isActive := data.isActive.getD found.isActive } ∧
      (RatesService.patch env w id data).2.rates =
        w.rates.map (fun x => if x._id = id then applyPatch data env.now x else x)) ∧
    (∀ data : UpdateRateData,
      ((∃ v, data.rate = some v ∧ v ≤ 0) ∨
        ∃ s, data.source = some s ∧ s ∉ rateModelSourceEnum) →
      ∃ e, RatesService.patch env w id data =
        (.error ("Error updating rate: " ++ ("Validation error: " ++ e)), w)) := by
  constructor
  · intro data found hwf hw hv hfind
    obtain ⟨hmem, hid⟩ := findById_some w id found hfind
    rw [patch_of_found env w id data found hwf hw hv hfind]
    refine ⟨rfl, ?_⟩
    rw [(sendRateUpdateLog_frame env _ _).1]
    show replaceById (applyPatch data env.now found) w.rates = _
    rw [replaceById_eq_map w hwf found hmem (applyPatch data env.now) (fun _ => rfl), hid]
  · intro data h
    obtain ⟨e, he⟩ := updateRateSchema_error data h
    refine ⟨e, ?_⟩
    unfold RatesService.patch
    rw [he]

/-- C14, at the bodies of the update tests: `{rate: 0.90, source: 'coingecko'}` on the one
stored rate, and the invalid `{rate: -1, source: 'invalid'}`. -/
theorem patch_updates_witness :
    ((RatesService.patch testEnv oneRateWorld 1
        { rate := some 0.9, source := some "coingecko", isActive := none }).1 =
      .ok { _id := 1, fromCurrency := "USD", toCurrency := "EUR", rate := 0.9,
            source := "coingecko", lastUpdated := 1700000000000, isActive := true } ∧
      (RatesService.patch testEnv oneRateWorld 1
        { rate := some 0.9, source := some "coingecko", isActive := none }).2.rates =
      oneRateWorld.rates.map (fun x => if x._id = 1 then
        applyPatch { rate := some 0.9, source := some "coingecko", isActive := none }
          testEnv.now x else x)) ∧
    (∃ e, RatesService.patch testEnv oneRateWorld 1
        { rate := some (-1), source := some "invalid", isActive := none } =
      (.error ("Error updating rate: " ++ ("Validation error: " ++ e)), oneRateWorld)) :=
  ⟨(patch_updates testEnv oneRateWorld 1).1
      { rate := some 0.9, source := some "coingecko", isActive := none } testRate
      (by decide!) rfl
      ⟨fun v hv => by
          cases hv
          constructor
          · norm_num
          · unfold MAX_SAFE_INTEGER; norm_num,
        fun s hs => by cases hs; decide⟩
      (by decide!),
   (patch_updates testEnv oneRateWorld 1).2
      { rate := some (-1), source := some "invalid", isActive := none }
      (Or.inl ⟨-1, rfl, by norm_num⟩)⟩

/-- C15 (amended). For an id that matches no record, `get`, `patch` with a valid body and
`remove` each fail and leave the whole state as it was: the store is unchanged and no rate-change
notification is queued. When the id is a well-formed ObjectId the message ends in
`Rate not found`. When the id cannot be cast to an ObjectId, the message is the cast error of
`Rate.findById` behind the prefix of the method, not `Rate not found`. -/
theorem rate_not_found (env : Env) (w : World) :
    (∀ id : Nat, (∀ r ∈ w.rates, r._id ≠ id) →
      RatesService.getById w (.objectId id) = .error "Error fetching rate: Rate not found" ∧
      (∀ data, ValidPatch data →
        RatesService.patchById env w (.objectId id) data =
          (.error "Error updating rate: Rate not found", w)) ∧
      RatesService.removeById env w (.objectId id) =
        (.error "Error removing rate: Rate not found", w)) ∧
    (∀ text : String,
      RatesService.getById w (.uncastable text) =
        .error ("Error fetching rate: " ++ castIdError text) ∧
      (∀ data, ValidPatch data →
        RatesService.patchById env w (.uncastable text) data =
          (.error ("Error updating rate: " ++ castIdError text), w)) ∧
      RatesService.removeById env w (.uncastable text) =
        (.error ("Error removing rate: " ++ castIdError text), w)) := by
  refine ⟨?_, ?_⟩
  · intro id h
    have hfind : Rate.findById w id = none := by
      unfold Rate.findById
      rw [List.find?_eq_none]
      intro x hx
      simpa using h x hx
    refine ⟨?_, ?_, ?_⟩
    · show RatesService.get w id = _
      unfold RatesService.get
      rw [hfind]
      rfl
    · intro data hv
      show RatesService.patch env w id data = _
      unfold RatesService.patch
      rw [updateRateSchema_ok data hv, hfind]
      rfl
    · show RatesService.remove env w id = _
      unfold RatesService.remove
      rw [hfind]
      rfl
  · intro text
    refine ⟨rfl, ?_, rfl⟩
    intro data hv
    unfold RatesService.patchById
    simp only [updateRateSchema_ok data hv]

/-- C15, at the id of the not-found test and at the path segment `abc`, on the store holding
the one test rate. -/
theorem rate_not_found_witness :
    (RatesService.getById oneRateWorld (.objectId 507) =
        .error "Error fetching rate: Rate not found" ∧
      (∀ data, ValidPatch data →
        RatesService.patchById testEnv oneRateWorld (.objectId 507) data =
          (.error "Error updating rate: Rate not found", oneRateWorld)) ∧
      RatesService.removeById testEnv oneRateWorld (.objectId 507) =
        (.error "Error removing rate: Rate not found", oneRateWorld)) ∧
    (RatesService.getById oneRateWorld (.uncastable "abc") =
        .error ("Error fetching rate: " ++ castIdError "abc") ∧
      (∀ data, ValidPatch data →
        RatesService.patchById testEnv oneRateWorld (.uncastable "abc") data =
          (.error ("Error updating rate: " ++ castIdError "abc"), oneRateWorld)) ∧
      RatesService.removeById testEnv oneRateWorld (.uncastable "abc") =
        (.error ("Error removing rate: " ++ castIdError "abc"), oneRateWorld)) :=
  ⟨(rate_not_found testEnv oneRateWorld).1 507 (by decide),
   (rate_not_found testEnv oneRateWorld).2 "abc"⟩

/-- C15, refuted as stated: the id `abc` matches no record of the store holding the one test
rate, yet `get` and `remove` fail with the cast error, in which `Rate not found` does not
occur; the store is left as it was. -/
theorem rate_not_found_counterexample :
    RatesService.getById oneRateWorld (.uncastable "abc") =
      .error "Error fetching rate: Cast to ObjectId failed for value \"abc\" (type string) at path \"_id\" for model \"Rate\"" ∧
    RatesService.removeById testEnv oneRateWorld (.uncastable "abc") =
      (.error "Error removing rate: Cast to ObjectId failed for value \"abc\" (type string) at path \"_id\" for model \"Rate\"",
        oneRateWorld) ∧
    ¬ List.IsInfix "Rate not found".data
      "Error fetching rate: Cast to ObjectId failed for value \"abc\" (type string) at path \"_id\" for model \"Rate\"".data ∧
    ¬ List.IsInfix "Rate not found".data
      "Error removing rate: Cast to ObjectId failed for value \"abc\" (type string) at path \"_id\" for model \"Rate\"".data := by
  decide!

/-- C16. With the store connected and a valid filter, `RatesService.find` returns the page
obtained from the matches (the active records agreeing with every given filter key) sorted by
`lastUpdated` descending, by skipping `skip` of them (default 0) and keeping at most `limit`
(default 50, at most 100): every record of the page is a stored active record matching the
filter, the page is sorted, and it has at most `limit` records. A filter with a limit below 1
or above 100, a negative skip, or a code that is not three letters `A`-`Z` fails with a
validation error. -/
theorem find_rates_page (w : World) :
    (∀ (f t s : Option String) (limit skip : Option ℕ), w.readyState = 1 →
      (∀ x, f = some x → matchesCurrencyPattern x = true) →
      (∀ x, t = some x → matchesCurrencyPattern x = true) →
      (∀ x, s = some x → x ∈ rateModelSourceEnum) →
      (∀ n, limit = some n → 1 ≤ n ∧ n ≤ 100) →
      (∀ n, skip = some n → (n : ℚ) ≤ MAX_SAFE_INTEGER) →
      ∃ (page : RatesPage) (sorted : List Rate), RatesService.find w (ratesQuery f t s limit skip) = .ok page ∧
        sorted.Perm (w.rates.filter (fun r =>
          r.isActive && decide (∀ x, f = some x → r.fromCurrency = x) &&
          decide (∀ x, t = some x → r.toCurrency = x) &&
          decide (∀ x, s = some x → r.source = x))) ∧
        sorted.Pairwise (fun a b => b.lastUpdated ≤ a.lastUpdated) ∧
        page.data = (sorted.drop (skip.getD 0)).take (limit.getD 50) ∧
        (∀ r ∈ page.data, r ∈ w.rates ∧ r.isActive = true ∧
          (∀ x, f = some x → r.fromCurrency = x) ∧ (∀ x, t = some x → r.toCurrency = x) ∧
          (∀ x, s = some x → r.source = x)) ∧
        page.data.Pairwise (fun a b => b.lastUpdated ≤ a.lastUpdated) ∧
        page.data.length ≤ limit.getD 50 ∧ limit.getD 50 ≤ 100 ∧
        page.total = page.data.length) ∧
    (∀ q : RatesQuery,
      ((∃ v, q.limit = some v ∧ (v < 1 ∨ v > 100)) ∨ (∃ v, q.skip = some v ∧ v < 0) ∨
        (∃ x, q.fromCurrency = some x ∧ matchesCurrencyPattern x = false) ∨
        ∃ x, q.toCurrency = some x ∧ matchesCurrencyPattern x = false) →
      ∃ e, RatesService.find w q =
        .error ("Error fetching rates: " ++ ("Validation error: " ++ e))) := by
  constructor
  · intro f t s limit skip hcon hf ht hs hl hk
    have hfilter : w.rates.filter (RatesService.matchesQuery f t s) =
        w.rates.filter (fun r =>
          r.isActive && decide (∀ x, f = some x → r.fromCurrency = x) &&
          decide (∀ x, t = some x → r.toCurrency = x) &&
          decide (∀ x, s = some x → r.source = x)) := by
      apply List.filter_congr
      intro r _
      rw [Bool.eq_iff_iff, matchesQuery_spec f t s r hf ht hs]
      simp only [Bool.and_eq_true, decide_eq_true_eq, and_assoc]
    have hlim : 1 ≤ limit.getD 50 ∧ limit.getD 50 ≤ 100 := by
      cases hlimit : limit with
      | none => simp
      | some n => exact hl n hlimit
    have hpl : parseInt (withDefault (limit.map (fun n => (n : ℚ))) 50) =
        ((limit.getD 50 : ℕ) : ℤ) := by
      cases limit with
      | none => exact parseInt_natCast 50 (by unfold MAX_SAFE_INTEGER; norm_num)
      | some n =>
        exact parseInt_natCast n (le_trans (by exact_mod_cast (hl n rfl).2 : (n : ℚ) ≤ 100)
          (by unfold MAX_SAFE_INTEGER; norm_num))
    have hps : parseInt (withDefault (skip.map (fun n => (n : ℚ))) 0) =
        ((skip.getD 0 : ℕ) : ℤ) := by
      cases skip with
      | none => exact parseInt_natCast 0 (by unfold MAX_SAFE_INTEGER; norm_num)
      | some n => exact parseInt_natCast n (hk n rfl)
    obtain ⟨hsorted, hperm⟩ := insertionSort_desc (fun r : Rate => r.lastUpdated)
      (w.rates.filter (RatesService.matchesQuery f t s))
    have hpage : RatesService.find w (ratesQuery f t s limit skip) =
        .ok { data := ((sortByLastUpdatedDesc
                (w.rates.filter (RatesService.matchesQuery f t s))).drop
                  (skip.getD 0)).take (limit.getD 50)
              total := (((sortByLastUpdatedDesc
                (w.rates.filter (RatesService.matchesQuery f t s))).drop
                  (skip.getD 0)).take (limit.getD 50)).length
              limit := ((limit.getD 50 : ℕ) : ℤ)
              skip := ((skip.getD 0 : ℕ) : ℤ)
              message := none } := by
      unfold RatesService.find
      rw [getRatesSchema_ok f t s limit skip hf ht hs hl hk]
      simp only [ratesQuery, hcon, ne_eq, not_true_eq_false, if_false, hpl, hps,
        limitSkip_nat _ _ hlim.1]
    have hsub : (((sortByLastUpdatedDesc
        (w.rates.filter (RatesService.matchesQuery f t s))).drop
          (skip.getD 0)).take (limit.getD 50)).Sublist
        (sortByLastUpdatedDesc (w.rates.filter (RatesService.matchesQuery f t s))) :=
      (List.take_sublist _ _).trans (List.drop_sublist _ _)
    refine ⟨_, sortByLastUpdatedDesc (w.rates.filter (RatesService.matchesQuery f t s)),
      hpage, ?_, hsorted, rfl, ?_, hsorted.sublist hsub, ?_, hlim.2, rfl⟩
    · rw [← hfilter]
      exact hperm
    · intro r hr
      have hr1 := hperm.subset (hsub.subset hr)
      rw [List.mem_filter] at hr1
      exact ⟨hr1.1, (matchesQuery_spec f t s r hf ht hs).mp hr1.2⟩
    · exact List.length_take_le _ _
  · intro q h
    obtain ⟨e, he⟩ := getRatesSchema_error q h
    refine ⟨e, ?_⟩
    unfold RatesService.find
    rw [he]

/-- C16, at the filter of the filter test (`fromCurrency: 'USD', limit: 10`) on the three test
rates, and at the invalid query of the query-parameter test. -/
theorem find_rates_page_witness :
    (∃ (page : RatesPage) (sorted : List Rate), RatesService.find threeRatesWorld
        (ratesQuery (some "USD") none none (some 10) none) = .ok page ∧
      sorted.Perm (threeRatesWorld.rates.filter (fun r =>
        r.isActive && decide (∀ x, some "USD" = some x → r.fromCurrency = x) &&
        decide (∀ x, (none : Option String) = some x → r.toCurrency = x) &&
        decide (∀ x, (none : Option String) = some x → r.source = x))) ∧
      sorted.Pairwise (fun a b => b.lastUpdated ≤ a.lastUpdated) ∧
      page.data = (sorted.drop ((none : Option ℕ).getD 0)).take ((some 10 : Option ℕ).getD 50) ∧
      (∀ r ∈ page.data, r ∈ threeRatesWorld.rates ∧ r.isActive = true ∧
        (∀ x, some "USD" = some x → r.fromCurrency = x) ∧
        (∀ x, (none : Option String) = some x → r.toCurrency = x) ∧
        (∀ x, (none : Option String) = some x → r.source = x)) ∧
      page.data.Pairwise (fun a b => b.lastUpdated ≤ a.lastUpdated) ∧
      page.data.length ≤ (some 10 : Option ℕ).getD 50 ∧ (some 10 : Option ℕ).getD 50 ≤ 100 ∧
      page.total = page.data.length) ∧
    (∃ e, RatesService.find threeRatesWorld
        { fromCurrency := some "INVALID", toCurrency := none, source := none,
          limit := some (-1), skip := some (-1) } =
      .error ("Error fetching rates: " ++ ("Validation error: " ++ e))) :=
  ⟨(find_rates_page threeRatesWorld).1 (some "USD") none none (some 10) none rfl
      (fun x hx => by cases hx; decide) (fun x hx => by cases hx) (fun x hx => by cases hx)
      (fun n hn => by cases hn; omega) (fun n hn => by cases hn),
   (find_rates_page threeRatesWorld).2 _ (Or.inl ⟨-1, rfl, Or.inl (by norm_num)⟩)⟩

/-- The page of the filter test, evaluated: the two `USD` rates, the later one first. -/
theorem find_rates_example :
    RatesService.find threeRatesWorld (ratesQuery (some "USD") none none (some 10) none) =
      .ok { data := [{ testRate with _id := 2, toCurrency := "GBP",
                                     lastUpdated := 1600000000001 }, testRate]
            total := 2, limit := 10, skip := 0, message := none } := by
  decide!

/-- C17 (amended). `getRateForPair(from, to)`: when the store holds an active record for the
uppercased pair, that record is returned and nothing else happens (no provider query, no
change of the store). Otherwise the providers are queried once. When they yield a value and
`create` accepts it (both codes are exactly three letters `A`-`Z`, the value is positive and in
the safe range, the write is accepted), the value is persisted through `create` and the
persisted record of the pair is returned with that rate; when `create` refuses the body, its
error is rethrown and the store is unchanged. When the providers yield no value, the call fails
with `Rate not available` and the store is unchanged. -/
theorem getRateForPair_resolves (env : Env) (w : World) (f t : String) :
    (∀ rec, w.rates.find? (fun r =>
        Rate.hasPair (toUpperCase f) (toUpperCase t) r && r.isActive) = some rec →
      RatesService.getRateForPair env w f t = (.ok rec, w)) ∧
    (w.rates.find? (fun r =>
        Rate.hasPair (toUpperCase f) (toUpperCase t) r && r.isActive) = none →
      (∀ v, env.getRate f t = .returned (some v) → matchesCurrencyPattern f = true →
        matchesCurrencyPattern t = true → 0 < v → v ≤ MAX_SAFE_INTEGER → RateStoreWF w →
        env.storeWriteError = none →
        ∃ rec, (RatesService.getRateForPair env w f t).1 = .ok rec ∧
          rec.rate = v ∧ rec.source = providerSource f ∧ Rate.hasPair f t rec = true ∧
          (RatesService.getRateForPair env w f t).2.rates.filter (Rate.hasPair f t) = [rec] ∧
          (RatesService.getRateForPair env w f t).2.providerCalls =
            w.providerCalls ++ [(f, t)]) ∧
      (∀ v e, env.getRate f t = .returned (some v) → v ≠ 0 →
        createRateSchema.validate { fromCurrency := some f, toCurrency := some t,
                                    rate := some v, source := some (providerSource f) } =
          .error e →
        RatesService.getRateForPair env w f t =
          (.error ("Error getting rate: " ++
            ("Error creating rate: " ++ ("Validation error: " ++ e))),
            { w with providerCalls := w.providerCalls ++ [(f, t)] })) ∧
      ((env.getRate f t = .returned none ∨ env.getRate f t = .returned (some 0)) →
        RatesService.getRateForPair env w f t =
          (.error ("Error getting rate: " ++ ("Rate not available for " ++ f ++ " to " ++ t)),
            { w with providerCalls := w.providerCalls ++ [(f, t)] }))) := by
  constructor
  · intro rec hfind
    unfold RatesService.getRateForPair
    rw [hfind]
  · intro hnone
    refine ⟨?_, ?_, ?_⟩
    · intro v hret hf ht hpos hsafe hwf hw
      have hv : ValidRate f t v (providerSource f) :=
        ⟨hf, ht, hpos, hsafe, providerSource_mem f⟩
      have hwf1 : RateStoreWF { w with providerCalls := w.providerCalls ++ [(f, t)] } :=
        wf_frame w _ rfl (le_refl _) hwf
      obtain ⟨rec, hres, hrate, hsrc, hp, _, hfilter, _⟩ :=
        create_upsert env _ f t v (providerSource f) hv hwf1 hw
      have hcalls := (create_other_fields env
        { w with providerCalls := w.providerCalls ++ [(f, t)] }
        (rateRequest f t v (providerSource f))).1
      rw [getRateForPair_priced env w f t v hnone hret hpos.ne']
      rcases hc : RatesService.create env
          { w with providerCalls := w.providerCalls ++ [(f, t)] }
          (rateRequest f t v (providerSource f)) with ⟨res, w2⟩
      rw [hc] at hres hfilter hcalls
      simp only [] at hres hfilter hcalls
      subst hres
      have hc' : RatesService.create env
          { w with providerCalls := w.providerCalls ++ [(f, t)] }
          { fromCurrency := some f, toCurrency := some t, rate := some v,
            source := some (providerSource f) } = (Except.ok rec, w2) := hc
      rw [hc']
      exact ⟨rec, rfl, hrate, hsrc, hp, hfilter, hcalls⟩
    · intro v e hret hv0 hval
      rw [getRateForPair_priced env w f t v hnone hret hv0]
      have hc : RatesService.create env
          { w with providerCalls := w.providerCalls ++ [(f, t)] }
          { fromCurrency := some f, toCurrency := some t, rate := some v,
            source := some (providerSource f) } =
          (.error ("Error creating rate: " ++ ("Validation error: " ++ e)),
            { w with providerCalls := w.providerCalls ++ [(f, t)] }) := by
        unfold RatesService.create
        rw [hval]
      rw [hc]
    · intro hret
      unfold RatesService.getRateForPair
      rw [hnone]
      rcases hret with hret | hret <;> simp [hret, truthyRate]

/-- C17, at the pair of the tests: returned from the store when the record is active, priced
and persisted when the store is empty, refused when no provider prices it. -/
theorem getRateForPair_resolves_witness :
    RatesService.getRateForPair testEnv oneRateWorld "USD" "EUR" = (.ok testRate, oneRateWorld) ∧
    (∃ rec, (RatesService.getRateForPair pricedEnv connectedWorld "USD" "EUR").1 = .ok rec ∧
      rec.rate = 0.1 ∧ rec.source = providerSource "USD" ∧
      Rate.hasPair "USD" "EUR" rec = true ∧
      (RatesService.getRateForPair pricedEnv connectedWorld "USD" "EUR").2.rates.filter
        (Rate.hasPair "USD" "EUR") = [rec] ∧
      (RatesService.getRateForPair pricedEnv connectedWorld "USD" "EUR").2.providerCalls =
        connectedWorld.providerCalls ++ [("USD", "EUR")]) ∧
    RatesService.getRateForPair testEnv connectedWorld "USD" "EUR" =
      (.error ("Error getting rate: " ++ ("Rate not available for " ++ "USD" ++ " to " ++ "EUR")),
        { connectedWorld with providerCalls := connectedWorld.providerCalls ++ [("USD", "EUR")] }) :=
  ⟨(getRateForPair_resolves testEnv oneRateWorld "USD" "EUR").1 testRate (by decide!),
   ((getRateForPair_resolves pricedEnv connectedWorld "USD" "EUR").2 (by decide!)).1 0.1 rfl
      (by decide) (by decide) (by norm_num) (by unfold MAX_SAFE_INTEGER; norm_num)
      (by decide!) rfl,
   ((getRateForPair_resolves testEnv connectedWorld "USD" "EUR").2 (by decide!)).2.2
      (Or.inl rfl)⟩

/-- C17, refuted as stated: for the pair `DOGE`/`USD`, which the provider prices at 0.1, the
value is obtained but `create` refuses the four-letter code; the call fails and nothing is
persisted. -/
theorem getRateForPair_counterexample :
    connectedWorld.rates.find? (fun r =>
      Rate.hasPair (toUpperCase "DOGE") (toUpperCase "USD") r && r.isActive) = none ∧
    pricedEnv.getRate "DOGE" "USD" = ProviderOutcome.returned (some 0.1) ∧
    ExternalAPIs.isCryptoCurrency "DOGE" = true ∧
    RatesService.getRateForPair pricedEnv connectedWorld "DOGE" "USD" =
      (.error "Error getting rate: Error creating rate: Validation error: Currency code must be 3 uppercase letters (e.g., USD, EUR, BTC)",
        { connectedWorld with providerCalls := [("DOGE", "USD")] }) ∧
    (RatesService.getRateForPair pricedEnv connectedWorld "DOGE" "USD").2.rates = [] := by
  decide!

/-- C18. `getRate` selects the provider by the type of the two currencies: both crypto, the
crypto provider's answer for `(from, to)`; both fiat, the fiat provider's answer for
`(from, to)`; types differing, the product of the two legs through `USD` (`from` to `USD` at
the provider of the type of `from`, `USD` to `to` at the other provider) when both legs answer
a number other than zero, and `null` when either leg yields no value. -/
theorem getRate_selects_provider (p : Providers) (f t : String) :
    (ExternalAPIs.isCryptoCurrency f = true → ExternalAPIs.isCryptoCurrency t = true →
      ExternalAPIs.getRate p f t = p.getCryptoRates f t) ∧
    (ExternalAPIs.isCryptoCurrency f = false → ExternalAPIs.isCryptoCurrency t = false →
      ExternalAPIs.getRate p f t = p.getFiatRates f t) ∧
    (ExternalAPIs.isCryptoCurrency f = true → ExternalAPIs.isCryptoCurrency t = false →
      (∀ u v, p.getCryptoRates f "USD" = some u → p.getFiatRates "USD" t = some v →
        u ≠ 0 → v ≠ 0 → ExternalAPIs.getRate p f t = some (u * v)) ∧
      ((p.getCryptoRates f "USD" = none ∨ p.getFiatRates "USD" t = none ∨
          p.getCryptoRates f "USD" = some 0 ∨ p.getFiatRates "USD" t = some 0) →
        ExternalAPIs.getRate p f t = none)) ∧
    (ExternalAPIs.isCryptoCurrency f = false → ExternalAPIs.isCryptoCurrency t = true →
      (∀ u v, p.getFiatRates f "USD" = some u → p.getCryptoRates "USD" t = some v →
        u ≠ 0 → v ≠ 0 → ExternalAPIs.getRate p f t = some (u * v)) ∧
      ((p.getFiatRates f "USD" = none ∨ p.getCryptoRates "USD" t = none ∨
          p.getFiatRates f "USD" = some 0 ∨ p.getCryptoRates "USD" t = some 0) →
        ExternalAPIs.getRate p f t = none)) := by
  refine ⟨?_, ?_, ?_, ?_⟩
  · intro hf ht
    simp [ExternalAPIs.getRate, hf, ht]
  · intro hf ht
    simp [ExternalAPIs.getRate, hf, ht]
  · intro hf ht
    constructor
    · intro u v hu hv hu0 hv0
      simp [ExternalAPIs.getRate, hf, ht, hu, hv, bridgeRate, hu0, hv0]
    · intro h
      simp only [ExternalAPIs.getRate, hf, ht, Bool.and_false, Bool.false_eq_true, if_false,
        Bool.not_true, Bool.false_and, if_true]
      rcases h with h | h | h | h
      · rw [h]; rfl
      · rw [h]; cases p.getCryptoRates f "USD" <;> rfl
      · rw [h]; cases p.getFiatRates "USD" t <;> simp [bridgeRate]
      · rw [h]; cases p.getCryptoRates f "USD" <;> simp [bridgeRate]
  · intro hf ht
    constructor
    · intro u v hu hv hu0 hv0
      simp [ExternalAPIs.getRate, hf, ht, hu, hv, bridgeRate, hu0, hv0]
    · intro h
      simp only [ExternalAPIs.getRate, hf, ht, Bool.false_and, Bool.false_eq_true, if_false,
        Bool.not_false, Bool.not_true, Bool.true_and]
      rcases h with h | h | h | h
      · rw [h]; rfl
      · rw [h]; cases p.getFiatRates f "USD" <;> rfl
      · rw [h]; cases p.getCryptoRates "USD" t <;> simp [bridgeRate]
      · rw [h]; cases p.getFiatRates f "USD" <;> simp [bridgeRate]

/-- C18, at a crypto pair, a fiat pair, a bridged pair with both legs priced and a bridged pair
with a leg missing. -/
theorem getRate_selects_provider_witness :
    ExternalAPIs.getRate testProviders "BTC" "ETH" = testProviders.getCryptoRates "BTC" "ETH" ∧
    ExternalAPIs.getRate testProviders "EUR" "JPY" = testProviders.getFiatRates "EUR" "JPY" ∧
    ExternalAPIs.getRate testProviders "BTC" "EUR" = some (45000 * 0.85) ∧
    ExternalAPIs.getRate testProviders "ETH" "EUR" = none :=
  ⟨(getRate_selects_provider testProviders "BTC" "ETH").1 (by decide) (by decide),
   (getRate_selects_provider testProviders "EUR" "JPY").2.1 (by decide) (by decide),
   ((getRate_selects_provider testProviders "BTC" "EUR").2.2.1 (by decide) (by decide)).1
      45000 0.85 (by decide) (by decide!) (by norm_num) (by norm_num),
   ((getRate_selects_provider testProviders "ETH" "EUR").2.2.1 (by decide) (by decide)).2
      (Or.inl (by decide))⟩

/-- C19 (amended). When both bulk snapshots list well-formed entries (a key `FROM_TO` of two
codes of three letters `A`-`Z`, a positive rate in the safe range, each pair once), the store is
well-formed and the writes are accepted, `updateRatesFromExternalAPIs` returns
`Rates updated successfully` and afterwards every pair of the fiat snapshot, and every pair of
the crypto snapshot that the fiat snapshot does not list, has exactly one record, with the
snapshot's rate and the provider's source; an empty snapshot (a failing provider) does not
prevent the other one from being upserted. An entry that `create` refuses is not skipped: the
batch stops there, the call fails with `Error updating rates: ...`, and the state is the one
reached by the entries before it. -/
theorem updateRates_upserts (env : Env) (w : World) :
    (∀ crypto fiat : List (String × String × ℚ),
      env.allCryptoRates = snapshotOf crypto → env.allFiatRates = snapshotOf fiat →
      (∀ e ∈ crypto ++ fiat, matchesCurrencyPattern e.1 = true ∧
        matchesCurrencyPattern e.2.1 = true ∧ 0 < e.2.2 ∧ e.2.2 ≤ MAX_SAFE_INTEGER) →
      (crypto.map (fun e => (e.1, e.2.1))).Nodup → (fiat.map (fun e => (e.1, e.2.1))).Nodup →
      RateStoreWF w → env.storeWriteError = none →
      (RatesService.updateRatesFromExternalAPIs env w).1 = .ok "Rates updated successfully" ∧
      (∀ e ∈ fiat, ∃ rec,
        (RatesService.updateRatesFromExternalAPIs env w).2.rates.filter
          (Rate.hasPair e.1 e.2.1) = [rec] ∧
        rec.rate = e.2.2 ∧ rec.source = "openexchangerates") ∧
      (∀ e ∈ crypto, (e.1, e.2.1) ∉ fiat.map (fun e => (e.1, e.2.1)) → ∃ rec,
        (RatesService.updateRatesFromExternalAPIs env w).2.rates.filter
          (Rate.hasPair e.1 e.2.1) = [rec] ∧
        rec.rate = e.2.2 ∧ rec.source = "coingecko")) ∧
    (∀ (pre post : List (String × ℚ)) (bad : String × ℚ) (e : String),
      env.allCryptoRates = pre ++ bad :: post →
      (RatesService.createAll env "coingecko" w pre).1 = .ok () →
      createRateSchema.validate (entryData "coingecko" bad) = .error e →
      RatesService.updateRatesFromExternalAPIs env w =
        (.error ("Error updating rates: " ++
          ("Error creating rate: " ++ ("Validation error: " ++ e))),
          (RatesService.createAll env "coingecko" w pre).2)) ∧
    (∀ (pre post : List (String × ℚ)) (bad : String × ℚ) (e : String),
      (RatesService.createAll env "coingecko" w env.allCryptoRates).1 = .ok () →
      env.allFiatRates = pre ++ bad :: post →
      (RatesService.createAll env "openexchangerates"
        (RatesService.createAll env "coingecko" w env.allCryptoRates).2 pre).1 = .ok () →
      createRateSchema.validate (entryData "openexchangerates" bad) = .error e →
      RatesService.updateRatesFromExternalAPIs env w =
        (.error ("Error updating rates: " ++
          ("Error creating rate: " ++ ("Validation error: " ++ e))),
          (RatesService.createAll env "openexchangerates"
            (RatesService.createAll env "coingecko" w env.allCryptoRates).2 pre).2)) := by
  refine ⟨?_, ?_, ?_⟩
  · intro crypto fiat hc hf hvalid hnc hnf hwf hw
    obtain ⟨c1, c2, _⟩ := createAll_upserts env "coingecko" (by decide) hw crypto
      (fun e he => hvalid e (List.mem_append_left _ he)) hnc w hwf
    have hwf1 := createAll_wf env "coingecko" (snapshotOf crypto) w hwf
    obtain ⟨f1, f2, f3⟩ := createAll_upserts env "openexchangerates" (by decide) hw fiat
      (fun e he => hvalid e (List.mem_append_right _ he)) hnf _ hwf1
    have hres : RatesService.updateRatesFromExternalAPIs env w =
        (.ok "Rates updated successfully",
          (RatesService.createAll env "openexchangerates"
            (RatesService.createAll env "coingecko" w (snapshotOf crypto)).2
            (snapshotOf fiat)).2) := by
      unfold RatesService.updateRatesFromExternalAPIs
      rw [hc, hf, createAll_fst_unit env _ w _ c1]
      simp only []
      rw [createAll_fst_unit env _ _ _ f1]
    rw [hres]
    refine ⟨rfl, f2, ?_⟩
    intro e he hnot
    obtain ⟨rec, h1, h2, h3⟩ := c2 e he
    exact ⟨rec, by rw [f3 e.1 e.2.1 hnot]; exact h1, h2, h3⟩
  · intro pre post bad e hc hpre hbad
    unfold RatesService.updateRatesFromExternalAPIs
    rw [hc, createAll_abort env "coingecko" w pre post bad e hpre hbad]
  · intro pre post bad e hcok hf hpre hbad
    unfold RatesService.updateRatesFromExternalAPIs
    rw [createAll_fst_unit env _ w _ hcok]
    simp only []
    rw [hf, createAll_abort env "openexchangerates" _ pre post bad e hpre hbad]

/-- C19, at two well-formed snapshots on an empty store, and at a crypto snapshot whose first
key is `USDT_USD`. -/
theorem updateRates_upserts_witness :
    ((RatesService.updateRatesFromExternalAPIs snapshotEnv connectedWorld).1 =
        .ok "Rates updated successfully" ∧
      (∀ e ∈ [("USD", "EUR", (0.85 : ℚ)), ("USD", "MXN", 18.5)], ∃ rec,
        (RatesService.updateRatesFromExternalAPIs snapshotEnv connectedWorld).2.rates.filter
          (Rate.hasPair e.1 e.2.1) = [rec] ∧
        rec.rate = e.2.2 ∧ rec.source = "openexchangerates") ∧
      (∀ e ∈ [("BTC", "USD", (45000 : ℚ))],
        (e.1, e.2.1) ∉ [("USD", "EUR", (0.85 : ℚ)), ("USD", "MXN", 18.5)].map
          (fun e => (e.1, e.2.1)) → ∃ rec,
        (RatesService.updateRatesFromExternalAPIs snapshotEnv connectedWorld).2.rates.filter
          (Rate.hasPair e.1 e.2.1) = [rec] ∧
        rec.rate = e.2.2 ∧ rec.source = "coingecko")) ∧
    RatesService.updateRatesFromExternalAPIs tetherSnapshotEnv connectedWorld =
      (.error ("Error updating rates: " ++ ("Error creating rate: " ++ ("Validation error: " ++
        "Currency code must be 3 uppercase letters (e.g., USD, EUR, BTC)"))),
        (RatesService.createAll tetherSnapshotEnv "coingecko" connectedWorld []).2) :=
  ⟨(updateRates_upserts snapshotEnv connectedWorld).1
      [("BTC", "USD", 45000)] [("USD", "EUR", 0.85), ("USD", "MXN", 18.5)]
      (by decide!) (by decide!) (by decide!) (by decide) (by decide) (by decide!) rfl,
   (updateRates_upserts tetherSnapshotEnv connectedWorld).2.1 [] [("BTC_USD", 45000)]
      ("USDT_USD", 1) _ rfl rfl (by decide!)⟩

/-- C19, refuted as stated: with the crypto snapshot `USDT_USD`, `BTC_USD` and the fiat
snapshot `USD_EUR`, the entry `USDT_USD` is refused by `create`, the call fails, and neither
`BTC/USD` nor `USD/EUR` is upserted. -/
theorem updateRates_counterexample :
    RatesService.updateRatesFromExternalAPIs tetherSnapshotEnv connectedWorld =
      (.error "Error updating rates: Error creating rate: Validation error: Currency code must be 3 uppercase letters (e.g., USD, EUR, BTC)",
        connectedWorld) ∧
    (RatesService.updateRatesFromExternalAPIs tetherSnapshotEnv connectedWorld).2.rates.filter
      (Rate.hasPair "BTC" "USD") = [] ∧
    (RatesService.updateRatesFromExternalAPIs tetherSnapshotEnv connectedWorld).2.rates.filter
      (Rate.hasPair "USD" "EUR") = [] := by
  decide!

/-- C20. For a valid filter, `ConvertService.find` returns the page obtained from the matches
(the logged conversions whose codes equal the given codes and whose `conversionDate` lies in
`[startDate, endDate]`, bounds included) sorted by `conversionDate` descending, by skipping
`skip` of them (default 0) and keeping at most `limit` (default 50, at most 100): every record
of the page is a logged conversion matching the filter, the page is sorted, and it has at most
`limit` records. -/
theorem find_conversions_page (w : World) (f t : Option String) (startDate endDate : Option Nat)
    (limit skip : Option ℕ)
    (hf : ∀ x, f = some x → matchesCurrencyPattern x = true)
    (ht : ∀ x, t = some x → matchesCurrencyPattern x = true)
    (hd : ∀ e, endDate = some e → ∃ s, startDate = some s ∧ s ≤ e)
    (hl : ∀ n, limit = some n → 1 ≤ n ∧ n ≤ 100)
    (hk : ∀ n, skip = some n → (n : ℚ) ≤ MAX_SAFE_INTEGER) :
    ∃ (page : ConversionsPage) (sorted : List Conversion),
      ConvertService.find w (conversionsQuery f t startDate endDate limit skip) = .ok page ∧
      sorted.Perm (w.conversions.filter (fun c =>
        decide (∀ x, f = some x → c.fromCurrency = x) &&
        decide (∀ x, t = some x → c.toCurrency = x) &&
        decide (∀ s, startDate = some s → s ≤ c.conversionDate) &&
        decide (∀ e, endDate = some e → c.conversionDate ≤ e))) ∧
      sorted.Pairwise (fun a b => b.conversionDate ≤ a.conversionDate) ∧
      page.data = (sorted.drop (skip.getD 0)).take (limit.getD 50) ∧
      (∀ c ∈ page.data, c ∈ w.conversions ∧
        (∀ x, f = some x → c.fromCurrency = x) ∧ (∀ x, t = some x → c.toCurrency = x) ∧
        (∀ s, startDate = some s → s ≤ c.conversionDate) ∧
        (∀ e, endDate = some e → c.conversionDate ≤ e)) ∧
      page.data.Pairwise (fun a b => b.conversionDate ≤ a.conversionDate) ∧
      page.data.length ≤ limit.getD 50 ∧ limit.getD 50 ≤ 100 ∧
      page.total = page.data.length := by
  have hfilter : w.conversions.filter (ConvertService.matchesQuery f t startDate endDate) =
      w.conversions.filter (fun c =>
        decide (∀ x, f = some x → c.fromCurrency = x) &&
        decide (∀ x, t = some x → c.toCurrency = x) &&
        decide (∀ s, startDate = some s → s ≤ c.conversionDate) &&
        decide (∀ e, endDate = some e → c.conversionDate ≤ e)) := by
    apply List.filter_congr
    intro c _
    rw [Bool.eq_iff_iff, conversion_matchesQuery_spec f t startDate endDate c hf ht]
    simp only [Bool.and_eq_true, decide_eq_true_eq, and_assoc]
  have hlim : 1 ≤ limit.getD 50 ∧ limit.getD 50 ≤ 100 := by
    cases hlimit : limit with
    | none => simp
    | some n => exact hl n hlimit
  have hpl : parseInt (withDefault (limit.map (fun n => (n : ℚ))) 50) =
      ((limit.getD 50 : ℕ) : ℤ) := by
    cases limit with
    | none => exact parseInt_natCast 50 (by unfold MAX_SAFE_INTEGER; norm_num)
    | some n =>
      exact parseInt_natCast n (le_trans (by exact_mod_cast (hl n rfl).2 : (n : ℚ) ≤ 100)
          (by unfold MAX_SAFE_INTEGER; norm_num))
  have hps : parseInt (withDefault (skip.map (fun n => (n : ℚ))) 0) =
      ((skip.getD 0 : ℕ) : ℤ) := by
    cases skip with
    | none => exact parseInt_natCast 0 (by unfold MAX_SAFE_INTEGER; norm_num)
    | some n => exact parseInt_natCast n (hk n rfl)
  obtain ⟨hsorted, hperm⟩ := insertionSort_desc (fun c : Conversion => c.conversionDate)
    (w.conversions.filter (ConvertService.matchesQuery f t startDate endDate))
  have hpage : ConvertService.find w (conversionsQuery f t startDate endDate limit skip) =
      .ok { data := ((sortByConversionDateDesc
              (w.conversions.filter (ConvertService.matchesQuery f t startDate endDate))).drop
                (skip.getD 0)).take (limit.getD 50)
            total := (((sortByConversionDateDesc
              (w.conversions.filter (ConvertService.matchesQuery f t startDate endDate))).drop
                (skip.getD 0)).take (limit.getD 50)).length
            limit := ((limit.getD 50 : ℕ) : ℤ)
            skip := ((skip.getD 0 : ℕ) : ℤ) } := by
    unfold ConvertService.find
    rw [getConversionsSchema_ok f t startDate endDate limit skip hf ht hd hl hk]
    simp only [conversionsQuery, hpl, hps, limitSkip_nat _ _ hlim.1]
  have hsub : (((sortByConversionDateDesc
      (w.conversions.filter (ConvertService.matchesQuery f t startDate endDate))).drop
        (skip.getD 0)).take (limit.getD 50)).Sublist
      (sortByConversionDateDesc
        (w.conversions.filter (ConvertService.matchesQuery f t startDate endDate))) :=
    (List.take_sublist _ _).trans (List.drop_sublist _ _)
  refine ⟨_, sortByConversionDateDesc
      (w.conversions.filter (ConvertService.matchesQuery f t startDate endDate)),
    hpage, ?_, hsorted, rfl, ?_, hsorted.sublist hsub, ?_, hlim.2, rfl⟩
  · rw [← hfilter]
    exact hperm
  · intro c hc
    have hc1 := hperm.subset (hsub.subset hc)
    rw [List.mem_filter] at hc1
    exact ⟨hc1.1, (conversion_matchesQuery_spec f t startDate endDate c hf ht).mp hc1.2⟩
  · exact List.length_take_le _ _

/-- C20, at the filter of the history test (`fromCurrency: 'USD', limit: 10`) on the three test
conversions. -/
theorem find_conversions_page_witness :
    ∃ (page : ConversionsPage) (sorted : List Conversion),
      ConvertService.find historyWorld
        (conversionsQuery (some "USD") none none none (some 10) none) = .ok page ∧
      sorted.Perm (historyWorld.conversions.filter (fun c =>
        decide (∀ x, some "USD" = some x → c.fromCurrency = x) &&
        decide (∀ x, (none : Option String) = some x → c.toCurrency = x) &&
        decide (∀ s, (none : Option Nat) = some s → s ≤ c.conversionDate) &&
        decide (∀ e, (none : Option Nat) = some e → c.conversionDate ≤ e))) ∧
      sorted.Pairwise (fun a b => b.conversionDate ≤ a.conversionDate) ∧
      page.data = (sorted.drop ((none : Option ℕ).getD 0)).take ((some 10 : Option ℕ).getD 50) ∧
      (∀ c ∈ page.data, c ∈ historyWorld.conversions ∧
        (∀ x, some "USD" = some x → c.fromCurrency = x) ∧
        (∀ x, (none : Option String) = some x → c.toCurrency = x) ∧
        (∀ s, (none : Option Nat) = some s → s ≤ c.conversionDate) ∧
        (∀ e, (none : Option Nat) = some e → c.conversionDate ≤ e)) ∧
      page.data.Pairwise (fun a b => b.conversionDate ≤ a.conversionDate) ∧
      page.data.length ≤ (some 10 : Option ℕ).getD 50 ∧ (some 10 : Option ℕ).getD 50 ≤ 100 ∧
      page.total = page.data.length :=
  find_conversions_page historyWorld (some "USD") none none none (some 10) none
    (fun x hx => by cases hx; decide) (fun x hx => by cases hx) (fun e he => by cases he)
    (fun n hn => by cases hn; omega) (fun n hn => by cases hn)

/-- The pages of the two history tests, evaluated: the two `USD` conversions, the later one
first, and the two conversions dated within the first two days. -/
theorem find_conversions_example :
    ConvertService.find historyWorld
        (conversionsQuery (some "USD") none none none (some 10) none) =
      .ok { data := [testConversion 2 "USD" "GBP" 200 150 1704153600000,
                     testConversion 1 "USD" "EUR" 100 85 1704067200000]
            total := 2, limit := 10, skip := 0 } ∧
    ConvertService.find historyWorld
        (conversionsQuery none none (some 1704067200000) (some 1704153600000) none none) =
      .ok { data := [testConversion 2 "USD" "GBP" 200 150 1704153600000,
                     testConversion 1 "USD" "EUR" 100 85 1704067200000]
            total := 2, limit := 50, skip := 0 } := by
  decide!

/-! ## Lemmas on the CoinGecko mappings -/

theorem char_lower_upper (c : Char) (h1 : 'A' ≤ c) (h2 : c ≤ 'Z') :
    upperCaseOf (lowerCaseOf c) = [c] := by
  have h1' : 65 ≤ c.toNat := h1
  have h2' : c.toNat ≤ 90 := h2
  have hc : c = Char.ofNat c.toNat := (Char.ofNat_toNat c).symm
  generalize c.toNat = n at h1' h2' hc
  subst hc
  interval_cases n <;> decide

theorem toUpperCase_toLowerCase_of_pattern (s : String) (h : matchesCurrencyPattern s = true) :
    toUpperCase (toLowerCase s) = s := by
  obtain ⟨a, b, c, hs, ha, hb, hc⟩ := pattern_data s h
  unfold toUpperCase toLowerCase
  rw [hs]
  simp only [List.map_cons, List.map_nil, List.flatMap_cons, List.flatMap_nil,
    char_lower_upper a ha.1 ha.2, char_lower_upper b hb.1 hb.2, char_lower_upper c hc.1 hc.2,
    List.cons_append, List.nil_append]
  rw [← hs]

theorem toLowerCase_length (s : String) : (toLowerCase s).data.length = s.data.length := by
  simp [toLowerCase]

theorem lookup_coinGeckoId_of_code (s : String) (h : matchesCurrencyPattern s = true) :
    coinGeckoIdToCurrency.lookup (toLowerCase s) = none := by
  obtain ⟨a, b, c, hs, _⟩ := pattern_data s h
  have hlen : (toLowerCase s).data.length = 3 := by rw [toLowerCase_length, hs]; rfl
  have hne : ∀ k : String, k.data.length ≠ 3 → (toLowerCase s == k) = false := by
    intro k hk
    rw [beq_eq_false_iff_ne]
    intro heq
    rw [heq] at hlen
    exact hk hlen
  simp only [coinGeckoIdToCurrency, List.lookup]
  rw [hne _ (by decide), hne _ (by decide), hne _ (by decide), hne _ (by decide),
    hne _ (by decide), hne _ (by decide), hne _ (by decide), hne _ (by decide),
    hne _ (by decide), hne _ (by decide)]

theorem lookup_currency_of_not_crypto (s : String) (h : s ∉ cryptoCurrencies) :
    currencyToCoinGeckoId.lookup s = none := by
  have hne : ∀ k : String, k ∈ cryptoCurrencies → (s == k) = false := by
    intro k hk
    rw [beq_eq_false_iff_ne]
    intro heq
    exact h (heq ▸ hk)
  simp only [currencyToCoinGeckoId, List.lookup]
  rw [hne _ (by decide), hne _ (by decide), hne _ (by decide), hne _ (by decide),
    hne _ (by decide), hne _ (by decide), hne _ (by decide), hne _ (by decide),
    hne _ (by decide), hne _ (by decide)]

/-! ## Lemmas on the rate of a conversion -/

theorem chooseRate_demo (env : Env) (f t : String)
    (h : env.getRate f t = .threw ∨ env.getRate f t = .returned none ∨
      env.getRate f t = .returned (some 0)) :
    ConvertService.chooseRate env f t = some { rate := 0.85, source := "demo" } := by
  unfold ConvertService.chooseRate
  rcases h with h | h | h <;> simp [h]

theorem chooseRate_external (env : Env) (f t : String) (v : ℚ)
    (h : env.getRate f t = .returned (some v)) (hv : v ≠ 0) :
    ConvertService.chooseRate env f t = some { rate := v, source := "external" } := by
  unfold ConvertService.chooseRate
  rw [h]
  simp [hv]

theorem save_error_cases (env : Env) (w : World) (c : Conversion) (m : String)
    (h : Conversion.save env w c = .error m) :
    (c.valid = false ∧ m = "Conversion validation failed") ∨ env.storeWriteError = some m := by
  unfold Conversion.save at h
  by_cases hval : c.valid = false
  · rw [if_pos hval] at h
    injection h with h
    exact Or.inl ⟨hval, h.symm⟩
  · rw [if_neg hval] at h
    cases hs : env.storeWriteError with
    | none => rw [hs] at h; cases h
    | some e =>
      rw [hs] at h
      injection h with h
      exact Or.inr (by rw [h])

/-! ## Lemmas on an accepted rate creation -/

theorem rateSchema_ok_inv (label : String) (o : Option ℚ) (r : ℚ)
    (h : rateSchema label o = .ok r) : o = some r ∧ 0 < r ∧ r ≤ MAX_SAFE_INTEGER := by
  cases o with
  | none => simp [rateSchema] at h
  | some x =>
    simp only [rateSchema] at h
    split_ifs at h with h1 h2
    injection h with h
    subst h
    refine ⟨rfl, h2, ?_⟩
    by_contra hgt
    exact h1 (Or.inl (not_le.mp hgt))

theorem sourceSchema_ok_inv (o : Option String) (s : String) (h : sourceSchema o = .ok s) :
    o = some s ∧ s ∈ rateModelSourceEnum := by
  cases o with
  | none => simp [sourceSchema] at h
  | some x =>
    simp only [sourceSchema] at h
    split_ifs at h with h1
    injection h with h
    subst h
    exact ⟨rfl, h1⟩

theorem createRateSchema_ok_inv (data : CreateRateData) (value : CreateRateValue)
    (h : createRateSchema.validate data = .ok value) :
    data = rateRequest value.fromCurrency value.toCurrency value.rate value.source ∧
      ValidRate value.fromCurrency value.toCurrency value.rate value.source := by
  unfold createRateSchema.validate at h
  cases hf : currencyCodeSchema "fromCurrency" data.fromCurrency with
  | error e => rw [hf] at h; cases h
  | ok f =>
    cases ht : currencyCodeSchema "toCurrency" data.toCurrency with
    | error e => rw [hf, ht] at h; cases h
    | ok t =>
      cases hr : rateSchema "rate" data.rate with
      | error e => rw [hf, ht, hr] at h; cases h
      | ok r =>
        cases hs : sourceSchema data.source with
        | error e => rw [hf, ht, hr, hs] at h; cases h
        | ok s =>
          rw [hf, ht, hr, hs] at h
          injection h with h
          subst h
          obtain ⟨hf1, hf2⟩ := currencyCodeSchema_ok_inv _ _ _ hf
          obtain ⟨ht1, ht2⟩ := currencyCodeSchema_ok_inv _ _ _ ht
          obtain ⟨hr1, hr2, hr3⟩ := rateSchema_ok_inv _ _ _ hr
          obtain ⟨hs1, hs2⟩ := sourceSchema_ok_inv _ _ hs
          refine ⟨?_, hf2, ht2, hr2, hr3, hs2⟩
          cases data
          simp only [rateRequest] at *
          simp [hf1, ht1, hr1, hs1]

theorem create_ok_store (env : Env) (w w' : World) (data : CreateRateData) (rec : Rate)
    (h : RatesService.create env w data = (.ok rec, w')) : env.storeWriteError = none := by
  unfold RatesService.create at h
  split at h
  · cases h
  · split at h
    · simp only [] at h
      split at h
      · cases h
      · next w1 hupd => exact ((update_ok_iff env w w1 _).mp hupd).2.1
    · simp only [] at h
      split at h
      · cases h
      · next w1 hins => exact ((insert_ok_iff env _ w1 _).mp hins).2.1

/-! ## Lemmas on the aggregations -/

theorem foldl_min_spec (field : Conversion → ℚ) (l : List Conversion) :
    ∀ a : ℚ, l.foldl (fun m d => min m (field d)) a ≤ a ∧
      (∀ d ∈ l, l.foldl (fun m d => min m (field d)) a ≤ field d) ∧
      (l.foldl (fun m d => min m (field d)) a = a ∨
        ∃ d ∈ l, l.foldl (fun m d => min m (field d)) a = field d) := by
  induction l with
  | nil => intro a; simp
  | cons x rest ih =>
    intro a
    obtain ⟨h1, h2, h3⟩ := ih (min a (field x))
    simp only [List.foldl_cons, List.mem_cons, forall_eq_or_imp, exists_eq_or_imp]
    refine ⟨le_trans h1 (min_le_left _ _), ⟨le_trans h1 (min_le_right _ _), h2⟩, ?_⟩
    rcases h3 with h3 | h3
    · rcases min_choice a (field x) with hm | hm
      · exact Or.inl (by rw [h3, hm])
      · exact Or.inr (Or.inl (by rw [h3, hm]))
    · exact Or.inr (Or.inr h3)

theorem foldl_max_spec (field : Conversion → ℚ) (l : List Conversion) :
    ∀ a : ℚ, a ≤ l.foldl (fun m d => max m (field d)) a ∧
      (∀ d ∈ l, field d ≤ l.foldl (fun m d => max m (field d)) a) ∧
      (l.foldl (fun m d => max m (field d)) a = a ∨
        ∃ d ∈ l, l.foldl (fun m d => max m (field d)) a = field d) := by
  induction l with
  | nil => intro a; simp
  | cons x rest ih =>
    intro a
    obtain ⟨h1, h2, h3⟩ := ih (max a (field x))
    simp only [List.foldl_cons, List.mem_cons, forall_eq_or_imp, exists_eq_or_imp]
    refine ⟨le_trans (le_max_left _ _) h1, ⟨le_trans (le_max_right _ _) h1, h2⟩, ?_⟩
    rcases h3 with h3 | h3
    · rcases max_choice a (field x) with hm | hm
      · exact Or.inl (by rw [h3, hm])
      · exact Or.inr (Or.inl (by rw [h3, hm]))
    · exact Or.inr (Or.inr h3)

/-- The one document leaving the `$group` stage of `getConversionStats` for a non-empty
input: the count, the two sums, the mean of the rates, and their least and greatest value. -/
theorem statsGroup_spec (docs : List Conversion) (hne : docs ≠ []) :
    ∃ lo hi : ℚ, ConvertService.statsGroup docs =
        [{ totalConversions := docs.length
           totalOriginalAmount := (docs.map (·.originalAmount)).sum
           totalConvertedAmount := (docs.map (·.convertedAmount)).sum
           averageRate := (docs.map (·.rate)).sum / (docs.length : ℚ)
           minRate := some lo
           maxRate := some hi
           uniqueCurrencyPairs := none }] ∧
      (∀ c ∈ docs, lo ≤ c.rate ∧ c.rate ≤ hi) ∧ (∃ c ∈ docs, c.rate = lo) ∧
      ∃ c ∈ docs, c.rate = hi := by
  cases docs with
  | nil => exact absurd rfl hne
  | cons c rest =>
    obtain ⟨a1, a2, a3⟩ := foldl_min_spec (·.rate) rest c.rate
    obtain ⟨b1, b2, b3⟩ := foldl_max_spec (·.rate) rest c.rate
    refine ⟨_, _, rfl, ?_, ?_, ?_⟩
    · intro d hd
      rcases List.mem_cons.mp hd with hd | hd
      · rw [hd]; exact ⟨a1, b1⟩
      · exact ⟨a2 d hd, b2 d hd⟩
    · rcases a3 with h | ⟨d, hd, h⟩
      · exact ⟨c, List.mem_cons_self _ _, h.symm⟩
      · exact ⟨d, List.mem_cons_of_mem _ hd, h.symm⟩
    · rcases b3 with h | ⟨d, hd, h⟩
      · exact ⟨c, List.mem_cons_self _ _, h.symm⟩
      · exact ⟨d, List.mem_cons_of_mem _ hd, h.symm⟩

/-- The stage `$match` of `getConversionStats` and of `find`, read on a document: every code
the filter gives (an empty string counting as not given) equals the document's code once put
in upper case, and the date lies within the bounds given. -/
theorem matchesQuery_iff (f t : Option String) (startDate endDate : Option Nat)
    (c : Conversion) :
    ConvertService.matchesQuery f t startDate endDate c = true ↔
      (∀ x, f = some x → x ≠ "" → c.fromCurrency = toUpperCase x) ∧
      (∀ x, t = some x → x ≠ "" → c.toCurrency = toUpperCase x) ∧
      (∀ s, startDate = some s → s ≤ c.conversionDate) ∧
      (∀ e, endDate = some e → c.conversionDate ≤ e) := by
  unfold ConvertService.matchesQuery
  cases f <;> cases t <;> cases startDate <;> cases endDate <;>
    simp only [Bool.and_eq_true, Bool.true_and, Bool.and_true, decide_eq_true_eq,
      Option.some.injEq, forall_eq', reduceCtorEq, false_implies, implies_true, true_and,
      and_true, ite_eq_left_iff, Bool.if_true_left, Bool.or_eq_true, Bool.not_eq_true',
      decide_eq_false_iff_not, ne_eq] <;>
    tauto

theorem getConversionStats_of_matched (w : World) (query : ConversionsQuery) :
    ConvertService.getConversionStats w query =
      match ConvertService.statsGroup (w.conversions.filter
          (ConvertService.matchesQuery query.fromCurrency query.toCurrency query.startDate
            query.endDate)) with
      | s :: _ => .ok s
      | [] =>
        .ok { totalConversions := 0, totalOriginalAmount := 0, totalConvertedAmount := 0,
              averageRate := 0, minRate := some 0, maxRate := some 0,
              uniqueCurrencyPairs := none } := by
  unfold ConvertService.getConversionStats
  simp only []
  cases ConvertService.statsGroup (w.conversions.filter
      (ConvertService.matchesQuery query.fromCurrency query.toCurrency query.startDate
        query.endDate)) <;> simp

/-! ## Lemmas on the popular pairs -/

theorem pairGroups_ids (docs : List Conversion) :
    (pairGroups docs).map (·._id) = (docs.map Conversion.pairId).dedup := by
  unfold pairGroups
  rw [List.map_map]
  exact List.map_id _

theorem mem_pairGroups (docs : List Conversion) (g : PairGroup) (hg : g ∈ pairGroups docs) :
    g._id ∈ docs.map Conversion.pairId ∧
    g.count = (docs.filter (fun c => decide (c.pairId = g._id))).length ∧
    g.totalAmount =
      ((docs.filter (fun c => decide (c.pairId = g._id))).map (·.originalAmount)).sum := by
  unfold pairGroups at hg
  rw [List.mem_map] at hg
  obtain ⟨p, hp, hpg⟩ := hg
  subst hpg
  exact ⟨List.mem_dedup.mp hp, rfl, rfl⟩

theorem sortByCountDesc_spec (groups : List PairGroup) :
    (sortByCountDesc groups).Pairwise (fun a b => b.count ≤ a.count) ∧
      (sortByCountDesc groups).Perm groups :=
  insertionSort_desc (fun g : PairGroup => g.count) groups

theorem take_drop_pairwise {α : Type} (R : α → α → Prop) (l : List α) (h : l.Pairwise R)
    (n : ℕ) : ∀ a ∈ l.take n, ∀ b ∈ l.drop n, R a b := by
  have h2 : (l.take n ++ l.drop n).Pairwise R := by rw [List.take_append_drop]; exact h
  exact (List.pairwise_append.mp h2).2.2

/-- The list obtained from the groups of `docs` by sorting on the count, keeping the first
`n` and projecting: its length, the pairs it lists, what it says of each, its order, and the
pairs it leaves out. -/
theorem popularPairs_spec (docs : List Conversion) (n : ℕ) :
    (((sortByCountDesc (pairGroups docs)).take n).map PairGroup.toPopularPair).length =
      min n (docs.map Conversion.pairId).dedup.length ∧
    ((((sortByCountDesc (pairGroups docs)).take n).map PairGroup.toPopularPair).map
      PopularPair.pairId).Nodup ∧
    (∀ e ∈ ((sortByCountDesc (pairGroups docs)).take n).map PairGroup.toPopularPair,
      e.pairId ∈ docs.map Conversion.pairId ∧
      e.conversionCount = (docs.filter (fun c => decide (c.pairId = e.pairId))).length ∧
      e.totalAmount =
        ((docs.filter (fun c => decide (c.pairId = e.pairId))).map (·.originalAmount)).sum) ∧
    (((sortByCountDesc (pairGroups docs)).take n).map PairGroup.toPopularPair).Pairwise
      (fun a b => b.conversionCount ≤ a.conversionCount) ∧
    (∀ c ∈ docs,
      c.pairId ∉ (((sortByCountDesc (pairGroups docs)).take n).map
        PairGroup.toPopularPair).map PopularPair.pairId →
      ∀ e ∈ ((sortByCountDesc (pairGroups docs)).take n).map PairGroup.toPopularPair,
        (docs.filter (fun d => decide (d.pairId = c.pairId))).length ≤ e.conversionCount) := by
  obtain ⟨hsorted, hperm⟩ := sortByCountDesc_spec (pairGroups docs)
  have hids : ∀ l : List PairGroup,
      (l.map PairGroup.toPopularPair).map PopularPair.pairId = l.map (·._id) := by
    intro l
    rw [List.map_map]
    rfl
  have hmemtake : ∀ g ∈ (sortByCountDesc (pairGroups docs)).take n, g ∈ pairGroups docs :=
    fun g hg => hperm.subset (List.mem_of_mem_take hg)
  refine ⟨?_, ?_, ?_, ?_, ?_⟩
  · rw [List.length_map, List.length_take, hperm.length_eq, ← pairGroups_ids, List.length_map]
  · rw [hids]
    have hnodup : ((sortByCountDesc (pairGroups docs)).map (·._id)).Nodup := by
      rw [(hperm.map _).nodup_iff, pairGroups_ids]
      exact List.nodup_dedup _
    exact hnodup.sublist ((List.take_sublist n _).map _)
  · intro e he
    rw [List.mem_map] at he
    obtain ⟨g, hg, hge⟩ := he
    subst hge
    exact mem_pairGroups docs g (hmemtake g hg)
  · rw [List.pairwise_map]
    exact hsorted.sublist (List.take_sublist n _)
  · intro c hc hnot e he
    rw [hids] at hnot
    rw [List.mem_map] at he
    obtain ⟨a, ha, hae⟩ := he
    subst hae
    have hcid : c.pairId ∈ (pairGroups docs).map (·._id) := by
      rw [pairGroups_ids, List.mem_dedup]
      exact List.mem_map_of_mem _ hc
    rw [List.mem_map] at hcid
    obtain ⟨g, hg, hgid⟩ := hcid
    have hgs : g ∈ sortByCountDesc (pairGroups docs) := hperm.symm.subset hg
    rw [← List.take_append_drop n (sortByCountDesc (pairGroups docs)), List.mem_append] at hgs
    rcases hgs with hgs | hgs
    · exact absurd (List.mem_map.mpr ⟨g, hgs, hgid⟩) hnot
    · have hle := take_drop_pairwise _ _ hsorted n a ha g hgs
      have hcount := (mem_pairGroups docs g hg).2.1
      rw [hgid] at hcount
      rw [← hcount]
      exact hle

theorem limitStage_pos {α : Type} (n : ℕ) (hn : 1 ≤ n) (docs : List α) :
    limitStage (n : ℤ) docs = .ok (docs.take n) := by
  unfold limitStage
  rw [if_neg (by omega)]
  simp

/-! ## Lemmas on the daily report -/

theorem report_statsGroup_spec (docs : List Conversion) (hne : docs ≠ []) :
    ReportService.statsGroup docs =
      [{ totalConversions := docs.length
         totalOriginalAmount := (docs.map (·.originalAmount)).sum
         totalConvertedAmount := (docs.map (·.convertedAmount)).sum
         averageRate := (docs.map (·.rate)).sum / (docs.length : ℚ)
         minRate := none
         maxRate := none
         uniqueCurrencyPairs := some (docs.map Conversion.pairId).dedup }] := by
  cases docs with
  | nil => exact absurd rfl hne
  | cons c rest => rfl

theorem sortByConversionDateDesc_length (docs : List Conversion) :
    (sortByConversionDateDesc docs).length = docs.length :=
  (insertionSort_desc (fun c : Conversion => c.conversionDate) docs).2.length_eq

/-- The report in terms of the records of the day. -/
theorem report_find_eq (w : World) (date : String) (day : ℤ) (hday : parseDay date = some day) :
    ReportService.find w date =
      .ok { date := date
            conversions :=
              (w.conversions.filter
                (betweenDates (day * msPerDay) (day * msPerDay + 86399999))).length
            statistics :=
              match ReportService.statsGroup (w.conversions.filter
                  (betweenDates (day * msPerDay) (day * msPerDay + 86399999))) with
              | s :: _ => s
              | [] =>
                { totalConversions := 0, totalOriginalAmount := 0, totalConvertedAmount := 0,
                  averageRate := 0, minRate := none, maxRate := none,
                  uniqueCurrencyPairs := some [] }
            popularPairs :=
              ((sortByCountDesc (pairGroups (w.conversions.filter
                (betweenDates (day * msPerDay) (day * msPerDay + 86399999))))).take 5).map
                PairGroup.toPopularPair } := by
  unfold ReportService.find
  rw [hday]
  simp only []
  have h5 := limitStage_pos 5 (by norm_num) (sortByCountDesc (pairGroups (w.conversions.filter
    (betweenDates (day * msPerDay) (day * msPerDay + 86399999)))))
  simp only [Nat.cast_ofNat] at h5
  rw [h5, sortByConversionDateDesc_length]
  simp only []
  cases ReportService.statsGroup (w.conversions.filter
      (betweenDates (day * msPerDay) (day * msPerDay + 86399999))) <;> simp

theorem betweenDates_matchesQuery (s e : ℕ) (c : Conversion) :
    ConvertService.matchesQuery none none (some s) (some e) c =
      betweenDates (s : ℤ) (e : ℤ) c := by
  unfold ConvertService.matchesQuery betweenDates
  simp only [Bool.true_and, Nat.cast_le]

/-! ## Lemmas on the rows of a CSV file -/

theorem invalidRateValue_false (x : JsNumber) :
    invalidRateValue x = false ↔ x = .Infinity ∨ ∃ v, x = .finite v ∧ 0 < v := by
  cases x with
  | NaN => simp [invalidRateValue]
  | Infinity => simp [invalidRateValue]
  | negInfinity => simp [invalidRateValue]
  | finite v => simp [invalidRateValue]

theorem parseFloat_empty : parseFloat "" = JsNumber.NaN := by decide

theorem toUpperCase_empty : toUpperCase "" = "" := by decide

theorem ne_empty_of_upper_pattern (s : String)
    (h : matchesCurrencyPattern (toUpperCase s) = true) : s ≠ "" := by
  intro hs
  rw [hs, toUpperCase_empty] at h
  revert h
  decide

theorem ne_empty_of_valid_rate (r : String) (h : invalidRateValue (parseFloat r) = false) :
    r ≠ "" := by
  intro hr
  rw [hr, parseFloat_empty] at h
  revert h
  decide

/-- The rows `processRow` accepts, and the record it builds from each. -/
theorem processRow_ok_iff (row : Row) (n : Nat) (p : ProcessedRow) :
    CSVImportService.processRow row n = .ok p ↔
      ∃ f t r, row.fromCurrency = some f ∧ row.toCurrency = some t ∧ row.rate = some r ∧
        matchesCurrencyPattern (toUpperCase f) = true ∧
        matchesCurrencyPattern (toUpperCase t) = true ∧
        invalidRateValue (parseFloat r) = false ∧ sourceValueOf row.source ∈ validSources ∧
        p = { fromCurrency := toUpperCase f, toCurrency := toUpperCase t, rate := parseFloat r,
              source := sourceValueOf row.source } := by
  obtain ⟨fo, tc, ro, so⟩ := row
  cases fo with
  | none => simp [CSVImportService.processRow]
  | some f =>
    cases tc with
    | none => simp [CSVImportService.processRow]
    | some t =>
      cases ro with
      | none => simp [CSVImportService.processRow]
      | some r =>
        simp only [CSVImportService.processRow, Option.some.injEq, exists_and_left,
          exists_eq_left']
        by_cases hf : matchesCurrencyPattern (toUpperCase f) = true
        · by_cases ht : matchesCurrencyPattern (toUpperCase t) = true
          · by_cases hr : invalidRateValue (parseFloat r) = false
            · have h1 := ne_empty_of_upper_pattern f hf
              have h2 := ne_empty_of_upper_pattern t ht
              have h3 := ne_empty_of_valid_rate r hr
              by_cases hs : sourceValueOf so ∈ validSources
              · simp [h1, h2, h3, hf, ht, hr, hs, eq_comm]
              · simp [h1, h2, h3, hf, ht, hr, hs]
            · have hr' : invalidRateValue (parseFloat r) = true := by
                cases h : invalidRateValue (parseFloat r)
                · exact absurd h hr
                · rfl
              by_cases he : f = "" ∨ t = "" ∨ r = ""
              · simp [he, hr']
              · simp [he, hf, ht, hr']
          · have ht' : matchesCurrencyPattern (toUpperCase t) = false := by
              cases h : matchesCurrencyPattern (toUpperCase t)
              · rfl
              · exact absurd h ht
            by_cases he : f = "" ∨ t = "" ∨ r = ""
            · simp [he, ht']
            · simp [he, hf, ht']
        · have hf' : matchesCurrencyPattern (toUpperCase f) = false := by
            cases h : matchesCurrencyPattern (toUpperCase f)
            · rfl
            · exact absurd h hf
          by_cases he : f = "" ∨ t = "" ∨ r = ""
          · simp [he, hf']
          · simp [he, hf']

theorem readDecimal_head (cs : List Char) (v : ℚ) (rest : List Char)
    (h : readDecimal cs = some (v, rest)) :
    ∃ c tail, cs = c :: tail ∧ (c.isDigit = true ∨ c = '.') := by
  cases cs with
  | nil => simp [readDecimal, List.span_eq_take_drop] at h
  | cons c tail =>
    refine ⟨c, tail, rfl, ?_⟩
    by_cases hd : c.isDigit = true
    · exact Or.inl hd
    · by_cases hp : c = '.'
      · exact Or.inr hp
      · simp [readDecimal, List.span_eq_take_drop, List.takeWhile_cons, List.dropWhile_cons,
          hd, hp] at h

theorem not_infinity_of_readDecimal (cs : List Char) (v : ℚ) (rest : List Char)
    (h : readDecimal cs = some (v, rest)) : "Infinity".data.isPrefixOf cs = false := by
  obtain ⟨c, tail, hcs, hc⟩ := readDecimal_head cs v rest h
  subst hcs
  have hne : ('I' == c) = false := by
    rw [beq_eq_false_iff_ne]
    intro heq
    subst heq
    rcases hc with hc | hc
    · revert hc; decide
    · revert hc; decide
  show List.isPrefixOf ('I' :: _) (c :: tail) = false
  simp only [List.isPrefixOf, hne, Bool.false_and]

/-- A string the validation library converts to a number is read by `parseFloat` as the same
number. -/
theorem parseFloat_of_numberOfString (s : String) (v : ℚ) (h : numberOfString s = some v) :
    parseFloat s = numberOfDecimal v := by
  unfold numberOfString at h
  unfold parseFloat
  simp only [] at h ⊢
  cases hrd : readDecimal (readSign (s.data.dropWhile isWhiteSpace)).2 with
  | none => rw [hrd] at h; cases h
  | some res =>
    obtain ⟨x, rest⟩ := res
    rw [hrd] at h
    simp only [] at h
    rw [if_neg (by rw [not_infinity_of_readDecimal _ x rest hrd]; decide)]
    by_cases hws : rest.all isWhiteSpace = true
    · rw [if_pos hws] at h
      injection h with h
      rw [← h]
    · rw [if_neg hws] at h
      cases h

theorem sourceValueOf_valid (s : String) (h : s ∈ validSources) : sourceValueOf (some s) = s := by
  simp only [validSources, List.mem_cons, List.mem_singleton, List.not_mem_nil, or_false] at h
  rcases h with h | h | h <;> subst h <;> decide

theorem rateInputSchema_text_ok_iff (label r : String) (v : ℚ) :
    rateInputSchema label (some (.text r)) = .ok v ↔
      numberOfString r = some v ∧ numberOfDecimal v = JsNumber.finite v ∧ 0 < v ∧
        v ≤ MAX_SAFE_INTEGER := by
  simp only [rateInputSchema]
  cases hn : numberOfString r with
  | none => simp
  | some x =>
    simp only [Option.some.injEq]
    by_cases hd : numberOfDecimal x = JsNumber.finite x
    · rw [if_pos hd]
      constructor
      · intro h
        obtain ⟨h1, h2, h3⟩ := rateSchema_ok_inv _ _ _ h
        injection h1 with h1
        subst h1
        exact ⟨rfl, hd, h2, h3⟩
      · rintro ⟨h1, _, h2, h3⟩
        subst h1
        exact rateSchema_ok label x h2 h3
    · rw [if_neg hd]
      constructor
      · intro h
        cases h
      · rintro ⟨h1, h2, _, _⟩
        subst h1
        exact absurd h2 hd

theorem rateInputSchema_number_ok_iff (label : String) (x : JsNumber) (v : ℚ) :
    rateInputSchema label (some (.number x)) = .ok v ↔
      x = .finite v ∧ 0 < v ∧ v ≤ MAX_SAFE_INTEGER := by
  cases x with
  | NaN => simp [rateInputSchema]
  | Infinity => simp [rateInputSchema]
  | negInfinity => simp [rateInputSchema]
  | finite y =>
    simp only [rateInputSchema, JsNumber.finite.injEq]
    constructor
    · intro h
      obtain ⟨h1, h2, h3⟩ := rateSchema_ok_inv _ _ _ h
      injection h1 with h1
      subst h1
      exact ⟨rfl, h2, h3⟩
    · rintro ⟨h1, h2, h3⟩
      subst h1
      exact rateSchema_ok label y h2 h3

/-- The bodies `createRateSchema` accepts, the key `rate` holding a number or a string. -/
theorem validateInput_ok_iff (fo tc : Option String) (ro : Option RateInput)
    (so : Option String) (value : CreateRateValue) :
    createRateSchema.validateInput fo tc ro so = .ok value ↔
      fo = some value.fromCurrency ∧ matchesCurrencyPattern value.fromCurrency = true ∧
      tc = some value.toCurrency ∧ matchesCurrencyPattern value.toCurrency = true ∧
      rateInputSchema "rate" ro = .ok value.rate ∧
      so = some value.source ∧ value.source ∈ rateModelSourceEnum := by
  unfold createRateSchema.validateInput
  constructor
  · intro h
    cases hf : currencyCodeSchema "fromCurrency" fo with
    | error e => rw [hf] at h; cases h
    | ok f =>
      cases ht : currencyCodeSchema "toCurrency" tc with
      | error e => rw [hf, ht] at h; cases h
      | ok t =>
        cases hr : rateInputSchema "rate" ro with
        | error e => rw [hf, ht, hr] at h; cases h
        | ok r =>
          cases hs : sourceSchema so with
          | error e => rw [hf, ht, hr, hs] at h; cases h
          | ok s =>
            rw [hf, ht, hr, hs] at h
            injection h with h
            subst h
            obtain ⟨hf1, hf2⟩ := currencyCodeSchema_ok_inv _ _ _ hf
            obtain ⟨ht1, ht2⟩ := currencyCodeSchema_ok_inv _ _ _ ht
            obtain ⟨hs1, hs2⟩ := sourceSchema_ok_inv _ _ hs
            exact ⟨hf1, hf2, ht1, ht2, rfl, hs1, hs2⟩
  · rintro ⟨hf1, hf2, ht1, ht2, hr, hs1, hs2⟩
    rw [hf1, ht1, hs1, currencyCodeSchema_ok _ _ hf2, currencyCodeSchema_ok _ _ ht2, hr,
      sourceSchema_ok _ hs2]

/-! ## Lemmas on `saveRates` -/

theorem sendMessage_restore (env : Env) (w : World) (m : QueueMessage) :
    { (RabbitMQ.sendMessage env w m).2 with queue := w.queue, channel := w.channel } = w := by
  cases hc : w.channel <;> cases hb : env.brokerConnects <;> cases hs : env.sendToQueue <;>
    simp [RabbitMQ.sendMessage, RabbitMQ.connect, hc, hb, hs] <;> rw [← hc]

theorem rate_new_of_pattern (oid now : Nat) (f t : String) (r : ℚ) (s : String)
    (hf : matchesCurrencyPattern f = true) (ht : matchesCurrencyPattern t = true) :
    Rate.new oid now f t r s =
      { _id := oid, fromCurrency := f, toCurrency := t, rate := r, source := s,
        lastUpdated := now, isActive := true } := by
  simp only [Rate.new, toUpperCase_of_pattern f hf, toUpperCase_of_pattern t ht,
    trim_of_pattern f hf, trim_of_pattern t ht]

/-- The method `create` on a body the schema accepts, spelled out. -/
theorem create_of_valid (env : Env) (w : World) (f t : String) (r : ℚ) (s : String)
    (hv : ValidRate f t r s) :
    RatesService.create env w (rateRequest f t r s) =
      match w.rates.find? (Rate.hasPair f t) with
      | some found =>
        match Rate.update env w
            { found with rate := r, source := s, lastUpdated := env.now } with
        | .error message => (.error ("Error creating rate: " ++ message), w)
        | .ok w1 =>
          (.ok { found with rate := r, source := s, lastUpdated := env.now },
            (RabbitMQ.sendRateUpdateLog env w1 (rateUpdatePayload "update"
              { found with rate := r, source := s, lastUpdated := env.now })).2)
      | none =>
        match Rate.insert env { w with nextId := w.nextId + 1 }
            (Rate.new w.nextId env.now f t r s) with
        | .error message =>
          (.error ("Error creating rate: " ++ message), { w with nextId := w.nextId + 1 })
        | .ok w1 =>
          (.ok (Rate.new w.nextId env.now f t r s),
            (RabbitMQ.sendRateUpdateLog env w1
              (rateUpdatePayload "create" (Rate.new w.nextId env.now f t r s))).2) := by
  unfold RatesService.create
  rw [createRateSchema_ok f t r s hv]
  simp only [toUpperCase_of_pattern f hv.1, toUpperCase_of_pattern t hv.2.1]

/-- The method `saveRates` on one entry, spelled out. -/
theorem saveRates_single (env : Env) (w : World) (d : RateData) :
    CSVImportService.saveRates env w [d] =
      match w.rates.find? (Rate.hasPair d.fromCurrency d.toCurrency) with
      | some found =>
        match Rate.update env w
            { found with rate := d.rate, source := d.source, lastUpdated := env.now } with
        | .error _ => ([], w)
        | .ok w1 => ([{ found with rate := d.rate, source := d.source, lastUpdated := env.now }],
            w1)
      | none =>
        match Rate.insert env { w with nextId := w.nextId + 1 }
            (Rate.new w.nextId env.now d.fromCurrency d.toCurrency d.rate d.source) with
        | .error _ => ([], { w with nextId := w.nextId + 1 })
        | .ok w1 =>
          ([Rate.new w.nextId env.now d.fromCurrency d.toCurrency d.rate d.source], w1) := by
  unfold CSVImportService.saveRates
  cases w.rates.find? (Rate.hasPair d.fromCurrency d.toCurrency) with
  | some found =>
    simp only []
    cases Rate.update env w
      { found with rate := d.rate, source := d.source, lastUpdated := env.now } <;>
      simp [CSVImportService.saveRates]
  | none =>
    simp only []
    cases Rate.insert env { w with nextId := w.nextId + 1 }
      (Rate.new w.nextId env.now d.fromCurrency d.toCurrency d.rate d.source) <;>
      simp [CSVImportService.saveRates]

theorem update_frame (env : Env) (w w1 : World) (r : Rate) (h : Rate.update env w r = .ok w1) :
    w1.queue = w.queue ∧ w1.channel = w.channel := by
  rw [((update_ok_iff env w w1 r).mp h).2.2.2]
  exact ⟨rfl, rfl⟩

theorem insert_frame (env : Env) (w w1 : World) (r : Rate) (h : Rate.insert env w r = .ok w1) :
    w1.queue = w.queue ∧ w1.channel = w.channel := by
  rw [((insert_ok_iff env w w1 r).mp h).2.2.2]
  exact ⟨rfl, rfl⟩

/-- What `saveRates` does with one entry that the rate-creation contract accepts, next to what
`create` does with the same values: the same state apart from the queue and its channel, which
`saveRates` leaves alone, and the same record. -/
theorem saveRates_vs_create (env : Env) (w : World) (d : RateData)
    (hv : ValidRate d.fromCurrency d.toCurrency d.rate d.source) :
    (CSVImportService.saveRates env w [d]).2 =
      { (RatesService.create env w
          (rateRequest d.fromCurrency d.toCurrency d.rate d.source)).2 with
        queue := w.queue, channel := w.channel } ∧
    (∀ rec, (RatesService.create env w
        (rateRequest d.fromCurrency d.toCurrency d.rate d.source)).1 = .ok rec →
      (CSVImportService.saveRates env w [d]).1 = [rec]) ∧
    (∀ e, (RatesService.create env w
        (rateRequest d.fromCurrency d.toCurrency d.rate d.source)).1 = .error e →
      (CSVImportService.saveRates env w [d]).1 = []) := by
  rw [create_of_valid env w _ _ _ _ hv, saveRates_single]
  cases w.rates.find? (Rate.hasPair d.fromCurrency d.toCurrency) with
  | some found =>
    simp only []
    cases hupd : Rate.update env w
        { found with rate := d.rate, source := d.source, lastUpdated := env.now } with
    | error m => exact ⟨rfl, fun rec h => (by cases h), fun _ _ => rfl⟩
    | ok w1 =>
      obtain ⟨hq, hc⟩ := update_frame env w w1 _ hupd
      refine ⟨?_, fun rec h => ?_, fun e h => by cases h⟩
      · simp only [RabbitMQ.sendRateUpdateLog]
        rw [← hq, ← hc, sendMessage_restore]
      · injection h with h
        rw [h]
  | none =>
    simp only []
    cases hins : Rate.insert env { w with nextId := w.nextId + 1 }
        (Rate.new w.nextId env.now d.fromCurrency d.toCurrency d.rate d.source) with
    | error m => exact ⟨rfl, fun rec h => (by cases h), fun _ _ => rfl⟩
    | ok w1 =>
      obtain ⟨hq, hc⟩ := insert_frame env _ w1 _ hins
      refine ⟨?_, fun rec h => ?_, fun e h => by cases h⟩
      · simp only [RabbitMQ.sendRateUpdateLog]
        have hq' : w.queue = w1.queue := hq.symm
        have hc' : w.channel = w1.channel := hc.symm
        rw [hq', hc', sendMessage_restore]
      · injection h with h
        rw [h]

theorem savable_valid_existing (now : Nat) (d : RateData) (found : Rate) (hd : SavableEntry d)
    (hfp : Rate.hasPair d.fromCurrency d.toCurrency found = true) :
    Rate.valid { found with rate := d.rate, source := d.source, lastUpdated := now } = true := by
  simp only [Rate.hasPair, Bool.and_eq_true, decide_eq_true_eq] at hfp
  simp only [Rate.valid, Bool.and_eq_true, decide_eq_true_eq]
  refine ⟨⟨⟨?_, ?_⟩, hd.2.2.1.le⟩, hd.2.2.2⟩
  · rw [hfp.1]; exact ne_empty_of_pattern _ hd.1
  · rw [hfp.2]; exact ne_empty_of_pattern _ hd.2.1

/-- One step of `saveRates` on a well-formed store that accepts the write: the entry is
upserted and its record is kept. -/
theorem saveRates_cons_upsert (env : Env) (w : World) (d : RateData) (rest : List RateData)
    (hwf : RateStoreWF w) (hs : env.storeWriteError = none) (hd : SavableEntry d) :
    CSVImportService.saveRates env w (d :: rest) =
      (upsertedRecord env.now w d ::
          (CSVImportService.saveRates env (upsertRate env.now w d) rest).1,
        (CSVImportService.saveRates env (upsertRate env.now w d) rest).2) := by
  cases hfind : w.rates.find? (Rate.hasPair d.fromCurrency d.toCurrency) with
  | some found =>
    have hfp : Rate.hasPair d.fromCurrency d.toCurrency found = true := List.find?_some hfind
    have hmem : found ∈ w.rates := List.mem_of_find?_eq_some hfind
    have hany : w.rates.any (fun x =>
        decide (x._id ≠
          ({ found with rate := d.rate, source := d.source, lastUpdated := env.now } : Rate)._id)
          && x.samePair { found with rate := d.rate, source := d.source,
                                     lastUpdated := env.now }) = false := by
      rw [List.any_eq_false]
      intro x hx hcon
      simp only [Bool.and_eq_true, decide_eq_true_eq] at hcon
      obtain ⟨hid, hsp⟩ := hcon
      have hsp' : x.samePair found = true := hsp
      exact hid (congrArg (·._id) (uniquePairs_eq w.rates hwf.1 x found hx hmem hsp'))
    have hupd := (update_ok_iff env w _ _).mpr
      ⟨savable_valid_existing env.now d found hd hfp, hs, hany, rfl⟩
    rw [CSVImportService.saveRates]
    simp only [hfind, hupd, upsertRate, upsertedRecord]
  | none =>
    have hnew := rate_new_of_pattern w.nextId env.now d.fromCurrency d.toCurrency d.rate
      d.source hd.1 hd.2.1
    have hvalid : Rate.valid (Rate.new w.nextId env.now d.fromCurrency d.toCurrency d.rate
        d.source) = true := by
      rw [hnew]
      simp only [Rate.valid, Bool.and_eq_true, decide_eq_true_eq]
      exact ⟨⟨⟨ne_empty_of_pattern _ hd.1, ne_empty_of_pattern _ hd.2.1⟩, hd.2.2.1.le⟩,
        hd.2.2.2⟩
    have hany : w.rates.any (fun x => x.samePair (Rate.new w.nextId env.now d.fromCurrency
        d.toCurrency d.rate d.source)) = false := by
      rw [hnew, List.any_eq_false]
      intro x hx hcon
      have := List.find?_eq_none.mp hfind x hx
      apply this
      simp only [Rate.samePair, Bool.and_eq_true, decide_eq_true_eq] at hcon
      simp only [Rate.hasPair, Bool.and_eq_true, decide_eq_true_eq]
      exact hcon
    have hins := (insert_ok_iff env { w with nextId := w.nextId + 1 } _ _).mpr
      ⟨hvalid, hs, hany, rfl⟩
    rw [CSVImportService.saveRates]
    simp only [hfind, hins, upsertRate, upsertedRecord]
    rw [hnew]

theorem saveRates_nil (env : Env) (w : World) : CSVImportService.saveRates env w [] = ([], w) := by
  rw [CSVImportService.saveRates]

theorem upsertRate_wf (env : Env) (w : World) (d : RateData) (hwf : RateStoreWF w)
    (hs : env.storeWriteError = none) (hd : SavableEntry d) :
    RateStoreWF (upsertRate env.now w d) := by
  have h := saveRates_wf env [d] w hwf
  rw [saveRates_cons_upsert env w d [] hwf hs hd, saveRates_nil] at h
  exact h

/-- On a well-formed store that accepts every write, `saveRates` upserts the entries one after
the other and keeps one record per entry. -/
theorem saveRates_fold (env : Env) (hs : env.storeWriteError = none) (entries : List RateData) :
    ∀ w : World, RateStoreWF w → (∀ d ∈ entries, SavableEntry d) →
      (CSVImportService.saveRates env w entries).2 = entries.foldl (upsertRate env.now) w ∧
      (CSVImportService.saveRates env w entries).1.length = entries.length := by
  induction entries with
  | nil =>
    intro w _ _
    rw [saveRates_nil]
    exact ⟨rfl, rfl⟩
  | cons d rest ih =>
    intro w hwf hall
    have hd := hall d (List.mem_cons_self _ _)
    obtain ⟨h1, h2⟩ := ih (upsertRate env.now w d) (upsertRate_wf env w d hwf hs hd)
      (fun x hx => hall x (List.mem_cons_of_mem _ hx))
    rw [saveRates_cons_upsert env w d rest hwf hs hd]
    exact ⟨h1, by simp [h2]⟩

/-! ## Lemmas on the import of a file -/

theorem rowResult_number (row : Row) (n m : Nat) : rowResult n row = rowResult m row := by
  unfold rowResult
  cases hn : CSVImportService.processRow row n with
  | ok p =>
    obtain ⟨f, t, r, h1, h2, h3, h4, h5, h6, h7, hp⟩ := (processRow_ok_iff row n p).mp hn
    rw [(processRow_ok_iff row m p).mpr ⟨f, t, r, h1, h2, h3, h4, h5, h6, h7, hp⟩]
  | error e =>
    cases hm : CSVImportService.processRow row m with
    | ok p =>
      obtain ⟨f, t, r, h1, h2, h3, h4, h5, h6, h7, hp⟩ := (processRow_ok_iff row m p).mp hm
      rw [(processRow_ok_iff row n p).mpr ⟨f, t, r, h1, h2, h3, h4, h5, h6, h7, hp⟩] at hn
      cases hn
    | error e2 => rfl

theorem rowResult_isSome (row : Row) (n : Nat) : (rowResult n row).isSome = row.accepted := by
  rw [rowResult_number row n 0]
  unfold rowResult Row.accepted
  cases CSVImportService.processRow row 0 <;> rfl

theorem rowError_isSome (row : Row) (n : Nat) : (rowError n row).isSome = !row.accepted := by
  rw [← rowResult_isSome row n]
  unfold rowError rowResult
  cases CSVImportService.processRow row n <;> rfl

/-- The state of an import after the rows have been read: the accepted rows as records, the
rejected ones as numbered errors, both in the order of the file. -/
theorem onData_foldl (rows : List Row) :
    ∀ state : ImportState,
      rows.foldl CSVImportService.onData state =
        { results := state.results ++
            (rows.enumFrom (state.rowNumber + 1)).filterMap (fun x => rowResult x.1 x.2)
          errors := state.errors ++
            (rows.enumFrom (state.rowNumber + 1)).filterMap (fun x => rowError x.1 x.2)
          rowNumber := state.rowNumber + rows.length } := by
  induction rows with
  | nil => intro state; simp
  | cons row rest ih =>
    intro state
    rw [List.foldl_cons, ih]
    unfold CSVImportService.onData
    cases hp : CSVImportService.processRow row (state.rowNumber + 1) with
    | ok p =>
      simp only [List.enumFrom_cons, List.filterMap_cons, rowResult, rowError, hp,
        List.append_assoc, List.singleton_append, List.length_cons]
      congr 1
      omega
    | error e =>
      simp only [List.enumFrom_cons, List.filterMap_cons, rowResult, rowError, hp,
        List.append_assoc, List.singleton_append, List.length_cons]
      congr 1
      omega

theorem filterMap_rowResult_enum (rows : List Row) :
    ∀ k : Nat, (rows.enumFrom k).filterMap (fun x => rowResult x.1 x.2) =
      rows.filterMap (rowResult 0) := by
  induction rows with
  | nil => intro k; rfl
  | cons row rest ih =>
    intro k
    rw [List.enumFrom_cons, List.filterMap_cons, List.filterMap_cons, ih (k + 1),
      rowResult_number row k 0]

theorem length_filterMap_eq_filter {α β : Type} (f : α → Option β) (l : List α) :
    (l.filterMap f).length = (l.filter (fun a => (f a).isSome)).length := by
  induction l with
  | nil => rfl
  | cons a rest ih =>
    rw [List.filterMap_cons, List.filter_cons]
    cases h : f a with
    | none => simpa using ih
    | some b => simpa using ih

theorem length_filter_add_not {α : Type} (p : α → Bool) (l : List α) :
    (l.filter p).length + (l.filter (fun a => !p a)).length = l.length := by
  induction l with
  | nil => rfl
  | cons a rest ih =>
    rw [List.filter_cons, List.filter_cons]
    cases h : p a with
    | false => simp only [Bool.not_false, if_true, Bool.false_eq_true, if_false, List.length_cons]; omega
    | true => simp only [Bool.not_true, if_true, Bool.false_eq_true, if_false, List.length_cons]; omega

theorem filter_enumFrom_snd {α : Type} (p : α → Bool) (l : List α) :
    ∀ k : Nat, ((l.enumFrom k).filter (fun x => p x.2)).length = (l.filter p).length := by
  induction l with
  | nil => intro k; rfl
  | cons a rest ih =>
    intro k
    rw [List.enumFrom_cons, List.filter_cons, List.filter_cons]
    cases h : p a with
    | false => simpa using ih (k + 1)
    | true => simpa using ih (k + 1)

theorem map_row_filterMap_rowError (l : List (Nat × Row)) :
    (l.filterMap (fun x => rowError x.1 x.2)).map (·.row) =
      (l.filter (fun x => !x.2.accepted)).map (·.1) := by
  induction l with
  | nil => rfl
  | cons x rest ih =>
    rw [List.filterMap_cons, List.filter_cons]
    have hs := rowError_isSome x.2 x.1
    cases he : rowError x.1 x.2 with
    | none =>
      rw [he] at hs
      simp only [Option.isSome_none] at hs
      rw [← hs]
      simpa using ih
    | some e =>
      rw [he] at hs
      simp only [Option.isSome_some] at hs
      rw [← hs]
      have hrow : e.row = x.1 := by
        unfold rowError at he
        cases hp : CSVImportService.processRow x.2 x.1 with
        | ok p => rw [hp] at he; cases he
        | error m =>
          rw [hp] at he
          injection he with he
          rw [← he]
      simp [ih, hrow]

theorem rateEntries_some (ps : List ProcessedRow)
    (h : ∀ p ∈ ps, ∃ v, p.rate = .finite v ∧ 0 < v ∧
      matchesCurrencyPattern p.fromCurrency = true ∧
      matchesCurrencyPattern p.toCurrency = true ∧ p.source ∈ validSources) :
    ∃ entries, rateEntries ps = some entries ∧ entries.length = ps.length ∧
      ∀ d ∈ entries, SavableEntry d := by
  induction ps with
  | nil => exact ⟨[], rfl, rfl, fun d hd => by cases hd⟩
  | cons p rest ih =>
    obtain ⟨entries, he, hl, hall⟩ := ih (fun q hq => h q (List.mem_cons_of_mem _ hq))
    obtain ⟨v, hv, hpos, hf, ht, hsrc⟩ := h p (List.mem_cons_self _ _)
    refine ⟨{ fromCurrency := p.fromCurrency, toCurrency := p.toCurrency, rate := v,
              source := p.source } :: entries, ?_, ?_, ?_⟩
    · simp only [rateEntries, ProcessedRow.toRateData, hv, he]
    · simp [hl]
    · intro d hd
      rcases List.mem_cons.mp hd with hd | hd
      · rw [hd]
        exact ⟨hf, ht, hpos, hsrc⟩
      · exact hall d hd

theorem importFromCSV_eq (env : Env) (w : World) (rows : List Row) (entries : List RateData)
    (he : rateEntries (rows.filterMap (rowResult 0)) = some entries) :
    CSVImportService.importFromCSV env w rows =
      some ({ success := true
              totalRows := rows.length
              processedRows := (rows.filterMap (rowResult 0)).length
              savedRates := (CSVImportService.saveRates env w entries).1.length
              errors := (rows.enumFrom 1).filterMap (fun x => rowError x.1 x.2)
              summary :=
                { total := rows.length
                  processed := (rows.filterMap (rowResult 0)).length
                  saved := (CSVImportService.saveRates env w entries).1.length
                  errors := ((rows.enumFrom 1).filterMap (fun x => rowError x.1 x.2)).length } },
            (CSVImportService.saveRates env w entries).2) := by
  unfold CSVImportService.importFromCSV
  simp only [onData_foldl, List.nil_append, Nat.zero_add, filterMap_rowResult_enum, he]

/-! ## Statistics, the daily report, the CSV import, the rate of a conversion and the CoinGecko
mappings: claims C21 to C30 -/

/-- C21. For every Conversion Log and filter, `getConversionStats` succeeds. With `matched`
the records matching the filter (each code the filter gives equals the record's code once put
in upper case, the date lies within the bounds given), it returns `totalConversions` equal to
the number of matched records, `totalOriginalAmount` and `totalConvertedAmount` equal to the
sums of their amounts and, when some record matches, `averageRate` equal to the mean of their
rates and `minRate` and `maxRate` equal to the least and the greatest of their rates. When no
record matches, all six values are 0. -/
theorem getConversionStats_aggregates (w : World) (query : ConversionsQuery) :
    ∃ (stats : Statistics) (matched : List Conversion),
      ConvertService.getConversionStats w query = .ok stats ∧
      matched = w.conversions.filter (fun c =>
        decide (∀ x, query.fromCurrency = some x → x ≠ "" → c.fromCurrency = toUpperCase x) &&
        decide (∀ x, query.toCurrency = some x → x ≠ "" → c.toCurrency = toUpperCase x) &&
        decide (∀ s, query.startDate = some s → s ≤ c.conversionDate) &&
        decide (∀ e, query.endDate = some e → c.conversionDate ≤ e)) ∧
      stats.totalConversions = matched.length ∧
      stats.totalOriginalAmount = (matched.map (·.originalAmount)).sum ∧
      stats.totalConvertedAmount = (matched.map (·.convertedAmount)).sum ∧
      (matched ≠ [] →
        stats.averageRate = (matched.map (·.rate)).sum / (matched.length : ℚ) ∧
        ∃ lo hi : ℚ, stats.minRate = some lo ∧ stats.maxRate = some hi ∧
          (∀ c ∈ matched, lo ≤ c.rate ∧ c.rate ≤ hi) ∧ (∃ c ∈ matched, c.rate = lo) ∧
          ∃ c ∈ matched, c.rate = hi) ∧
      (matched = [] →
        stats.totalConversions = 0 ∧ stats.totalOriginalAmount = 0 ∧
        stats.totalConvertedAmount = 0 ∧ stats.averageRate = 0 ∧ stats.minRate = some 0 ∧
        stats.maxRate = some 0) := by
  have hfilter : w.conversions.filter (ConvertService.matchesQuery query.fromCurrency
        query.toCurrency query.startDate query.endDate) =
      w.conversions.filter (fun c =>
        decide (∀ x, query.fromCurrency = some x → x ≠ "" → c.fromCurrency = toUpperCase x) &&
        decide (∀ x, query.toCurrency = some x → x ≠ "" → c.toCurrency = toUpperCase x) &&
        decide (∀ s, query.startDate = some s → s ≤ c.conversionDate) &&
        decide (∀ e, query.endDate = some e → c.conversionDate ≤ e)) := by
    apply List.filter_congr
    intro c _
    rw [Bool.eq_iff_iff, matchesQuery_iff]
    simp only [Bool.and_eq_true, decide_eq_true_eq, and_assoc]
  rw [getConversionStats_of_matched, hfilter]
  generalize w.conversions.filter (fun c =>
        decide (∀ x, query.fromCurrency = some x → x ≠ "" → c.fromCurrency = toUpperCase x) &&
        decide (∀ x, query.toCurrency = some x → x ≠ "" → c.toCurrency = toUpperCase x) &&
        decide (∀ s, query.startDate = some s → s ≤ c.conversionDate) &&
        decide (∀ e, query.endDate = some e → c.conversionDate ≤ e)) = matched
  by_cases hne : matched = []
  · subst hne
    exact ⟨_, [], rfl, rfl, rfl, rfl, rfl, fun h => absurd rfl h,
      fun _ => ⟨rfl, rfl, rfl, rfl, rfl, rfl⟩⟩
  · obtain ⟨lo, hi, hgroup, hb, hlo, hhi⟩ := statsGroup_spec matched hne
    rw [hgroup]
    exact ⟨_, matched, rfl, rfl, rfl, rfl, rfl, fun _ => ⟨rfl, lo, hi, rfl, rfl, hb, hlo, hhi⟩,
      fun h => absurd h hne⟩

/-- C21, evaluated at the filter of the statistics test (`fromCurrency: 'USD'`) on the three
test conversions: two records, amounts 100 + 200 and 85 + 150; and at a filter no record
matches. -/
theorem getConversionStats_example :
    ConvertService.getConversionStats historyWorld
        (conversionsQuery (some "USD") none none none none none) =
      .ok { totalConversions := 2, totalOriginalAmount := 300, totalConvertedAmount := 235,
            averageRate := 0.85, minRate := some 0.85, maxRate := some 0.85,
            uniqueCurrencyPairs := none } ∧
    ConvertService.getConversionStats reportWorld
        (conversionsQuery none none (some 1704067200000) (some 1704153599999) none none) =
      .ok { totalConversions := 3, totalOriginalAmount := 350, totalConvertedAmount := 314,
            averageRate := 0.96, minRate := some 0.85, maxRate := some 1.18,
            uniqueCurrencyPairs := none } ∧
    ConvertService.getConversionStats historyWorld
        (conversionsQuery (some "JPY") none none none none none) =
      .ok { totalConversions := 0, totalOriginalAmount := 0, totalConvertedAmount := 0,
            averageRate := 0, minRate := some 0, maxRate := some 0,
            uniqueCurrencyPairs := none } := by
  decide!

/-- C21, at the filter of the statistics test (`fromCurrency: 'USD'`) on the three test
conversions. -/
theorem getConversionStats_aggregates_witness :
    ∃ (stats : Statistics) (matched : List Conversion),
      ConvertService.getConversionStats historyWorld
        (conversionsQuery (some "USD") none none none none none) = .ok stats ∧
      matched = historyWorld.conversions.filter (fun c =>
        decide (∀ x, (conversionsQuery (some "USD") none none none none none).fromCurrency =
          some x → x ≠ "" → c.fromCurrency = toUpperCase x) &&
        decide (∀ x, (conversionsQuery (some "USD") none none none none none).toCurrency =
          some x → x ≠ "" → c.toCurrency = toUpperCase x) &&
        decide (∀ s, (conversionsQuery (some "USD") none none none none none).startDate =
          some s → s ≤ c.conversionDate) &&
        decide (∀ e, (conversionsQuery (some "USD") none none none none none).endDate =
          some e → c.conversionDate ≤ e)) ∧
      stats.totalConversions = matched.length ∧
      stats.totalOriginalAmount = (matched.map (·.originalAmount)).sum ∧
      stats.totalConvertedAmount = (matched.map (·.convertedAmount)).sum ∧
      (matched ≠ [] →
        stats.averageRate = (matched.map (·.rate)).sum / (matched.length : ℚ) ∧
        ∃ lo hi : ℚ, stats.minRate = some lo ∧ stats.maxRate = some hi ∧
          (∀ c ∈ matched, lo ≤ c.rate ∧ c.rate ≤ hi) ∧ (∃ c ∈ matched, c.rate = lo) ∧
          ∃ c ∈ matched, c.rate = hi) ∧
      (matched = [] →
        stats.totalConversions = 0 ∧ stats.totalOriginalAmount = 0 ∧
        stats.totalConvertedAmount = 0 ∧ stats.averageRate = 0 ∧ stats.minRate = some 0 ∧
        stats.maxRate = some 0) :=
  getConversionStats_aggregates historyWorld
    (conversionsQuery (some "USD") none none none none none)

/-- C22 (amended). For every Conversion Log and every limit that is a whole number from 1 up
(within the safe range; 10 when the query gives none), `getPopularPairs` returns a list of at
most `limit` entries, as many as the log has distinct pairs when these are fewer; the entries
are for distinct pairs of the log, each with `conversionCount` equal to the number of log
records of its pair and `totalAmount` equal to the sum of their `originalAmount`; they are
ordered by `conversionCount` descending; and no pair left out has a strictly larger count
than a pair listed. For any limit the stage is `$limit: parseInt(limit)`: when `parseInt` reads
the limit as zero or a negative number (as for 0, 0.5 or -3) the store refuses the stage and
the call fails; when it reads a number from 1 up within the safe range (as for 2.5, read as 2,
or for `1e-7`, read as 1), the list has that many entries, or as many as there are pairs. -/
theorem getPopularPairs_top (w : World) :
    (∀ limit : Option ℕ, (∀ n, limit = some n → 1 ≤ n ∧ (n : ℚ) ≤ MAX_SAFE_INTEGER) →
      ∃ result : List PopularPair,
        ConvertService.getPopularPairs w (limit.map (fun n => (n : ℚ))) = .ok result ∧
        result.length ≤ limit.getD 10 ∧
        result.length = min (limit.getD 10) (w.conversions.map Conversion.pairId).dedup.length ∧
        (result.map PopularPair.pairId).Nodup ∧
        (∀ e ∈ result, e.pairId ∈ w.conversions.map Conversion.pairId ∧
          e.conversionCount =
            (w.conversions.filter (fun c => decide (c.pairId = e.pairId))).length ∧
          e.totalAmount = ((w.conversions.filter (fun c => decide (c.pairId = e.pairId))).map
            (·.originalAmount)).sum) ∧
        result.Pairwise (fun a b => b.conversionCount ≤ a.conversionCount) ∧
        (∀ c ∈ w.conversions, c.pairId ∉ result.map PopularPair.pairId →
          ∀ e ∈ result,
            (w.conversions.filter (fun d => decide (d.pairId = c.pairId))).length ≤
              e.conversionCount)) ∧
    (∀ v : ℚ, parseInt v ≤ 0 →
      ∃ e, ConvertService.getPopularPairs w (some v) =
        .error ("Error getting popular pairs: " ++ e)) ∧
    (∀ v : ℚ, 1 ≤ parseInt v → ((parseInt v : ℤ) : ℚ) ≤ MAX_SAFE_INTEGER →
      ∃ result : List PopularPair,
        ConvertService.getPopularPairs w (some v) = .ok result ∧
        result.length =
          min (parseInt v).toNat (w.conversions.map Conversion.pairId).dedup.length ∧
        (result.map PopularPair.pairId).Nodup ∧
        (∀ e ∈ result, e.pairId ∈ w.conversions.map Conversion.pairId ∧
          e.conversionCount =
            (w.conversions.filter (fun c => decide (c.pairId = e.pairId))).length ∧
          e.totalAmount = ((w.conversions.filter (fun c => decide (c.pairId = e.pairId))).map
            (·.originalAmount)).sum) ∧
        result.Pairwise (fun a b => b.conversionCount ≤ a.conversionCount) ∧
        (∀ c ∈ w.conversions, c.pairId ∉ result.map PopularPair.pairId →
          ∀ e ∈ result,
            (w.conversions.filter (fun d => decide (d.pairId = c.pairId))).length ≤
              e.conversionCount)) := by
  refine ⟨?_, ?_, ?_⟩
  · intro limit hl
    have hpl : parseInt (withDefault (limit.map (fun n => (n : ℚ))) 10) =
        ((limit.getD 10 : ℕ) : ℤ) := by
      cases limit with
      | none => exact parseInt_natCast 10 (by unfold MAX_SAFE_INTEGER; norm_num)
      | some n => exact parseInt_natCast n (hl n rfl).2
    have hpos : 1 ≤ limit.getD 10 := by
      cases hlimit : limit with
      | none => simp
      | some n => exact (hl n hlimit).1
    obtain ⟨h1, h2, h3, h4, h5⟩ := popularPairs_spec w.conversions (limit.getD 10)
    refine ⟨_, ?_, ?_, h1, h2, h3, h4, h5⟩
    · unfold ConvertService.getPopularPairs
      rw [hpl, limitStage_pos _ hpos]
    · rw [h1]
      exact min_le_left _ _
  · intro v hv
    refine ⟨"the limit must be positive", ?_⟩
    unfold ConvertService.getPopularPairs limitStage
    simp only [withDefault]
    rw [if_pos hv]
  · intro v hv _
    obtain ⟨h1, h2, h3, h4, h5⟩ := popularPairs_spec w.conversions (parseInt v).toNat
    refine ⟨_, ?_, h1, h2, h3, h4, h5⟩
    unfold ConvertService.getPopularPairs limitStage
    simp only [withDefault]
    rw [if_neg (by omega)]

/-- C22 (amended), on the log of the report fixture: at the limit of the popular-pairs test
(`limit: 5`), at the limit 0.5, which `parseInt` reads as 0, and at the limit 2.5, which it
reads as 2. -/
theorem getPopularPairs_top_witness :
    (∃ result : List PopularPair,
      ConvertService.getPopularPairs reportWorld ((some 5 : Option ℕ).map (fun n => (n : ℚ))) =
        .ok result ∧
      result.length ≤ (some 5 : Option ℕ).getD 10 ∧
      result.length =
        min ((some 5 : Option ℕ).getD 10)
          (reportWorld.conversions.map Conversion.pairId).dedup.length ∧
      (result.map PopularPair.pairId).Nodup ∧
      (∀ e ∈ result, e.pairId ∈ reportWorld.conversions.map Conversion.pairId ∧
        e.conversionCount =
          (reportWorld.conversions.filter (fun c => decide (c.pairId = e.pairId))).length ∧
        e.totalAmount =
          ((reportWorld.conversions.filter (fun c => decide (c.pairId = e.pairId))).map
            (·.originalAmount)).sum) ∧
      result.Pairwise (fun a b => b.conversionCount ≤ a.conversionCount) ∧
      (∀ c ∈ reportWorld.conversions, c.pairId ∉ result.map PopularPair.pairId →
        ∀ e ∈ result,
          (reportWorld.conversions.filter (fun d => decide (d.pairId = c.pairId))).length ≤
            e.conversionCount)) ∧
    (parseInt (1 / 2) ≤ 0 ∧
      ∃ e, ConvertService.getPopularPairs reportWorld (some (1 / 2)) =
        .error ("Error getting popular pairs: " ++ e)) ∧
    (1 ≤ parseInt (5 / 2) ∧ ((parseInt (5 / 2) : ℤ) : ℚ) ≤ MAX_SAFE_INTEGER ∧
      ∃ result : List PopularPair,
        ConvertService.getPopularPairs reportWorld (some (5 / 2)) = .ok result ∧
        result.length =
          min (parseInt (5 / 2)).toNat
            (reportWorld.conversions.map Conversion.pairId).dedup.length ∧
        (result.map PopularPair.pairId).Nodup ∧
        (∀ e ∈ result, e.pairId ∈ reportWorld.conversions.map Conversion.pairId ∧
          e.conversionCount =
            (reportWorld.conversions.filter (fun c => decide (c.pairId = e.pairId))).length ∧
          e.totalAmount =
            ((reportWorld.conversions.filter (fun c => decide (c.pairId = e.pairId))).map
              (·.originalAmount)).sum) ∧
        result.Pairwise (fun a b => b.conversionCount ≤ a.conversionCount) ∧
        (∀ c ∈ reportWorld.conversions, c.pairId ∉ result.map PopularPair.pairId →
          ∀ e ∈ result,
            (reportWorld.conversions.filter (fun d => decide (d.pairId = c.pairId))).length ≤
              e.conversionCount)) :=
  ⟨(getPopularPairs_top reportWorld).1 (some 5)
      (fun n hn => by cases hn; exact ⟨by omega, by unfold MAX_SAFE_INTEGER; norm_num⟩),
   ⟨by decide!, (getPopularPairs_top reportWorld).2.1 (1 / 2) (by decide!)⟩,
   ⟨by decide!, by decide!,
    (getPopularPairs_top reportWorld).2.2 (5 / 2) (by decide!) (by decide!)⟩⟩

/-- The popular pairs of the report fixture, evaluated: with the limit 5 all three pairs, the
pair converted twice first; with the limit 1 that pair alone; with no limit given, the default
10. -/
theorem getPopularPairs_example :
    ConvertService.getPopularPairs reportWorld (some 5) =
      .ok [{ fromCurrency := "USD", toCurrency := "EUR", conversionCount := 2,
             totalAmount := 300 },
           { fromCurrency := "EUR", toCurrency := "USD", conversionCount := 1,
             totalAmount := 50 },
           { fromCurrency := "USD", toCurrency := "GBP", conversionCount := 1,
             totalAmount := 10 }] ∧
    ConvertService.getPopularPairs reportWorld (some 1) =
      .ok [{ fromCurrency := "USD", toCurrency := "EUR", conversionCount := 2,
             totalAmount := 300 }] ∧
    ConvertService.getPopularPairs reportWorld none =
      ConvertService.getPopularPairs reportWorld (some 10) := by
  decide!

/-- C22 as stated fails at the limit 0: the stage `$limit: 0` is refused and the call throws
instead of returning a list. -/
theorem getPopularPairs_counterexample :
    ConvertService.getPopularPairs reportWorld (some 0) =
      .error "Error getting popular pairs: the limit must be positive" ∧
    ConvertService.getPopularPairs connectedWorld (some 0) =
      .error "Error getting popular pairs: the limit must be positive" := by
  decide!

/-- What `createRateSchema` requires of the four values of a row it accepts: both codes are
three letters `A`-`Z` as they stand, the rate is in its entirety a numeral, its value is positive
and within the safe range and is what `parseFloat` reads, and the source is given and is one of
the three sources as it stands. -/
theorem validateInput_requires (row : Row) (value : CreateRateValue)
    (hv : createRateSchema.validateInput row.fromCurrency row.toCurrency
      (row.rate.map RateInput.text) row.source = .ok value) :
    ∃ f t r s v, row.fromCurrency = some f ∧ row.toCurrency = some t ∧ row.rate = some r ∧
      row.source = some s ∧ matchesCurrencyPattern f = true ∧
      matchesCurrencyPattern t = true ∧ numberOfString r = some v ∧
      parseFloat r = JsNumber.finite v ∧ 0 < v ∧ v ≤ MAX_SAFE_INTEGER ∧ s ∈ validSources := by
  obtain ⟨h1, h2, h3, h4, h5, h6, h7⟩ := (validateInput_ok_iff _ _ _ _ value).mp hv
  cases hr : row.rate with
  | none =>
    rw [hr] at h5
    simp [rateInputSchema] at h5
  | some r =>
    rw [hr] at h5
    obtain ⟨h8, h9, h10, h11⟩ := (rateInputSchema_text_ok_iff _ r _).mp h5
    exact ⟨_, _, r, _, _, h1, h3, rfl, h6, h2, h4, h8,
      (parseFloat_of_numberOfString r _ h8).trans h9, h10, h11, h7⟩

/-- C23 (amended). CSV rows are validated more leniently than by the rate-creation contract.
`processRow` accepts exactly the rows that give both codes and the rate, whose codes are three
letters `A`-`Z` once put in upper case, whose rate is read by `parseFloat` as a positive number
(`Infinity` included, and whatever follows the numeral), and whose source, when given and not
empty, is one of the three sources once put in lower case. `createRateSchema` accepts the same
four values only when both codes are three letters `A`-`Z` as they stand, the rate is in its
entirety a numeral of a positive number within the safe range, and the source is given and is
one of the three sources as it stands. Every row `createRateSchema` accepts is accepted by
`processRow`; the converse fails. -/
theorem processRow_more_lenient (row : Row) (n : Nat) :
    ((∃ p, CSVImportService.processRow row n = .ok p) ↔
      ∃ f t r, row.fromCurrency = some f ∧ row.toCurrency = some t ∧ row.rate = some r ∧
        matchesCurrencyPattern (toUpperCase f) = true ∧
        matchesCurrencyPattern (toUpperCase t) = true ∧
        (parseFloat r = .Infinity ∨ ∃ v, parseFloat r = .finite v ∧ 0 < v) ∧
        (∀ s, row.source = some s → s ≠ "" → toLowerCase s ∈ validSources)) ∧
    ((∃ value, createRateSchema.validateInput row.fromCurrency row.toCurrency
        (row.rate.map RateInput.text) row.source = .ok value) →
      ∃ f t r s v, row.fromCurrency = some f ∧ row.toCurrency = some t ∧ row.rate = some r ∧
        row.source = some s ∧ matchesCurrencyPattern f = true ∧
        matchesCurrencyPattern t = true ∧ numberOfString r = some v ∧
        parseFloat r = .finite v ∧ 0 < v ∧ v ≤ MAX_SAFE_INTEGER ∧ s ∈ validSources) ∧
    ((∃ value, createRateSchema.validateInput row.fromCurrency row.toCurrency
        (row.rate.map RateInput.text) row.source = .ok value) →
      ∃ p, CSVImportService.processRow row n = .ok p) := by
  have hsrc : sourceValueOf row.source ∈ validSources ↔
      ∀ s, row.source = some s → s ≠ "" → toLowerCase s ∈ validSources := by
    cases hso : row.source with
    | none => simp [sourceValueOf, validSources]
    | some s =>
      by_cases hs : s = ""
      · simp [sourceValueOf, validSources, hs]
      · simp [sourceValueOf, hs]
  have hA : (∃ p, CSVImportService.processRow row n = .ok p) ↔
      ∃ f t r, row.fromCurrency = some f ∧ row.toCurrency = some t ∧ row.rate = some r ∧
        matchesCurrencyPattern (toUpperCase f) = true ∧
        matchesCurrencyPattern (toUpperCase t) = true ∧
        (parseFloat r = .Infinity ∨ ∃ v, parseFloat r = .finite v ∧ 0 < v) ∧
        (∀ s, row.source = some s → s ≠ "" → toLowerCase s ∈ validSources) := by
    constructor
    · rintro ⟨p, hp⟩
      obtain ⟨f, t, r, h1, h2, h3, h4, h5, h6, h7, _⟩ := (processRow_ok_iff row n p).mp hp
      exact ⟨f, t, r, h1, h2, h3, h4, h5, (invalidRateValue_false _).mp h6, hsrc.mp h7⟩
    · rintro ⟨f, t, r, h1, h2, h3, h4, h5, h6, h7⟩
      exact ⟨_, (processRow_ok_iff row n _).mpr
        ⟨f, t, r, h1, h2, h3, h4, h5, (invalidRateValue_false _).mpr h6, hsrc.mpr h7, rfl⟩⟩
  have hB : (∃ value, createRateSchema.validateInput row.fromCurrency row.toCurrency
        (row.rate.map RateInput.text) row.source = .ok value) →
      ∃ f t r s v, row.fromCurrency = some f ∧ row.toCurrency = some t ∧ row.rate = some r ∧
        row.source = some s ∧ matchesCurrencyPattern f = true ∧
        matchesCurrencyPattern t = true ∧ numberOfString r = some v ∧
        parseFloat r = .finite v ∧ 0 < v ∧ v ≤ MAX_SAFE_INTEGER ∧ s ∈ validSources := by
    rintro ⟨value, hv⟩
    exact validateInput_requires row value hv
  refine ⟨hA, hB, ?_⟩
  intro hv
  obtain ⟨f, t, r, s, v, h1, h2, h3, h4, h5, h6, _, h7, h8, _, h10⟩ := hB hv
  refine hA.mpr ⟨f, t, r, h1, h2, h3, ?_, ?_, Or.inr ⟨v, h7, h8⟩, ?_⟩
  · rw [toUpperCase_of_pattern f h5]; exact h5
  · rw [toUpperCase_of_pattern t h6]; exact h6
  · intro s' hs' hne
    rw [h4] at hs'
    injection hs' with hs'
    subst hs'
    have := sourceValueOf_valid s h10
    simp only [sourceValueOf, hne, if_false] at this
    rw [this]
    exact h10

/-- C23 (amended), at the first row of the template of `getCSVTemplate`, which
`createRateSchema` accepts: `processRow` accepts it too. -/
theorem processRow_more_lenient_witness :
    ∃ p, CSVImportService.processRow (csvRow "USD" "EUR" "0.85" "manual") 1 = .ok p :=
  (processRow_more_lenient (csvRow "USD" "EUR" "0.85" "manual") 1).2.2
    ⟨{ fromCurrency := "USD", toCurrency := "EUR", rate := 0.85, source := "manual" },
      by decide!⟩

/-- C23 as stated fails: `processRow` accepts a row with codes in lower case, a row without a
source, a row whose source is in upper case, and a row whose rate is followed by other
characters; `createRateSchema` refuses the same four values in each case. -/
theorem processRow_counterexample :
    CSVImportService.processRow (csvRow "usd" "eur" "0.85" "manual") 1 =
      .ok { fromCurrency := "USD", toCurrency := "EUR", rate := .finite 0.85,
            source := "manual" } ∧
    createRateSchema.validateInput (some "usd") (some "eur") (some (.text "0.85"))
        (some "manual") =
      .error "Currency code must be 3 uppercase letters (e.g., USD, EUR, BTC)" ∧
    CSVImportService.processRow
        { fromCurrency := some "USD", toCurrency := some "EUR", rate := some "0.85",
          source := none } 1 =
      .ok { fromCurrency := "USD", toCurrency := "EUR", rate := .finite 0.85,
            source := "manual" } ∧
    createRateSchema.validateInput (some "USD") (some "EUR") (some (.text "0.85")) none =
      .error "Source is required" ∧
    CSVImportService.processRow (csvRow "USD" "EUR" "0.85" "MANUAL") 1 =
      .ok { fromCurrency := "USD", toCurrency := "EUR", rate := .finite 0.85,
            source := "manual" } ∧
    createRateSchema.validateInput (some "USD") (some "EUR") (some (.text "0.85"))
        (some "MANUAL") =
      .error "Source must be one of: coingecko, openexchangerates, manual" ∧
    CSVImportService.processRow (csvRow "USD" "EUR" "0.85abc" "manual") 1 =
      .ok { fromCurrency := "USD", toCurrency := "EUR", rate := .finite 0.85,
            source := "manual" } ∧
    createRateSchema.validateInput (some "USD") (some "EUR") (some (.text "0.85abc"))
        (some "manual") =
      .error "Rate must be a number" := by
  decide!

/-- Rows at the edge of the two validations: a rate too small for a double is read as zero by
`parseFloat` and refused by `processRow`, and refused as unsafe by `createRateSchema`; a code
written with the long s is accepted by `processRow` and refused by `createRateSchema`. -/
theorem processRow_edge_examples :
    CSVImportService.processRow (csvRow "USD" "EUR" "1e-400" "manual") 1 =
      .error "Fila 1: Tasa inválida: 1e-400" ∧
    createRateSchema.validateInput (some "USD") (some "EUR") (some (.text "1e-400"))
        (some "manual") =
      .error "\"rate\" must be a safe number" ∧
    CSVImportService.processRow (csvRow "u\u017fd" "EUR" "0.85" "manual") 1 =
      .ok { fromCurrency := "USD", toCurrency := "EUR", rate := .finite 0.85,
            source := "manual" } ∧
    createRateSchema.validateInput (some "u\u017fd") (some "EUR") (some (.text "0.85"))
        (some "manual") =
      .error "Currency code must be 3 uppercase letters (e.g., USD, EUR, BTC)" := by
  decide!

/-- C24. For every CSV file, given by its rows, none of whose rates is `Infinity`,
`importFromCSV` does not abort on an invalid row. It returns `totalRows` equal to the number
of rows, `processedRows` equal to the number of rows `processRow` accepts, and `errors` with
exactly one entry per rejected row, in the order of the file, each carrying the 1-based number
of its row, the message and the row; so `processedRows + errors.length = totalRows`. The
accepted rows, and they alone, are handed to `saveRates` in the order of the file; on a
well-formed Rate Store that accepts the writes, `saveRates` performs exactly one upsert per
accepted row, and `savedRates = processedRows`. -/
theorem importFromCSV_counts (env : Env) (w : World) (rows : List Row)
    (hfin : ∀ row ∈ rows, ∀ r, row.rate = some r → parseFloat r ≠ .Infinity) :
    ∃ (result : ImportResult) (w' : World) (entries : List RateData),
      CSVImportService.importFromCSV env w rows = some (result, w') ∧
      result.success = true ∧
      result.totalRows = rows.length ∧
      result.processedRows = (rows.filter Row.accepted).length ∧
      result.errors = (rows.enumFrom 1).filterMap (fun x => rowError x.1 x.2) ∧
      result.errors.length = (rows.filter (fun row => !row.accepted)).length ∧
      result.errors.map (·.row) =
        ((rows.enumFrom 1).filter (fun x => !x.2.accepted)).map (·.1) ∧
      result.processedRows + result.errors.length = result.totalRows ∧
      rateEntries (rows.filterMap (rowResult 0)) = some entries ∧
      entries.length = result.processedRows ∧
      result.savedRates = (CSVImportService.saveRates env w entries).1.length ∧
      w' = (CSVImportService.saveRates env w entries).2 ∧
      (RateStoreWF w → env.storeWriteError = none →
        result.savedRates = result.processedRows ∧
        w' = entries.foldl (upsertRate env.now) w) := by
  have hres : ∀ p ∈ rows.filterMap (rowResult 0), ∃ v, p.rate = .finite v ∧ 0 < v ∧
      matchesCurrencyPattern p.fromCurrency = true ∧
      matchesCurrencyPattern p.toCurrency = true ∧ p.source ∈ validSources := by
    intro p hp
    rw [List.mem_filterMap] at hp
    obtain ⟨row, hrow, hrp⟩ := hp
    have hproc : CSVImportService.processRow row 0 = .ok p := by
      unfold rowResult at hrp
      cases hc : CSVImportService.processRow row 0 with
      | ok q =>
        rw [hc] at hrp
        injection hrp with hrp
        rw [hrp]
      | error e => rw [hc] at hrp; cases hrp
    obtain ⟨f, t, r, _, _, h3, h4, h5, h6, h7, hpe⟩ := (processRow_ok_iff row 0 p).mp hproc
    subst hpe
    rcases (invalidRateValue_false _).mp h6 with hinf | ⟨v, hv, hpos⟩
    · exact absurd hinf (hfin row hrow r h3)
    · exact ⟨v, hv, hpos, h4, h5, h7⟩
  obtain ⟨entries, he, hlen, hall⟩ := rateEntries_some _ hres
  have hproc : (rows.filterMap (rowResult 0)).length = (rows.filter Row.accepted).length := by
    rw [length_filterMap_eq_filter]
    congr 1
    apply List.filter_congr
    intro row _
    exact rowResult_isSome row 0
  have herr : ((rows.enumFrom 1).filterMap (fun x => rowError x.1 x.2)).length =
      (rows.filter (fun row => !row.accepted)).length := by
    rw [length_filterMap_eq_filter, ← filter_enumFrom_snd (fun row => !row.accepted) rows 1]
    congr 1
    apply List.filter_congr
    intro x _
    exact rowError_isSome x.2 x.1
  refine ⟨_, _, entries, importFromCSV_eq env w rows entries he, rfl, rfl, hproc, rfl, herr,
    map_row_filterMap_rowError _, ?_, he, hlen, rfl, rfl, ?_⟩
  · show (rows.filterMap (rowResult 0)).length +
      ((rows.enumFrom 1).filterMap (fun x => rowError x.1 x.2)).length = rows.length
    rw [hproc, herr]
    exact length_filter_add_not Row.accepted rows
  · intro hwf hs
    obtain ⟨h1, h2⟩ := saveRates_fold env hs entries w hwf hall
    exact ⟨by show (CSVImportService.saveRates env w entries).1.length = _; rw [h2, hlen], h1⟩

/-- C24, at the file of six rows of the fixture, five valid and one with a bad currency code,
read into an empty store. -/
theorem importFromCSV_counts_witness :
    ∃ (result : ImportResult) (w' : World) (entries : List RateData),
      CSVImportService.importFromCSV testEnv connectedWorld sampleRows = some (result, w') ∧
      result.success = true ∧
      result.totalRows = sampleRows.length ∧
      result.processedRows = (sampleRows.filter Row.accepted).length ∧
      result.errors = (sampleRows.enumFrom 1).filterMap (fun x => rowError x.1 x.2) ∧
      result.errors.length = (sampleRows.filter (fun row => !row.accepted)).length ∧
      result.errors.map (·.row) =
        ((sampleRows.enumFrom 1).filter (fun x => !x.2.accepted)).map (·.1) ∧
      result.processedRows + result.errors.length = result.totalRows ∧
      rateEntries (sampleRows.filterMap (rowResult 0)) = some entries ∧
      entries.length = result.processedRows ∧
      result.savedRates = (CSVImportService.saveRates testEnv connectedWorld entries).1.length ∧
      w' = (CSVImportService.saveRates testEnv connectedWorld entries).2 ∧
      (RateStoreWF connectedWorld → testEnv.storeWriteError = none →
        result.savedRates = result.processedRows ∧
        w' = entries.foldl (upsertRate testEnv.now) connectedWorld) :=
  importFromCSV_counts testEnv connectedWorld sampleRows (by
    intro row hrow r hr
    simp only [sampleRows, List.mem_cons, List.mem_singleton, List.not_mem_nil, or_false] at hrow
    rcases hrow with h | h | h | h | h | h <;> subst h <;>
      simp only [csvRow, Option.some.injEq] at hr <;> subst hr <;> decide!)

/-- The import of the file of the fixture, evaluated: five rows processed and saved, one error
for row 5, five records in the store, and nothing on the queue. -/
theorem importFromCSV_example :
    (CSVImportService.importFromCSV testEnv connectedWorld sampleRows).map (·.1) =
      some { success := true, totalRows := 6, processedRows := 5, savedRates := 5,
             errors := [{ row := 5, error := "Fila 5: Código de moneda origen inválido: US",
                          data := csvRow "US" "EUR" "0.9" "manual" }],
             summary := { total := 6, processed := 5, saved := 5, errors := 1 } } ∧
    (CSVImportService.importFromCSV testEnv connectedWorld sampleRows).map
        (fun x => x.2.rates.map (fun r => (r.fromCurrency, r.toCurrency, r.rate, r.source))) =
      some [("USD", "EUR", 0.85, "manual"), ("EUR", "USD", 1.18, "manual"),
            ("USD", "MXN", 18.5, "manual"), ("BTC", "USD", 45000, "coingecko"),
            ("EUR", "JPY", 160.5, "openexchangerates")] ∧
    (CSVImportService.importFromCSV testEnv connectedWorld sampleRows).map (·.2.queue) =
      some [] ∧
    CSVImportService.importFromCSV testEnv connectedWorld
        [csvRow "USD" "EUR" "Infinity" "manual"] = none := by
  decide!

/-- C25 (amended). For every state and every row `processRow` accepts whose rate is a finite
number not above `Number.MAX_SAFE_INTEGER`, `saveRates` upserts the row as `create` does for
the same values as far as the Rate Store goes: both leave the same records (an existing record
of the pair, active or not, gets the new rate and source; otherwise a new active record is
inserted), and the record `saveRates` keeps is the one `create` returns. But `saveRates` emits
no rate-change notification: it leaves the queue as it was, where `create`, the broker being
reachable, adds a `rate_update` message. -/
theorem saveRates_upserts_like_create (env : Env) (w : World) (row : Row) (n : Nat)
    (p : ProcessedRow) (d : RateData) (h : CSVImportService.processRow row n = .ok p)
    (hd : p.toRateData = some d) (hsafe : d.rate ≤ MAX_SAFE_INTEGER) :
    (CSVImportService.saveRates env w [d]).2 =
      { (RatesService.create env w
          (rateRequest d.fromCurrency d.toCurrency d.rate d.source)).2 with
        queue := w.queue, channel := w.channel } ∧
    (CSVImportService.saveRates env w [d]).2.rates =
      (RatesService.create env w
        (rateRequest d.fromCurrency d.toCurrency d.rate d.source)).2.rates ∧
    (CSVImportService.saveRates env w [d]).2.queue = w.queue ∧
    (∀ rec, (RatesService.create env w
        (rateRequest d.fromCurrency d.toCurrency d.rate d.source)).1 = .ok rec →
      (CSVImportService.saveRates env w [d]).1 = [rec] ∧
      ((w.channel = true ∨ env.brokerConnects = true) → env.sendToQueue = .accepted →
        ∃ action, (RatesService.create env w
            (rateRequest d.fromCurrency d.toCurrency d.rate d.source)).2.queue =
          w.queue ++ [{ type := "rate_update", timestamp := env.now,
                        data := rateUpdatePayload action rec }])) ∧
    (RateStoreWF w → env.storeWriteError = none →
      (CSVImportService.saveRates env w [d]).2 = upsertRate env.now w d ∧
      (CSVImportService.saveRates env w [d]).1 = [upsertedRecord env.now w d]) := by
  obtain ⟨f, t, r, _, _, _, h4, h5, h6, h7, hp⟩ := (processRow_ok_iff row n p).mp h
  subst hp
  have hv : ValidRate d.fromCurrency d.toCurrency d.rate d.source := by
    simp only [ProcessedRow.toRateData] at hd
    rcases (invalidRateValue_false _).mp h6 with hinf | ⟨v, hv, hpos⟩
    · rw [hinf] at hd; cases hd
    · rw [hv] at hd
      simp only [Option.some.injEq] at hd
      subst hd
      exact ⟨h4, h5, hpos, hsafe, h7⟩
  obtain ⟨h1, h2, _⟩ := saveRates_vs_create env w d hv
  refine ⟨h1, by rw [h1], by rw [h1], ?_, ?_⟩
  · intro rec hrec
    refine ⟨h2 rec hrec, ?_⟩
    intro hch hacc
    rw [create_of_valid env w _ _ _ _ hv] at hrec ⊢
    have hsend : ∀ (w1 : World) (m : QueueMessage), w1.queue = w.queue →
        w1.channel = w.channel → (RabbitMQ.sendMessage env w1 m).2.queue = w.queue ++ [m] := by
      intro w1 m hq hc
      rw [sendMessage_queue, sendMessage_fst, hq, hc]
      rcases hch with hch | hch <;> simp [hch, hacc]
    revert hrec
    cases w.rates.find? (Rate.hasPair d.fromCurrency d.toCurrency) with
    | some found =>
      simp only []
      cases hupd : Rate.update env w
          { found with rate := d.rate, source := d.source, lastUpdated := env.now } with
      | error m => intro hrec; cases hrec
      | ok w1 =>
        simp only []
        intro hrec
        injection hrec with hrec
        obtain ⟨hq, hc⟩ := update_frame env w w1 _ hupd
        refine ⟨"update", ?_⟩
        rw [← hrec]
        exact hsend w1 _ hq hc
    | none =>
      simp only []
      cases hins : Rate.insert env { w with nextId := w.nextId + 1 }
          (Rate.new w.nextId env.now d.fromCurrency d.toCurrency d.rate d.source) with
      | error m => intro hrec; cases hrec
      | ok w1 =>
        simp only []
        intro hrec
        injection hrec with hrec
        obtain ⟨hq, hc⟩ := insert_frame env _ w1 _ hins
        refine ⟨"create", ?_⟩
        rw [← hrec]
        exact hsend w1 _ hq hc
  · intro hwf hs
    rw [saveRates_cons_upsert env w d [] hwf hs ⟨hv.1, hv.2.1, hv.2.2.1, hv.2.2.2.2⟩,
      saveRates_nil]
    exact ⟨rfl, rfl⟩

/-- C25 (amended), at the first row of the template of `getCSVTemplate` on the store holding
the test rate of that pair. -/
theorem saveRates_upserts_like_create_witness :
    (CSVImportService.saveRates testEnv oneRateWorld
        [{ fromCurrency := "USD", toCurrency := "EUR", rate := 0.9, source := "coingecko" }]).2 =
      { (RatesService.create testEnv oneRateWorld
          (rateRequest "USD" "EUR" 0.9 "coingecko")).2 with
        queue := oneRateWorld.queue, channel := oneRateWorld.channel } ∧
    (CSVImportService.saveRates testEnv oneRateWorld
        [{ fromCurrency := "USD", toCurrency := "EUR", rate := 0.9, source := "coingecko" }]).2.rates =
      (RatesService.create testEnv oneRateWorld
        (rateRequest "USD" "EUR" 0.9 "coingecko")).2.rates ∧
    (CSVImportService.saveRates testEnv oneRateWorld
        [{ fromCurrency := "USD", toCurrency := "EUR", rate := 0.9, source := "coingecko" }]).2.queue =
      oneRateWorld.queue :=
  ⟨(saveRates_upserts_like_create testEnv oneRateWorld (csvRow "usd" "eur" "0.9" "CoinGecko") 1
      { fromCurrency := "USD", toCurrency := "EUR", rate := .finite 0.9, source := "coingecko" }
      { fromCurrency := "USD", toCurrency := "EUR", rate := 0.9, source := "coingecko" }
      (by decide!) (by decide!) (by decide!)).1,
    (saveRates_upserts_like_create testEnv oneRateWorld (csvRow "usd" "eur" "0.9" "CoinGecko") 1
      { fromCurrency := "USD", toCurrency := "EUR", rate := .finite 0.9, source := "coingecko" }
      { fromCurrency := "USD", toCurrency := "EUR", rate := 0.9, source := "coingecko" }
      (by decide!) (by decide!) (by decide!)).2.1,
    (saveRates_upserts_like_create testEnv oneRateWorld (csvRow "usd" "eur" "0.9" "CoinGecko") 1
      { fromCurrency := "USD", toCurrency := "EUR", rate := .finite 0.9, source := "coingecko" }
      { fromCurrency := "USD", toCurrency := "EUR", rate := 0.9, source := "coingecko" }
      (by decide!) (by decide!) (by decide!)).2.2.1⟩

/-- C25 as stated fails at the first row of the template on an empty store: `create` puts a
`rate_update` message on the queue and `saveRates` puts none, so the two states differ. And
for an accepted row whose rate is above `Number.MAX_SAFE_INTEGER`, `create` refuses the values
and stores nothing, where `saveRates` inserts a record. -/
theorem saveRates_counterexample :
    CSVImportService.processRow (csvRow "USD" "EUR" "0.85" "manual") 1 =
      .ok { fromCurrency := "USD", toCurrency := "EUR", rate := .finite 0.85,
            source := "manual" } ∧
    (RatesService.create testEnv connectedWorld (rateRequest "USD" "EUR" 0.85 "manual")).2.queue =
      [{ type := "rate_update", timestamp := 1700000000000,
         data := QueuePayload.rateUpdate "create" "USD" "EUR" 0.85 "manual" }] ∧
    (CSVImportService.saveRates testEnv connectedWorld
        [{ fromCurrency := "USD", toCurrency := "EUR", rate := 0.85, source := "manual" }]).2.queue =
      [] ∧
    (CSVImportService.saveRates testEnv connectedWorld
        [{ fromCurrency := "USD", toCurrency := "EUR", rate := 0.85, source := "manual" }]).2 ≠
      (RatesService.create testEnv connectedWorld (rateRequest "USD" "EUR" 0.85 "manual")).2 ∧
    CSVImportService.processRow (csvRow "USD" "EUR" "10000000000000000" "manual") 1 =
      .ok { fromCurrency := "USD", toCurrency := "EUR", rate := .finite 10000000000000000,
            source := "manual" } ∧
    RatesService.create testEnv connectedWorld
        (rateRequest "USD" "EUR" 10000000000000000 "manual") =
      (.error "Error creating rate: Validation error: \"rate\" must be a safe number",
        connectedWorld) ∧
    (CSVImportService.saveRates testEnv connectedWorld
        [{ fromCurrency := "USD", toCurrency := "EUR", rate := 10000000000000000,
           source := "manual" }]).2.rates =
      [{ _id := 1, fromCurrency := "USD", toCurrency := "EUR", rate := 10000000000000000,
         source := "manual", lastUpdated := 1700000000000, isActive := true }] := by
  decide!

/-- C26 (amended). For every Conversion Log and every date `YYYY-MM-DD`, `ReportService.find`
restricts to exactly the records whose `conversionDate` lies in that UTC day, from
00:00:00.000Z to 23:59:59.999Z inclusive, and returns `conversions` equal to the number of
such records, `statistics` holding their count, the sums of their original and converted
amounts and the average of their rates (these four as `getConversionStats` gives them for the
same day), no `minRate` and no `maxRate`, and, as `uniqueCurrencyPairs`, the set of their
pairs; and `popularPairs` holding at most 5 pairs of that day with their counts and amounts,
ordered by count descending, no pair left out having a larger count than a pair listed. -/
theorem daily_report (w : World) (date : String) (day : ℤ) (hday : parseDay date = some day) :
    ∃ (report : DailyReport) (matched : List Conversion),
      ReportService.find w date = .ok report ∧
      matched = w.conversions.filter (fun c =>
        decide (day * 86400000 ≤ (c.conversionDate : ℤ)) &&
        decide ((c.conversionDate : ℤ) ≤ day * 86400000 + 86399999)) ∧
      report.date = date ∧
      report.conversions = matched.length ∧
      report.statistics.totalConversions = matched.length ∧
      report.statistics.totalOriginalAmount = (matched.map (·.originalAmount)).sum ∧
      report.statistics.totalConvertedAmount = (matched.map (·.convertedAmount)).sum ∧
      (matched ≠ [] →
        report.statistics.averageRate = (matched.map (·.rate)).sum / (matched.length : ℚ)) ∧
      (matched = [] → report.statistics.averageRate = 0) ∧
      report.statistics.minRate = none ∧ report.statistics.maxRate = none ∧
      (∃ pairs, report.statistics.uniqueCurrencyPairs = some pairs ∧ pairs.Nodup ∧
        ∀ p, p ∈ pairs ↔ p ∈ matched.map Conversion.pairId) ∧
      (∀ s e : ℕ, (s : ℤ) = day * 86400000 → (e : ℤ) = day * 86400000 + 86399999 →
        ∃ stats, ConvertService.getConversionStats w
            (conversionsQuery none none (some s) (some e) none none) = .ok stats ∧
          report.statistics =
            { stats with minRate := none, maxRate := none,
                         uniqueCurrencyPairs := report.statistics.uniqueCurrencyPairs }) ∧
      report.popularPairs.length ≤ 5 ∧
      report.popularPairs.length = min 5 (matched.map Conversion.pairId).dedup.length ∧
      (report.popularPairs.map PopularPair.pairId).Nodup ∧
      (∀ e ∈ report.popularPairs, e.pairId ∈ matched.map Conversion.pairId ∧
        e.conversionCount = (matched.filter (fun c => decide (c.pairId = e.pairId))).length ∧
        e.totalAmount =
          ((matched.filter (fun c => decide (c.pairId = e.pairId))).map
            (·.originalAmount)).sum) ∧
      report.popularPairs.Pairwise (fun a b => b.conversionCount ≤ a.conversionCount) ∧
      (∀ c ∈ matched, c.pairId ∉ report.popularPairs.map PopularPair.pairId →
        ∀ e ∈ report.popularPairs,
          (matched.filter (fun d => decide (d.pairId = c.pairId))).length ≤
            e.conversionCount) := by
  have hfilter : w.conversions.filter
        (betweenDates (day * msPerDay) (day * msPerDay + 86399999)) =
      w.conversions.filter (fun c =>
        decide (day * 86400000 ≤ (c.conversionDate : ℤ)) &&
        decide ((c.conversionDate : ℤ) ≤ day * 86400000 + 86399999)) := rfl
  have hstats : ∀ s e : ℕ, (s : ℤ) = day * 86400000 → (e : ℤ) = day * 86400000 + 86399999 →
      w.conversions.filter (ConvertService.matchesQuery
        (conversionsQuery none none (some s) (some e) none none).fromCurrency
        (conversionsQuery none none (some s) (some e) none none).toCurrency
        (conversionsQuery none none (some s) (some e) none none).startDate
        (conversionsQuery none none (some s) (some e) none none).endDate) =
      w.conversions.filter (fun c =>
        decide (day * 86400000 ≤ (c.conversionDate : ℤ)) &&
        decide ((c.conversionDate : ℤ) ≤ day * 86400000 + 86399999)) := by
    intro s e hs he
    apply List.filter_congr
    intro c _
    show ConvertService.matchesQuery none none (some s) (some e) c = _
    rw [betweenDates_matchesQuery, hs, he]
    rfl
  obtain ⟨p1, p2, p3, p4, p5⟩ := popularPairs_spec (w.conversions.filter (fun c =>
    decide (day * 86400000 ≤ (c.conversionDate : ℤ)) &&
    decide ((c.conversionDate : ℤ) ≤ day * 86400000 + 86399999))) 5
  rw [report_find_eq w date day hday, hfilter]
  by_cases hne : w.conversions.filter (fun c =>
      decide (day * 86400000 ≤ (c.conversionDate : ℤ)) &&
      decide ((c.conversionDate : ℤ) ≤ day * 86400000 + 86399999)) = []
  · refine ⟨_, _, rfl, rfl, rfl, rfl, ?_, ?_, ?_, ?_, ?_, ?_, ?_, ?_, ?_,
      by rw [p1]; exact min_le_left _ _, p1, p2, p3, p4, p5⟩
    · rw [hne]; rfl
    · rw [hne]; rfl
    · rw [hne]; rfl
    · intro h; exact absurd hne h
    · intro _; rw [hne]; rfl
    · rw [hne]; rfl
    · rw [hne]; rfl
    · rw [hne]; exact ⟨[], rfl, List.nodup_nil, fun p => Iff.rfl⟩
    · intro s e hs he
      rw [getConversionStats_of_matched, hstats s e hs he, hne]
      exact ⟨_, rfl, rfl⟩
  · have hg := report_statsGroup_spec _ hne
    obtain ⟨lo, hi, hg2, _⟩ := statsGroup_spec _ hne
    refine ⟨_, _, rfl, rfl, rfl, rfl, ?_, ?_, ?_, ?_, ?_, ?_, ?_, ?_, ?_,
      by rw [p1]; exact min_le_left _ _, p1, p2, p3, p4, p5⟩
    · rw [hg]
    · rw [hg]
    · rw [hg]
    · intro _; rw [hg]
    · intro h; exact absurd h hne
    · rw [hg]
    · rw [hg]
    · rw [hg]; exact ⟨_, rfl, List.nodup_dedup _, fun p => List.mem_dedup⟩
    · intro s e hs he
      rw [getConversionStats_of_matched, hstats s e hs he, hg2, hg]
      exact ⟨_, rfl, rfl⟩

/-- C26 (amended), at the date `2024-01-01` on the log of the report fixture. -/
theorem daily_report_witness :
    ∃ (report : DailyReport) (matched : List Conversion),
      ReportService.find reportWorld "2024-01-01" = .ok report ∧
      matched = reportWorld.conversions.filter (fun c =>
        decide ((19723 : ℤ) * 86400000 ≤ (c.conversionDate : ℤ)) &&
        decide ((c.conversionDate : ℤ) ≤ (19723 : ℤ) * 86400000 + 86399999)) ∧
      report.date = "2024-01-01" ∧
      report.conversions = matched.length ∧
      report.statistics.totalConversions = matched.length ∧
      report.statistics.totalOriginalAmount = (matched.map (·.originalAmount)).sum ∧
      report.statistics.totalConvertedAmount = (matched.map (·.convertedAmount)).sum ∧
      (matched ≠ [] →
        report.statistics.averageRate = (matched.map (·.rate)).sum / (matched.length : ℚ)) ∧
      (matched = [] → report.statistics.averageRate = 0) ∧
      report.statistics.minRate = none ∧ report.statistics.maxRate = none ∧
      (∃ pairs, report.statistics.uniqueCurrencyPairs = some pairs ∧ pairs.Nodup ∧
        ∀ p, p ∈ pairs ↔ p ∈ matched.map Conversion.pairId) ∧
      (∀ s e : ℕ, (s : ℤ) = (19723 : ℤ) * 86400000 →
        (e : ℤ) = (19723 : ℤ) * 86400000 + 86399999 →
        ∃ stats, ConvertService.getConversionStats reportWorld
            (conversionsQuery none none (some s) (some e) none none) = .ok stats ∧
          report.statistics =
            { stats with minRate := none, maxRate := none,
                         uniqueCurrencyPairs := report.statistics.uniqueCurrencyPairs }) ∧
      report.popularPairs.length ≤ 5 ∧
      report.popularPairs.length = min 5 (matched.map Conversion.pairId).dedup.length ∧
      (report.popularPairs.map PopularPair.pairId).Nodup ∧
      (∀ e ∈ report.popularPairs, e.pairId ∈ matched.map Conversion.pairId ∧
        e.conversionCount = (matched.filter (fun c => decide (c.pairId = e.pairId))).length ∧
        e.totalAmount =
          ((matched.filter (fun c => decide (c.pairId = e.pairId))).map
            (·.originalAmount)).sum) ∧
      report.popularPairs.Pairwise (fun a b => b.conversionCount ≤ a.conversionCount) ∧
      (∀ c ∈ matched, c.pairId ∉ report.popularPairs.map PopularPair.pairId →
        ∀ e ∈ report.popularPairs,
          (matched.filter (fun d => decide (d.pairId = c.pairId))).length ≤
            e.conversionCount) :=
  daily_report reportWorld "2024-01-01" 19723 (by decide!)

/-- The report of the fixture for 1 January 2024, evaluated: the three records of the day,
the bounds included, and not the record of the next midnight; an impossible month is
refused. -/
theorem daily_report_example :
    ReportService.find reportWorld "2024-01-01" =
      .ok { date := "2024-01-01"
            conversions := 3
            statistics :=
              { totalConversions := 3, totalOriginalAmount := 350, totalConvertedAmount := 314,
                averageRate := 0.96, minRate := none, maxRate := none,
                uniqueCurrencyPairs := some [("USD", "EUR"), ("EUR", "USD")] }
            popularPairs :=
              [{ fromCurrency := "USD", toCurrency := "EUR", conversionCount := 2,
                 totalAmount := 300 },
               { fromCurrency := "EUR", toCurrency := "USD", conversionCount := 1,
                 totalAmount := 50 }] } ∧
    ReportService.find reportWorld "2024-13-01" =
      .error "Error generating report: Invalid time value" := by
  decide!

/-- C26 as stated fails on the fixture: for 1 January 2024 the statistics of 4.2 carry the
least and the greatest rate of the day, 0.85 and 1.18, and the statistics of the report carry
neither. -/
theorem daily_report_counterexample :
    (∃ report stats, ReportService.find reportWorld "2024-01-01" = .ok report ∧
      ConvertService.getConversionStats reportWorld
        (conversionsQuery none none (some 1704067200000) (some 1704153599999) none none) =
        .ok stats ∧
      stats.minRate = some 0.85 ∧ stats.maxRate = some 1.18 ∧
      report.statistics.minRate = none ∧ report.statistics.maxRate = none ∧
      report.statistics ≠ stats) := by
  refine ⟨{ date := "2024-01-01"
            conversions := 3
            statistics :=
              { totalConversions := 3, totalOriginalAmount := 350, totalConvertedAmount := 314,
                averageRate := 0.96, minRate := none, maxRate := none,
                uniqueCurrencyPairs := some [("USD", "EUR"), ("EUR", "USD")] }
            popularPairs :=
              [{ fromCurrency := "USD", toCurrency := "EUR", conversionCount := 2,
                 totalAmount := 300 },
               { fromCurrency := "EUR", toCurrency := "USD", conversionCount := 1,
                 totalAmount := 50 }] },
    { totalConversions := 3, totalOriginalAmount := 350, totalConvertedAmount := 314,
      averageRate := 0.96, minRate := some 0.85, maxRate := some 1.18,
      uniqueCurrencyPairs := none }, ?_, ?_, rfl, rfl, rfl, rfl, ?_⟩
  · decide!
  · decide!
  · decide!

/-- C27. For every valid conversion request, `create` never fails for lack of a rate. When
`externalAPIs.getRate` throws or yields no value (`null`, `undefined`, zero), the rate chosen
is the fixed 0.85 with source `demo`; otherwise it is the provider's value with source
`external`; a rate is chosen in every case, so the branch raising `Rate not available` is
never entered. Whenever `create` returns, the result carries the chosen rate and its source
(`demo` or `external`) and the amount converted at that rate. `create` returns whenever the
store is not connected, and, with the store connected, whenever `params` is given, the write
is accepted and the chosen rate is not negative; its only failures on a valid request are
the absence of `params`, a document refused by the model (a negative rate) and a write
refused by the store. -/
theorem create_never_lacks_rate (self : ConvertService) (env : Env) (w : World) (f t : String)
    (a : ℚ) (params : Option Params) (hv : ValidRequest f t a) :
    ((env.getRate f t = .threw ∨ env.getRate f t = .returned none ∨
        env.getRate f t = .returned (some 0)) →
      ConvertService.chooseRate env f t = some { rate := 0.85, source := "demo" }) ∧
    (∀ v, env.getRate f t = .returned (some v) → v ≠ 0 →
      ConvertService.chooseRate env f t = some { rate := v, source := "external" }) ∧
    ∃ rate, ConvertService.chooseRate env f t = some rate ∧
      (rate.source = "demo" ∨ rate.source = "external") ∧
      (∀ r w', ConvertService.create self env w (request f t a) params = (.ok r, w') →
        r = expectedResult env f t a rate ∧ (r.rateSource = "demo" ∨ r.rateSource = "external")) ∧
      (∀ e w', ConvertService.create self env w (request f t a) params = (.error e, w') →
        w.readyState = 1 ∧
        ((params = none ∧ e = performingError headersTypeError) ∨
          (rate.rate < 0 ∧ e = performingError "Conversion validation failed") ∨
          ∃ m, env.storeWriteError = some m ∧ e = performingError m)) ∧
      (w.readyState ≠ 1 →
        (ConvertService.create self env w (request f t a) params).1 =
          .ok (expectedResult env f t a rate)) ∧
      (∀ p, w.readyState = 1 → params = some p → env.storeWriteError = none → 0 ≤ rate.rate →
        (ConvertService.create self env w (request f t a) params).1 =
          .ok (expectedResult env f t a rate)) := by
  refine ⟨chooseRate_demo env f t, chooseRate_external env f t, ?_⟩
  obtain ⟨rate, hrate, _, hsrc⟩ := chooseRate_cases env f t
  have hs : rate.source = "demo" ∨ rate.source = "external" := by
    rcases hsrc with h | h
    · exact Or.inl h.1
    · exact Or.inr h.1
  have hexp : (expectedResult env f t a rate).rateSource = rate.source := rfl
  refine ⟨rate, hrate, hs, ?_, ?_, ?_, ?_⟩
  · intro r w' hc
    have h1 : (ConvertService.create self env w (request f t a) params).1 = .ok r := by rw [hc]
    by_cases hon : w.readyState = 1
    · cases params with
      | none => rw [create_without_params self env w f t a hv hon] at h1; cases h1
      | some p =>
        rw [create_connected self env w f t a p rate hv hrate hon] at h1
        split at h1
        · cases h1
        · rw [notifyAndReturn_fst_some self env _ w f t a rate p hv.1 hv.2.1] at h1
          injection h1 with h1
          subst h1
          exact ⟨rfl, hs⟩
    · rw [create_offline self env w f t a params rate hv hrate hon,
        notifyAndReturn_fst_none self env _ f t a rate hv.1 hv.2.1] at h1
      injection h1 with h1
      subst h1
      exact ⟨rfl, hs⟩
  · intro e w' hc
    have h1 : (ConvertService.create self env w (request f t a) params).1 = .error e := by
      rw [hc]
    by_cases hon : w.readyState = 1
    · refine ⟨hon, ?_⟩
      cases params with
      | none =>
        rw [create_without_params self env w f t a hv hon] at h1
        injection h1 with h1
        exact Or.inl ⟨rfl, h1.symm⟩
      | some p =>
        rw [create_connected self env w f t a p rate hv hrate hon] at h1
        split at h1
        · next m hsave =>
          injection h1 with h1
          rcases save_error_cases env _ _ m hsave with ⟨hval, hm⟩ | hm
          · refine Or.inr (Or.inl ⟨?_, by rw [← h1, hm]⟩)
            by_contra hneg
            rw [savedConversion_valid env w f t a rate p hv (not_lt.mp hneg) hs] at hval
            cases hval
          · exact Or.inr (Or.inr ⟨m, hm, h1.symm⟩)
        · rw [notifyAndReturn_fst_some self env _ w f t a rate p hv.1 hv.2.1] at h1
          cases h1
    · rw [create_offline self env w f t a params rate hv hrate hon,
        notifyAndReturn_fst_none self env _ f t a rate hv.1 hv.2.1] at h1
      cases h1
  · intro hoff
    rw [create_offline self env w f t a params rate hv hrate hoff]
    exact notifyAndReturn_fst_none self env _ f t a rate hv.1 hv.2.1
  · intro p hon hp hstore hr
    exact create_fst_of_persisting self env w f t a params rate hv hrate hr hs
      (fun _ => ⟨by rw [hp]; exact Option.some_ne_none p, hstore⟩)

/-- C27, at the request of the conversion test, with a provider that throws, with the mocked
provider that yields `undefined`, and with a provider that prices the pair at 0.1. -/
theorem create_never_lacks_rate_witness :
    ConvertService.chooseRate throwingEnv "USD" "EUR" = some { rate := 0.85, source := "demo" } ∧
    ConvertService.chooseRate testEnv "USD" "EUR" = some { rate := 0.85, source := "demo" } ∧
    ConvertService.chooseRate pricedEnv "USD" "EUR" = some { rate := 0.1, source := "external" } ∧
    (ConvertService.create testService throwingEnv connectedWorld (request "USD" "EUR" 100)
        (some testParams)).1 =
      .ok { fromCurrency := "USD", toCurrency := "EUR", originalAmount := 100,
            convertedAmount := 85, rate := 0.85, rateSource := "demo",
            conversionDate := 1700000000000 } ∧
    (ConvertService.create testService pricedEnv connectedWorld (request "USD" "EUR" 100)
        (some testParams)).1 =
      .ok { fromCurrency := "USD", toCurrency := "EUR", originalAmount := 100,
            convertedAmount := 10, rate := 0.1, rateSource := "external",
            conversionDate := 1700000000000 } :=
  ⟨(create_never_lacks_rate testService throwingEnv connectedWorld "USD" "EUR" 100
      (some testParams) (by decide!)).1 (Or.inl rfl),
    (create_never_lacks_rate testService testEnv connectedWorld "USD" "EUR" 100
      (some testParams) (by decide!)).1 (Or.inr (Or.inl rfl)),
    (create_never_lacks_rate testService pricedEnv connectedWorld "USD" "EUR" 100
      (some testParams) (by decide!)).2.1 0.1 rfl (by norm_num),
    by decide!, by decide!⟩

/-- C28 (amended). On a well-formed Rate Store (at most one record per pair), whenever
`getRateForPair` succeeds, the record it returns is the record the store then holds for the
uppercased pair, and the only one. It is active except when the pair's record had been
soft-deleted before the call: then the record returned is that record, refreshed with the
provider's value and still inactive. -/
theorem getRateForPair_returned_record (env : Env) (w w' : World) (f t : String) (rec : Rate)
    (hwf : RateStoreWF w) (h : RatesService.getRateForPair env w f t = (.ok rec, w')) :
    rec ∈ w'.rates ∧ Rate.hasPair (toUpperCase f) (toUpperCase t) rec = true ∧
    w'.rates.filter (Rate.hasPair (toUpperCase f) (toUpperCase t)) = [rec] ∧
    (rec.isActive = false ↔
      ∃ old ∈ w.rates, Rate.hasPair (toUpperCase f) (toUpperCase t) old = true ∧
        old.isActive = false ∧ rec._id = old._id) := by
  cases hfind : w.rates.find? (fun r =>
      Rate.hasPair (toUpperCase f) (toUpperCase t) r && r.isActive) with
  | some found =>
    unfold RatesService.getRateForPair at h
    rw [hfind] at h
    injection h with h1 h2
    injection h1 with h1
    subst h1 h2
    have hmem : found ∈ w.rates := List.mem_of_find?_eq_some hfind
    have hp := List.find?_some hfind
    simp only [Bool.and_eq_true] at hp
    refine ⟨hmem, hp.1, (uniquePairs_filter _ _ w.rates hwf.1 found hmem hp.1).1, ?_⟩
    constructor
    · intro hina
      rw [hp.2] at hina
      cases hina
    · rintro ⟨old, hold, hpo, hina, _⟩
      have heq : old = found :=
        uniquePairs_eq w.rates hwf.1 old found hold hmem (hasPair_samePair _ _ old found hpo hp.1)
      rw [← heq, hina] at hp
      exact absurd hp.2 (by decide)
  | none =>
    cases hret : env.getRate f t with
    | threw =>
      simp only [RatesService.getRateForPair, hfind, hret] at h
      cases h
    | returned o =>
      cases o with
      | none =>
        simp only [RatesService.getRateForPair, hfind, hret, truthyRate] at h
        cases h
      | some v =>
        by_cases hv0 : v = 0
        · simp only [RatesService.getRateForPair, hfind, hret, truthyRate, hv0] at h
          simp at h
        · rw [getRateForPair_priced env w f t v hfind hret hv0] at h
          cases hc : RatesService.create env
              { w with providerCalls := w.providerCalls ++ [(f, t)] }
              { fromCurrency := some f, toCurrency := some t, rate := some v,
                source := some (providerSource f) } with
          | mk res w2 =>
            rw [hc] at h
            cases res with
            | error e => cases h
            | ok rate =>
              simp only [] at h
              injection h with h1 h2
              injection h1 with h1
              subst h1 h2
              have hstore := create_ok_store env _ _ _ _ hc
              have hval : ∃ value, createRateSchema.validate
                  { fromCurrency := some f, toCurrency := some t, rate := some v,
                    source := some (providerSource f) } = .ok value := by
                cases hvl : createRateSchema.validate
                    { fromCurrency := some f, toCurrency := some t, rate := some v,
                      source := some (providerSource f) } with
                | ok value => exact ⟨value, rfl⟩
                | error e =>
                  unfold RatesService.create at hc
                  rw [hvl] at hc
                  cases hc
              obtain ⟨value, hvl⟩ := hval
              obtain ⟨hdata, hvr⟩ := createRateSchema_ok_inv _ _ hvl
              simp only [rateRequest, CreateRateData.mk.injEq, Option.some.injEq] at hdata
              obtain ⟨h1, h2, h3, h4⟩ := hdata
              rw [← h1, ← h2, ← h3, ← h4] at hvr
              have hwf1 : RateStoreWF { w with providerCalls := w.providerCalls ++ [(f, t)] } :=
                wf_frame w _ rfl (le_refl _) hwf
              obtain ⟨rec, hrec, _, _, hpair, hact, hfilter, _⟩ :=
                create_upsert env _ f t v (providerSource f) hvr hwf1 hstore
              have hc' : RatesService.create env
                  { w with providerCalls := w.providerCalls ++ [(f, t)] }
                  (rateRequest f t v (providerSource f)) = (.ok rate, w2) := hc
              rw [hc'] at hrec hfilter
              injection hrec with hrec
              subst hrec
              have huf := toUpperCase_of_pattern f hvr.1
              have hut := toUpperCase_of_pattern t hvr.2.1
              rw [huf, hut]
              have hmem : rate ∈ w2.rates := by
                have : rate ∈ w2.rates.filter (Rate.hasPair f t) := by
                  rw [hfilter]; exact List.mem_singleton_self _
                exact (List.mem_filter.mp this).1
              refine ⟨hmem, hpair, hfilter, ?_⟩
              cases hf2 : w.rates.find? (Rate.hasPair f t) with
              | some found =>
                have hex := create_existing env
                  { w with providerCalls := w.providerCalls ++ [(f, t)] } f t v
                  (providerSource f) found hvr hwf1 hstore hf2
                rw [hc'] at hex
                injection hex with hex _
                injection hex with hex
                have hfm : found ∈ w.rates := List.mem_of_find?_eq_some hf2
                have hfp : Rate.hasPair f t found = true := List.find?_some hf2
                constructor
                · intro hina
                  refine ⟨found, hfm, hfp, ?_, ?_⟩
                  · rw [hex] at hina
                    exact hina
                  · rw [hex]
                · rintro ⟨old, hold, hpo, hina, _⟩
                  have heq : old = found :=
                    uniquePairs_eq w.rates hwf.1 old found hold hfm
                      (hasPair_samePair _ _ old found hpo hfp)
                  rw [hex]
                  rw [heq] at hina
                  exact hina
              | none =>
                have hab := create_absent env
                  { w with providerCalls := w.providerCalls ++ [(f, t)] } f t v
                  (providerSource f) hvr hstore hf2
                rw [hc'] at hab
                injection hab with hab _
                injection hab with hab
                constructor
                · intro hina
                  rw [hab] at hina
                  cases hina
                · rintro ⟨old, hold, hpo, _, _⟩
                  rw [List.find?_eq_none] at hf2
                  exact absurd hpo (hf2 old hold)

/-- C28 (amended), on the store whose one rate was soft-deleted, the provider pricing the pair
at 0.1: the record returned is the record the store holds for the pair, and it is inactive
because the stored record was. -/
theorem getRateForPair_returned_record_witness :
    ({ testRate with rate := 0.1, source := "openexchangerates", lastUpdated := 1700000000000,
                     isActive := false } : Rate) ∈
      (RatesService.getRateForPair pricedEnv softDeletedWorld "USD" "EUR").2.rates ∧
    Rate.hasPair (toUpperCase "USD") (toUpperCase "EUR")
      { testRate with rate := 0.1, source := "openexchangerates", lastUpdated := 1700000000000,
                      isActive := false } = true ∧
    (RatesService.getRateForPair pricedEnv softDeletedWorld "USD" "EUR").2.rates.filter
        (Rate.hasPair (toUpperCase "USD") (toUpperCase "EUR")) =
      [{ testRate with rate := 0.1, source := "openexchangerates", lastUpdated := 1700000000000,
                       isActive := false }] ∧
    (({ testRate with rate := 0.1, source := "openexchangerates", lastUpdated := 1700000000000,
                      isActive := false } : Rate).isActive = false ↔
      ∃ old ∈ softDeletedWorld.rates,
        Rate.hasPair (toUpperCase "USD") (toUpperCase "EUR") old = true ∧
        old.isActive = false ∧
        ({ testRate with rate := 0.1, source := "openexchangerates",
                         lastUpdated := 1700000000000, isActive := false } : Rate)._id =
          old._id) :=
  getRateForPair_returned_record pricedEnv softDeletedWorld
    (RatesService.getRateForPair pricedEnv softDeletedWorld "USD" "EUR").2 "USD" "EUR"
    { testRate with rate := 0.1, source := "openexchangerates", lastUpdated := 1700000000000,
                    isActive := false }
    (by decide!) (by decide!)

/-- C28 as stated fails on the store whose one rate was soft-deleted: the provider prices the
pair, `create` refreshes the stored record without reactivating it, and `getRateForPair`
succeeds with a record that is not active. -/
theorem getRateForPair_inactive_counterexample :
    RateStoreWF softDeletedWorld ∧
    (RatesService.getRateForPair pricedEnv softDeletedWorld "USD" "EUR").1 =
      .ok { testRate with rate := 0.1, source := "openexchangerates",
                          lastUpdated := 1700000000000, isActive := false } ∧
    (RatesService.getRateForPair pricedEnv softDeletedWorld "USD" "EUR").2.rates =
      [{ testRate with rate := 0.1, source := "openexchangerates",
                       lastUpdated := 1700000000000, isActive := false }] := by
  decide!

/-- C29 (amended). For every row `processRow` accepts, the record it returns has two codes of
exactly three letters `A`-`Z`, a positive rate, which is a finite number or `Infinity`, and a
source that is one of `coingecko`, `openexchangerates`, `manual`, and is `manual` when the row
gives no source. `createRateSchema` accepts the record exactly when its rate is a finite number
not above `Number.MAX_SAFE_INTEGER`. -/
theorem processRow_output (row : Row) (n : Nat) (p : ProcessedRow)
    (h : CSVImportService.processRow row n = .ok p) :
    matchesCurrencyPattern p.fromCurrency = true ∧ matchesCurrencyPattern p.toCurrency = true ∧
    (p.rate = .Infinity ∨ ∃ v, p.rate = .finite v ∧ 0 < v) ∧
    p.source ∈ validSources ∧
    ((row.source = none ∨ row.source = some "") → p.source = "manual") ∧
    ((∃ value, createRateSchema.validateInput (some p.fromCurrency) (some p.toCurrency)
        (some (.number p.rate)) (some p.source) = .ok value) ↔
      ∃ v, p.rate = .finite v ∧ v ≤ MAX_SAFE_INTEGER) ∧
    (∀ v, p.rate = .finite v → v ≤ MAX_SAFE_INTEGER →
      createRateSchema.validateInput (some p.fromCurrency) (some p.toCurrency)
          (some (.number p.rate)) (some p.source) =
        .ok { fromCurrency := p.fromCurrency, toCurrency := p.toCurrency, rate := v,
              source := p.source }) := by
  obtain ⟨f, t, r, _, _, _, h4, h5, h6, h7, hp⟩ := (processRow_ok_iff row n p).mp h
  subst hp
  have hrate := (invalidRateValue_false _).mp h6
  have hacc : ∀ v, parseFloat r = .finite v → v ≤ MAX_SAFE_INTEGER →
      createRateSchema.validateInput (some (toUpperCase f)) (some (toUpperCase t))
          (some (.number (parseFloat r))) (some (sourceValueOf row.source)) =
        .ok { fromCurrency := toUpperCase f, toCurrency := toUpperCase t, rate := v,
              source := sourceValueOf row.source } := by
    intro v hv hsafe
    rw [validateInput_ok_iff]
    refine ⟨rfl, h4, rfl, h5, ?_, rfl, h7⟩
    rw [rateInputSchema_number_ok_iff]
    refine ⟨hv, ?_, hsafe⟩
    rcases hrate with hinf | ⟨x, hx, hpos⟩
    · rw [hinf] at hv; cases hv
    · rw [hx] at hv
      injection hv with hv
      rw [← hv]
      exact hpos
  refine ⟨h4, h5, hrate, h7, ?_, ?_, hacc⟩
  · rintro (hs | hs) <;> rw [hs] <;> rfl
  · constructor
    · rintro ⟨value, hv⟩
      obtain ⟨_, _, _, _, h8, _, _⟩ := (validateInput_ok_iff _ _ _ _ value).mp hv
      obtain ⟨h9, _, h10⟩ := (rateInputSchema_number_ok_iff _ _ _).mp h8
      exact ⟨_, h9, h10⟩
    · rintro ⟨v, hv, hsafe⟩
      exact ⟨_, hacc v hv hsafe⟩

/-- C29 (amended), at a row of the template given in lower case and without a source. -/
theorem processRow_output_witness :
    matchesCurrencyPattern "BTC" = true ∧ matchesCurrencyPattern "USD" = true ∧
    ((JsNumber.finite 45000 = .Infinity) ∨ ∃ v, JsNumber.finite 45000 = .finite v ∧ 0 < v) ∧
    "manual" ∈ validSources ∧
    (((none : Option String) = none ∨ (none : Option String) = some "") → "manual" = "manual") ∧
    ((∃ value, createRateSchema.validateInput (some "BTC") (some "USD")
        (some (.number (.finite 45000))) (some "manual") = .ok value) ↔
      ∃ v, JsNumber.finite 45000 = .finite v ∧ v ≤ MAX_SAFE_INTEGER) ∧
    (∀ v, JsNumber.finite 45000 = .finite v → v ≤ MAX_SAFE_INTEGER →
      createRateSchema.validateInput (some "BTC") (some "USD")
          (some (.number (.finite 45000))) (some "manual") =
        .ok { fromCurrency := "BTC", toCurrency := "USD", rate := v, source := "manual" }) :=
  processRow_output
    { fromCurrency := some "btc", toCurrency := some "usd", rate := some "45000",
      source := none } 4
    { fromCurrency := "BTC", toCurrency := "USD", rate := .finite 45000, source := "manual" }
    (by decide!)

/-- C29 as stated fails: `processRow` accepts a row whose rate is `Infinity`, and a row whose
rate is above `Number.MAX_SAFE_INTEGER`; the rate of the first record is not finite, and
`createRateSchema` refuses both records. -/
theorem processRow_output_counterexample :
    CSVImportService.processRow (csvRow "USD" "EUR" "Infinity" "manual") 1 =
      .ok { fromCurrency := "USD", toCurrency := "EUR", rate := .Infinity,
            source := "manual" } ∧
    createRateSchema.validateInput (some "USD") (some "EUR") (some (.number .Infinity))
        (some "manual") = .error "\"rate\" cannot be infinity" ∧
    CSVImportService.processRow (csvRow "USD" "EUR" "10000000000000000" "manual") 1 =
      .ok { fromCurrency := "USD", toCurrency := "EUR", rate := .finite 10000000000000000,
            source := "manual" } ∧
    createRateSchema.validateInput (some "USD") (some "EUR")
        (some (.number (.finite 10000000000000000))) (some "manual") =
      .error "\"rate\" must be a safe number" := by
  decide!

/-- C30. The two CoinGecko mappings are inverse to each other on the supported set, and
mapping a code to an id and back is the identity on codes: for every code of the list
`isCryptoCurrency` tests against, and for every code of exactly three letters `A`-`Z`,
`mapCoinGeckoIdToCurrency (mapCurrencyToCoinGeckoId c) = c`; for every id of the supported
set, `mapCurrencyToCoinGeckoId (mapCoinGeckoIdToCurrency id) = id`; and the keys of the
mapping from codes to ids are exactly the list `isCryptoCurrency` tests against. -/
theorem coinGecko_mappings_inverse :
    (∀ c, c ∈ cryptoCurrencies ∨ matchesCurrencyPattern c = true →
      ExternalAPIs.mapCoinGeckoIdToCurrency (ExternalAPIs.mapCurrencyToCoinGeckoId c) = c) ∧
    (∀ coinId, coinId ∈ coinGeckoIdToCurrency.map Prod.fst →
      ExternalAPIs.mapCurrencyToCoinGeckoId (ExternalAPIs.mapCoinGeckoIdToCurrency coinId) =
        coinId) ∧
    currencyToCoinGeckoId.map Prod.fst = cryptoCurrencies ∧
    coinGeckoIdToCurrency.map Prod.snd = cryptoCurrencies ∧
    (∀ c, ExternalAPIs.isCryptoCurrency c = true ↔
      toUpperCase c ∈ currencyToCoinGeckoId.map Prod.fst) := by
  have hlisted : ∀ c ∈ cryptoCurrencies,
      ExternalAPIs.mapCoinGeckoIdToCurrency (ExternalAPIs.mapCurrencyToCoinGeckoId c) = c := by
    decide
  refine ⟨?_, by decide, by decide, by decide, ?_⟩
  · intro c hc
    by_cases hmem : c ∈ cryptoCurrencies
    · exact hlisted c hmem
    · rcases hc with hc | hc
      · exact absurd hc hmem
      · unfold ExternalAPIs.mapCurrencyToCoinGeckoId ExternalAPIs.mapCoinGeckoIdToCurrency
        rw [lookup_currency_of_not_crypto c hmem]
        simp only [orStr]
        rw [lookup_coinGeckoId_of_code c hc]
        exact toUpperCase_toLowerCase_of_pattern c hc
  · intro c
    simp [ExternalAPIs.isCryptoCurrency, currencyToCoinGeckoId, cryptoCurrencies]

/-- C30, at the code `BTC` of the supported set, at the fiat code `EUR`, and at the id
`avalanche-2`. -/
theorem coinGecko_mappings_inverse_witness :
    ExternalAPIs.mapCoinGeckoIdToCurrency (ExternalAPIs.mapCurrencyToCoinGeckoId "BTC") = "BTC" ∧
    ExternalAPIs.mapCoinGeckoIdToCurrency (ExternalAPIs.mapCurrencyToCoinGeckoId "EUR") = "EUR" ∧
    ExternalAPIs.mapCurrencyToCoinGeckoId (ExternalAPIs.mapCoinGeckoIdToCurrency "avalanche-2") =
      "avalanche-2" :=
  ⟨coinGecko_mappings_inverse.1 "BTC" (Or.inl (by decide)),
    coinGecko_mappings_inverse.1 "EUR" (Or.inr (by decide)),
    coinGecko_mappings_inverse.2.1 "avalanche-2" (by decide)⟩

end CurrencyApi
